import Mathlib

/-!
# mydumper / myloader: coordination core

A shallow embedding of `src/myloader_stream.c` (the restore-side stream
demultiplexer and its worker loop) and of the locking skeleton of
`src/mydumper_start_dump.c`, followed by theorems about them.

Conventions of the embedding

* C strings and byte buffers are `List Char`; the NUL byte is `NUL`.
* Global variables of the C program become fields of explicit state records.
* Loops are functions that recurse on an explicit fuel argument.
* Calls that leave the two source files (the MySQL client library, glib
  queues, helpers of other translation units) are parameters: oracles for
  their results, and event logs for their effects.
-/

namespace Glib

/-! ## Bytes, C strings and the glib string helpers -/

/-- The NUL byte that terminates a C string. -/
def NUL : Char := Char.ofNat 0

/-- Bytes of a string literal. -/
def bytes (s : String) : List Char := s.data

/-- Read `buffer[i]`.  Bytes that were never written are the zeros stored by
the initial loop of `process_stream`, so the buffer is kept as the list of
its written prefix. -/
def buf_get (buffer : List Char) (i : Nat) : Char := buffer.getD i NUL

/-- Store `buffer[i] = c`. -/
def buf_set (buffer : List Char) (i : Nat) (c : Char) : List Char :=
  if i < buffer.length then buffer.set i c
  else buffer ++ List.replicate (i - buffer.length) NUL ++ [c]

/-- Store the bytes `data` at `buffer[off ..]`. -/
def buf_write (buffer : List Char) (off : Nat) : List Char → List Char
  | [] => buffer
  | c :: cs => buf_write (buf_set buffer off c) (off + 1) cs

/-- The `len` bytes `buffer[from .. from+len-1]`. -/
def buf_slice (buffer : List Char) (start len : Nat) : List Char :=
  (List.range len).map fun i => buf_get buffer (start + i)

/-- The C string that starts at `&buffer[i]`: the bytes up to the first NUL. -/
def c_str (buffer : List Char) (i : Nat) : List Char :=
  (buffer.drop i).takeWhile fun c => c != NUL

/-- Mirrors `g_str_has_prefix (str, prefix)`. -/
def g_str_has_prefix (str pre : List Char) : Bool :=
  pre.isPrefixOf str

/-- Mirrors `g_str_has_suffix (str, suffix)`: compares the last `strlen (suffix)`
bytes of `str` with `suffix`. -/
def g_str_has_suffix (str suffix : List Char) : Bool :=
  if str.length < suffix.length then false
  else str.drop (str.length - suffix.length) == suffix

/-- Mirrors `g_strndup (str, n)`: at most `n` bytes of the C string `str`. -/
def g_strndup (str : List Char) (n : Nat) : List Char :=
  (str.takeWhile fun c => c != NUL).take n

/-- Mirrors `g_strlcpy (buffer, &buffer[src], dest_size)` as used by `process_stream`
to move the tail of the buffer to its start: a forward byte copy of at most
`dest_size - 1` bytes of the C string at `src`, then a terminating NUL. -/
def g_strlcpy (buffer : List Char) (src dest_size : Nat) : List Char :=
  let s := (c_str buffer src).take (dest_size - 1)
  if dest_size = 0 then buffer
  else buf_set (buf_write buffer 0 s) s.length NUL

/-- Mirrors `g_strsplit (s, d, 0)` for a one-byte delimiter, after the first test:
the pieces of a non-empty string. -/
def split_at (d : Char) : List Char → List Char → List (List Char)
  | piece, [] => [piece.reverse]
  | piece, c :: cs =>
    if c = d then piece.reverse :: split_at d [] cs else split_at d (c :: piece) cs

/-- Mirrors `g_strsplit (s, d, 0)` for a one-byte delimiter `d`: the empty string
gives the empty vector. -/
def g_strsplit (s : List Char) (d : Char) : List (List Char) :=
  if s = [] then [] else split_at d [] s

/-- Replace the first `c` of `s` by `d`; `none` when `s` has no `c`. -/
def replace_first (c d : Char) : List Char → Option (List Char)
  | [] => none
  | x :: xs =>
    if x = c then some (d :: xs)
    else (replace_first c d xs).map fun r => x :: r

/-- Mirrors `g_strrstr (s, ",")[0] = ' '`: overwrites the last comma of `s`;
`none` when `g_strrstr` returns `NULL`. -/
def blank_last_comma (s : List Char) : Option (List Char) :=
  (replace_first ',' ' ' s.reverse).map List.reverse

/-- Mirrors `strcasecmp (a, b) == 0`. -/
def strcasecmp_eq (a b : List Char) : Bool :=
  a.map Char.toLower == b.map Char.toLower

end Glib

/-! ## `myloader_stream.c` -/

namespace Myloader

open Glib

/-- The ten suffixes tested by `has_mydumper_suffix`, in source order. -/
def mydumper_suffixes : List (List Char) :=
  [bytes ".dat", bytes ".dat.gz", bytes ".dat.zst",
   bytes ".sql", bytes ".sql.gz", bytes ".sql.zst",
   bytes "metadata",
   bytes "-checksum", bytes "-checksum.gz", bytes "-checksum.zst"]

/-- Mirrors `has_mydumper_suffix` (lines 148-160). -/
def has_mydumper_suffix (line : List Char) : Bool :=
  g_str_has_suffix line (bytes ".dat") ||
  g_str_has_suffix line (bytes ".dat.gz") ||
  g_str_has_suffix line (bytes ".dat.zst") ||
  g_str_has_suffix line (bytes ".sql") ||
  g_str_has_suffix line (bytes ".sql.gz") ||
  g_str_has_suffix line (bytes ".sql.zst") ||
  g_str_has_suffix line (bytes "metadata") ||
  g_str_has_suffix line (bytes "-checksum") ||
  g_str_has_suffix line (bytes "-checksum.gz") ||
  g_str_has_suffix line (bytes "-checksum.zst")

/-- Where `process_stream` is in its control flow. -/
inductive stream_ctl where
  /-- at the label `read_more` (also the head of the `do` loop) -/
  | read_more
  /-- at the test of `while (pos < buffer_len)` -/
  | scan
  /-- left the `do` loop through `break` -/
  | done
  /-- an allocation of `(gsize) -k` bytes or an access before `buffer[0]` -/
  | crashed
  deriving DecidableEq, Repr

/-- The local variables of `process_stream` together with the part of the
world it acts on. -/
structure stream_state where
  /-- The array `char buffer[STREAM_BUFFER_SIZE]` -/
  buffer : List Char
  /-- bytes of standard input that were not read yet -/
  input : List Char
  /-- how many bytes each of the coming `fread` calls delivers at most; an
  exhausted list means `fread` fills the request -/
  reads : List Nat
  /-- The variable `FILE *file`, named by the path it was opened under -/
  file : Option (List Char)
  /-- The variable `char *filename` -/
  filename : Option (List Char)
  /-- the target directory: path and content of every file in it -/
  files : List (List Char × List Char)
  /-- what was pushed onto `intermidiate_queue`, oldest first -/
  queue : List (List Char)
  diff : Nat
  pos : Nat
  buffer_len : Nat
  next_line_from : Nat
  ctl : stream_ctl
  deriving DecidableEq, Repr

/-- Mirrors `g_file_test (real_filename, G_FILE_TEST_EXISTS)`. -/
def file_exists (files : List (List Char × List Char)) (name : List Char) : Bool :=
  files.any fun f => f.1 == name

/-- Mirrors `m_write (file, data, len)` on the file opened under `name`. -/
def write_file (files : List (List Char × List Char)) (name data : List Char) :
    List (List Char × List Char) :=
  files.map fun f => if f.1 == name then (f.1, f.2 ++ data) else f

/-- Mirrors `flush` (lines 302-306): writes `buffer[from .. to]`, that is
`to - from + 1` bytes, when a file is open.  It is called with
`to = last_pos - 1`, so the length is passed as `last_pos - from`. -/
def flush (buffer : List Char) (start len : Nat) (file : Option (List Char))
    (files : List (List Char × List Char)) : List (List Char × List Char) :=
  match file with
  | none => files
  | some name => write_file files name (buf_slice buffer start len)

/-- Mirrors `read_stream_line` (lines 290-300) called on `&buffer[diff]` with
`c_to_read = STREAM_BUFFER_SIZE - 1 - diff`.  Returns the number of bytes
stored.  `*eof` is set only when `feof (file)` holds for the *output* file,
which is opened for writing and never reaches end-of-file, so `eof` stays
`FALSE` and the model carries no such variable. -/
def read_stream_line (st : stream_state) (c_to_read : Nat) : stream_state × Nat :=
  let want := match st.reads with
    | [] => c_to_read
    | r :: _ => min c_to_read (max 1 r)
  let got := st.input.take want
  ({ st with buffer := buf_write st.buffer st.diff got,
             input := st.input.drop want,
             reads := st.reads.tail }, got.length)

/-- The inner `while (pos < buffer_len && buffer[pos] != '\n') pos++`. -/
def scan_line (buffer : List Char) (buffer_len : Nat) : Nat → Nat → Nat
  | 0, pos => pos
  | fuel + 1, pos =>
    if pos < buffer_len && buf_get buffer pos != '\n' then
      scan_line buffer buffer_len fuel (pos + 1)
    else pos

/-- One pass through the body of `while (pos < buffer_len)` (lines 329-377).
A file is kept under the name read from the header (`g_build_filename` only
puts the directory in front of it), `g_fopen` and `m_write` are taken to
succeed, and a header line shorter than its own prefix, for which the
length passed to `g_strndup` is negative, ends the run as a crash. -/
def process_line (st : stream_state) : stream_state :=
  let pos := if buf_get st.buffer st.pos == '\n' then st.pos + 1 else st.pos
  let line_from := st.next_line_from
  let pos := scan_line st.buffer st.buffer_len (st.buffer_len - pos) pos
  let last_pos := pos
  -- Is a header?
  if g_str_has_prefix (c_str st.buffer line_from) (bytes "\n-- ") then
    if buf_get st.buffer last_pos == '\n' then
      let previous_filename := st.filename
      if last_pos < line_from + 4 then
        -- `last_pos-(line_from+4)` is negative
        { st with pos := pos, ctl := stream_ctl.crashed }
      else
        let buffer := buf_set st.buffer (last_pos - line_from) NUL
        let filename := g_strndup (buffer.drop (line_from + 4)) (last_pos - (line_from + 4))
        if has_mydumper_suffix filename then
          let queue := match previous_filename with
            | some p => st.queue ++ [p]
            | none => st.queue
          if file_exists st.files filename then
            { st with buffer := buffer, filename := some filename, queue := queue,
                      file := none, pos := pos, next_line_from := last_pos + 1 + 1 }
          else
            { st with buffer := buffer, filename := some filename, queue := queue,
                      file := some filename, files := st.files ++ [(filename, [])],
                      pos := pos, next_line_from := last_pos + 1 }
        else
          { st with buffer := buffer, filename := some filename,
                    pos := pos, next_line_from := last_pos + 1 }
    else if pos = st.buffer_len then
      { st with buffer := g_strlcpy st.buffer line_from (st.buffer_len - line_from + 2),
                diff := st.buffer_len - line_from, pos := pos, ctl := stream_ctl.read_more }
    else
      { st with files := flush st.buffer line_from (last_pos - line_from) st.file st.files,
                pos := pos, next_line_from := last_pos }
  else
    { st with files := flush st.buffer line_from (last_pos - line_from) st.file st.files,
              pos := pos, next_line_from := last_pos }

/-- One step of the `do { ... } while (eof == FALSE)` loop of `process_stream`
(lines 319-380): either the read at `read_more` or one line of the buffer.
`size` is `STREAM_BUFFER_SIZE`. -/
def stream_step (size : Nat) (st : stream_state) : stream_state :=
  match st.ctl with
  | stream_ctl.read_more =>
    let r := read_stream_line st (size - 1 - st.diff)
    let st1 : stream_state :=
      { r.1 with buffer_len := r.2 + st.diff, next_line_from := 0, pos := 0, diff := 0 }
    if st1.buffer_len = 0 then { st1 with ctl := stream_ctl.done }
    else { st1 with ctl := stream_ctl.scan }
  | stream_ctl.scan =>
    if st.pos < st.buffer_len then process_line st
    else { st with ctl := stream_ctl.read_more }
  | stream_ctl.done => st
  | stream_ctl.crashed => st

/-- Runs the loop for at most `fuel` steps. -/
def stream_loop (size : Nat) : Nat → stream_state → stream_state
  | 0, st => st
  | fuel + 1, st =>
    match st.ctl with
    | stream_ctl.done => st
    | stream_ctl.crashed => st
    | _ => stream_loop size fuel (stream_step size st)

/-- What `process_stream` leaves behind when it returns. -/
structure stream_result where
  /-- the target directory -/
  files : List (List Char × List Char)
  /-- everything pushed onto `intermidiate_queue`, oldest first -/
  intermidiate_queue : List (List Char)
  /-- number of `JOB_SHUTDOWN` jobs pushed onto `post_table_queue` -/
  post_table_shutdowns : Nat
  /-- number of `JOB_SHUTDOWN` jobs pushed onto `post_queue` -/
  post_shutdowns : Nat
  /-- number of `SHUTDOWN` tokens pushed onto `stream_queue` -/
  stream_shutdowns : Nat
  deriving DecidableEq, Repr

/-- The `for (n = 0; n < num_threads; n++)` loop that ends `process_stream`
(lines 390-395). -/
def push_shutdowns : Nat → stream_result → stream_result
  | 0, r => r
  | n + 1, r =>
    push_shutdowns n { r with post_table_shutdowns := r.post_table_shutdowns + 1,
                              post_shutdowns := r.post_shutdowns + 1,
                              stream_shutdowns := r.stream_shutdowns + 1 }

/-- The state in which `process_stream` enters its loop. -/
def stream_init (existing : List (List Char × List Char)) (reads : List Nat)
    (input : List Char) : stream_state :=
  { buffer := [], input := input, reads := reads, file := none, filename := none,
    files := existing, queue := [], diff := 0, pos := 0, buffer_len := 0,
    next_line_from := 0, ctl := stream_ctl.read_more }

/-- Mirrors `process_stream` (lines 308-397).  `size` is `STREAM_BUFFER_SIZE`,
`existing` the content of the target directory, `reads` the sizes of short
reads, `input` the bytes on standard input.  The result is `none` when the
loop has not left through `break` within `fuel` steps, or has crashed. -/
def process_stream (size num_threads : Nat) (existing : List (List Char × List Char))
    (reads : List Nat) (input : List Char) (fuel : Nat) : Option stream_result :=
  let st := stream_loop size fuel (stream_init existing reads input)
  match st.ctl with
  | stream_ctl.done =>
    let queue := match st.filename with
      | some f => st.queue ++ [f]
      | none => st.queue
    let queue := queue ++ [bytes "END"]
    some (push_shutdowns num_threads
      { files := st.files, intermidiate_queue := queue,
        post_table_shutdowns := 0, post_shutdowns := 0, stream_shutdowns := 0 })
  | _ => none

/-! ### Classification of the streamed files -/

/-- The `enum file_type` of the loader, with the enumerators that the
`switch` of `process_filename` names. -/
inductive file_type where
  | INIT | SCHEMA_TABLESPACE | SCHEMA_CREATE | SCHEMA_TABLE | SCHEMA_VIEW
  | SCHEMA_TRIGGER | SCHEMA_POST | CHECKSUM | METADATA_GLOBAL | METADATA_TABLE
  | DATA | RESUME | IGNORED | LOAD_DATA | SHUTDOWN | INCOMPLETE
  deriving DecidableEq, Repr

/-- The globals read by `process_filename` and the helpers of
`myloader_process.c` that it calls.  A helper whose answer depends on what
was restored so far takes the number of earlier `process_filename` calls. -/
structure loader_env where
  /-- Mirrors `get_file_type (filename)` -/
  get_file_type : List Char → file_type
  /-- The option `source_db`, `none` for `NULL` -/
  source_db : Option (List Char)
  no_data : Bool
  skip_triggers : Bool
  skip_post : Bool
  /-- Mirrors `process_table_filename (filename)` -/
  process_table_filename : Nat → List Char → Bool
  /-- Mirrors `process_metadata_filename (filename)` -/
  process_metadata_filename : Nat → List Char → Bool
  /-- Mirrors `process_data_filename (filename)` -/
  process_data_filename : Nat → List Char → Bool

/-- Side effects of `process_filename`, in the order they happen. -/
inductive loader_effect where
  /-- Mirrors `process_database_filename (filename, "create database")` -/
  | process_database_filename (filename : List Char)
  /-- Mirrors `process_schema_filename (filename, kind)` -/
  | process_schema_filename (filename : List Char) (kind : String)
  /-- Mirrors `refresh_table_list (stream_conf)` under `table_list_mutex` -/
  | refresh_table_list
  /-- The name `filename` appended to `stream_conf->checksum_list` -/
  | checksum_list_insert (filename : List Char)
  /-- The name `filename` appended to `stream_conf->metadata_list` -/
  | metadata_list_insert (filename : List Char)
  /-- Mirrors `m_remove (directory, filename)` -/
  | m_remove (filename : List Char)
  /-- The increment `total_data_sql_files++` -/
  | total_data_sql_files_inc
  deriving DecidableEq, Repr

/-- How a call of `process_filename` ends. -/
inductive filename_result where
  /-- A `return` of a file type, after the listed effects -/
  | returned (ft : file_type) (effects : List loader_effect)
  /-- An `exit (EXIT_FAILURE)` -/
  | exit_failure
  deriving DecidableEq, Repr

/-- Mirrors `process_filename` (lines 72-146); `t` counts the earlier calls. -/
def process_filename (env : loader_env) (t : Nat) (filename : List Char) : filename_result :=
  let ft := env.get_file_type filename
  if env.source_db.isNone ||
     g_str_has_prefix filename (env.source_db.getD [] ++ ['.']) then
    match ft with
    | file_type.INIT => filename_result.returned ft []
    | file_type.SCHEMA_TABLESPACE => filename_result.returned ft []
    | file_type.SCHEMA_CREATE =>
      filename_result.returned ft [loader_effect.process_database_filename filename]
    | file_type.SCHEMA_TABLE =>
      if !env.process_table_filename t filename then
        filename_result.returned file_type.INCOMPLETE []
      else filename_result.returned ft [loader_effect.refresh_table_list]
    | file_type.SCHEMA_VIEW =>
      filename_result.returned ft [loader_effect.process_schema_filename filename "view"]
    | file_type.SCHEMA_TRIGGER =>
      if !env.skip_triggers then
        filename_result.returned ft [loader_effect.process_schema_filename filename "trigger"]
      else filename_result.returned ft []
    | file_type.SCHEMA_POST =>
      if !env.skip_post then
        filename_result.returned ft [loader_effect.process_schema_filename filename "post"]
      else filename_result.returned ft []
    | file_type.CHECKSUM =>
      filename_result.returned ft [loader_effect.checksum_list_insert filename]
    | file_type.METADATA_GLOBAL => filename_result.returned ft []
    | file_type.METADATA_TABLE =>
      if !env.process_metadata_filename t filename then
        filename_result.returned file_type.INCOMPLETE [loader_effect.metadata_list_insert filename]
      else
        filename_result.returned ft
          [loader_effect.metadata_list_insert filename, loader_effect.refresh_table_list]
    | file_type.DATA =>
      if !env.no_data then
        if !env.process_data_filename t filename then
          filename_result.returned file_type.INCOMPLETE []
        else filename_result.returned ft [loader_effect.total_data_sql_files_inc]
      else
        filename_result.returned ft
          [loader_effect.m_remove filename, loader_effect.total_data_sql_files_inc]
    | file_type.RESUME => filename_result.exit_failure
    | file_type.IGNORED => filename_result.returned ft []
    | file_type.LOAD_DATA => filename_result.returned ft []
    | file_type.SHUTDOWN => filename_result.returned ft []
    | file_type.INCOMPLETE => filename_result.returned ft []
  else filename_result.returned ft []

/-- The two queues fed by the intermediate thread, with the log of what
`process_filename` did. -/
structure loader_state where
  /-- The queue `intermidiate_queue`, head first -/
  intermidiate_queue : List (List Char)
  /-- tokens pushed onto `stream_queue`, oldest first -/
  stream_queue : List file_type
  /-- number of `process_filename` calls made so far -/
  calls : Nat
  /-- every file name handed to `process_filename` with the type returned -/
  classified : List (List Char × file_type)
  /-- effects of the `process_filename` calls -/
  effects : List loader_effect
  deriving DecidableEq, Repr

/-- Mirrors `process_stream_filename` (lines 162-175); `none` when the process
exits inside `process_filename`. -/
def process_stream_filename (env : loader_env) (st : loader_state) (filename : List Char) :
    Option loader_state :=
  match process_filename env st.calls filename with
  | filename_result.exit_failure => none
  | filename_result.returned current_ft eff =>
    let st1 : loader_state :=
      { st with calls := st.calls + 1,
                classified := st.classified ++ [(filename, current_ft)],
                effects := st.effects ++ eff }
    if current_ft = file_type.INCOMPLETE then
      some { st1 with intermidiate_queue := st1.intermidiate_queue ++ [filename] }
    else if current_ft ≠ file_type.SCHEMA_VIEW ∧
            current_ft ≠ file_type.SCHEMA_TRIGGER ∧
            current_ft ≠ file_type.SCHEMA_POST ∧
            current_ft ≠ file_type.CHECKSUM ∧
            current_ft ≠ file_type.METADATA_TABLE then
      some { st1 with stream_queue := st1.stream_queue ++ [current_ft] }
    else some st1

/-- A `struct restore_job`: the data file it restores and the name of the
database of its table (`rj->dbt->database`). -/
structure restore_job where
  filename : List Char
  database : List Char
  deriving DecidableEq, Repr

/-- The fields of the loader's `struct db_table` used by the stream code. -/
structure db_table where
  database : List Char
  table : List Char
  current_threads : Nat
  max_threads : Nat
  restore_job_list : List restore_job
  deriving DecidableEq, Repr

/-- What a worker hands to `process_job`. -/
inductive control_job where
  /-- a job that was waiting in `database_queue` or `table_queue` -/
  | queued (id : Nat) (use_database : List Char)
  /-- Mirrors `new_job (JOB_RESTORE, rj, rj->dbt->database)` -/
  | new_job_restore (rj : restore_job) (use_database : List Char)
  /-- the `restore_job` pointer that `give_any_data_job` returns as a
  `struct control_job *` -/
  | restore_job_as_control_job (rj : restore_job)
  deriving DecidableEq, Repr

/-- The part of `struct configuration` read by the worker loop. -/
structure stream_conf where
  database_queue : List control_job
  table_queue : List control_job
  table_list : List db_table
  deriving DecidableEq, Repr

/-- Mirrors `give_any_data_job` (lines 177-200) on `stream_conf->table_list`:
the job taken and the list afterwards. -/
def give_any_data_job : List db_table → Option restore_job × List db_table
  | [] => (none, [])
  | dbt :: iter =>
    match dbt.restore_job_list with
    | job :: next => (some job, { dbt with restore_job_list := next } :: iter)
    | [] =>
      let r := give_any_data_job iter
      (r.1, dbt :: r.2)

/-- Mirrors `give_me_next_data_job` (lines 202-228). -/
def give_me_next_data_job : List db_table → Option restore_job × List db_table
  | [] => (none, [])
  | dbt :: iter =>
    if dbt.current_threads < dbt.max_threads then
      match dbt.restore_job_list with
      | job :: next => (some job, { dbt with restore_job_list := next } :: iter)
      | [] =>
        let r := give_me_next_data_job iter
        (r.1, dbt :: r.2)
    else
      let r := give_me_next_data_job iter
      (r.1, dbt :: r.2)

/-- The job that one pass through the loop of `process_stream_queue` hands
to `process_job` (lines 237-260), with the configuration it leaves. -/
def take_job (conf : stream_conf) : Option control_job × stream_conf :=
  match conf.database_queue with
  | job :: rest => (some job, { conf with database_queue := rest })
  | [] =>
    match conf.table_queue with
    | job :: rest => (some job, { conf with table_queue := rest })
    | [] =>
      match give_me_next_data_job conf.table_list with
      | (some rj, tl) =>
        (some (control_job.new_job_restore rj rj.database), { conf with table_list := tl })
      | (none, _) =>
        match give_any_data_job conf.table_list with
        | (some rj, tl) =>
          (some (control_job.restore_job_as_control_job rj), { conf with table_list := tl })
        | (none, _) => (none, conf)

/-- State of one worker running `process_stream_queue`. -/
structure worker_state where
  conf : stream_conf
  /-- The queue `stream_queue`, head first -/
  stream_queue : List file_type
  /-- the jobs handed to `process_job` so far -/
  processed : List control_job
  /-- the loop variable `cont` -/
  cont : Bool
  deriving DecidableEq, Repr

/-- One pass through `while (cont)` of `process_stream_queue` (lines
235-268).  `process_job` is the function of `myloader_jobs_manager.c`: it
returns the new value of `cont` and may change the configuration.  The
result is `none` when `g_async_queue_pop (stream_queue)` has to wait. -/
def process_stream_queue_step
    (process_job : stream_conf → control_job → stream_conf × Bool)
    (st : worker_state) : Option worker_state :=
  match st.stream_queue with
  | [] => none
  | ft :: sq =>
    match take_job st.conf with
    | (some job, conf) =>
      let r := process_job conf job
      some { conf := r.1, stream_queue := sq, processed := st.processed ++ [job], cont := r.2 }
    | (none, conf) =>
      if ft = file_type.SHUTDOWN then
        some { st with conf := conf, stream_queue := sq, cont := false }
      else
        some { st with conf := conf, stream_queue := sq ++ [ft] }

/-- Mirrors `process_stream_queue` (lines 230-271) for at most `fuel` passes; `none`
when the worker is left waiting on the stream queue or out of fuel. -/
def process_stream_queue
    (process_job : stream_conf → control_job → stream_conf × Bool) :
    Nat → worker_state → Option worker_state
  | 0, st => if st.cont then none else some st
  | fuel + 1, st =>
    if st.cont then
      match process_stream_queue_step process_job st with
      | none => none
      | some st1 => process_stream_queue process_job fuel st1
    else some st

end Myloader

/-! ## `mydumper_start_dump.c` -/

namespace Mydumper

open Glib

/-- How far a run of the dump has come. -/
inductive dump_status where
  /-- the function is still running, or has returned -/
  | running
  /-- An `exit (EXIT_FAILURE)` -/
  | exit_failure
  /-- a write through a `NULL` pointer -/
  | crashed
  deriving DecidableEq, Repr

/-! ### `send_lock_all_tables` -/

/-- The table named by the error message of a failed `LOCK TABLE`
(lines 866-868): the text between the first two quotes, split at dots and
printed as two quoted names.  `none` when the code reads `tmp_fail[1]` of a
vector without a second entry. -/
def failed_table (err : List Char) : Option (List Char) :=
  match g_strsplit err (Char.ofNat 39) with
  | _ :: quoted :: _ =>
    match g_strsplit quoted '.' with
    | a :: b :: _ => some (bytes "`" ++ a ++ bytes "`.`" ++ b ++ bytes "`")
    | [a] => some (bytes "`" ++ a ++ bytes "`.`(null)`")
    | [] => none
  | _ => none

/-- The statement built by lines 855-860 for the tables of `tables_lock`;
`none` when it has no comma to overwrite. -/
def lock_table_query (tables_lock : List (List Char)) : Option (List Char) :=
  blank_last_comma
    (bytes "LOCK TABLE" ++ (tables_lock.map fun t => t ++ bytes " READ,").flatten)

/-- What the retry loop of `send_lock_all_tables` has done. -/
structure lock_all_run where
  /-- the `LOCK TABLE` statements sent, oldest first -/
  queries : List (List Char)
  /-- the list `tables_lock` at each statement sent, oldest first -/
  attempts : List (List (List Char))
  /-- The list `tables_lock` at the end -/
  tables_lock : List (List Char)
  /-- The value `running` stands for a return with `success = 1` -/
  status : dump_status
  deriving DecidableEq, Repr

/-- The loop `while (!success && retry < 4)` (lines 854-880) followed by the
test of `success`; the first argument is `4 - retry`.  `lock_error n` is the
error message of the server for the statement sent with `retry = n`, `none`
when it succeeds.  A failed table is taken out by `g_list_remove` on the
first entry equal to it; the scan stops there, because it continues from the
`next` field of the list cell just freed, which glib has cleared. -/
def lock_all_loop (lock_error : Nat → Option (List Char)) :
    Nat → Nat → List (List Char) → lock_all_run → lock_all_run
  | 0, _, tables_lock, run =>
    { run with tables_lock := tables_lock, status := dump_status.exit_failure }
  | n + 1, retry, tables_lock, run =>
    match lock_table_query tables_lock with
    | none => { run with tables_lock := tables_lock, status := dump_status.crashed }
    | some query =>
      let run1 : lock_all_run :=
        { run with queries := run.queries ++ [query],
                   attempts := run.attempts ++ [tables_lock] }
      match lock_error retry with
      | none => { run1 with tables_lock := tables_lock, status := dump_status.running }
      | some err =>
        match failed_table err with
        | none => { run1 with tables_lock := tables_lock, status := dump_status.crashed }
        | some t => lock_all_loop lock_error n (retry + 1) (tables_lock.erase t) run1

/-- Mirrors `send_lock_all_tables` from line 851 on, for the list `tables_lock` that
lines 780-850 have built. -/
def send_lock_all_tables (lock_error : Nat → Option (List Char))
    (tables_lock : List (List Char)) : lock_all_run :=
  if tables_lock = [] then
    { queries := [], attempts := [], tables_lock := [], status := dump_status.exit_failure }
  else
    lock_all_loop lock_error 4 0 tables_lock
      { queries := [], attempts := [], tables_lock := tables_lock,
        status := dump_status.running }

/-! ### The DDL lock functions -/

/-- The functions that `determine_ddl_lock_function` stores in
`acquire_ddl_lock_function`. -/
inductive acquire_fn where
  | send_lock_instance_backup
  | send_percona57_backup_locks
  | send_mariadb_backup_locks
  deriving DecidableEq, Repr

/-- The functions that `determine_ddl_lock_function` stores in
`release_ddl_lock_function` and `release_binlog_function`. -/
inductive release_fn where
  | send_unlock_instance_backup
  | send_unlock_tables
  | send_backup_stage_end
  | send_unlock_binlogs
  deriving DecidableEq, Repr

/-- The four out-parameters of `determine_ddl_lock_function`. -/
structure ddl_lock where
  acquire_lock_function : Option acquire_fn
  release_lock_function : Option release_fn
  release_binlog_function : Option release_fn
  /-- Whether `*conn = create_main_connection ()` was executed -/
  new_connection : Bool
  deriving DecidableEq, Repr

/-- The loop of `determine_ddl_lock_function` (lines 733-763) over the rows
`(version_comment, version)`. -/
def determine_ddl_lock_function : List (List Char × List Char) → ddl_lock → ddl_lock
  | [], d => d
  | ver :: rows, d =>
    if g_str_has_prefix ver.1 (bytes "Percona") && g_str_has_prefix ver.2 (bytes "8.") then
      { d with acquire_lock_function := some acquire_fn.send_lock_instance_backup,
               release_lock_function := some release_fn.send_unlock_instance_backup }
    else if g_str_has_prefix ver.1 (bytes "Percona") &&
            g_str_has_prefix ver.2 (bytes "5.7.") then
      { acquire_lock_function := some acquire_fn.send_percona57_backup_locks,
        release_binlog_function := some release_fn.send_unlock_binlogs,
        release_lock_function := some release_fn.send_unlock_tables,
        new_connection := true }
    else if g_str_has_prefix ver.1 (bytes "MySQL") && g_str_has_prefix ver.2 (bytes "8.") then
      { d with acquire_lock_function := some acquire_fn.send_lock_instance_backup,
               release_lock_function := some release_fn.send_unlock_instance_backup }
    else if g_str_has_prefix ver.1 (bytes "mariadb") &&
            ( g_str_has_prefix ver.2 (bytes "10.5") ||
             g_str_has_prefix ver.2 (bytes "10.6")) then
      { d with acquire_lock_function := some acquire_fn.send_mariadb_backup_locks,
               release_lock_function := some release_fn.send_backup_stage_end }
    else determine_ddl_lock_function rows d

/-- The dump-side `struct db_table`: name and approximate data length. -/
structure db_table where
  table : List Char
  datalength : Nat
  deriving DecidableEq, Repr

/-- What `start_dump` does to the server, to its threads and to its queues. -/
inductive dump_event where
  /-- A `mysql_query` of a statement, on `conn` or, with `second`, on the
  connection that `determine_ddl_lock_function` has opened -/
  | sql (second : Bool) (query : List Char)
  /-- a call of a function of this or another unit that is not unfolded -/
  | call (name : String)
  /-- Mirrors `g_thread_create (working_thread, &td[n])` -/
  | thread_create (less_locking_stage : Bool) (thread_id : Nat)
  /-- Mirrors `g_async_queue_pop` on `conf.ready` or `conf.ready_less_locking` -/
  | pop_ready (less_locking : Bool)
  /-- Mirrors `create_job_to_dump_tablespaces` -/
  | create_job_to_dump_tablespaces
  /-- Mirrors `create_job_to_dump_database (db, &conf, less_locking)` -/
  | create_job_to_dump_database (database : List Char) (less_locking : Bool)
  /-- Mirrors `create_job_to_dump_schema (db, &conf)` -/
  | create_job_to_dump_schema (database : List Char)
  /-- Mirrors `create_jobs_for_non_innodb_table_list_in_less_locking_mode` -/
  | create_jobs_for_non_innodb_table_list (tables : List db_table)
  /-- Mirrors `create_job_to_dump_table (conn, dbt, &conf, FALSE)` -/
  | create_job_to_dump_table (dbt : db_table)
  /-- Mirrors `g_atomic_int_inc (&non_innodb_table_counter)` -/
  | non_innodb_table_counter_inc
  /-- Mirrors `g_atomic_int_inc (&non_innodb_done)` -/
  | non_innodb_done_inc
  /-- push onto `conf.unlock_tables` -/
  | push_unlock_tables
  /-- Mirrors `g_async_queue_pop (conf.unlock_tables)` -/
  | pop_unlock_tables
  /-- push of a `JOB_SHUTDOWN` job onto `conf.queue` or, with
  `less_locking`, onto `conf.queue_less_locking` -/
  | push_shutdown (less_locking : Bool)
  /-- Mirrors `g_thread_join (threads[n])` -/
  | thread_join (n : Nat)
  deriving DecidableEq, Repr

/-- A run of a piece of `start_dump`: the events in order, the increments of
the global `errors`, and how it ended. -/
structure dump_run where
  trace : List dump_event
  errors : Nat
  status : dump_status
  deriving DecidableEq, Repr

/-- Nothing done. -/
def dump_run.skip : dump_run := { trace := [], errors := 0, status := dump_status.running }

/-- Sequential composition: `b` runs when `a` has not left the process. -/
def dump_run.seq (a b : dump_run) : dump_run :=
  match a.status with
  | dump_status.running =>
    { trace := a.trace ++ b.trace, errors := a.errors + b.errors, status := b.status }
  | _ => a

/-- Events without a change of `errors` or an exit. -/
def events (es : List dump_event) : dump_run :=
  { trace := es, errors := 0, status := dump_status.running }

/-- A `mysql_query` whose result is not looked at. -/
def query (second : Bool) (q : String) : dump_run :=
  events [dump_event.sql second (bytes q)]

/-- The pattern of the lock functions: `if (mysql_query (conn, q))
{ g_critical (...); errors++; exit (EXIT_FAILURE); }`. -/
def query_or_exit (fails : List Char → Bool) (second : Bool) (q : String) : dump_run :=
  if fails (bytes q) then
    { trace := [dump_event.sql second (bytes q)], errors := 1,
      status := dump_status.exit_failure }
  else query second q

/-- The same without `errors++`: `if (mysql_query (conn, q))
{ g_critical (...); exit (EXIT_FAILURE); }`. -/
def query_or_exit_plain (fails : List Char → Bool) (q : List Char) : dump_run :=
  if fails q then
    { trace := [dump_event.sql false q], errors := 0, status := dump_status.exit_failure }
  else events [dump_event.sql false q]

/-- Mirrors `send_mariadb_backup_locks` (lines 657-684). -/
def send_mariadb_backup_locks (fails : List Char → Bool) (second : Bool) : dump_run :=
  (((query_or_exit fails second "BACKUP STAGE START").seq
    (query_or_exit fails second "BACKUP STAGE FLUSH")).seq
    (query_or_exit fails second "BACKUP STAGE BLOCK_DDL")).seq
    (query_or_exit fails second "BACKUP STAGE BLOCK_COMMIT")

/-- Mirrors `send_percona57_backup_locks` (lines 686-702). -/
def send_percona57_backup_locks (fails : List Char → Bool) (second : Bool) : dump_run :=
  (query_or_exit fails second "LOCK TABLES FOR BACKUP").seq
    (query_or_exit fails second "LOCK BINLOG FOR BACKUP")

/-- Mirrors `send_lock_instance_backup` (lines 704-711). -/
def send_lock_instance_backup (fails : List Char → Bool) (second : Bool) : dump_run :=
  query_or_exit fails second "LOCK INSTANCE FOR BACKUP"

/-- Call through `acquire_ddl_lock_function`. -/
def call_acquire (fails : List Char → Bool) (second : Bool) : acquire_fn → dump_run
  | acquire_fn.send_lock_instance_backup => send_lock_instance_backup fails second
  | acquire_fn.send_percona57_backup_locks => send_percona57_backup_locks fails second
  | acquire_fn.send_mariadb_backup_locks => send_mariadb_backup_locks fails second

/-- Call through `release_ddl_lock_function` or `release_binlog_function`:
`send_unlock_tables`, `send_unlock_binlogs`, `send_unlock_instance_backup`
and `send_backup_stage_end` (lines 713-727). -/
def call_release (second : Bool) : release_fn → dump_run
  | release_fn.send_unlock_tables => query second "UNLOCK TABLES"
  | release_fn.send_unlock_binlogs => query second "UNLOCK BINLOG"
  | release_fn.send_unlock_instance_backup => query second "UNLOCK INSTANCE"
  | release_fn.send_backup_stage_end => query second "BACKUP STAGE END"

/-! ### `start_dump` -/

/-- The values of `detected_server` that `start_dump` tests for. -/
inductive server_type where
  | SERVER_TYPE_MYSQL
  | SERVER_TYPE_TIDB
  | SERVER_TYPE_OTHER
  deriving DecidableEq, Repr

/-- The program options read by `start_dump`. -/
structure dump_config where
  no_locks : Bool
  no_backup_locks : Bool
  lock_all_tables : Bool
  trx_consistency_only : Bool
  less_locking : Bool
  no_schemas : Bool
  dump_tablespaces : Bool
  num_threads : Nat
  /-- The option `tidb_snapshot`, `none` for `NULL` -/
  tidb_snapshot : Option (List Char)
  /-- the character set that `initialize_start_dump` has put into
  `set_names_str`, `none` when it has left `NULL` there -/
  set_names : Option (List Char)
  /-- The entries of `db_items` when `db` is set -/
  db_items : Option (List (List Char))
  /-- The option `tables`, `none` for `NULL` -/
  tables : Option (List (List Char))

/-- The answers of the server and of the functions outside the model. -/
structure server where
  detected_server : server_type
  /-- Whether `mysql_query` returns non-zero for this statement -/
  fails : List Char → Bool
  /-- rows of `SELECT @@version_comment, @@version` -/
  version_rows : List (List Char × List Char)
  /-- Whether `long_query_wait` returns rather than exits -/
  long_query_wait_returns : Bool
  /-- error message for the `LOCK TABLE` sent with `retry = n` -/
  lock_error : Nat → Option (List Char)
  /-- the list built by lines 780-850 of `send_lock_all_tables` -/
  tables_lock : List (List Char)
  /-- Mirrors `mysql_get_server_version (conn)` -/
  server_version : Nat
  /-- Whether `SELECT @@tokudb_version` has a row -/
  tokudb : Bool
  /-- The column `row[1]` of `SHOW MASTER STATUS` -/
  master_status : List Char
  /-- rows of `SHOW DATABASES` -/
  databases : List (List Char)
  /-- Mirrors `get_database (conn, name, &db_tmp)` -/
  get_database : List Char → Bool
  /-- Mirrors `eval_regex (name, NULL)` -/
  eval_regex : List Char → Bool
  /-- databases whose `already_dumped` is set when planning starts -/
  already_dumped : List (List Char)
  /-- The list `non_innodb_table` as planning leaves it -/
  non_innodb_table : List db_table

/-- The lock functions chosen at line 1012: all `NULL` unless
`determine_ddl_lock_function` runs. -/
def chosen_ddl_lock (cfg : dump_config) (srv : server) : ddl_lock :=
  let none_chosen : ddl_lock :=
    { acquire_lock_function := none, release_lock_function := none,
      release_binlog_function := none, new_connection := false }
  if srv.detected_server ≠ server_type.SERVER_TYPE_TIDB ∧ !cfg.no_locks ∧ !cfg.no_backup_locks
  then determine_ddl_lock_function srv.version_rows none_chosen
  else none_chosen

/-- Mirrors `send_lock_all_tables (conn)` seen from `start_dump`. -/
def lock_all_tables_run (srv : server) : dump_run :=
  let r := send_lock_all_tables srv.lock_error srv.tables_lock
  { trace := r.queries.map fun q => dump_event.sql false q, errors := 0, status := r.status }

/-- The statement `FLUSH TABLES WITH READ LOCK` (lines 1023-1028): a failure is logged and
counted in `errors`. -/
def ftwrl (srv : server) : dump_run :=
  { trace := [dump_event.sql false (bytes "FLUSH TABLES WITH READ LOCK")],
    errors := if srv.fails (bytes "FLUSH TABLES WITH READ LOCK") then 1 else 0,
    status := dump_status.running }

/-- Lines 968-973: the long query guard. -/
def guard_phase (cfg : dump_config) (srv : server) : dump_run :=
  if !cfg.no_locks then
    { trace := [dump_event.call "long_query_wait"], errors := 0,
      status := if srv.long_query_wait_returns then dump_status.running
                else dump_status.exit_failure }
  else dump_run.skip

/-- Lines 975-1037: the TiDB snapshot, or the locks. -/
def lock_phase (cfg : dump_config) (srv : server) : dump_run :=
  if srv.detected_server = server_type.SERVER_TYPE_TIDB then
    match cfg.tidb_snapshot with
    | none =>
      (query_or_exit_plain srv.fails (bytes "SHOW MASTER STATUS")).seq
        (query_or_exit_plain srv.fails
          (bytes "SET SESSION tidb_snapshot = '" ++ srv.master_status ++ bytes "'"))
    | some snapshot =>
      query_or_exit_plain srv.fails
        (bytes "SET SESSION tidb_snapshot = '" ++ snapshot ++ bytes "'")
  else if !cfg.no_locks then
    (if !cfg.no_backup_locks then query false "SELECT @@version_comment, @@version"
     else dump_run.skip).seq
    (if cfg.lock_all_tables then lock_all_tables_run srv
     else
       ((query false "FLUSH NO_WRITE_TO_BINLOG TABLES").seq (ftwrl srv)).seq
         (match (chosen_ddl_lock cfg srv).acquire_lock_function with
          | some f => call_acquire srv.fails (chosen_ddl_lock cfg srv).new_connection f
          | none => dump_run.skip))
  else dump_run.skip

/-- Lines 1040-1093: dummy tables, the snapshot transaction of the main
connection, the snapshot coordinates. -/
def snapshot_phase (cfg : dump_config) (srv : server) : dump_run :=
  events
    ((if srv.server_version < 40108 then
        [dump_event.sql false
          (bytes "CREATE TABLE IF NOT EXISTS mysql.mydumperdummy (a INT) ENGINE=INNODB")]
      else []) ++
     [dump_event.sql false (bytes "SELECT @@tokudb_version")] ++
     (if srv.tokudb then
        [dump_event.sql false
          (bytes "CREATE TABLE IF NOT EXISTS mysql.tokudbdummy (a INT) ENGINE=TokuDB")]
      else []) ++
     (if !cfg.lock_all_tables then
        [dump_event.sql false
          (bytes "START TRANSACTION /*!40108 WITH CONSISTENT SNAPSHOT */")]
      else []) ++
     (if srv.server_version < 40108 then
        [dump_event.sql false
          (bytes "SELECT /*!40001 SQL_NO_CACHE */ * FROM mysql.mydumperdummy")]
      else []) ++
     (if srv.tokudb then
        [dump_event.sql false
          (bytes "SELECT /*!40001 SQL_NO_CACHE */ * FROM mysql.tokudbdummy")]
      else []) ++
     (if srv.detected_server = server_type.SERVER_TYPE_MYSQL then
        (match cfg.set_names with
         | some names =>
           [dump_event.sql false (bytes "/*!40101 SET NAMES " ++ names ++ bytes "*/")]
         | none => []) ++ [dump_event.call "write_snapshot_info"]
      else []))

/-- Lines 1106-1149: the workers of the less locking stage, each awaited in
turn, then the `num_threads` workers of the main queue and the wait for
their `num_threads` messages on `conf.ready`. -/
def thread_phase (cfg : dump_config) : dump_run :=
  events
    ((if cfg.less_locking then
        ((List.range cfg.num_threads).map fun i =>
          [dump_event.thread_create true (cfg.num_threads + i + 1),
           dump_event.pop_ready true]).flatten
      else []) ++
     ((List.range cfg.num_threads).map fun n => dump_event.thread_create false (n + 1)) ++
     List.replicate cfg.num_threads (dump_event.pop_ready false))

/-- Lines 1157-1164: the release under `trx_consistency_only`. -/
def trx_unlock_phase (cfg : dump_config) (srv : server) : dump_run :=
  if cfg.trx_consistency_only then
    (query false "UNLOCK TABLES /* trx-only */").seq
      (match (chosen_ddl_lock cfg srv).release_binlog_function with
       | some f => call_release (chosen_ddl_lock cfg srv).new_connection f
       | none => dump_run.skip)
  else dump_run.skip

/-- The loop over the rows of `SHOW DATABASES` (lines 1189-1204); `dumped`
holds the databases whose `already_dumped` is set. -/
def plan_databases (cfg : dump_config) (srv : server) :
    List (List Char) → List (List Char) → List dump_event
  | [], _ => []
  | row :: rows, dumped =>
    if strcasecmp_eq row (bytes "information_schema") ||
       strcasecmp_eq row (bytes "performance_schema") ||
       strcasecmp_eq row (bytes "data_dictionary") then
      plan_databases cfg srv rows dumped
    else if srv.get_database row && !cfg.no_schemas && srv.eval_regex row then
      if dumped.contains row then
        dump_event.create_job_to_dump_database row cfg.less_locking ::
          plan_databases cfg srv rows dumped
      else
        dump_event.create_job_to_dump_schema row ::
        dump_event.create_job_to_dump_database row cfg.less_locking ::
          plan_databases cfg srv rows (row :: dumped)
    else
      dump_event.create_job_to_dump_database row cfg.less_locking ::
        plan_databases cfg srv rows dumped

/-- Lines 1165-1206: the tablespace job and the three planning blocks. -/
def plan_phase (cfg : dump_config) (srv : server) : dump_run :=
  ((events (if cfg.dump_tablespaces then [dump_event.create_job_to_dump_tablespaces] else [])).seq
   (events
     ((match cfg.db_items with
       | some items =>
         (items.map fun d =>
           dump_event.create_job_to_dump_database d cfg.less_locking ::
             (if !cfg.no_schemas then [dump_event.create_job_to_dump_schema d] else [])).flatten
       | none => []) ++
      (match cfg.tables with
       | some _ => [dump_event.call "get_table_info_to_process_from_list"]
       | none => [])))).seq
   (if cfg.db_items.isNone && cfg.tables.isNone then
      if srv.fails (bytes "SHOW DATABASES") then
        { trace := [dump_event.sql false (bytes "SHOW DATABASES")], errors := 0,
          status := dump_status.exit_failure }
      else
        events (dump_event.sql false (bytes "SHOW DATABASES") ::
                plan_databases cfg srv srv.databases srv.already_dumped)
    else dump_run.skip)

/-- The arrays `nits` and `nitl` of `start_dump`, with the variable `tn`. -/
structure packing where
  nits : List Nat
  nitl : List (List db_table)
  tn : Nat
  deriving DecidableEq, Repr

/-- Lines 1220-1227: the index of the smallest running sum, the lowest one
among equals. -/
def least_loaded (nits : List Nat) (num_threads : Nat) : Nat :=
  (((List.range num_threads).drop 1).foldl
    (fun (m : Nat × Nat) n => if nits.getD n 0 < m.1 then (nits.getD n 0, n) else m)
    (nits.getD 0 0, 0)).2

/-- The loop of lines 1218-1230 over `non_innodb_table`; the sums are
`guint64`. -/
def assign_tables (num_threads : Nat) : List db_table → packing → packing
  | [], p => p
  | dbt :: iter, p =>
    let tn := least_loaded p.nits num_threads
    assign_tables num_threads iter
      { nits := p.nits.set tn ((p.nits.getD tn 0 + dbt.datalength) % 2 ^ 64),
        nitl := p.nitl.set tn (dbt :: p.nitl.getD tn []),
        tn := tn }

/-- Lines 1216-1231: the assignment, started from the zeroed arrays of lines
944-947, and the `g_list_reverse` of the list of the last `tn`. -/
def less_locking_packing (num_threads : Nat) (non_innodb_table : List db_table) : packing :=
  let p := assign_tables num_threads non_innodb_table
    { nits := List.replicate num_threads 0, nitl := List.replicate num_threads [], tn := 0 }
  { p with nitl := p.nitl.set p.tn (p.nitl.getD p.tn []).reverse }

/-- Lines 1233-1239: one list job for every worker with a positive sum. -/
def list_jobs (p : packing) (num_threads : Nat) : List dump_event :=
  ((List.range num_threads).map fun n =>
    if p.nits.getD n 0 > 0 then
      [dump_event.non_innodb_table_counter_inc,
       dump_event.create_jobs_for_non_innodb_table_list (p.nitl.getD n [])]
    else []).flatten

/-- Lines 1211-1269: the jobs for the non-transactional tables.  The test of
`non_innodb_table_counter` at line 1242 is taken before any worker has
decremented it. -/
def non_innodb_phase (cfg : dump_config) (srv : server) : dump_run :=
  let non_innodb_table := srv.non_innodb_table.reverse
  events
    ((if non_innodb_table = [] then [dump_event.push_unlock_tables] else []) ++
     (if cfg.less_locking then
        let jobs := list_jobs (less_locking_packing cfg.num_threads non_innodb_table)
                      cfg.num_threads
        jobs ++
        (if jobs ≠ [] then [dump_event.non_innodb_done_inc]
         else [dump_event.push_unlock_tables]) ++
        List.replicate cfg.num_threads (dump_event.push_shutdown true) ++
        ((List.range cfg.num_threads).map fun i => dump_event.thread_join (cfg.num_threads + i))
      else
        (non_innodb_table.map fun dbt =>
          [dump_event.create_job_to_dump_table dbt,
           dump_event.non_innodb_table_counter_inc]).flatten ++
        [dump_event.non_innodb_done_inc]))

/-- Lines 1271-1280: the release at the `unlock_tables` gate. -/
def gate_phase (cfg : dump_config) (srv : server) : dump_run :=
  if !cfg.no_locks && !cfg.trx_consistency_only then
    (events [dump_event.pop_unlock_tables]).seq
      ((query false "UNLOCK TABLES /* FTWRL */").seq
        (match (chosen_ddl_lock cfg srv).release_binlog_function with
         | some f => call_release (chosen_ddl_lock cfg srv).new_connection f
         | none => dump_run.skip))
  else dump_run.skip

/-- Lines 1282-1297: the shutdown jobs, the joins, the release of the DDL
lock. -/
def shutdown_phase (cfg : dump_config) (srv : server) : dump_run :=
  (events
    (List.replicate cfg.num_threads (dump_event.push_shutdown false) ++
     ((List.range cfg.num_threads).map fun n => dump_event.thread_join n))).seq
  (match (chosen_ddl_lock cfg srv).release_lock_function with
   | some f => call_release (chosen_ddl_lock cfg srv).new_connection f
   | none => dump_run.skip)

/-- Mirrors `start_dump` from line 968 to line 1297: the statements sent to the
server, the threads and the queue traffic.  Lines 893-966 (helper threads,
the metadata file) and 1298-1350 (files, clean-up) send no statement and are
left out, like logging and mutexes. -/
def start_dump (cfg : dump_config) (srv : server) : dump_run :=
  (((((((guard_phase cfg srv).seq (lock_phase cfg srv)).seq (snapshot_phase cfg srv)).seq
    (thread_phase cfg)).seq (trx_unlock_phase cfg srv)).seq (plan_phase cfg srv)).seq
    (non_innodb_phase cfg srv)).seq ((gate_phase cfg srv).seq (shutdown_phase cfg srv))

end Mydumper

/-! ## Concrete inputs used by the theorems -/

namespace Myloader

open Glib

/-- One framed file of the stream format: the header line and the bytes of
the file. -/
def frame (path content : String) : List Char :=
  bytes "\n-- " ++ bytes path ++ bytes "\n" ++ bytes content

/-- A stream of two framed files with distinct, recognised paths. -/
def two_files_stream : List Char :=
  frame "a.sql" "X" ++ frame "db.table-schema.sql" "Y"

/-- A stream whose second header line names a path without a recognised
suffix. -/
def odd_header_stream : List Char :=
  frame "a.sql" "X" ++ frame "db.t.sqlZZZZZZZZZZZ" "Y"

/-- A table that already runs as many workers as it may, with one pending
data job. -/
def busy_table : db_table :=
  { database := bytes "db", table := bytes "t", current_threads := 1, max_threads := 1,
    restore_job_list := [{ filename := bytes "db.t.00000.sql", database := bytes "db" }] }

/-- A worker that finds a token, empty job queues and `busy_table`. -/
def busy_worker : worker_state :=
  { conf := { database_queue := [], table_queue := [], table_list := [busy_table] },
    stream_queue := [file_type.DATA], processed := [], cont := true }

/-- A table with room for one more worker and two pending data jobs. -/
def free_table : db_table :=
  { database := bytes "db", table := bytes "u", current_threads := 0, max_threads := 4,
    restore_job_list := [{ filename := bytes "db.u.00000.sql", database := bytes "db" },
                         { filename := bytes "db.u.00001.sql", database := bytes "db" }] }

/-- A `process_job` that changes nothing and lets the worker go on. -/
def process_job_noop (conf : stream_conf) (_job : control_job) : stream_conf × Bool :=
  (conf, true)

/-- The state in which the intermediate thread finds the queue after the
files `files` and `"END"` were pushed. -/
def loader_init (files : List (List Char)) : loader_state :=
  { intermidiate_queue := files ++ [bytes "END"], stream_queue := [], calls := 0,
    classified := [], effects := [] }

/-- A loader that was started with `--source-db db` and whose
`get_file_type` finds a resume file by the end of its name. -/
def resume_env : loader_env :=
  { get_file_type := fun f =>
      if g_str_has_suffix f (bytes "resume") then file_type.RESUME else file_type.DATA,
    source_db := some (bytes "db"),
    no_data := false, skip_triggers := false, skip_post := false,
    process_table_filename := fun _ _ => true,
    process_metadata_filename := fun _ _ => true,
    process_data_filename := fun _ _ => true }

end Myloader

namespace Mydumper

open Glib

/-- The options of a plain run with two workers. -/
def default_config : dump_config :=
  { no_locks := false, no_backup_locks := false, lock_all_tables := false,
    trx_consistency_only := false, less_locking := false, no_schemas := false,
    dump_tablespaces := false, num_threads := 2, tidb_snapshot := none,
    set_names := none, db_items := none, tables := none }

/-- A run with `--trx-consistency-only`. -/
def trx_only_config : dump_config :=
  { default_config with trx_consistency_only := true }

/-- A run with `--trx-consistency-only` and `--no-locks`. -/
def trx_only_no_locks_config : dump_config :=
  { default_config with trx_consistency_only := true, no_locks := true }

/-- A Percona 5.7 server with one database, on which every statement
succeeds. -/
def percona57 : server :=
  { detected_server := server_type.SERVER_TYPE_MYSQL,
    fails := fun _ => false,
    version_rows := [(bytes "Percona Server (GPL), Release 33, Revision 6517692",
                      bytes "5.7.30-33")],
    long_query_wait_returns := true,
    lock_error := fun _ => none,
    tables_lock := [],
    server_version := 50730,
    tokudb := false,
    master_status := [],
    databases := [bytes "information_schema", bytes "db"],
    get_database := fun _ => true,
    eval_regex := fun _ => true,
    already_dumped := [],
    non_innodb_table := [] }

/-- The same server refusing one statement. -/
def percona57_failing (q : String) : server :=
  { percona57 with fails := fun s => s == bytes q }

/-! ### Locks and their releases in a trace -/

/-- The locks that the statements of `start_dump` take. -/
inductive lock_kind where
  /-- The statements `FLUSH TABLES WITH READ LOCK`, `LOCK TABLE ... READ` and
  `LOCK TABLES FOR BACKUP`, all released by `UNLOCK TABLES` -/
  | tables
  /-- The statement `LOCK BINLOG FOR BACKUP` -/
  | binlog
  /-- The statement `LOCK INSTANCE FOR BACKUP` -/
  | backup_instance
  /-- the `BACKUP STAGE` statements before `END` -/
  | backup_stage
  deriving DecidableEq, Repr

/-- The lock that a statement takes, `none` for a statement that takes no
lock. -/
def lock_kind_of (q : List Char) : Option lock_kind :=
  if q == bytes "FLUSH TABLES WITH READ LOCK" || g_str_has_prefix q (bytes "LOCK TABLE") then
    some lock_kind.tables
  else if q == bytes "LOCK BINLOG FOR BACKUP" then some lock_kind.binlog
  else if q == bytes "LOCK INSTANCE FOR BACKUP" then some lock_kind.backup_instance
  else if q == bytes "BACKUP STAGE START" || q == bytes "BACKUP STAGE FLUSH" ||
          q == bytes "BACKUP STAGE BLOCK_DDL" || q == bytes "BACKUP STAGE BLOCK_COMMIT" then
    some lock_kind.backup_stage
  else none

/-- The statements of a trace, each with its connection. -/
def statements : List dump_event → List (Bool × List Char)
  | [] => []
  | dump_event.sql second q :: es => (second, q) :: statements es
  | _ :: es => statements es

/-- The server `srv` with the answer to the statement `q` fixed: it fails
when `b` is set and succeeds otherwise. -/
def server.with_failure (srv : server) (q : List Char) (b : Bool) : server :=
  { srv with fails := fun s => if s = q then b else srv.fails s }

/-- One more error counted. -/
def dump_run.bump (r : dump_run) : dump_run :=
  { r with errors := r.errors + 1 }

/-- The table that the server reports as missing at the first attempt. -/
def dropped_table_error (table : String) (n : Nat) : Option (List Char) :=
  if n = 0 then some (bytes "Table '" ++ bytes table ++ bytes "' doesn't exist") else none

end Mydumper

namespace Mydumper

open Glib

/-! ### `long_query_wait` -/

/-- Mirrors `isspace` in the C locale. -/
def isspace (c : Char) : Bool :=
  c = ' ' || (9 ≤ c.toNat && c.toNat ≤ 13)

/-- The decimal digits at the start of the string, read onto `acc`. -/
def read_digits : List Char → Nat → Nat
  | [], acc => acc
  | c :: cs, acc =>
    if c.isDigit then read_digits cs (acc * 10 + (c.toNat - 48)) else acc

/-- Mirrors `strtol (s, NULL, 10)`: white space, an optional sign, digits; a
value outside `long` is replaced by the nearest bound. -/
def strtol (s : List Char) : Int :=
  let v : Int :=
    match s.dropWhile isspace with
    | '-' :: ds => - (read_digits ds 0 : Int)
    | '+' :: ds => (read_digits ds 0 : Int)
    | ds => (read_digits ds 0 : Int)
  max (-(2 : Int) ^ 63) (min v ((2 : Int) ^ 63 - 1))

/-- Mirrors `atol`. -/
def atol (s : List Char) : Int := strtol s

/-- Mirrors `atoi`: the value of `strtol` cut to an `int`. -/
def atoi (s : List Char) : Int :=
  (strtol s + (2 : Int) ^ 31) % (2 : Int) ^ 32 - (2 : Int) ^ 31

/-- One answer of the server to `SHOW PROCESSLIST`. -/
structure processlist where
  /-- Whether `mysql_query (conn, "SHOW PROCESSLIST")` returns non-zero -/
  query_fails : Bool
  /-- The names of the columns, `fields[i].name` -/
  fields : List (List Char)
  /-- the rows, a `NULL` cell being `none` -/
  rows : List (List (Option (List Char)))
  /-- Whether the `mysql_query` of this `KILL` statement returns non-zero -/
  kill_fails : List Char → Bool

/-- The variables `tcol`, `ccol`, `icol` and `ucol`, `none` for `-1`. -/
structure processlist_columns where
  tcol : Option Nat
  ccol : Option Nat
  icol : Option Nat
  ucol : Option Nat
  deriving DecidableEq, Repr

/-- The loop of lines 600-609 over the fields, from field `i` on. -/
def find_columns : List (List Char) → Nat → processlist_columns → processlist_columns
  | [], _, c => c
  | name :: fields, i, c =>
    find_columns fields (i + 1)
      (if strcasecmp_eq name (bytes "Command") then { c with ccol := some i }
       else if strcasecmp_eq name (bytes "Time") then { c with tcol := some i }
       else if strcasecmp_eq name (bytes "Id") then { c with icol := some i }
       else if strcasecmp_eq name (bytes "User") then { c with ucol := some i }
       else c)

/-- The statement `g_strdup_printf ("KILL %lu", atol (id))`. -/
def kill_query (id : List Char) : List Char :=
  bytes "KILL " ++ (Nat.repr (atol id % (2 : Int) ^ 64).toNat).data

/-- What the body of the loop over the rows does with one row. -/
inductive row_verdict where
  /-- Neither counted nor killed: a `continue`, or a `Time` within the guard -/
  | passed
  /-- The `longquery_count++` of line 630 -/
  | counted
  /-- a `KILL` that succeeds -/
  | killed (query : List Char)
  /-- A `KILL` that fails, with the `longquery_count++` of line 624 -/
  | kill_failed (query : List Char)
  /-- a read of `row[-1]`, or `atol (NULL)` -/
  | crash
  deriving DecidableEq, Repr

/-- Lines 615-632 for one row; `row[ucol]` is read with `ucol` unchecked. -/
def check_row (longquery : Int) (killqueries : Bool) (kill_fails : List Char → Bool)
    (tcol ccol icol : Nat) (ucol : Option Nat) (row : List (Option (List Char))) :
    row_verdict :=
  if (match row.getD ccol none with
      | some command => decide (command ≠ bytes "Query")
      | none => false) then row_verdict.passed
  else
    match ucol with
    | none => row_verdict.crash
    | some ucol =>
      if (match row.getD ucol none with
          | some user => decide (user = bytes "system user")
          | none => false) then row_verdict.passed
      else if (match row.getD tcol none with
               | some time => decide (atoi time > longquery)
               | none => false) then
        if killqueries then
          match row.getD icol none with
          | none => row_verdict.crash
          | some id =>
            if kill_fails (kill_query id) then row_verdict.kill_failed (kill_query id)
            else row_verdict.killed (kill_query id)
        else row_verdict.counted
      else row_verdict.passed

/-- The state of the loop over the rows. -/
structure row_scan where
  longquery_count : Nat
  /-- The `KILL` statements sent, oldest first -/
  kills : List (List Char)
  crashed : Bool
  deriving DecidableEq, Repr

/-- The loop `while ((row = mysql_fetch_row (res)))` of lines 614-633. -/
def check_rows (longquery : Int) (killqueries : Bool) (kill_fails : List Char → Bool)
    (tcol ccol icol : Nat) (ucol : Option Nat) :
    List (List (Option (List Char))) → row_scan → row_scan
  | [], s => s
  | row :: rows, s =>
    match check_row longquery killqueries kill_fails tcol ccol icol ucol row with
    | row_verdict.passed =>
      check_rows longquery killqueries kill_fails tcol ccol icol ucol rows s
    | row_verdict.counted =>
      check_rows longquery killqueries kill_fails tcol ccol icol ucol rows
        { s with longquery_count := s.longquery_count + 1 }
    | row_verdict.killed q =>
      check_rows longquery killqueries kill_fails tcol ccol icol ucol rows
        { s with kills := s.kills ++ [q] }
    | row_verdict.kill_failed q =>
      check_rows longquery killqueries kill_fails tcol ccol icol ucol rows
        { s with longquery_count := s.longquery_count + 1, kills := s.kills ++ [q] }
    | row_verdict.crash => { s with crashed := true }

/-- How one pass of the loop of `long_query_wait` ends. -/
inductive inspection where
  /-- The statement `SHOW PROCESSLIST` fails: a warning and `break` -/
  | query_failed
  /-- one of `tcol`, `ccol`, `icol` is missing: `exit (EXIT_FAILURE)` -/
  | columns_missing
  /-- The rows have been read, or read up to a crash -/
  | scanned (s : row_scan)
  deriving DecidableEq, Repr

/-- Lines 587-634: one `SHOW PROCESSLIST` and the scan of its rows. -/
def inspect (longquery : Int) (killqueries : Bool) (p : processlist) : inspection :=
  if p.query_fails then inspection.query_failed
  else
    let c := find_columns p.fields 0 { tcol := none, ccol := none, icol := none, ucol := none }
    match c.tcol, c.ccol, c.icol with
    | some tcol, some ccol, some icol =>
      inspection.scanned
        (check_rows longquery killqueries p.kill_fails tcol ccol icol c.ucol p.rows
          { longquery_count := 0, kills := [], crashed := false })
    | _, _, _ => inspection.columns_missing

/-- What `long_query_wait` does to the server and to the clock. -/
inductive guard_event where
  /-- The `mysql_query` of `SHOW PROCESSLIST` -/
  | show_processlist
  /-- the `mysql_query` of a `KILL` statement -/
  | kill (query : List Char)
  /-- Mirrors `sleep (longquery_retry_interval)` -/
  | sleep (seconds : Nat)
  deriving DecidableEq, Repr

/-- A run of `long_query_wait`; the status `running` stands for a return. -/
structure guard_run where
  events : List guard_event
  status : dump_status
  deriving DecidableEq, Repr

/-- The events `pre`, then the run `r`. -/
def guard_run.after (pre : List guard_event) (r : guard_run) : guard_run :=
  { r with events := pre ++ r.events }

/-- Mirrors `long_query_wait` (lines 584-655).  The first argument bounds the
passes of `while (TRUE)`, `none` being a run that needs more of them;
`processlist n` is the answer of the server to the statement of pass `n`.
The globals `longquery`, `killqueries`, `longquery_retry_interval` and
`longquery_retries` are `int`; `sleep` takes an `unsigned int`. -/
def long_query_wait (longquery : Int) (killqueries : Bool) (longquery_retry_interval : Int)
    (processlist : Nat → processlist) : Nat → Int → Nat → Option guard_run
  | 0, _, _ => none
  | fuel + 1, longquery_retries, n =>
    match inspect longquery killqueries (processlist n) with
    | inspection.query_failed =>
      some { events := [guard_event.show_processlist], status := dump_status.running }
    | inspection.columns_missing =>
      some { events := [guard_event.show_processlist], status := dump_status.exit_failure }
    | inspection.scanned s =>
      let evs := guard_event.show_processlist :: s.kills.map guard_event.kill
      if s.crashed then some { events := evs, status := dump_status.crashed }
      else if s.longquery_count = 0 then some { events := evs, status := dump_status.running }
      else if longquery_retries = 0 then
        some { events := evs, status := dump_status.exit_failure }
      else
        (long_query_wait longquery killqueries longquery_retry_interval processlist
            fuel (longquery_retries - 1) (n + 1)).map
          (guard_run.after
            (evs ++ [guard_event.sleep (longquery_retry_interval % (2 : Int) ^ 32).toNat]))

end Mydumper
namespace Mydumper

open Glib

/-! ### The long query guard: what the theorems speak of -/

/-- The three tests of lines 615-619 as the code makes them: `Command` is
`NULL` or equal to `Query`, `User` is `NULL` or differs from `system user`,
`Time` is not `NULL` and `atoi` of it is above `longquery`. -/
def long_query_row (longquery : Int) (tcol ccol ucol : Nat)
    (row : List (Option (List Char))) : Bool :=
  (match row.getD ccol none with
   | some command => command == bytes "Query"
   | none => true) &&
  (match row.getD ucol none with
   | some user => user != bytes "system user"
   | none => true) &&
  (match row.getD tcol none with
   | some time => decide (atoi time > longquery)
   | none => false)

/-- The three conditions in the words of the specification: `Command`
equals `Query`, `User` is not `system user`, `Time` is above the
threshold. -/
def specified_long_query_row (longquery : Int) (tcol ccol ucol : Nat)
    (row : List (Option (List Char))) : Bool :=
  (row.getD ccol none == some (bytes "Query")) &&
  (row.getD ucol none != some (bytes "system user")) &&
  (match row.getD tcol none with
   | some time => decide (atoi time > longquery)
   | none => false)

/-- The `KILL` statement for the `Id` of a row. -/
def kill_query_of (icol : Nat) (row : List (Option (List Char))) : List Char :=
  kill_query ((row.getD icol none).getD [])

/-- Whether the row has raised `longquery_count`. -/
def row_verdict.is_counted : row_verdict → Bool
  | row_verdict.counted => true
  | row_verdict.kill_failed _ => true
  | _ => false

/-- The events of one pass that reads all its rows. -/
def pass_events (longquery : Int) (killqueries : Bool) (p : processlist) : List guard_event :=
  match inspect longquery killqueries p with
  | inspection.scanned s => guard_event.show_processlist :: s.kills.map guard_event.kill
  | _ => [guard_event.show_processlist]

/-- The events of the passes `n`, ..., `n + k`, with a `sleep` of the retry
interval between one pass and the next. -/
def retry_events (longquery : Int) (killqueries : Bool) (longquery_retry_interval : Int)
    (processlist : Nat → processlist) : Nat → Nat → List guard_event
  | n, 0 => pass_events longquery killqueries (processlist n)
  | n, k + 1 =>
    pass_events longquery killqueries (processlist n) ++
      guard_event.sleep (longquery_retry_interval % (2 : Int) ^ 32).toNat ::
      retry_events longquery killqueries longquery_retry_interval processlist (n + 1) k

/-- Whether pass `n` reads all its rows and counts at least one of them. -/
def long_queries_at (longquery : Int) (killqueries : Bool) (processlist : Nat → processlist)
    (n : Nat) : Bool :=
  match inspect longquery killqueries (processlist n) with
  | inspection.scanned s => !s.crashed && decide (s.longquery_count ≠ 0)
  | _ => false

/-- Whether pass `n` reads all its rows and counts none. -/
def no_long_queries_at (longquery : Int) (killqueries : Bool)
    (processlist : Nat → processlist) (n : Nat) : Bool :=
  match inspect longquery killqueries (processlist n) with
  | inspection.scanned s => !s.crashed && decide (s.longquery_count = 0)
  | _ => false

/-- The columns of `SHOW PROCESSLIST`. -/
def processlist_fields : List (List Char) :=
  [bytes "Id", bytes "User", bytes "Host", bytes "db", bytes "Command", bytes "Time",
   bytes "State", bytes "Info"]

/-- A row of `SHOW PROCESSLIST`. -/
def processlist_row (id user command time : Option String) : List (Option (List Char)) :=
  [id.map bytes, user.map bytes, some (bytes "localhost"), none, command.map bytes,
   time.map bytes, none, none]

/-- A process list with two queries that have run for 10 and 12 seconds and
an idle connection; every `KILL` succeeds. -/
def two_long_queries : processlist :=
  { query_fails := false, fields := processlist_fields,
    rows := [processlist_row (some "11") (some "app") (some "Query") (some "10"),
             processlist_row (some "12") (some "app") (some "Sleep") (some "900"),
             processlist_row (some "13") (some "app") (some "Query") (some "12")],
    kill_fails := fun _ => false }

/-- A process list with one row whose `Command` is `NULL`. -/
def null_command_row : processlist :=
  { query_fails := false, fields := processlist_fields,
    rows := [processlist_row (some "7") (some "root") none (some "100")],
    kill_fails := fun _ => false }

/-- A process list without rows. -/
def idle_server : processlist :=
  { query_fails := false, fields := processlist_fields, rows := [],
    kill_fails := fun _ => false }

end Mydumper

namespace Mydumper

open Glib

/-- A process list with one query that has run for 100 seconds. -/
def one_long_query : processlist :=
  { query_fails := false, fields := processlist_fields,
    rows := [processlist_row (some "21") (some "app") (some "Query") (some "100")],
    kill_fails := fun _ => false }

/-- A server with a long query at the first pass and none afterwards. -/
def long_query_once (n : Nat) : processlist :=
  if n = 0 then one_long_query else idle_server

end Mydumper

namespace Mydumper

open Glib

/-! ### `get_table_info_to_process_from_list` -/

/-- What `get_table_info_to_process_from_list` does to the server and to the
job queues. -/
inductive table_list_event where
  /-- The `mysql_query` of a `SHOW TABLE STATUS` statement -/
  | query (q : List Char)
  /-- Mirrors `create_job_to_dump_schema (database->name, conf)` -/
  | create_job_to_dump_schema (database : List Char)
  /-- Mirrors `new_table_to_dump (conn, conf, is_view, database, row[0], row[6],
  row[ecol])` -/
  | new_table_to_dump (is_view : Bool) (database : List Char)
      (table datalength engine : Option (List Char))
  deriving DecidableEq, Repr

/-- The answer of the server to the statement for one entry of the table
list. -/
structure table_status where
  /-- Whether `mysql_query` returns non-zero -/
  query_fails : Bool
  /-- The rows of the result, `none` when `mysql_store_result` returns `NULL` -/
  result : Option (List (List (Option (List Char))))
  /-- the column that `determine_ecol_ccol` stores in `ecol` -/
  ecol : Nat
  /-- The column that `determine_ecol_ccol` stores in `ccol` -/
  ccol : Nat

/-- What surrounds `get_table_info_to_process_from_list`. -/
structure table_list_env where
  detected_server : server_type
  /-- The answer to the statement sent for `table_list[x]` -/
  table_status : Nat → table_status
  /-- Mirrors `get_database (conn, name, &database)`: the value returned and the
  name of the object left in `database`, `none` when that is `NULL` -/
  get_database : List Char → Bool × Option (List Char)
  /-- Whether `tables_skiplist_file` is set -/
  tables_skiplist_file : Bool
  /-- Mirrors `check_skiplist (database->name, row[0])` -/
  check_skiplist : List Char → Option (List Char) → Bool
  /-- Mirrors `eval_regex (database->name, row[0])` -/
  eval_regex : List Char → Option (List Char) → Bool

/-- The loop over the rows of one result (lines 558-577). -/
def table_rows (env : table_list_env) (database : List Char) (ecol ccol : Nat) :
    List (List (Option (List Char))) → List table_list_event
  | [] => []
  | row :: rows =>
    let is_view : Bool :=
      decide (env.detected_server = server_type.SERVER_TYPE_MYSQL) &&
      (match row.getD ccol none with
       | none => true
       | some comment => comment == bytes "VIEW")
    if env.tables_skiplist_file && env.check_skiplist database (row.getD 0 none) then
      table_rows env database ecol ccol rows
    else if !env.eval_regex database (row.getD 0 none) then
      table_rows env database ecol ccol rows
    else
      table_list_event.new_table_to_dump is_view database (row.getD 0 none) (row.getD 6 none)
          (row.getD ecol none) ::
        table_rows env database ecol ccol rows

/-- A run of `get_table_info_to_process_from_list`: its events, the increments
of the global `errors`, the databases whose `already_dumped` is set at the
end, and whether it has returned (`running`) or crashed. -/
structure table_list_run where
  events : List table_list_event
  errors : Nat
  already_dumped : List (List Char)
  status : dump_status
  deriving DecidableEq, Repr

/-- The events `pre`, then the run `r`. -/
def table_list_run.after (pre : List table_list_event) (r : table_list_run) :
    table_list_run :=
  { r with events := pre ++ r.events }

/-- Mirrors `get_table_info_to_process_from_list` (lines 518-582), from the entry
`table_list[x]` on; `dumped` holds the databases whose `already_dumped` is
set.  An entry without a dot has `dt[1] == NULL`, printed as `(null)`; an
empty entry has `dt[0] == NULL` and `dt[1]` beyond the vector.  The object
`database` is used through `database->already_dumped` and
`database->name`, so a `NULL` left there by `get_database` ends the run at
the first use. -/
def get_table_info_to_process_from_list (env : table_list_env) :
    List (List Char) → Nat → List (List Char) → table_list_run
  | [], _, dumped =>
    { events := [], errors := 0, already_dumped := dumped, status := dump_status.running }
  | entry :: table_list, x, dumped =>
    match g_strsplit entry '.' with
    | [] =>
      { events := [], errors := 0, already_dumped := dumped, status := dump_status.crashed }
    | dt0 :: dt =>
      let query : List Char :=
        bytes "SHOW TABLE STATUS FROM " ++ dt0 ++ bytes " LIKE '" ++
          dt.headD (bytes "(null)") ++ bytes "'"
      if (env.table_status x).query_fails then
        { events := [table_list_event.query query], errors := 1, already_dumped := dumped,
          status := dump_status.running }
      else
        match (env.get_database dt0).2 with
        | none =>
          if (env.get_database dt0).1 then
            { events := [table_list_event.query query], errors := 0,
              already_dumped := dumped, status := dump_status.crashed }
          else
            match (env.table_status x).result with
            | some [] =>
              (get_table_info_to_process_from_list env table_list (x + 1) dumped).after
                [table_list_event.query query]
            | _ =>
              { events := [table_list_event.query query], errors := 0,
                already_dumped := dumped, status := dump_status.crashed }
        | some database =>
          let schema : Bool := (env.get_database dt0).1 && !dumped.contains database
          let evs : List table_list_event :=
            table_list_event.query query ::
              (if schema then [table_list_event.create_job_to_dump_schema database] else [])
          let dumped1 : List (List Char) := if schema then database :: dumped else dumped
          match (env.table_status x).result with
          | none =>
            { events := evs, errors := 1, already_dumped := dumped1,
              status := dump_status.running }
          | some rows =>
            (get_table_info_to_process_from_list env table_list (x + 1) dumped1).after
              (evs ++ table_rows env database (env.table_status x).ecol
                (env.table_status x).ccol rows)

/-- The tables `db.t1` and `db.t2` are asked for; each statement returns one
row of an InnoDB table. -/
def two_tables_env : table_list_env :=
  { detected_server := server_type.SERVER_TYPE_MYSQL,
    table_status := fun x =>
      { query_fails := false,
        result := some [[some (bytes (if x = 0 then "t1" else "t2")), some (bytes "InnoDB"),
                         none, none, none, none, some (bytes "16384"), some (bytes "")]],
        ecol := 1, ccol := 7 },
    get_database := fun name => (true, some name),
    tables_skiplist_file := false,
    check_skiplist := fun _ _ => false,
    eval_regex := fun _ _ => true }

/-- The options `--database a --no-schemas`. -/
def no_schemas_config : dump_config :=
  { default_config with no_schemas := true, db_items := some [bytes "a"] }

/-- The options `--database a,a`. -/
def repeated_database_config : dump_config :=
  { default_config with db_items := some [bytes "a", bytes "a"] }

end Mydumper

namespace Mydumper

open Glib

/-- The options `--database a` together with a table list holding `a.t`. -/
def database_and_tables_config : dump_config :=
  { default_config with db_items := some [bytes "a"], tables := some [bytes "a.t"] }

end Mydumper

namespace Mydumper

open Glib

/-! ### The less locking mode: what the theorems speak of -/

/-- The sum of the data lengths of the tables. -/
def total_length (tables : List db_table) : Nat :=
  (tables.map db_table.datalength).sum

/-- The largest data length among the tables, zero for no table. -/
def max_length (tables : List db_table) : Nat :=
  (tables.map db_table.datalength).foldr max 0

/-- The largest of the running sums. -/
def max_load (nits : List Nat) : Nat :=
  nits.foldr max 0

/-- The arrays `nits` and `nitl` as lines 944-947 leave them. -/
def empty_packing (num_threads : Nat) : packing :=
  { nits := List.replicate num_threads 0, nitl := List.replicate num_threads [], tn := 0 }

/-- A table of the given data length, named after it. -/
def table_of_length (n : Nat) : db_table :=
  { table := (Nat.repr n).data, datalength := n }

end Mydumper

namespace Mydumper

open Glib

/-- The options `--less-locking` with two workers. -/
def less_locking_config : dump_config :=
  { default_config with less_locking := true }

/-- The sample server with one non-transactional table, which is empty. -/
def one_empty_table : server :=
  { percona57 with non_innodb_table := [table_of_length 0] }

end Mydumper

namespace Mydumper

open Glib

/-! ### `initialize_start_dump` -/

/-- The globals of the unit as the option parser leaves them. -/
structure dump_options where
  no_locks : Bool
  no_backup_locks : Bool
  lock_all_tables : Bool
  trx_consistency_only : Bool
  less_locking : Bool
  no_schemas : Bool
  dump_tablespaces : Bool
  num_threads : Nat
  tidb_snapshot : Option (List Char)
  /-- The option `--set-names`, `none` for `NULL` -/
  set_names_str : Option (List Char)
  /-- The option `--database`, `none` for `NULL` -/
  db : Option (List Char)
  tables : Option (List (List Char))
  pmm_path : Option (List Char)
  pmm_resolution : Option (List Char)
  stream : Bool
  exec_command : Option (List Char)

/-- The globals as `initialize_start_dump` leaves them. -/
structure initialized where
  /-- The options that `start_dump` reads -/
  cfg : dump_config
  pmm : Bool
  pmm_path : Option (List Char)
  pmm_resolution : Option (List Char)
  /-- The value `exit_failure` for the `exit` of line 236 -/
  status : dump_status

/-- Mirrors `initialize_start_dump` (lines 197-239), without the tables it
allocates. -/
def initialize_start_dump (o : dump_options) : initialized :=
  { cfg :=
      { no_locks := o.no_locks, no_backup_locks := o.no_backup_locks,
        lock_all_tables := o.lock_all_tables,
        trx_consistency_only := o.trx_consistency_only,
        less_locking := if o.no_locks || o.trx_consistency_only then false else o.less_locking,
        no_schemas := o.no_schemas, dump_tablespaces := o.dump_tablespaces,
        num_threads := o.num_threads, tidb_snapshot := o.tidb_snapshot,
        set_names :=
          (match o.set_names_str with
           | some s => if s.length ≠ 0 then some s else none
           | none => some (bytes "binary")),
        db_items := o.db.map fun db => g_strsplit db ',',
        tables := o.tables },
    pmm := o.pmm_path.isSome || o.pmm_resolution.isSome,
    pmm_path :=
      (match o.pmm_path with
       | some path => some path
       | none => o.pmm_resolution.map fun r =>
           bytes "/usr/local/percona/pmm2/collectors/textfile-collector/" ++ r ++
             bytes "-resolution"),
    pmm_resolution :=
      (match o.pmm_path, o.pmm_resolution with
       | some _, none => some (bytes "high")
       | _, r => r),
    status := if o.stream && o.exec_command.isSome then dump_status.exit_failure
              else dump_status.running }

/-! ### The kinds of event of `start_dump` -/

/-- What an event of `start_dump` acts on. -/
inductive event_kind where
  /-- a statement sent to the server, or a call that is not unfolded -/
  | statement
  /-- The start of a worker and the wait for it, in the less locking stage
  or not -/
  | worker (less_locking : Bool)
  /-- a job of the plan, pushed onto a job queue -/
  | job
  /-- An increment of `non_innodb_table_counter` or `non_innodb_done` -/
  | counter
  /-- a push or pop on `conf.unlock_tables` -/
  | gate
  /-- A `JOB_SHUTDOWN` job pushed onto the less locking queue or onto the main
  queue -/
  | shutdown (less_locking : Bool)
  /-- a `g_thread_join` -/
  | join
  deriving DecidableEq, Repr

/-- The kind of an event. -/
def dump_event.kind : dump_event → event_kind
  | dump_event.sql _ _ => event_kind.statement
  | dump_event.call _ => event_kind.statement
  | dump_event.thread_create b _ => event_kind.worker b
  | dump_event.pop_ready b => event_kind.worker b
  | dump_event.create_job_to_dump_tablespaces => event_kind.job
  | dump_event.create_job_to_dump_database _ _ => event_kind.job
  | dump_event.create_job_to_dump_schema _ => event_kind.job
  | dump_event.create_jobs_for_non_innodb_table_list _ => event_kind.job
  | dump_event.create_job_to_dump_table _ => event_kind.job
  | dump_event.non_innodb_table_counter_inc => event_kind.counter
  | dump_event.non_innodb_done_inc => event_kind.counter
  | dump_event.push_unlock_tables => event_kind.gate
  | dump_event.pop_unlock_tables => event_kind.gate
  | dump_event.push_shutdown b => event_kind.shutdown b
  | dump_event.thread_join _ => event_kind.join

/-- Whether the event starts a worker of the less locking stage. -/
def dump_event.starts_less_locking_worker : dump_event → Bool
  | dump_event.thread_create true _ => true
  | _ => false

/-- The options `--less-locking --threads 2`. -/
def less_locking_options : dump_options :=
  { no_locks := false, no_backup_locks := false, lock_all_tables := false,
    trx_consistency_only := false, less_locking := true, no_schemas := false,
    dump_tablespaces := false, num_threads := 2, tidb_snapshot := none,
    set_names_str := none, db := none, tables := none, pmm_path := none,
    pmm_resolution := none, stream := false, exec_command := none }

end Mydumper

namespace Myloader

open Glib

/-! ### The end of `process_stream` -/

/-- What lines 381-395 of `process_stream` do. -/
inductive stream_end_event where
  /-- Mirrors `m_close (file)` -/
  | close_file
  /-- a push onto `intermidiate_queue` -/
  | push_intermidiate (s : List Char)
  /-- Mirrors `g_thread_join (stream_intermidiate_thread)` -/
  | join_intermidiate_thread
  /-- a `JOB_SHUTDOWN` job pushed onto `post_table_queue` -/
  | push_post_table_shutdown
  /-- A `JOB_SHUTDOWN` job pushed onto `post_queue` -/
  | push_post_shutdown
  /-- the token `SHUTDOWN` pushed onto `stream_queue` -/
  | push_stream_shutdown
  deriving DecidableEq, Repr

/-- Lines 381-395: what `process_stream` does after its loop, for the file and
the file name that the loop has left. -/
def stream_epilogue (file_open : Bool) (filename : Option (List Char)) (num_threads : Nat) :
    List stream_end_event :=
  (if file_open then [stream_end_event.close_file] else []) ++
  (match filename with
   | some f => [stream_end_event.push_intermidiate f]
   | none => []) ++
  [stream_end_event.push_intermidiate (bytes "END"),
   stream_end_event.join_intermidiate_thread] ++
  ((List.range num_threads).map fun _ =>
    [stream_end_event.push_post_table_shutdown, stream_end_event.push_post_shutdown,
     stream_end_event.push_stream_shutdown]).flatten

/-- Whether the event pushes a shutdown job or token. -/
def stream_end_event.is_shutdown : stream_end_event → Bool
  | stream_end_event.push_post_table_shutdown => true
  | stream_end_event.push_post_shutdown => true
  | stream_end_event.push_stream_shutdown => true
  | _ => false

end Myloader

namespace Myloader

open Glib

/-- A worker that finds the token `SHUTDOWN` on the stream queue while the
data job of `busy_table` is still pending. -/
def shutdown_worker : worker_state :=
  { conf := { database_queue := [], table_queue := [], table_list := [busy_table] },
    stream_queue := [file_type.SHUTDOWN], processed := [], cont := true }

/-- A worker that finds the token `SHUTDOWN` and no job. -/
def idle_shutdown_worker : worker_state :=
  { conf := { database_queue := [], table_queue := [], table_list := [] },
    stream_queue := [file_type.SHUTDOWN, file_type.DATA], processed := [], cont := true }

end Myloader

namespace Mydumper

open Glib

/-- A row of `SHOW TABLE STATUS` with its 18 columns: `Name`, `Engine` (column
1), `Data_length` (column 6) and `Comment` (column 17) as given, the others
`NULL`. -/
def table_status_row (name engine datalength comment : Option String) :
    List (Option (List Char)) :=
  [name.map bytes, engine.map bytes, none, none, none, none, datalength.map bytes,
   none, none, none, none, none, none, none, none, none, none, comment.map bytes]

/-- A MySQL server that answers the statement for the first entry of the
table list with three rows: a table whose engine is `NULL` and whose comment
is an error text, a table whose comment is `NULL`, and a view. -/
def odd_rows_env : table_list_env :=
  { detected_server := server_type.SERVER_TYPE_MYSQL,
    table_status := fun _ =>
      { query_fails := false,
        result := some [table_status_row (some "t1") none none (some "crashed"),
                        table_status_row (some "t2") (some "InnoDB") (some "16384") none,
                        table_status_row (some "v") none none (some "VIEW")],
        ecol := 1, ccol := 17 },
    get_database := fun name => (true, some name),
    tables_skiplist_file := false,
    check_skiplist := fun _ _ => false,
    eval_regex := fun _ _ => true }

/-- A server on which the statement for the first entry of the table list
fails and the one for the second entry returns one table. -/
def first_query_fails_env : table_list_env :=
  { detected_server := server_type.SERVER_TYPE_MYSQL,
    table_status := fun x =>
      { query_fails := decide (x = 0),
        result := some [table_status_row (some "t2") (some "InnoDB") (some "16384")
                          (some "")],
        ecol := 1, ccol := 17 },
    get_database := fun name => (true, some name),
    tables_skiplist_file := false,
    check_skiplist := fun _ _ => false,
    eval_regex := fun _ _ => true }

end Mydumper

namespace Myloader

open Glib

/-- The stream of one framed file: `a.sql` with the content `X`. -/
def one_file_stream : List Char := bytes "\n-- a.sql\nX"

/-- A stream that ends inside a header line: the line has no closing
newline. -/
def unterminated_header_stream : List Char := bytes "\n-- a.sql"

/-- A header line of 78 bytes, followed by its newline and one byte of
content. -/
def long_header_stream : List Char :=
  bytes "\n-- " ++ List.replicate 70 'a' ++ bytes ".sql\nX"

/-- The bytes in the buffer and the bytes still to be read are at most `n`,
and the part kept from the last pass lies within the buffer. -/
def stream_state.within (st : stream_state) (n : Nat) : Prop :=
  st.diff ≤ st.buffer_len ∧ st.buffer_len + st.input.length ≤ n

end Myloader

namespace Mydumper

open Glib

/-! ### The disk space monitor and the signal handler -/

/-- What `monitor_disk_space_thread` and `sig_triggered` do to the mutexes
`pause_mutex_per_thread`, to the pause queue and to the terminal. -/
inductive pause_event where
  /-- Mirrors `g_mutex_lock (pause_mutex_per_thread[i])` -/
  | lock (i : Nat)
  /-- Mirrors `g_async_queue_push (queue, pause_mutex_per_thread[i])` -/
  | push (i : Nat)
  /-- Mirrors `g_mutex_unlock (pause_mutex_per_thread[i])` -/
  | unlock (i : Nat)
  /-- Mirrors `sleep (seconds)` -/
  | sleep (seconds : Nat)
  /-- the question `Ctrl+c detected! Are you sure you want to cancel(Y/N)?`
  printed on standard output -/
  | prompt
  deriving DecidableEq, Repr

/-- Mirrors `is_disk_space_ok (val)` (lines 345-355).  `statvfs` is `none` when
the call fails and holds `f_bfree` and `f_frsize` otherwise.  The code
computes `(double) (f_bfree * f_frsize) / 1024 / 1024 > val` with the product
taken in `unsigned long`.  The two divisions are exact in binary floating
point, and the conversion of the product is exact below `2^53` and gives at
least `2^53` from there on, which is above every `val * 2^20` of a `guint`
`val`; the comparison is therefore the same as the one of the product with
`val * 2^20` in integers. -/
def is_disk_space_ok (statvfs : Option (Nat × Nat)) (val : Nat) : Bool :=
  match statvfs with
  | some (f_bfree, f_frsize) => decide (f_bfree * f_frsize % 2 ^ 64 > val * 2 ^ 20)
  | none => true

/-- The loop `for (i = 0; i < num_threads; i++)` that locks each mutex and
pushes it onto the queue. -/
def lock_round (num_threads : Nat) : List pause_event :=
  ((List.range num_threads).map fun i => [pause_event.lock i, pause_event.push i]).flatten

/-- The loop `for (i = 0; i < num_threads; i++)` that unlocks each mutex. -/
def unlock_round (num_threads : Nat) : List pause_event :=
  (List.range num_threads).map pause_event.unlock

/-- A run of `monitor_disk_space_thread` over some passes of its loop. -/
structure monitor_run where
  events : List pause_event
  /-- The variable `previous_state` after the last pass -/
  previous_state : Bool
  deriving DecidableEq, Repr

/-- Mirrors `monitor_disk_space_thread` (lines 357-388): the passes of `while
(disk_limits != NULL)`, one for each answer of `statvfs` in the list, started
with the given `previous_state` (`TRUE` at line 365). -/
def monitor_disk_space_thread (num_threads pause_at resume_at : Nat) :
    List (Option (Nat × Nat)) → Bool → monitor_run
  | [], previous_state => { events := [], previous_state := previous_state }
  | statvfs :: later, previous_state =>
    let current_state : Bool :=
      if previous_state then is_disk_space_ok statvfs pause_at
      else is_disk_space_ok statvfs resume_at
    let r := monitor_disk_space_thread num_threads pause_at resume_at later current_state
    { r with events :=
        (if previous_state != current_state then
           (if !current_state then lock_round num_threads else unlock_round num_threads)
         else []) ++ pause_event.sleep 10 :: r.events }

/-- The signals that `sig_triggered_int` and `sig_triggered_term` pass on. -/
inductive signal where
  | SIGINT
  | SIGTERM
  deriving DecidableEq, Repr

/-- The globals that `sig_triggered` reads and writes. -/
structure signal_state where
  shutdown_triggered : Bool
  /-- Whether `pause_mutex_per_thread` is allocated -/
  pause_mutex_per_thread : Bool
  /-- whether `pause_resume` of the configuration is allocated -/
  pause_resume : Bool
  deriving DecidableEq, Repr

/-- A call of `sig_triggered` that returns. -/
structure signal_run where
  events : List pause_event
  state : signal_state
  /-- The value returned; `TRUE` keeps the handler installed -/
  result : Bool
  /-- the part of standard input that was not read -/
  stdin : List Char
  deriving DecidableEq, Repr

/-- The loop `while (1)` of lines 416-431 on the bytes of standard input: the
answer (`true` for `Y` or `y`) and the bytes left.  At the end of the input
`fgetc` returns `EOF` for ever and the loop does not end: `none`. -/
def read_answer : List Char → Option (Bool × List Char)
  | [] => none
  | c :: cs =>
    if c = 'N' ∨ c = 'n' then some (false, cs)
    else if c = 'Y' ∨ c = 'y' then some (true, cs)
    else read_answer cs

/-- Mirrors `sig_triggered` (lines 392-442); `none` when it never returns. -/
def sig_triggered (num_threads : Nat) (daemon_mode : Bool) (st : signal_state)
    (sig : signal) (stdin : List Char) : Option signal_run :=
  match sig with
  | signal.SIGTERM =>
    some { events := [], state := { st with shutdown_triggered := true }, result := false,
           stdin := stdin }
  | signal.SIGINT =>
    let st1 : signal_state := { st with pause_mutex_per_thread := true, pause_resume := true }
    if !daemon_mode then
      match read_answer stdin with
      | none => none
      | some (false, rest) =>
        some { events := pause_event.prompt :: lock_round num_threads ++
                           unlock_round num_threads,
               state := st1, result := true, stdin := rest }
      | some (true, rest) =>
        some { events := pause_event.prompt :: lock_round num_threads ++
                           unlock_round num_threads,
               state := { st1 with shutdown_triggered := true }, result := false,
               stdin := rest }
    else some { events := [], state := st1, result := false, stdin := stdin }

/-! ### The monitor and the handler: what the theorems speak of -/

/-- The free space in MB that `is_disk_space_ok` measures. -/
def free_mb (f_bfree f_frsize : Nat) : ℚ :=
  ((f_bfree * f_frsize % 2 ^ 64 : Nat) : ℚ) / 1024 / 1024

/-- The rounds of `k` changes of state in a row: lock and unlock rounds in
turn, the first one a lock round when `lock_first` is set. -/
def alternating_rounds (num_threads : Nat) : Bool → Nat → List pause_event
  | _, 0 => []
  | lock_first, k + 1 =>
    (if lock_first then lock_round num_threads else unlock_round num_threads) ++
      alternating_rounds num_threads (!lock_first) k

/-- Whether the event is a `sleep`. -/
def pause_event.is_sleep : pause_event → Bool
  | pause_event.sleep _ => true
  | _ => false

/-- Whether the byte is one of the answers `Y`, `y`, `N`, `n`. -/
def is_answer (c : Char) : Bool :=
  c = 'Y' || c = 'y' || c = 'N' || c = 'n'

/-- 10 MB free: 2560 blocks of 4096 bytes. -/
def ten_mb_free : Option (Nat × Nat) := some (2560, 4096)

/-- The globals before any signal. -/
def no_signal_yet : signal_state :=
  { shutdown_triggered := false, pause_mutex_per_thread := false, pause_resume := false }

end Mydumper

namespace Mydumper

open Glib

/-! ### `write_snapshot_info` -/

/-- A result set as `mysql_store_result` returns it. -/
structure mysql_result where
  /-- The names of the columns, `fields[i].name` -/
  fields : List (List Char)
  /-- the rows, a `NULL` cell being `none` -/
  rows : List (List (Option (List Char)))
  deriving DecidableEq, Repr

/-- What `fprintf` writes for a `%s`: the string, and `(null)` for `NULL`. -/
def printf_s : Option (List Char) → List Char
  | some s => s
  | none => bytes "(null)"

/-- The variables `masterlog`, `masterpos` and `mastergtid` after lines
258-276, with the statements sent to the server on the way. -/
structure master_vars where
  masterlog : Option (List Char)
  masterpos : Option (List Char)
  mastergtid : Option (List Char)
  queries : List (List Char)
  deriving DecidableEq, Repr

/-- Lines 258-276 of `write_snapshot_info`.  The server is the function that
sends a statement with `mysql_query` and fetches its result with
`mysql_store_result`, `none` being `NULL`: the statement failed, or it has
no result set. -/
def read_master_status (server : List Char → Option mysql_result) : master_vars :=
  match server (bytes "SHOW MASTER STATUS") with
  | some ⟨fields, row :: _⟩ =>
    if fields.length = 5 then
      { masterlog := row.getD 0 none, masterpos := row.getD 1 none,
        mastergtid := row.getD 4 none, queries := [bytes "SHOW MASTER STATUS"] }
    else
      { masterlog := row.getD 0 none, masterpos := row.getD 1 none,
        mastergtid :=
          (match server (bytes "SELECT @@gtid_binlog_pos") with
           | some ⟨_, r :: _⟩ => r.getD 0 none
           | _ => none),
        queries := [bytes "SHOW MASTER STATUS", bytes "SELECT @@gtid_binlog_pos"] }
  | _ =>
    { masterlog := none, masterpos := none, mastergtid := none,
      queries := [bytes "SHOW MASTER STATUS"] }

/-- The variables `connname`, `slavehost`, `slavelog`, `slavepos` and
`slavegtid`, declared before the loop over the rows and kept from one row to
the next. -/
structure slave_vars where
  connname : Option (List Char)
  slavehost : Option (List Char)
  slavelog : Option (List Char)
  slavepos : Option (List Char)
  slavegtid : Option (List Char)
  deriving DecidableEq, Repr

/-- The loop `for (i = 0; i < mysql_num_fields (slave); i++)` of lines 302-316
over the fields from field `i` on. -/
def read_slave_fields (isms : Bool) (row : List (Option (List Char))) :
    List (List Char) → Nat → slave_vars → slave_vars
  | [], _, v => v
  | name :: fields, i, v =>
    let v1 : slave_vars :=
      if isms && strcasecmp_eq (bytes "connection_name") name then
        { v with connname := row.getD i none }
      else v
    read_slave_fields isms row fields (i + 1)
      (if strcasecmp_eq (bytes "exec_master_log_pos") name then
         { v1 with slavepos := row.getD i none }
       else if strcasecmp_eq (bytes "relay_master_log_file") name then
         { v1 with slavelog := row.getD i none }
       else if strcasecmp_eq (bytes "master_host") name then
         { v1 with slavehost := row.getD i none }
       else if strcasecmp_eq (bytes "Executed_Gtid_Set") name ||
           strcasecmp_eq (bytes "Gtid_Slave_Pos") name then
         { v1 with slavegtid := row.getD i none }
       else v1)

/-- What the loop over the rows of the replica status leaves. -/
structure slave_scan where
  /-- The text written to the file -/
  file : List Char
  /-- the `guint` counter `slave_count` -/
  slave_count : Nat
  deriving DecidableEq, Repr

/-- The loop `while (slave && (row = mysql_fetch_row (slave)))` of lines
300-327, with `slave_count` as it stands before the rows. -/
def write_slave_rows (isms : Bool) (fields : List (List Char)) :
    List (List (Option (List Char))) → slave_vars → Nat → slave_scan
  | [], _, slave_count => { file := [], slave_count := slave_count }
  | row :: rows, v, slave_count =>
    let v1 := read_slave_fields isms row fields 0 v
    if v1.slavehost.isSome then
      let later := write_slave_rows isms fields rows v1 ((slave_count + 1) % 2 ^ 32)
      { slave_count := later.slave_count,
        file :=
          bytes "SHOW SLAVE STATUS:" ++
          (if isms then bytes "\n\tConnection name: " ++ printf_s v1.connname else []) ++
          bytes "\n\tHost: " ++ printf_s v1.slavehost ++
          bytes "\n\tLog: " ++ printf_s v1.slavelog ++
          bytes "\n\tPos: " ++ printf_s v1.slavepos ++
          bytes "\n\tGTID:" ++ printf_s v1.slavegtid ++ bytes "\n\n" ++ later.file }
    else write_slave_rows isms fields rows v1 slave_count

/-- A call of `write_snapshot_info`. -/
structure snapshot_run where
  /-- The statements sent to the server, oldest first -/
  queries : List (List Char)
  /-- the text written to the metadata file -/
  file : List Char
  /-- The variable `isms` -/
  isms : Bool
  /-- the variable `slave_count` after the loop -/
  slave_count : Nat
  /-- Whether the warning `Multisource replication found.` is logged -/
  warning : Bool
  deriving DecidableEq, Repr

/-- Mirrors `write_snapshot_info` (lines 242-338). -/
def write_snapshot_info (server : List Char → Option mysql_result) : snapshot_run :=
  let m := read_master_status server
  let master_text : List Char :=
    if m.masterlog.isSome then
      bytes "SHOW MASTER STATUS:\n\tLog: " ++ printf_s m.masterlog ++
      bytes "\n\tPos: " ++ printf_s m.masterpos ++
      bytes "\n\tGTID:" ++ printf_s m.mastergtid ++ bytes "\n\n"
    else []
  let isms : Bool :=
    match server (bytes "SELECT @@default_master_connection") with
    | some rest => decide (rest.rows.length ≠ 0)
    | none => false
  let status_query : List Char :=
    if isms then bytes "SHOW ALL SLAVES STATUS" else bytes "SHOW SLAVE STATUS"
  let s : slave_scan :=
    match server status_query with
    | some slave =>
      write_slave_rows isms slave.fields slave.rows
        { connname := none, slavehost := none, slavelog := none, slavepos := none,
          slavegtid := none } 0
    | none => { file := [], slave_count := 0 }
  { queries := m.queries ++ [bytes "SELECT @@default_master_connection", status_query],
    file := master_text ++ s.file,
    isms := isms,
    slave_count := s.slave_count,
    warning := decide (s.slave_count > 1) }

/-! ### The snapshot coordinates: what the theorems speak of -/

/-- The cell of the row in the last column, from column `i` on, whose name
passes the test, and `acc` when no column does. -/
def last_value (test : List Char → Bool) (row : List (Option (List Char)))
    (fields : List (List Char)) (i : Nat) (acc : Option (List Char)) : Option (List Char) :=
  match ((fields.enumFrom i).filter fun p => test p.2).getLast? with
  | some (j, _) => row.getD j none
  | none => acc

/-- The cell of the row in the last column whose name passes the test, `none`
when no column does. -/
def column_value (test : List Char → Bool) (fields : List (List Char))
    (row : List (Option (List Char))) : Option (List Char) :=
  last_value test row fields 0 none

/-- Whether the column is the one of the master host. -/
def is_master_host (name : List Char) : Bool :=
  strcasecmp_eq (bytes "master_host") name

/-- Whether the column holds the GTID position of the replica. -/
def is_slave_gtid (name : List Char) : Bool :=
  strcasecmp_eq (bytes "Executed_Gtid_Set") name || strcasecmp_eq (bytes "Gtid_Slave_Pos") name

/-- The lines of host, log, position and GTID of one replica row. -/
def slave_block_body (fields : List (List Char)) (row : List (Option (List Char))) :
    List Char :=
  bytes "\n\tHost: " ++ printf_s (column_value is_master_host fields row) ++
  bytes "\n\tLog: " ++
    printf_s (column_value (strcasecmp_eq (bytes "relay_master_log_file")) fields row) ++
  bytes "\n\tPos: " ++
    printf_s (column_value (strcasecmp_eq (bytes "exec_master_log_pos")) fields row) ++
  bytes "\n\tGTID:" ++ printf_s (column_value is_slave_gtid fields row) ++ bytes "\n\n"

/-- The block of one replica row: the header, the connection name when
`with_name` is set, then host, log, position and GTID. -/
def slave_block (with_name : Bool) (fields : List (List Char))
    (row : List (Option (List Char))) : List Char :=
  bytes "SHOW SLAVE STATUS:" ++
  (if with_name then
     bytes "\n\tConnection name: " ++
       printf_s (column_value (strcasecmp_eq (bytes "connection_name")) fields row)
   else []) ++
  slave_block_body fields row

/-- The rows of the replica status that have a master host. -/
def rows_with_host (slave : Option mysql_result) : List (List (Option (List Char))) :=
  match slave with
  | some r => r.rows.filter fun row => (column_value is_master_host r.fields row).isSome
  | none => []

/-- One block for each replica row that has a master host, in the order of
the rows. -/
def slave_blocks (with_name : Bool) (slave : Option mysql_result) : List Char :=
  match slave with
  | some r => ((rows_with_host (some r)).map (slave_block with_name r.fields)).flatten
  | none => []

/-- The first cell of the first row of a result, `none` without one. -/
def first_cell (r : Option mysql_result) : Option (List Char) :=
  match r with
  | some ⟨_, row :: _⟩ => row.getD 0 none
  | _ => none

/-- The columns of `SHOW SLAVE STATUS` that the dump reads, as MySQL names
them. -/
def slave_status_fields : List (List Char) :=
  [bytes "Master_Host", bytes "Relay_Master_Log_File", bytes "Exec_Master_Log_Pos",
   bytes "Executed_Gtid_Set"]

/-- A MySQL replica that writes no binary log: `SHOW MASTER STATUS` has no
row, `@@default_master_connection` is unknown, and `SHOW SLAVE STATUS` has
one row. -/
def replica_without_binlog (query : List Char) : Option mysql_result :=
  if query = bytes "SHOW MASTER STATUS" then
    some { fields := [bytes "File", bytes "Position", bytes "Binlog_Do_DB",
                      bytes "Binlog_Ignore_DB", bytes "Executed_Gtid_Set"],
           rows := [] }
  else if query = bytes "SHOW SLAVE STATUS" then
    some { fields := slave_status_fields,
           rows := [[some (bytes "db1"), some (bytes "bin.000007"), some (bytes "154"),
                     some (bytes "")]] }
  else none

/-- A MySQL server with a binary log and no replication. -/
def mysql_master (query : List Char) : Option mysql_result :=
  if query = bytes "SHOW MASTER STATUS" then
    some { fields := [bytes "File", bytes "Position", bytes "Binlog_Do_DB",
                      bytes "Binlog_Ignore_DB", bytes "Executed_Gtid_Set"],
           rows := [[some (bytes "bin.000003"), some (bytes "729"), some (bytes ""),
                     some (bytes ""), some (bytes "uuid:1-5")]] }
  else if query = bytes "SHOW SLAVE STATUS" then
    some { fields := slave_status_fields, rows := [] }
  else none

/-- A MariaDB replica of one master with the default connection, whose name
is the empty string: `@@default_master_connection` has one row with an empty
value. -/
def mariadb_replica (query : List Char) : Option mysql_result :=
  if query = bytes "SHOW MASTER STATUS" then
    some { fields := [bytes "File", bytes "Position", bytes "Binlog_Do_DB",
                      bytes "Binlog_Ignore_DB"],
           rows := [[some (bytes "bin.000003"), some (bytes "729"), some (bytes ""),
                     some (bytes "")]] }
  else if query = bytes "SELECT @@gtid_binlog_pos" then
    some { fields := [bytes "@@gtid_binlog_pos"], rows := [[some (bytes "0-1-9")]] }
  else if query = bytes "SELECT @@default_master_connection" then
    some { fields := [bytes "@@default_master_connection"], rows := [[some (bytes "")]] }
  else if query = bytes "SHOW ALL SLAVES STATUS" ∨ query = bytes "SHOW SLAVE STATUS" then
    some { fields := [bytes "Connection_name", bytes "Master_Host",
                      bytes "Relay_Master_Log_File", bytes "Exec_Master_Log_Pos",
                      bytes "Gtid_Slave_Pos"],
           rows := [[some (bytes ""), some (bytes "db1"), some (bytes "bin.000007"),
                     some (bytes "154"), some (bytes "0-1-9")]] }
  else none

end Mydumper

namespace Myloader

open Glib

/-- One framed file of the stream format, from bytes: the header line and
the bytes of the file. -/
def frame_bytes (path content : List Char) : List Char :=
  bytes "\n-- " ++ path ++ bytes "\n" ++ content

/-- The stream of the two framed files `a.sql`, with `size - 12` bytes `X`,
and `b.sql`, with the content `Y`.  Its first `size - 1` bytes end with the
first byte of the second header line. -/
def straddled_header_stream (size : Nat) : List Char :=
  frame_bytes (bytes "a.sql") (List.replicate (size - 12) 'X') ++
    frame_bytes (bytes "b.sql") (bytes "Y")

/-- The same two framed files with `size - 15` bytes `X` in `a.sql`: the first
`size - 1` bytes end with the prefix of the second header line. -/
def carried_header_stream (size : Nat) : List Char :=
  frame_bytes (bytes "a.sql") (List.replicate (size - 15) 'X') ++
    frame_bytes (bytes "b.sql") (bytes "Y")

end Myloader

/-! # Theorems -/

namespace Myloader

open Glib

/-! ## Helper lemmas on the string functions and on the buffer size -/

theorem g_str_has_suffix_iff (str suffix : List Char) :
    g_str_has_suffix str suffix = true ↔ suffix <:+ str := by
  unfold g_str_has_suffix
  constructor
  · intro h
    split at h
    · simp at h
    · have h2 : str.drop (str.length - suffix.length) = suffix := by simpa using h
      rw [← h2]
      exact List.drop_suffix _ _
  · rintro ⟨t, rfl⟩
    simp

/-- The test `has_mydumper_suffix` holds exactly for the strings that end with one of
the ten suffixes. -/
theorem has_mydumper_suffix_iff (s : List Char) :
    has_mydumper_suffix s = true ↔ ∃ suffix ∈ mydumper_suffixes, suffix <:+ s := by
  simp only [has_mydumper_suffix, mydumper_suffixes, Bool.or_eq_true, g_str_has_suffix_iff,
    List.mem_cons, List.mem_singleton, exists_eq_or_imp, exists_eq_left, List.not_mem_nil,
    false_and, exists_false, or_false, or_assoc]

theorem process_line_input (st : stream_state) :
    (process_line st).input = st.input ∧ (process_line st).reads = st.reads := by
  unfold process_line
  simp only []
  split_ifs <;> simp

theorem read_stream_line_all (st : stream_state) (c c2 : Nat) (hr : st.reads = [])
    (h : st.input.length ≤ c) (h2 : st.input.length ≤ c2) :
    read_stream_line st c = read_stream_line st c2 := by
  unfold read_stream_line
  simp [hr, List.take_of_length_le h, List.take_of_length_le h2,
    List.drop_of_length_le h, List.drop_of_length_le h2]

theorem stream_step_size (size size2 : Nat) (st : stream_state) (hr : st.reads = [])
    (h : st.input.length ≤ size - 1 - st.diff) (h2 : st.input.length ≤ size2 - 1 - st.diff) :
    stream_step size st = stream_step size2 st := by
  unfold stream_step
  cases hc : st.ctl <;> simp only []
  rw [read_stream_line_all st _ _ hr h h2]

theorem stream_loop_size (size size2 : Nat) (fuel : Nat) (st : stream_state)
    (hr : st.reads = []) (hi : st.input = []) :
    stream_loop size fuel st = stream_loop size2 fuel st := by
  induction fuel generalizing st with
  | zero => rfl
  | succ n ih =>
    unfold stream_loop
    have hs : stream_step size st = stream_step size2 st :=
      stream_step_size size size2 st hr (by simp [hi]) (by simp [hi])
    have hk : (stream_step size st).reads = [] ∧ (stream_step size st).input = [] := by
      unfold stream_step
      cases hc : st.ctl <;> simp only []
      · simp only [read_stream_line, hr, hi]
        split_ifs <;> simp
      · split_ifs
        · rw [(process_line_input st).1, (process_line_input st).2]; exact ⟨hr, hi⟩
        · exact ⟨hr, hi⟩
      · exact ⟨hr, hi⟩
      · exact ⟨hr, hi⟩
    cases hc : st.ctl <;> simp only []
    · rw [← hs]; exact ih _ hk.1 hk.2
    · rw [← hs]; exact ih _ hk.1 hk.2

/-- A stream that fits into the buffer at once is processed in the same way
whatever `STREAM_BUFFER_SIZE` is. -/
theorem process_stream_size (size size2 num_threads : Nat)
    (existing : List (List Char × List Char)) (input : List Char) (fuel : Nat)
    (h : input.length ≤ size - 1) (h2 : input.length ≤ size2 - 1) :
    process_stream size num_threads existing [] input (fuel + 1) =
      process_stream size2 num_threads existing [] input (fuel + 1) := by
  have hs : stream_step size (stream_init existing [] input) =
      stream_step size2 (stream_init existing [] input) :=
    stream_step_size size size2 _ rfl (by simpa [stream_init] using h)
      (by simpa [stream_init] using h2)
  have hk : (stream_step size (stream_init existing [] input)).reads = [] ∧
      (stream_step size (stream_init existing [] input)).input = [] := by
    simp only [stream_step, stream_init, read_stream_line]
    split_ifs <;> simp [List.drop_of_length_le h]
  have hl : stream_loop size (fuel + 1) (stream_init existing [] input) =
      stream_loop size2 (fuel + 1) (stream_init existing [] input) := by
    show stream_loop size fuel (stream_step size _) = stream_loop size2 fuel (stream_step size2 _)
    rw [← hs]
    exact stream_loop_size size size2 fuel _ hk.1 hk.2
  unfold process_stream
  rw [hl]

/-! ## C1: stream round-trip -/

set_option maxRecDepth 1000000 in
theorem two_files_stream_run :
    process_stream 64 1 [] [] two_files_stream 20 =
      some { files := [(bytes "a.sql", bytes "XY")],
             intermidiate_queue := [bytes "db.table", bytes "END"],
             post_table_shutdowns := 1, post_shutdowns := 1, stream_shutdowns := 1 } := by
  decide

/-- C1, failing input.  The stream of the two framed files `a.sql` (content
`X`) and `db.table-schema.sql` (content `Y`), read into an empty directory
with any buffer size from 64 bytes on: `process_stream` writes `XY` to
`a.sql`, never creates `db.table-schema.sql`, never pushes `a.sql` and pushes
the cut name `db.table` instead. -/
theorem stream_round_trip_two_files (size : Nat) (h : 64 ≤ size) :
    process_stream size 1 [] [] two_files_stream 20 =
      some { files := [(bytes "a.sql", bytes "XY")],
             intermidiate_queue := [bytes "db.table", bytes "END"],
             post_table_shutdowns := 1, post_shutdowns := 1, stream_shutdowns := 1 } := by
  have hlen : two_files_stream.length = 36 := by decide
  rw [process_stream_size size 64 1 [] two_files_stream 19 (by omega) (by omega)]
  exact two_files_stream_run

theorem stream_round_trip_two_files_at_1000000 :
    (64 ≤ 1000000) ∧
    process_stream 1000000 1 [] [] two_files_stream 20 =
      some { files := [(bytes "a.sql", bytes "XY")],
             intermidiate_queue := [bytes "db.table", bytes "END"],
             post_table_shutdowns := 1, post_shutdowns := 1, stream_shutdowns := 1 } :=
  ⟨by decide, stream_round_trip_two_files 1000000 (by decide)⟩

/-! ## C5: header recognition -/

set_option maxRecDepth 1000000 in
theorem odd_header_stream_run :
    has_mydumper_suffix (bytes "db.t.sqlZZZZZZZZZZZ") = false ∧
    process_stream 64 1 [] [] odd_header_stream 20 =
      some { files := [(bytes "a.sql", bytes "X"), (bytes "db.t.sql", bytes "Y")],
             intermidiate_queue := [bytes "a.sql", bytes "db.t.sql", bytes "END"],
             post_table_shutdowns := 1, post_shutdowns := 1, stream_shutdowns := 1 } := by
  decide

/-- C5, failing input.  The header line `\n-- db.t.sqlZZZZZZZZZZZ` names a
path for which `has_mydumper_suffix` is false, and `process_stream` (any
buffer size from 64 bytes on) still starts a new file at that line, under
the cut name `db.t.sql`, and writes the following payload `Y` to it. -/
theorem header_without_suffix_starts_file (size : Nat) (h : 64 ≤ size) :
    has_mydumper_suffix (bytes "db.t.sqlZZZZZZZZZZZ") = false ∧
    process_stream size 1 [] [] odd_header_stream 20 =
      some { files := [(bytes "a.sql", bytes "X"), (bytes "db.t.sql", bytes "Y")],
             intermidiate_queue := [bytes "a.sql", bytes "db.t.sql", bytes "END"],
             post_table_shutdowns := 1, post_shutdowns := 1, stream_shutdowns := 1 } := by
  have hlen : odd_header_stream.length = 36 := by decide
  rw [process_stream_size size 64 1 [] odd_header_stream 19 (by omega) (by omega)]
  exact odd_header_stream_run

theorem header_without_suffix_starts_file_at_1000000 :
    (64 ≤ 1000000) ∧
    has_mydumper_suffix (bytes "db.t.sqlZZZZZZZZZZZ") = false ∧
    process_stream 1000000 1 [] [] odd_header_stream 20 =
      some { files := [(bytes "a.sql", bytes "X"), (bytes "db.t.sql", bytes "Y")],
             intermidiate_queue := [bytes "a.sql", bytes "db.t.sql", bytes "END"],
             post_table_shutdowns := 1, post_shutdowns := 1, stream_shutdowns := 1 } :=
  ⟨by decide, header_without_suffix_starts_file 1000000 (by decide)⟩

/-! ## C2 and C3: which job a worker takes -/

theorem give_me_next_data_job_some (tables : List db_table) (rj : restore_job)
    (tl : List db_table) (h : give_me_next_data_job tables = (some rj, tl)) :
    ∃ pre dbt post next, tables = pre ++ dbt :: post ∧
      (∀ u ∈ pre, ¬ (u.current_threads < u.max_threads ∧ u.restore_job_list ≠ [])) ∧
      dbt.current_threads < dbt.max_threads ∧ dbt.restore_job_list = rj :: next ∧
      tl = pre ++ { dbt with restore_job_list := next } :: post := by
  induction tables generalizing tl with
  | nil => simp [give_me_next_data_job] at h
  | cons d iter ih =>
    unfold give_me_next_data_job at h
    by_cases hc : d.current_threads < d.max_threads
    · rw [if_pos hc] at h
      cases hl : d.restore_job_list with
      | nil =>
        rw [hl] at h
        simp only [Prod.mk.injEq] at h
        obtain ⟨pre, dbt, post, next, h1, h2, h3, h4, h5⟩ :=
          ih (give_me_next_data_job iter).2 (Prod.ext h.1 rfl)
        refine ⟨d :: pre, dbt, post, next, by simp [h1], ?_, h3, h4, ?_⟩
        · intro u hu
          rcases List.mem_cons.1 hu with rfl | hu
          · simp [hl]
          · exact h2 u hu
        · rw [← h.2, h5]; rfl
      | cons job next =>
        rw [hl] at h
        simp only [Prod.mk.injEq, Option.some.injEq] at h
        exact ⟨[], d, iter, next, rfl, by simp, hc, by rw [hl, h.1], by rw [← h.2]; rfl⟩
    · rw [if_neg hc] at h
      simp only [Prod.mk.injEq] at h
      obtain ⟨pre, dbt, post, next, h1, h2, h3, h4, h5⟩ :=
        ih (give_me_next_data_job iter).2 (Prod.ext h.1 rfl)
      refine ⟨d :: pre, dbt, post, next, by simp [h1], ?_, h3, h4, ?_⟩
      · intro u hu
        rcases List.mem_cons.1 hu with rfl | hu
        · exact fun hh => hc hh.1
        · exact h2 u hu
      · rw [← h.2, h5]; rfl

theorem give_me_next_data_job_at (pre : List db_table) (dbt : db_table) (post : List db_table)
    (rj : restore_job) (next : List restore_job)
    (hpre : ∀ u ∈ pre, ¬ (u.current_threads < u.max_threads ∧ u.restore_job_list ≠ []))
    (hc : dbt.current_threads < dbt.max_threads) (hl : dbt.restore_job_list = rj :: next) :
    give_me_next_data_job (pre ++ dbt :: post) =
      (some rj, pre ++ { dbt with restore_job_list := next } :: post) := by
  induction pre with
  | nil => simp [give_me_next_data_job, hc, hl]
  | cons d pre ih =>
    have ih2 := ih (fun u hu => hpre u (List.mem_cons_of_mem _ hu))
    have hd := hpre d (List.mem_cons_self _ _)
    simp only [List.cons_append, give_me_next_data_job]
    by_cases hdc : d.current_threads < d.max_threads
    · have : d.restore_job_list = [] := by
        by_contra hne; exact hd ⟨hdc, hne⟩
      rw [if_pos hdc, this]
      simp [ih2]
    · rw [if_neg hdc]
      simp [ih2]

theorem give_me_next_data_job_none (tables : List db_table)
    (h : ∀ u ∈ tables, ¬ (u.current_threads < u.max_threads ∧ u.restore_job_list ≠ [])) :
    give_me_next_data_job tables = (none, tables) := by
  induction tables with
  | nil => rfl
  | cons d iter ih =>
    have ih2 := ih (fun u hu => h u (List.mem_cons_of_mem _ hu))
    have hd := h d (List.mem_cons_self _ _)
    unfold give_me_next_data_job
    by_cases hdc : d.current_threads < d.max_threads
    · have : d.restore_job_list = [] := by
        by_contra hne; exact hd ⟨hdc, hne⟩
      rw [if_pos hdc, this]
      simp [ih2]
    · rw [if_neg hdc]
      simp [ih2]

theorem give_any_data_job_at (pre : List db_table) (dbt : db_table) (post : List db_table)
    (rj : restore_job) (next : List restore_job)
    (hpre : ∀ u ∈ pre, u.restore_job_list = []) (hl : dbt.restore_job_list = rj :: next) :
    give_any_data_job (pre ++ dbt :: post) =
      (some rj, pre ++ { dbt with restore_job_list := next } :: post) := by
  induction pre with
  | nil => simp [give_any_data_job, hl]
  | cons d pre ih =>
    have ih2 := ih (fun u hu => hpre u (List.mem_cons_of_mem _ hu))
    have hd := hpre d (List.mem_cons_self _ _)
    simp only [List.cons_append, give_any_data_job, hd]
    simp [ih2]

theorem give_any_data_job_none (tables : List db_table)
    (h : ∀ u ∈ tables, u.restore_job_list = []) :
    give_any_data_job tables = (none, tables) := by
  induction tables with
  | nil => rfl
  | cons d iter ih =>
    have ih2 := ih (fun u hu => h u (List.mem_cons_of_mem _ hu))
    have hd := h d (List.mem_cons_self _ _)
    simp only [give_any_data_job, hd]
    simp [ih2]

/-- C2, counterexample.  A worker that finds both job queues empty and one
table with `current_threads = max_threads = 1` takes the pending data job
of that table and hands it to `process_job`. -/
theorem cap_not_enforced :
    ¬ (busy_table.current_threads < busy_table.max_threads) ∧
    busy_table.restore_job_list =
      [{ filename := bytes "db.t.00000.sql", database := bytes "db" }] ∧
    (process_stream_queue_step process_job_noop busy_worker).map (fun st => st.processed) =
      some [control_job.restore_job_as_control_job
              { filename := bytes "db.t.00000.sql", database := bytes "db" }] := by
  decide

/-- C2, amended.  A job that `give_me_next_data_job` takes is the first
pending job of a table with `current_threads < max_threads` at that moment;
`give_any_data_job` takes the first pending job of the first table that has
one, whatever the thread counts of the tables are. -/
theorem data_job_cap (tables : List db_table) :
    (∀ rj tl, give_me_next_data_job tables = (some rj, tl) →
      ∃ pre dbt post next, tables = pre ++ dbt :: post ∧
        dbt.current_threads < dbt.max_threads ∧ dbt.restore_job_list = rj :: next ∧
        tl = pre ++ { dbt with restore_job_list := next } :: post) ∧
    (∀ pre dbt post rj next, tables = pre ++ dbt :: post →
      (∀ u ∈ pre, u.restore_job_list = []) → dbt.restore_job_list = rj :: next →
      give_any_data_job tables =
        (some rj, pre ++ { dbt with restore_job_list := next } :: post)) := by
  constructor
  · intro rj tl h
    obtain ⟨pre, dbt, post, next, h1, _, h3, h4, h5⟩ := give_me_next_data_job_some tables rj tl h
    exact ⟨pre, dbt, post, next, h1, h3, h4, h5⟩
  · intro pre dbt post rj next h1 h2 h3
    rw [h1]
    exact give_any_data_job_at pre dbt post rj next h2 h3

theorem data_job_cap_witness :
    give_any_data_job [busy_table] =
      (some { filename := bytes "db.t.00000.sql", database := bytes "db" },
       [{ busy_table with restore_job_list := [] }]) :=
  (data_job_cap [busy_table]).2 [] busy_table []
    { filename := bytes "db.t.00000.sql", database := bytes "db" } [] rfl
    (by simp) rfl

/-- C3.  One pass of `process_stream_queue` with a token `ft` at the head of
the stream queue pops that token and hands to `process_job`: (1) the head of
the database queue if there is one; else (2) the head of the table queue;
else (3) the first pending data job of the first table in `table_list` with
`current_threads < max_threads` and a pending job; else (4) the first pending
data job of the first table with a pending job; else (5) nothing.  In cases
(1) to (4) exactly that job is removed and every other queue and list is
left as it was; in case (5) nothing is removed. -/
theorem dequeue_priority
    (process_job : stream_conf → control_job → stream_conf × Bool)
    (st : worker_state) (ft : file_type) (sq : List file_type)
    (hq : st.stream_queue = ft :: sq) :
    (∀ job rest, st.conf.database_queue = job :: rest →
      process_stream_queue_step process_job st =
        some { conf := (process_job { st.conf with database_queue := rest } job).1,
               stream_queue := sq, processed := st.processed ++ [job],
               cont := (process_job { st.conf with database_queue := rest } job).2 }) ∧
    (∀ job rest, st.conf.database_queue = [] → st.conf.table_queue = job :: rest →
      process_stream_queue_step process_job st =
        some { conf := (process_job { st.conf with table_queue := rest } job).1,
               stream_queue := sq, processed := st.processed ++ [job],
               cont := (process_job { st.conf with table_queue := rest } job).2 }) ∧
    (∀ pre dbt post rj next, st.conf.database_queue = [] → st.conf.table_queue = [] →
      st.conf.table_list = pre ++ dbt :: post →
      (∀ u ∈ pre, ¬ (u.current_threads < u.max_threads ∧ u.restore_job_list ≠ [])) →
      dbt.current_threads < dbt.max_threads → dbt.restore_job_list = rj :: next →
      process_stream_queue_step process_job st =
        some { conf := (process_job
                 { st.conf with
                   table_list := pre ++ { dbt with restore_job_list := next } :: post }
                 (control_job.new_job_restore rj rj.database)).1,
               stream_queue := sq,
               processed := st.processed ++ [control_job.new_job_restore rj rj.database],
               cont := (process_job
                 { st.conf with
                   table_list := pre ++ { dbt with restore_job_list := next } :: post }
                 (control_job.new_job_restore rj rj.database)).2 }) ∧
    (∀ pre dbt post rj next, st.conf.database_queue = [] → st.conf.table_queue = [] →
      (∀ u ∈ st.conf.table_list,
        ¬ (u.current_threads < u.max_threads ∧ u.restore_job_list ≠ [])) →
      st.conf.table_list = pre ++ dbt :: post →
      (∀ u ∈ pre, u.restore_job_list = []) → dbt.restore_job_list = rj :: next →
      process_stream_queue_step process_job st =
        some { conf := (process_job
                 { st.conf with
                   table_list := pre ++ { dbt with restore_job_list := next } :: post }
                 (control_job.restore_job_as_control_job rj)).1,
               stream_queue := sq,
               processed := st.processed ++ [control_job.restore_job_as_control_job rj],
               cont := (process_job
                 { st.conf with
                   table_list := pre ++ { dbt with restore_job_list := next } :: post }
                 (control_job.restore_job_as_control_job rj)).2 }) ∧
    (st.conf.database_queue = [] → st.conf.table_queue = [] →
      (∀ u ∈ st.conf.table_list, u.restore_job_list = []) →
      process_stream_queue_step process_job st =
        some (if ft = file_type.SHUTDOWN then { st with stream_queue := sq, cont := false }
              else { st with stream_queue := sq ++ [ft] })) := by
  refine ⟨?_, ?_, ?_, ?_, ?_⟩
  · intro job rest h
    simp [process_stream_queue_step, hq, take_job, h]
  · intro job rest h1 h2
    simp [process_stream_queue_step, hq, take_job, h1, h2]
  · intro pre dbt post rj next h1 h2 h3 h4 h5 h6
    have := give_me_next_data_job_at pre dbt post rj next h4 h5 h6
    simp [process_stream_queue_step, hq, take_job, h1, h2, h3, this]
  · intro pre dbt post rj next h1 h2 h3 h4 h5 h6
    have hn := give_me_next_data_job_none _ h3
    have := give_any_data_job_at pre dbt post rj next h5 h6
    rw [h4] at hn
    simp [process_stream_queue_step, hq, take_job, h1, h2, h4, this, hn]
  · intro h1 h2 h3
    have hn := give_me_next_data_job_none st.conf.table_list
      (fun u hu hh => hh.2 (h3 u hu))
    have ha := give_any_data_job_none _ h3
    simp only [process_stream_queue_step, hq, take_job, h1, h2, hn, ha]
    split_ifs <;> rfl

theorem dequeue_priority_witness :
    process_stream_queue_step process_job_noop
      { conf := { database_queue := [], table_queue := [],
                  table_list := [busy_table, free_table] },
        stream_queue := [file_type.DATA], processed := [], cont := true } =
      some { conf := { database_queue := [], table_queue := [],
                       table_list := [busy_table,
                         { free_table with restore_job_list :=
                             [{ filename := bytes "db.u.00001.sql", database := bytes "db" }] }] },
             stream_queue := [],
             processed := [control_job.new_job_restore
                 { filename := bytes "db.u.00000.sql", database := bytes "db" } (bytes "db")],
             cont := true } :=
  (dequeue_priority process_job_noop
    { conf := { database_queue := [], table_queue := [],
                table_list := [busy_table, free_table] },
      stream_queue := [file_type.DATA], processed := [], cont := true }
    file_type.DATA [] rfl).2.2.1 [busy_table] free_table []
      { filename := bytes "db.u.00000.sql", database := bytes "db" }
      [{ filename := bytes "db.u.00001.sql", database := bytes "db" }]
      rfl rfl rfl (by decide) (by decide) rfl

/-! ## C4: the intermediate queue -/

/-- C6, counterexample.  With `source_db` set to `db`, the file `resume`,
which `get_file_type` classifies as `RESUME`, makes `process_filename`
return `RESUME`, and `process_stream_filename` pushes that value onto the
stream queue. -/
theorem resume_not_fatal_with_source_db :
    resume_env.get_file_type (bytes "resume") = file_type.RESUME ∧
    process_filename resume_env 0 (bytes "resume") =
      filename_result.returned file_type.RESUME [] ∧
    (process_stream_filename resume_env (loader_init []) (bytes "resume")).map
      (fun st => st.stream_queue) = some [file_type.RESUME] := by
  decide

/-- C6, amended.  For a file name that `get_file_type` classifies as
`RESUME`: when `source_db` is unset, or the name starts with the value of
`source_db` followed by a dot, `process_filename` exits with failure and
nothing is pushed; otherwise it returns `RESUME` without any effect and
`process_stream_filename` pushes `RESUME` onto the stream queue. -/
theorem resume_file (env : loader_env) (st : loader_state) (filename : List Char)
    (h : env.get_file_type filename = file_type.RESUME) :
    (env.source_db = none →
      process_filename env st.calls filename = filename_result.exit_failure ∧
      process_stream_filename env st filename = none) ∧
    (∀ db, env.source_db = some db → (db ++ ['.']) <+: filename →
      process_filename env st.calls filename = filename_result.exit_failure ∧
      process_stream_filename env st filename = none) ∧
    (∀ db, env.source_db = some db → ¬ (db ++ ['.']) <+: filename →
      process_filename env st.calls filename = filename_result.returned file_type.RESUME [] ∧
      process_stream_filename env st filename =
        some { st with calls := st.calls + 1,
                       classified := st.classified ++ [(filename, file_type.RESUME)],
                       stream_queue := st.stream_queue ++ [file_type.RESUME] }) := by
  refine ⟨?_, ?_, ?_⟩
  · intro hs
    have hp : process_filename env st.calls filename = filename_result.exit_failure := by
      simp [process_filename, hs, h]
    exact ⟨hp, by simp [process_stream_filename, hp]⟩
  · intro db hs hpre
    have hp : process_filename env st.calls filename = filename_result.exit_failure := by
      simp [process_filename, hs, h, g_str_has_prefix, hpre]
    exact ⟨hp, by simp [process_stream_filename, hp]⟩
  · intro db hs hpre
    have hp : process_filename env st.calls filename =
        filename_result.returned file_type.RESUME [] := by
      simp [process_filename, hs, h, g_str_has_prefix, hpre]
    exact ⟨hp, by simp [process_stream_filename, hp]⟩

theorem resume_file_witness :
    process_filename resume_env 0 (bytes "db.resume") = filename_result.exit_failure ∧
    process_stream_filename resume_env (loader_init []) (bytes "db.resume") = none :=
  (resume_file resume_env (loader_init []) (bytes "db.resume") (by decide)).2.1
    (bytes "db") rfl (by decide)

end Myloader

namespace Mydumper

open Glib

/-! ## Helper lemmas on runs and traces -/

theorem seq_status_running (a b : dump_run) :
    (a.seq b).status = dump_status.running ↔
      a.status = dump_status.running ∧ b.status = dump_status.running := by
  unfold dump_run.seq
  cases h : a.status <;> simp [h]

theorem seq_trace_of_running (a b : dump_run) (h : a.status = dump_status.running) :
    (a.seq b).trace = a.trace ++ b.trace := by
  unfold dump_run.seq
  simp [h]

theorem seq_of_running (a b : dump_run) (h : a.status = dump_status.running) :
    a.seq b = { trace := a.trace ++ b.trace, errors := a.errors + b.errors,
                status := b.status } := by
  unfold dump_run.seq
  simp [h]

theorem seq_of_not_running (a b : dump_run) (h : a.status ≠ dump_status.running) :
    a.seq b = a := by
  unfold dump_run.seq
  cases h2 : a.status <;> simp_all

theorem statements_nil_of (es : List dump_event)
    (h : ∀ e ∈ es, ∀ c q, e ≠ dump_event.sql c q) : statements es = [] := by
  induction es with
  | nil => rfl
  | cons e es ih =>
    have ih2 := ih (fun e he => h e (List.mem_cons_of_mem _ he))
    cases e with
    | sql c q => exact absurd rfl (h _ (List.mem_cons_self _ _) c q)
    | _ => simpa [statements] using ih2

theorem mem_statements (es : List dump_event) (c : Bool) (q : List Char) :
    (c, q) ∈ statements es ↔ dump_event.sql c q ∈ es := by
  induction es with
  | nil => simp [statements]
  | cons e es ih => cases e <;> simp [statements, ih]

theorem replace_first_some (c d : Char) (s r : List Char) (h : replace_first c d s = some r) :
    ∃ a b, s = a ++ c :: b ∧ r = a ++ d :: b := by
  induction s generalizing r with
  | nil => simp [replace_first] at h
  | cons x xs ih =>
    unfold replace_first at h
    by_cases hx : x = c
    · rw [if_pos hx] at h
      exact ⟨[], xs, by simp [hx], by simpa using h.symm⟩
    · rw [if_neg hx] at h
      cases hr : replace_first c d xs with
      | none => rw [hr] at h; simp at h
      | some r2 =>
        rw [hr] at h
        obtain ⟨a, b, h1, h2⟩ := ih r2 hr
        refine ⟨x :: a, b, by simp [h1], ?_⟩
        simp only [Option.map_some', Option.some.injEq] at h
        rw [← h, h2]; rfl

theorem blank_last_comma_some (s r : List Char) (h : blank_last_comma s = some r) :
    ∃ a b, s = a ++ ',' :: b ∧ r = a ++ ' ' :: b := by
  unfold blank_last_comma at h
  cases hr : replace_first ',' ' ' s.reverse with
  | none => rw [hr] at h; simp at h
  | some r2 =>
    rw [hr] at h
    obtain ⟨a, b, h1, h2⟩ := replace_first_some _ _ _ _ hr
    simp only [Option.map_some', Option.some.injEq] at h
    refine ⟨b.reverse, a.reverse, ?_, ?_⟩
    · have := congrArg List.reverse h1
      simpa using this
    · rw [← h, h2]; simp

/-- Every statement that `send_lock_all_tables` sends starts with
`LOCK TABLE`. -/
theorem lock_table_query_starts (tables_lock : List (List Char)) (q : List Char)
    (h : lock_table_query tables_lock = some q) :
    g_str_has_prefix q (bytes "LOCK TABLE") = true := by
  unfold lock_table_query at h
  obtain ⟨a, b, h1, h2⟩ := blank_last_comma_some _ _ h
  have hp : bytes "LOCK TABLE" <+: a ++ ',' :: b := ⟨_, h1⟩
  have hlen : (bytes "LOCK TABLE").length ≤ a.length := by
    by_contra hlt
    have hlt : a.length < (bytes "LOCK TABLE").length := by omega
    have h3 := congrArg (fun l : List Char => l[a.length]?) h1
    simp only [List.getElem?_append_left hlt] at h3
    rw [List.getElem?_append_right (le_refl _)] at h3
    simp only [Nat.sub_self, List.getElem?_cons_zero] at h3
    have h4 : ∀ i : Nat, (bytes "LOCK TABLE")[i]? ≠ some ',' := by
      intro i
      have : i < 10 ∨ 10 ≤ i := by omega
      rcases this with hi | hi
      · interval_cases i <;> decide
      · rw [List.getElem?_eq_none (by simpa [bytes] using hi)]; simp
    exact h4 _ h3
  have hpa : bytes "LOCK TABLE" <+: a :=
    List.prefix_of_prefix_length_le hp (List.prefix_append _ _) hlen
  rw [h2, g_str_has_prefix, List.isPrefixOf_iff_prefix]
  exact hpa.trans (List.prefix_append _ _)

theorem mem_seq_trace (a b : dump_run) (e : dump_event) (h : e ∈ (a.seq b).trace) :
    e ∈ a.trace ∨ e ∈ b.trace := by
  unfold dump_run.seq at h
  cases hs : a.status <;> simp [hs] at h <;> tauto

theorem lock_all_loop_queries (lock_error : Nat → Option (List Char)) (n retry : Nat)
    (tables_lock : List (List Char)) (run : lock_all_run)
    (h : ∀ q ∈ run.queries, g_str_has_prefix q (bytes "LOCK TABLE") = true) :
    ∀ q ∈ (lock_all_loop lock_error n retry tables_lock run).queries,
      g_str_has_prefix q (bytes "LOCK TABLE") = true := by
  induction n generalizing retry tables_lock run with
  | zero => simpa [lock_all_loop] using h
  | succ n ih =>
    unfold lock_all_loop
    cases hq : lock_table_query tables_lock with
    | none => simpa using h
    | some query =>
      have h2 : ∀ q ∈ run.queries ++ [query],
          g_str_has_prefix q (bytes "LOCK TABLE") = true := by
        intro q hq2
        rcases List.mem_append.1 hq2 with hq2 | hq2
        · exact h q hq2
        · rw [List.mem_singleton.1 hq2]; exact lock_table_query_starts _ _ hq
      simp only []
      cases lock_error retry with
      | none => simpa using h2
      | some err =>
        simp only []
        cases failed_table err with
        | none => simpa using h2
        | some t => exact ih _ _ _ h2

theorem send_lock_all_tables_queries (lock_error : Nat → Option (List Char))
    (tables_lock : List (List Char)) :
    ∀ q ∈ (send_lock_all_tables lock_error tables_lock).queries,
      g_str_has_prefix q (bytes "LOCK TABLE") = true := by
  unfold send_lock_all_tables
  split_ifs
  · simp
  · exact lock_all_loop_queries _ _ _ _ _ (by simp)

theorem statements_guard_phase (cfg : dump_config) (srv : server) :
    statements (guard_phase cfg srv).trace = [] := by
  unfold guard_phase
  split_ifs <;> rfl

theorem statements_thread_phase (cfg : dump_config) :
    statements (thread_phase cfg).trace = [] := by
  apply statements_nil_of
  intro e he c q heq
  subst heq
  simp only [thread_phase, events] at he
  split_ifs at he <;> simp at he

theorem plan_databases_no_sql (cfg : dump_config) (srv : server) (rows dumped : List (List Char))
    (c : Bool) (q : List Char) : dump_event.sql c q ∉ plan_databases cfg srv rows dumped := by
  induction rows generalizing dumped with
  | nil => simp [plan_databases]
  | cons row rows ih =>
    unfold plan_databases
    split_ifs <;> simp [ih]

theorem statements_plan_phase (cfg : dump_config) (srv : server) :
    ∀ p ∈ statements (plan_phase cfg srv).trace, p = (false, bytes "SHOW DATABASES") := by
  intro p hp
  obtain ⟨c, q⟩ := p
  rw [mem_statements] at hp
  unfold plan_phase at hp
  rcases mem_seq_trace _ _ _ hp with hp | hp
  · rcases mem_seq_trace _ _ _ hp with hp | hp
    · simp only [events] at hp
      split_ifs at hp <;> simp at hp
    · simp only [events] at hp
      cases hd : cfg.db_items <;> cases ht : cfg.tables <;> simp [hd, ht] at hp
  · split_ifs at hp
    · simpa using hp
    · simp only [events, List.mem_cons, dump_event.sql.injEq] at hp
      rcases hp with hp | hp
      · simp [hp.1, hp.2]
      · exact absurd hp (plan_databases_no_sql _ _ _ _ _ _)
    · simp [dump_run.skip] at hp

theorem statements_non_innodb_phase (cfg : dump_config) (srv : server) :
    statements (non_innodb_phase cfg srv).trace = [] := by
  apply statements_nil_of
  intro e he c q heq
  subst heq
  simp only [non_innodb_phase, events, list_jobs] at he
  split_ifs at he <;> simp at he

theorem call_release_status (second : Bool) (f : release_fn) :
    (call_release second f).status = dump_status.running := by
  cases f <;> rfl

/-- The trace of a run of `start_dump` that has not left the process is the
chain of the traces of its parts. -/
theorem start_dump_trace_of_running (cfg : dump_config) (srv : server)
    (h : (start_dump cfg srv).status = dump_status.running) :
    (start_dump cfg srv).trace =
      (guard_phase cfg srv).trace ++ (lock_phase cfg srv).trace ++
      (snapshot_phase cfg srv).trace ++ (thread_phase cfg).trace ++
      (trx_unlock_phase cfg srv).trace ++ (plan_phase cfg srv).trace ++
      (non_innodb_phase cfg srv).trace ++
      ((gate_phase cfg srv).trace ++ (shutdown_phase cfg srv).trace) := by
  unfold start_dump at h ⊢
  simp only [seq_status_running] at h
  obtain ⟨⟨⟨⟨⟨⟨⟨hg, hl⟩, hs⟩, ht⟩, hu⟩, hp⟩, hn⟩, hgt, hsh⟩ := h
  simp only [dump_run.seq, hg, hl, hs, ht, hu, hp, hn, hgt]

/-- The events of the lock phase are statements: lock statements, the three
fixed queries, or the TiDB snapshot setting. -/
theorem lock_phase_event (cfg : dump_config) (srv : server) (e : dump_event)
    (he : e ∈ (lock_phase cfg srv).trace) :
    ∃ c q, e = dump_event.sql c q ∧
      (lock_kind_of q ≠ none ∨
       q = bytes "SELECT @@version_comment, @@version" ∨
       q = bytes "FLUSH NO_WRITE_TO_BINLOG TABLES" ∨
       q = bytes "SHOW MASTER STATUS" ∨
       ∃ x, q = 'S' :: 'E' :: x) := by
  unfold lock_phase at he
  by_cases htidb : srv.detected_server = server_type.SERVER_TYPE_TIDB
  · rw [if_pos htidb] at he
    cases hs : cfg.tidb_snapshot with
    | none =>
      rw [hs] at he
      simp only [] at he
      rcases mem_seq_trace _ _ _ he with he | he
      · unfold query_or_exit_plain at he
        split_ifs at he <;> simp [events] at he <;> subst he <;>
          exact ⟨_, _, rfl, Or.inr (Or.inr (Or.inr (Or.inl rfl)))⟩
      · unfold query_or_exit_plain at he
        split_ifs at he <;> simp [events] at he <;> subst he <;>
          exact ⟨_, _, rfl, Or.inr (Or.inr (Or.inr (Or.inr ⟨_, rfl⟩)))⟩
    | some snapshot =>
      rw [hs] at he
      simp only [] at he
      unfold query_or_exit_plain at he
      split_ifs at he <;> simp [events] at he <;> subst he <;>
        exact ⟨_, _, rfl, Or.inr (Or.inr (Or.inr (Or.inr ⟨_, rfl⟩)))⟩
  · rw [if_neg htidb] at he
    cases hnl : cfg.no_locks
    swap
    · simp [hnl, dump_run.skip] at he
    simp only [hnl, Bool.not_false, if_true] at he
    rcases mem_seq_trace _ _ _ he with he | he
    · cases hb : cfg.no_backup_locks
      · simp [hb, query, events] at he
        subst he
        exact ⟨_, _, rfl, Or.inr (Or.inl rfl)⟩
      · simp [hb, dump_run.skip] at he
    · cases hall : cfg.lock_all_tables
      swap
      · simp only [hall, if_true] at he
        simp only [lock_all_tables_run, List.mem_map] at he
        obtain ⟨q, hq, rfl⟩ := he
        refine ⟨false, q, rfl, Or.inl ?_⟩
        have hpre := send_lock_all_tables_queries _ _ q hq
        simp [lock_kind_of, hpre]
      · simp only [hall, Bool.false_eq_true, if_false] at he
        rcases mem_seq_trace _ _ _ he with he | he
        · rcases mem_seq_trace _ _ _ he with he | he
          · simp [query, events] at he
            subst he
            exact ⟨_, _, rfl, Or.inr (Or.inr (Or.inl rfl))⟩
          · simp [ftwrl] at he
            subst he
            exact ⟨_, _, rfl, Or.inl (by decide)⟩
        · cases hf : (chosen_ddl_lock cfg srv).acquire_lock_function with
          | none => simp [hf, dump_run.skip] at he
          | some f =>
            rw [hf] at he
            simp only [] at he
            cases f with
            | send_lock_instance_backup =>
              simp only [call_acquire, send_lock_instance_backup, query_or_exit] at he
              split_ifs at he <;> simp [query, events] at he <;> subst he <;>
                exact ⟨_, _, rfl, Or.inl (by decide)⟩
            | send_percona57_backup_locks =>
              simp only [call_acquire, send_percona57_backup_locks] at he
              rcases mem_seq_trace _ _ _ he with he | he <;>
                simp only [query_or_exit] at he <;>
                split_ifs at he <;> simp [query, events] at he <;> subst he <;>
                exact ⟨_, _, rfl, Or.inl (by decide)⟩
            | send_mariadb_backup_locks =>
              simp only [call_acquire, send_mariadb_backup_locks] at he
              rcases mem_seq_trace _ _ _ he with he | he
              · rcases mem_seq_trace _ _ _ he with he | he
                · rcases mem_seq_trace _ _ _ he with he | he <;>
                    simp only [query_or_exit] at he <;>
                    split_ifs at he <;> simp [query, events] at he <;> subst he <;>
                    exact ⟨_, _, rfl, Or.inl (by decide)⟩
                · simp only [query_or_exit] at he
                  split_ifs at he <;> simp [query, events] at he <;> subst he <;>
                    exact ⟨_, _, rfl, Or.inl (by decide)⟩
              · simp only [query_or_exit] at he
                split_ifs at he <;> simp [query, events] at he <;> subst he <;>
                  exact ⟨_, _, rfl, Or.inl (by decide)⟩

/-- A statement that takes no lock, is none of the fixed queries of the lock
phase and does not start with `SE` is not sent in the lock phase. -/
theorem not_mem_lock_phase (cfg : dump_config) (srv : server) (c : Bool) (q : List Char)
    (h1 : lock_kind_of q = none)
    (h2 : q ≠ bytes "SELECT @@version_comment, @@version")
    (h3 : q ≠ bytes "FLUSH NO_WRITE_TO_BINLOG TABLES")
    (h4 : q ≠ bytes "SHOW MASTER STATUS")
    (h5 : q.getD 1 'x' ≠ 'E') :
    dump_event.sql c q ∉ (lock_phase cfg srv).trace := by
  intro he
  obtain ⟨c2, q2, heq, h⟩ := lock_phase_event cfg srv _ he
  simp only [dump_event.sql.injEq] at heq
  obtain ⟨_, rfl⟩ := heq
  rcases h with h | h | h | h | ⟨x, h⟩
  · exact h h1
  · exact h2 h
  · exact h3 h
  · exact h4 h
  · rw [h] at h5; simp at h5

theorem not_sql_of_lock_phase (cfg : dump_config) (srv : server) (e : dump_event)
    (he : e ∈ (lock_phase cfg srv).trace) : ∃ c q, e = dump_event.sql c q := by
  obtain ⟨c, q, h, _⟩ := lock_phase_event cfg srv e he
  exact ⟨c, q, h⟩

/-- The events of the snapshot phase: statements on the main connection
that take no lock, and the call of `write_snapshot_info`. -/
theorem snapshot_phase_event (cfg : dump_config) (srv : server) (e : dump_event)
    (he : e ∈ (snapshot_phase cfg srv).trace) :
    (∃ q, e = dump_event.sql false q ∧ q.head? ≠ some 'U') ∨
    e = dump_event.call "write_snapshot_info" := by
  simp only [snapshot_phase, events, List.mem_append] at he
  rcases he with ((((((he | he) | he) | he) | he) | he) | he)
  · split_ifs at he <;> simp at he; subst he; exact Or.inl ⟨_, rfl, by decide⟩
  · simp at he; subst he; exact Or.inl ⟨_, rfl, by decide⟩
  · split_ifs at he <;> simp at he; subst he; exact Or.inl ⟨_, rfl, by decide⟩
  · split_ifs at he <;> simp at he; subst he; exact Or.inl ⟨_, rfl, by decide⟩
  · split_ifs at he <;> simp at he; subst he; exact Or.inl ⟨_, rfl, by decide⟩
  · split_ifs at he <;> simp at he; subst he; exact Or.inl ⟨_, rfl, by decide⟩
  · split_ifs at he
    · cases hn : cfg.set_names with
      | none => simp [hn] at he; exact Or.inr he
      | some names =>
        simp [hn] at he
        rcases he with he | he
        · subst he; exact Or.inl ⟨_, rfl, by simp [bytes]⟩
        · exact Or.inr he
    · simp at he

/-! ## C9: the release under `trx_consistency_only` -/

theorem not_mem_append {α : Type} {x : α} {a b : List α} (ha : x ∉ a) (hb : x ∉ b) :
    x ∉ a ++ b := by
  intro h
  rcases List.mem_append.1 h with h | h
  · exact ha h
  · exact hb h

theorem not_mem_call_release (second : Bool) (f : release_fn) (c : Bool) (q : List Char)
    (h1 : q ≠ bytes "UNLOCK TABLES") (h2 : q ≠ bytes "UNLOCK BINLOG")
    (h3 : q ≠ bytes "UNLOCK INSTANCE") (h4 : q ≠ bytes "BACKUP STAGE END") :
    dump_event.sql c q ∉ (call_release second f).trace := by
  cases f <;> simp [call_release, query, events] <;> intro _ <;> assumption

/-- Where the two commented `UNLOCK TABLES` statements cannot be sent. -/
theorem commented_unlock_elsewhere (cfg : dump_config) (srv : server) (q : List Char)
    (hq : q = bytes "UNLOCK TABLES /* trx-only */" ∨ q = bytes "UNLOCK TABLES /* FTWRL */") :
    dump_event.sql false q ∉ (guard_phase cfg srv).trace ∧
    dump_event.sql false q ∉ (lock_phase cfg srv).trace ∧
    dump_event.sql false q ∉ (snapshot_phase cfg srv).trace ∧
    dump_event.sql false q ∉ (thread_phase cfg).trace ∧
    dump_event.sql false q ∉ (plan_phase cfg srv).trace ∧
    dump_event.sql false q ∉ (non_innodb_phase cfg srv).trace ∧
    dump_event.sql false q ∉ (shutdown_phase cfg srv).trace ∧
    (∀ second f, dump_event.sql false q ∉ (call_release second f).trace) := by
  have hrel : ∀ second f, dump_event.sql false q ∉ (call_release second f).trace := by
    intro second f
    apply not_mem_call_release <;> rcases hq with rfl | rfl <;> decide
  refine ⟨?_, ?_, ?_, ?_, ?_, ?_, ?_, hrel⟩
  · rw [← mem_statements, statements_guard_phase]; simp
  · apply not_mem_lock_phase <;> rcases hq with rfl | rfl <;> decide
  · intro he
    rcases snapshot_phase_event cfg srv _ he with ⟨q2, h1, h2⟩ | h
    · simp only [dump_event.sql.injEq, true_and] at h1
      subst h1
      rcases hq with rfl | rfl <;> exact h2 (by decide)
    · exact dump_event.noConfusion h
  · rw [← mem_statements, statements_thread_phase]; simp
  · intro he
    have := statements_plan_phase cfg srv _ ((mem_statements _ _ _).2 he)
    simp only [Prod.mk.injEq, true_and] at this
    rcases hq with rfl | rfl <;> exact absurd this (by decide)
  · rw [← mem_statements, statements_non_innodb_phase]; simp
  · intro he
    unfold shutdown_phase at he
    rcases mem_seq_trace _ _ _ he with he | he
    · simp [events] at he
    · cases hf : (chosen_ddl_lock cfg srv).release_lock_function with
      | none => simp [hf, dump_run.skip] at he
      | some f => rw [hf] at he; exact hrel _ _ he

/-- C9, amended.  In every run of `start_dump` that reaches its end,
`UNLOCK TABLES /* trx-only */` is sent if and only if `trx_consistency_only`
is set, whether or not a lock was taken before.  When it is sent, it comes
right after the `num_threads` messages taken from `conf.ready`, none of which
is taken earlier; the function stored in `release_binlog_function`, if any,
is called right after it; and `UNLOCK TABLES /* FTWRL */` is not sent. -/
theorem trx_only_release (cfg : dump_config) (srv : server)
    (h : (start_dump cfg srv).status = dump_status.running) :
    (dump_event.sql false (bytes "UNLOCK TABLES /* trx-only */") ∈ (start_dump cfg srv).trace ↔
      cfg.trx_consistency_only = true) ∧
    (cfg.trx_consistency_only = true →
      (∃ pre post,
        (start_dump cfg srv).trace =
          pre ++ List.replicate cfg.num_threads (dump_event.pop_ready false) ++
            dump_event.sql false (bytes "UNLOCK TABLES /* trx-only */") :: post ∧
        dump_event.pop_ready false ∉ pre ∧
        ∀ f, (chosen_ddl_lock cfg srv).release_binlog_function = some f →
          (call_release (chosen_ddl_lock cfg srv).new_connection f).trace <+: post) ∧
      dump_event.sql false (bytes "UNLOCK TABLES /* FTWRL */") ∉ (start_dump cfg srv).trace) := by
  have htr := start_dump_trace_of_running cfg srv h
  have hU := commented_unlock_elsewhere cfg srv (bytes "UNLOCK TABLES /* trx-only */")
    (Or.inl rfl)
  have hW := commented_unlock_elsewhere cfg srv (bytes "UNLOCK TABLES /* FTWRL */")
    (Or.inr rfl)
  obtain ⟨hU1, hU2, hU3, hU4, hU5, hU6, hU7, hU8⟩ := hU
  obtain ⟨hW1, hW2, hW3, hW4, hW5, hW6, hW7, hW8⟩ := hW
  cases ht : cfg.trx_consistency_only
  · -- not set: the statement is nowhere
    refine ⟨?_, by simp⟩
    simp only [Bool.false_eq_true, iff_false]
    rw [htr]
    simp only [List.mem_append, not_or]
    refine ⟨⟨⟨⟨⟨⟨⟨hU1, hU2⟩, hU3⟩, hU4⟩, ?_⟩, hU5⟩, hU6⟩, ?_, hU7⟩
    · simp [trx_unlock_phase, ht, dump_run.skip]
    · intro he
      unfold gate_phase at he
      split_ifs at he
      · rcases mem_seq_trace _ _ _ he with he | he
        · simp [events] at he
        · rcases mem_seq_trace _ _ _ he with he | he
          · simp only [query, events, List.mem_singleton, dump_event.sql.injEq, true_and] at he
            exact absurd he (by decide)
          · cases hf : (chosen_ddl_lock cfg srv).release_binlog_function with
            | none => simp [hf, dump_run.skip] at he
            | some f => rw [hf] at he; exact hU8 _ _ he
      · simp [dump_run.skip] at he
  · have hu : (trx_unlock_phase cfg srv).trace =
        dump_event.sql false (bytes "UNLOCK TABLES /* trx-only */") ::
          (match (chosen_ddl_lock cfg srv).release_binlog_function with
           | some f => call_release (chosen_ddl_lock cfg srv).new_connection f
           | none => dump_run.skip).trace := by
      simp only [trx_unlock_phase, ht, if_true]
      rw [seq_trace_of_running _ _ rfl]
      rfl
    have hgate : (gate_phase cfg srv).trace = [] := by
      simp [gate_phase, ht, dump_run.skip]
    refine ⟨?_, fun _ => ⟨?_, ?_⟩⟩
    · simp only [iff_true]
      rw [htr, hu]
      simp
    · refine ⟨(guard_phase cfg srv).trace ++ (lock_phase cfg srv).trace ++
          (snapshot_phase cfg srv).trace ++
          ((if cfg.less_locking then
              ((List.range cfg.num_threads).map fun i =>
                [dump_event.thread_create true (cfg.num_threads + i + 1),
                 dump_event.pop_ready true]).flatten
            else []) ++
           ((List.range cfg.num_threads).map fun n => dump_event.thread_create false (n + 1))),
        (match (chosen_ddl_lock cfg srv).release_binlog_function with
           | some f => call_release (chosen_ddl_lock cfg srv).new_connection f
           | none => dump_run.skip).trace ++ (plan_phase cfg srv).trace ++
          (non_innodb_phase cfg srv).trace ++
          ((gate_phase cfg srv).trace ++ (shutdown_phase cfg srv).trace), ?_, ?_, ?_⟩
      · rw [htr, hu]
        simp only [thread_phase, events, List.append_assoc, List.cons_append]
      · simp only [List.mem_append, not_or]
        refine ⟨⟨⟨?_, ?_⟩, ?_⟩, ?_, ?_⟩
        · unfold guard_phase
          split_ifs <;> simp [dump_run.skip]
        · intro he
          obtain ⟨c, q, hq⟩ := not_sql_of_lock_phase cfg srv _ he
          exact dump_event.noConfusion hq
        · intro he
          rcases snapshot_phase_event cfg srv _ he with ⟨q, hq, _⟩ | hq <;>
            exact dump_event.noConfusion hq
        · split_ifs <;> simp
        · simp
      · intro f hf
        rw [hf]
        simp only [List.append_assoc]
        exact List.prefix_append _ _
    · rw [htr, hu, hgate]
      have hmid : dump_event.sql false (bytes "UNLOCK TABLES /* FTWRL */") ∉
          dump_event.sql false (bytes "UNLOCK TABLES /* trx-only */") ::
            (match (chosen_ddl_lock cfg srv).release_binlog_function with
             | some f => call_release (chosen_ddl_lock cfg srv).new_connection f
             | none => dump_run.skip).trace := by
        intro he
        rcases List.mem_cons.1 he with he | he
        · simp only [dump_event.sql.injEq, true_and] at he
          exact absurd he (by decide)
        · cases hf : (chosen_ddl_lock cfg srv).release_binlog_function with
          | none => simp [hf, dump_run.skip] at he
          | some f => rw [hf] at he; exact hW8 _ _ he
      exact not_mem_append (not_mem_append (not_mem_append (not_mem_append (not_mem_append
        (not_mem_append (not_mem_append hW1 hW2) hW3) hW4) hmid) hW5) hW6)
        (not_mem_append (List.not_mem_nil _) hW7)

set_option maxRecDepth 100000 in
theorem trx_only_release_witness :
    (start_dump trx_only_config percona57).status = dump_status.running ∧
    (dump_event.sql false (bytes "UNLOCK TABLES /* trx-only */") ∈
      (start_dump trx_only_config percona57).trace ↔
      trx_only_config.trx_consistency_only = true) :=
  ⟨by decide, (trx_only_release trx_only_config percona57 (by decide)).1⟩

set_option maxRecDepth 100000 in
/-- C9, counterexample.  With `trx_consistency_only` and `no_locks` both
set, `start_dump` never sends `FLUSH TABLES WITH READ LOCK` and still sends
`UNLOCK TABLES /* trx-only */` after the readiness barrier. -/
theorem trx_only_release_without_lock :
    (start_dump trx_only_no_locks_config percona57).status = dump_status.running ∧
    statements (start_dump trx_only_no_locks_config percona57).trace =
      [(false, bytes "SELECT @@tokudb_version"),
       (false, bytes "START TRANSACTION /*!40108 WITH CONSISTENT SNAPSHOT */"),
       (false, bytes "UNLOCK TABLES /* trx-only */"),
       (false, bytes "SHOW DATABASES")] := by
  decide

/-! ## C8: failure to acquire a lock -/

theorem bump_seq_left (a b : dump_run) : (a.bump).seq b = (a.seq b).bump := by
  unfold dump_run.seq dump_run.bump
  cases h : a.status
  · simp [h]; omega
  · simp [h]
  · simp [h]

theorem bump_seq_right (a b : dump_run) (h : a.status = dump_status.running) :
    a.seq (b.bump) = (a.seq b).bump := by
  unfold dump_run.seq dump_run.bump
  simp [h]
  omega

theorem query_or_exit_with_failure (srv : server) (q : List Char) (b : Bool) (second : Bool)
    (s : String) (h : bytes s ≠ q) :
    query_or_exit (srv.with_failure q b).fails second s = query_or_exit srv.fails second s := by
  simp [query_or_exit, server.with_failure, h]

theorem call_acquire_with_failure (srv : server) (q : List Char) (b : Bool) (second : Bool)
    (f : acquire_fn) (hq : lock_kind_of q = none ∨ q = bytes "FLUSH TABLES WITH READ LOCK") :
    call_acquire (srv.with_failure q b).fails second f = call_acquire srv.fails second f := by
  have hne : ∀ s : String, (lock_kind_of (bytes s) ≠ none ∧
      bytes s ≠ bytes "FLUSH TABLES WITH READ LOCK") → bytes s ≠ q := by
    intro s hs heq
    rcases hq with hq | hq
    · exact hs.1 (heq ▸ hq)
    · exact hs.2 (heq.trans hq)
  cases f
  · simp only [call_acquire, send_lock_instance_backup]
    rw [query_or_exit_with_failure _ _ _ _ _ (hne _ (by decide))]
  · simp only [call_acquire, send_percona57_backup_locks]
    rw [query_or_exit_with_failure _ _ _ _ _ (hne _ (by decide)),
      query_or_exit_with_failure _ _ _ _ _ (hne _ (by decide))]
  · simp only [call_acquire, send_mariadb_backup_locks]
    rw [query_or_exit_with_failure _ _ _ _ _ (hne _ (by decide)),
      query_or_exit_with_failure _ _ _ _ _ (hne _ (by decide)),
      query_or_exit_with_failure _ _ _ _ _ (hne _ (by decide)),
      query_or_exit_with_failure _ _ _ _ _ (hne _ (by decide))]

theorem query_or_exit_plain_with_failure (srv : server) (q : List Char) (b : Bool)
    (s : List Char) (h : s ≠ q) :
    query_or_exit_plain (srv.with_failure q b).fails s = query_or_exit_plain srv.fails s := by
  simp [query_or_exit_plain, server.with_failure, h]

/-- The phases other than the lock phase do not ask whether a `FLUSH`
statement fails. -/
theorem phases_with_failure (cfg : dump_config) (srv : server) (q : List Char) (b : Bool)
    (hq : q = bytes "FLUSH NO_WRITE_TO_BINLOG TABLES" ∨ q = bytes "FLUSH TABLES WITH READ LOCK") :
    guard_phase cfg (srv.with_failure q b) = guard_phase cfg srv ∧
    snapshot_phase cfg (srv.with_failure q b) = snapshot_phase cfg srv ∧
    trx_unlock_phase cfg (srv.with_failure q b) = trx_unlock_phase cfg srv ∧
    plan_phase cfg (srv.with_failure q b) = plan_phase cfg srv ∧
    non_innodb_phase cfg (srv.with_failure q b) = non_innodb_phase cfg srv ∧
    gate_phase cfg (srv.with_failure q b) = gate_phase cfg srv ∧
    shutdown_phase cfg (srv.with_failure q b) = shutdown_phase cfg srv := by
  refine ⟨rfl, rfl, rfl, ?_, rfl, rfl, rfl⟩
  have hne : bytes "SHOW DATABASES" ≠ q := by
    rcases hq with rfl | rfl <;> decide
  have hpd : ∀ rows dumped, plan_databases cfg (srv.with_failure q b) rows dumped =
      plan_databases cfg srv rows dumped := by
    intro rows
    induction rows with
    | nil => intro dumped; rfl
    | cons row rows ih =>
      intro dumped
      simp only [plan_databases, ih]
      rfl
  unfold plan_phase
  rw [hpd]
  simp [server.with_failure, hne]

theorem lock_phase_flush_failure (cfg : dump_config) (srv : server) (b : Bool) :
    lock_phase cfg (srv.with_failure (bytes "FLUSH NO_WRITE_TO_BINLOG TABLES") b) =
      lock_phase cfg srv := by
  unfold lock_phase
  have h1 : (srv.with_failure (bytes "FLUSH NO_WRITE_TO_BINLOG TABLES") b).detected_server =
      srv.detected_server := rfl
  have h2 : ∀ s, query_or_exit_plain
      (srv.with_failure (bytes "FLUSH NO_WRITE_TO_BINLOG TABLES") b).fails ('S' :: s) =
      query_or_exit_plain srv.fails ('S' :: s) := by
    intro s
    apply query_or_exit_plain_with_failure
    intro h
    have h0 := congrArg (fun l : List Char => l.head?) h
    have h00 : (bytes "FLUSH NO_WRITE_TO_BINLOG TABLES").head? = some 'F' := by decide
    simp only [List.head?_cons, h00, Option.some.injEq] at h0
    exact absurd h0 (by decide)
  have h3 : ftwrl (srv.with_failure (bytes "FLUSH NO_WRITE_TO_BINLOG TABLES") b) = ftwrl srv := by
    have hne : bytes "FLUSH TABLES WITH READ LOCK" ≠ bytes "FLUSH NO_WRITE_TO_BINLOG TABLES" := by
      decide
    simp [ftwrl, server.with_failure, hne]
  have h4 : ∀ second f, call_acquire
      (srv.with_failure (bytes "FLUSH NO_WRITE_TO_BINLOG TABLES") b).fails second f =
      call_acquire srv.fails second f :=
    fun second f => call_acquire_with_failure _ _ _ _ _ (Or.inl (by decide))
  have h5 : chosen_ddl_lock cfg (srv.with_failure (bytes "FLUSH NO_WRITE_TO_BINLOG TABLES") b) =
      chosen_ddl_lock cfg srv := rfl
  have h6 : lock_all_tables_run (srv.with_failure (bytes "FLUSH NO_WRITE_TO_BINLOG TABLES") b) =
      lock_all_tables_run srv := rfl
  have h7 : (srv.with_failure (bytes "FLUSH NO_WRITE_TO_BINLOG TABLES") b).master_status =
      srv.master_status := rfl
  rw [h1, h3, h5, h6, h7]
  simp only [h4]
  have h8 := h2 (bytes "HOW MASTER STATUS")
  have h9 : ∀ x, query_or_exit_plain
      (srv.with_failure (bytes "FLUSH NO_WRITE_TO_BINLOG TABLES") b).fails
        (bytes "SET SESSION tidb_snapshot = '" ++ x ++ bytes "'") =
      query_or_exit_plain srv.fails (bytes "SET SESSION tidb_snapshot = '" ++ x ++ bytes "'") :=
    fun x => h2 _
  have h10 : query_or_exit_plain
      (srv.with_failure (bytes "FLUSH NO_WRITE_TO_BINLOG TABLES") b).fails
        (bytes "SHOW MASTER STATUS") =
      query_or_exit_plain srv.fails (bytes "SHOW MASTER STATUS") := h8
  simp only [h9, h10]

theorem lock_phase_ftwrl_failure (cfg : dump_config) (srv : server)
    (htidb : srv.detected_server ≠ server_type.SERVER_TYPE_TIDB)
    (hnl : cfg.no_locks = false) (hall : cfg.lock_all_tables = false) :
    lock_phase cfg (srv.with_failure (bytes "FLUSH TABLES WITH READ LOCK") true) =
      (lock_phase cfg (srv.with_failure (bytes "FLUSH TABLES WITH READ LOCK") false)).bump := by
  unfold lock_phase
  have h1 : ∀ b, (srv.with_failure (bytes "FLUSH TABLES WITH READ LOCK") b).detected_server =
      srv.detected_server := fun _ => rfl
  have h4 : ∀ b second f, call_acquire
      (srv.with_failure (bytes "FLUSH TABLES WITH READ LOCK") b).fails second f =
      call_acquire srv.fails second f :=
    fun b second f => call_acquire_with_failure _ _ _ _ _ (Or.inr rfl)
  have h5 : ∀ b, chosen_ddl_lock cfg (srv.with_failure (bytes "FLUSH TABLES WITH READ LOCK") b) =
      chosen_ddl_lock cfg srv := fun _ => rfl
  have h3 : ftwrl (srv.with_failure (bytes "FLUSH TABLES WITH READ LOCK") true) =
      (ftwrl (srv.with_failure (bytes "FLUSH TABLES WITH READ LOCK") false)).bump := by
    simp [ftwrl, server.with_failure, dump_run.bump]
  simp only [h1, if_neg htidb, hnl, hall, Bool.not_false, if_true, Bool.false_eq_true, if_false,
    h4, h5]
  rw [h3, bump_seq_right _ _ rfl, bump_seq_left, bump_seq_right]
  cases cfg.no_backup_locks <;> rfl

theorem guard_phase_running (cfg : dump_config) (srv : server)
    (hlq : srv.long_query_wait_returns = true) :
    (guard_phase cfg srv).status = dump_status.running := by
  unfold guard_phase
  split_ifs <;> simp [hlq, dump_run.skip]

/-- A run that ends in the lock phase consists of the guard and of the lock
phase. -/
theorem start_dump_of_lock_failure (cfg : dump_config) (srv : server)
    (hl : (lock_phase cfg srv).status ≠ dump_status.running) :
    start_dump cfg srv = (guard_phase cfg srv).seq (lock_phase cfg srv) := by
  have h : ((guard_phase cfg srv).seq (lock_phase cfg srv)).status ≠ dump_status.running := by
    rw [Ne, seq_status_running]
    exact fun h => hl h.2
  unfold start_dump
  rw [seq_of_not_running _ (snapshot_phase cfg srv) h, seq_of_not_running _ (thread_phase cfg) h,
    seq_of_not_running _ (trx_unlock_phase cfg srv) h, seq_of_not_running _ (plan_phase cfg srv) h,
    seq_of_not_running _ (non_innodb_phase cfg srv) h, seq_of_not_running _ _ h]

/-- A run that ends in the lock phase has started neither the snapshot
transaction nor a worker. -/
theorem nothing_started_at_lock_failure (cfg : dump_config) (srv : server)
    (hg : (guard_phase cfg srv).status = dump_status.running)
    (hl : (lock_phase cfg srv).status = dump_status.exit_failure) :
    (start_dump cfg srv).status = dump_status.exit_failure ∧
    dump_event.sql false (bytes "START TRANSACTION /*!40108 WITH CONSISTENT SNAPSHOT */") ∉
      (start_dump cfg srv).trace ∧
    ∀ l id, dump_event.thread_create l id ∉ (start_dump cfg srv).trace := by
  rw [start_dump_of_lock_failure cfg srv (by rw [hl]; decide), seq_of_running _ _ hg]
  refine ⟨hl, ?_, ?_⟩
  · apply not_mem_append
    · rw [← mem_statements, statements_guard_phase]; simp
    · apply not_mem_lock_phase <;> decide
  · intro l id
    apply not_mem_append
    · unfold guard_phase
      split_ifs <;> simp [dump_run.skip]
    · intro he
      obtain ⟨c, q, hq⟩ := not_sql_of_lock_phase cfg srv _ he
      exact dump_event.noConfusion hq

/-- C8, amended.  On a server other than TiDB, with locking enabled and the
long query guard passed: (1) when the function stored in
`acquire_ddl_lock_function` exits because one of its statements fails, and
(2) when `send_lock_all_tables` exits, `start_dump` exits with failure before
the snapshot transaction is started and before any worker is created;
(3) whether `FLUSH NO_WRITE_TO_BINLOG TABLES` fails makes no difference to
the run; (4) a failure of `FLUSH TABLES WITH READ LOCK` does not stop the
run either: it adds one to `errors` and leaves the statements sent and the
outcome as they are without the failure. -/
theorem lock_failures (cfg : dump_config) (srv : server)
    (htidb : srv.detected_server ≠ server_type.SERVER_TYPE_TIDB)
    (hnl : cfg.no_locks = false) (hlq : srv.long_query_wait_returns = true) :
    (∀ f, cfg.lock_all_tables = false →
      (chosen_ddl_lock cfg srv).acquire_lock_function = some f →
      (call_acquire srv.fails (chosen_ddl_lock cfg srv).new_connection f).status =
        dump_status.exit_failure →
      (start_dump cfg srv).status = dump_status.exit_failure ∧
      dump_event.sql false (bytes "START TRANSACTION /*!40108 WITH CONSISTENT SNAPSHOT */") ∉
        (start_dump cfg srv).trace ∧
      ∀ l id, dump_event.thread_create l id ∉ (start_dump cfg srv).trace) ∧
    (cfg.lock_all_tables = true →
      (send_lock_all_tables srv.lock_error srv.tables_lock).status = dump_status.exit_failure →
      (start_dump cfg srv).status = dump_status.exit_failure ∧
      dump_event.sql false (bytes "START TRANSACTION /*!40108 WITH CONSISTENT SNAPSHOT */") ∉
        (start_dump cfg srv).trace ∧
      ∀ l id, dump_event.thread_create l id ∉ (start_dump cfg srv).trace) ∧
    (∀ b, start_dump cfg (srv.with_failure (bytes "FLUSH NO_WRITE_TO_BINLOG TABLES") b) =
      start_dump cfg srv) ∧
    (cfg.lock_all_tables = false →
      start_dump cfg (srv.with_failure (bytes "FLUSH TABLES WITH READ LOCK") true) =
        (start_dump cfg (srv.with_failure (bytes "FLUSH TABLES WITH READ LOCK") false)).bump) := by
  have hg := guard_phase_running cfg srv hlq
  refine ⟨?_, ?_, ?_, ?_⟩
  · intro f hall hf hfail
    apply nothing_started_at_lock_failure cfg srv hg
    unfold lock_phase
    simp only [if_neg htidb, hnl, hall, Bool.not_false, if_true, Bool.false_eq_true, if_false, hf]
    have h1 : ∀ a : dump_run, a.status = dump_status.running →
        (a.seq (call_acquire srv.fails (chosen_ddl_lock cfg srv).new_connection f)).status =
          dump_status.exit_failure := by
      intro a ha
      rw [seq_of_running _ _ ha]
      exact hfail
    have h2 : ∀ a b : dump_run, a.status = dump_status.running →
        b.status = dump_status.exit_failure → (a.seq b).status = dump_status.exit_failure := by
      intro a b ha hb
      rw [seq_of_running _ _ ha]
      exact hb
    apply h2
    · cases cfg.no_backup_locks <;> rfl
    · exact h1 _ rfl
  · intro hall hfail
    apply nothing_started_at_lock_failure cfg srv hg
    unfold lock_phase
    simp only [if_neg htidb, hnl, hall, Bool.not_false, if_true]
    have h2 : ∀ a b : dump_run, a.status = dump_status.running →
        b.status = dump_status.exit_failure → (a.seq b).status = dump_status.exit_failure := by
      intro a b ha hb
      rw [seq_of_running _ _ ha]
      exact hb
    apply h2
    · cases cfg.no_backup_locks <;> rfl
    · exact hfail
  · intro b
    obtain ⟨p1, p2, p3, p4, p5, p6, p7⟩ := phases_with_failure cfg srv
      (bytes "FLUSH NO_WRITE_TO_BINLOG TABLES") b (Or.inl rfl)
    unfold start_dump
    rw [p1, p2, p3, p4, p5, p6, p7, lock_phase_flush_failure]
  · intro hall
    obtain ⟨p1, p2, p3, p4, p5, p6, p7⟩ := phases_with_failure cfg srv
      (bytes "FLUSH TABLES WITH READ LOCK") true (Or.inr rfl)
    obtain ⟨r1, r2, r3, r4, r5, r6, r7⟩ := phases_with_failure cfg srv
      (bytes "FLUSH TABLES WITH READ LOCK") false (Or.inr rfl)
    unfold start_dump
    rw [p1, p2, p3, p4, p5, p6, p7, r1, r2, r3, r4, r5, r6, r7,
      lock_phase_ftwrl_failure cfg srv htidb hnl hall, bump_seq_right _ _ hg]
    simp only [bump_seq_left]

set_option maxRecDepth 100000 in
theorem lock_failures_witness :
    (start_dump default_config (percona57_failing "LOCK TABLES FOR BACKUP")).status =
      dump_status.exit_failure ∧
    dump_event.sql false (bytes "START TRANSACTION /*!40108 WITH CONSISTENT SNAPSHOT */") ∉
      (start_dump default_config (percona57_failing "LOCK TABLES FOR BACKUP")).trace ∧
    ∀ l id, dump_event.thread_create l id ∉
      (start_dump default_config (percona57_failing "LOCK TABLES FOR BACKUP")).trace :=
  (lock_failures default_config (percona57_failing "LOCK TABLES FOR BACKUP")
    (by decide) rfl rfl).1 acquire_fn.send_percona57_backup_locks rfl (by decide) (by decide)

set_option maxRecDepth 100000 in
/-- C8, counterexample.  On a server that refuses `FLUSH TABLES WITH READ
LOCK`, `start_dump` goes on: it counts one error, starts the snapshot
transaction, creates its workers and runs to its end. -/
theorem ftwrl_failure_not_fatal :
    (percona57_failing "FLUSH TABLES WITH READ LOCK").fails
      (bytes "FLUSH TABLES WITH READ LOCK") = true ∧
    (start_dump default_config (percona57_failing "FLUSH TABLES WITH READ LOCK")).status =
      dump_status.running ∧
    (start_dump default_config (percona57_failing "FLUSH TABLES WITH READ LOCK")).errors = 1 ∧
    dump_event.sql false (bytes "START TRANSACTION /*!40108 WITH CONSISTENT SNAPSHOT */") ∈
      (start_dump default_config (percona57_failing "FLUSH TABLES WITH READ LOCK")).trace ∧
    dump_event.thread_create false 1 ∈
      (start_dump default_config (percona57_failing "FLUSH TABLES WITH READ LOCK")).trace := by
  decide

/-! ## C10: the retries of `send_lock_all_tables` -/

theorem lock_all_loop_length (lock_error : Nat → Option (List Char)) (n retry : Nat)
    (tables_lock : List (List Char)) (run : lock_all_run) :
    (lock_all_loop lock_error n retry tables_lock run).queries.length ≤
      run.queries.length + n := by
  induction n generalizing retry tables_lock run with
  | zero => simp [lock_all_loop]
  | succ n ih =>
    unfold lock_all_loop
    cases lock_table_query tables_lock with
    | none => simp
    | some query =>
      simp only []
      cases lock_error retry with
      | none => simp
      | some err =>
        simp only []
        cases failed_table err with
        | none => simp
        | some t =>
          refine le_trans (ih _ _ _) ?_
          simp
          omega

/-- The retry loop sends at most four statements. -/
theorem send_lock_all_tables_at_most_four (lock_error : Nat → Option (List Char))
    (tables_lock : List (List Char)) :
    (send_lock_all_tables lock_error tables_lock).queries.length ≤ 4 := by
  unfold send_lock_all_tables
  split_ifs
  · simp
  · exact le_trans (lock_all_loop_length _ _ _ _ _) (by simp)

/-- The retry loop stops at a successful first attempt. -/
theorem send_lock_all_tables_first_success (lock_error : Nat → Option (List Char))
    (tables_lock : List (List Char)) (q : List Char) (hne : tables_lock ≠ [])
    (hq : lock_table_query tables_lock = some q) (h0 : lock_error 0 = none) :
    send_lock_all_tables lock_error tables_lock =
      { queries := [q], attempts := [tables_lock], tables_lock := tables_lock,
        status := dump_status.running } := by
  simp [send_lock_all_tables, hne, lock_all_loop, hq, h0]

/-- After a failed attempt whose error names the table `t`, the next attempt
works on the list without the first entry equal to `t`. -/
theorem lock_all_loop_retry (lock_error : Nat → Option (List Char)) (n retry : Nat)
    (tables_lock : List (List Char)) (run : lock_all_run) (q err t : List Char)
    (hq : lock_table_query tables_lock = some q) (he : lock_error retry = some err)
    (hf : failed_table err = some t) :
    lock_all_loop lock_error (n + 1) retry tables_lock run =
      lock_all_loop lock_error n (retry + 1) (tables_lock.erase t)
        { run with queries := run.queries ++ [q], attempts := run.attempts ++ [tables_lock] } := by
  simp [lock_all_loop, hq, he, hf]

/-- The statement for a non-empty list names every table once, each followed
by `READ`, with commas between them and a blank at the end. -/
theorem lock_table_query_form (tables : List (List Char)) (last : List Char) :
    lock_table_query (tables ++ [last]) =
      some (bytes "LOCK TABLE" ++ (tables.map fun t => t ++ bytes " READ,").flatten ++
            last ++ bytes " READ ") := by
  have h : bytes "LOCK TABLE" ++
      ((tables ++ [last]).map fun t => t ++ bytes " READ,").flatten =
      (bytes "LOCK TABLE" ++ (tables.map fun t => t ++ bytes " READ,").flatten ++
        last ++ bytes " READ") ++ [','] := by
    simp [bytes]
  unfold lock_table_query
  rw [h]
  simp [blank_last_comma, replace_first, bytes]

/-- The scenario of the specification: of the three tables `db.a`, `db.b`,
`db.c` the second has been dropped; the second attempt locks the other two
in their order. -/
theorem lock_all_retry_example :
    send_lock_all_tables (dropped_table_error "db.b")
        [bytes "`db`.`a`", bytes "`db`.`b`", bytes "`db`.`c`"] =
      { queries := [bytes "LOCK TABLE`db`.`a` READ,`db`.`b` READ,`db`.`c` READ ",
                    bytes "LOCK TABLE`db`.`a` READ,`db`.`c` READ "],
        attempts := [[bytes "`db`.`a`", bytes "`db`.`b`", bytes "`db`.`c`"],
                     [bytes "`db`.`a`", bytes "`db`.`c`"]],
        tables_lock := [bytes "`db`.`a`", bytes "`db`.`c`"],
        status := dump_status.running } := by
  decide

/-- C10, failing input.  With the single table `db.a` to lock and a server
that answers the first `LOCK TABLE` with `Table 'db.a' doesn't exist`,
`send_lock_all_tables` sends one statement, empties its list and then
writes through the `NULL` that `g_strrstr` returns for the statement without
a comma: it does not reach `exit (EXIT_FAILURE)`. -/
theorem lock_all_single_table :
    send_lock_all_tables (dropped_table_error "db.a") [bytes "`db`.`a`"] =
      { queries := [bytes "LOCK TABLE`db`.`a` READ "],
        attempts := [[bytes "`db`.`a`"]],
        tables_lock := [],
        status := dump_status.crashed } := by
  decide

end Mydumper

namespace Mydumper

open Glib

/-! ## C11: the choice of the DDL lock functions -/

theorem has_prefix_head {s p q : List Char}
    (h1 : g_str_has_prefix s p = true) (h2 : g_str_has_prefix s q = true)
    (hp : p ≠ []) (hq : q ≠ []) : p.head? = q.head? := by
  cases p with
  | nil => exact absurd rfl hp
  | cons a p =>
    cases q with
    | nil => exact absurd rfl hq
    | cons b q =>
      cases s with
      | nil => simp [ g_str_has_prefix, List.isPrefixOf] at h1
      | cons x xs =>
        simp only [ g_str_has_prefix, List.isPrefixOf, Bool.and_eq_true, beq_iff_eq] at h1 h2
        simp only [List.head?_cons, h1.1, h2.1]

/-- C11, amended.  For a result of one row (comment, version) and functions
that start unset, `determine_ddl_lock_function` chooses: `LOCK INSTANCE FOR
BACKUP` with the release `UNLOCK INSTANCE` and no binlog release when the
comment starts with `Percona` or `MySQL` and the version with `8.`; `LOCK
TABLES FOR BACKUP` then `LOCK BINLOG FOR BACKUP` with the release `UNLOCK
TABLES`, the binlog release `UNLOCK BINLOG` and a new connection when the
comment starts with `Percona` and the version with `5.7.`; the four `BACKUP
STAGE` statements `START`, `FLUSH`, `BLOCK_DDL`, `BLOCK_COMMIT` with the
release `BACKUP STAGE END` when the comment starts with the lower-case text
`mariadb` and the version with `10.5` or `10.6`; and nothing in every other
case. -/
theorem ddl_lock_selection (comment version : List Char) :
    let unset : ddl_lock :=
      { acquire_lock_function := none, release_lock_function := none,
        release_binlog_function := none, new_connection := false }
    let d := determine_ddl_lock_function [(comment, version)] unset
    ((( g_str_has_prefix comment (bytes "Percona") = true ∨
        g_str_has_prefix comment (bytes "MySQL") = true) ∧
       g_str_has_prefix version (bytes "8.") = true →
      d = { acquire_lock_function := some acquire_fn.send_lock_instance_backup,
            release_lock_function := some release_fn.send_unlock_instance_backup,
            release_binlog_function := none, new_connection := false }) ∧
     ( g_str_has_prefix comment (bytes "Percona") = true ∧
       g_str_has_prefix version (bytes "5.7.") = true →
      d = { acquire_lock_function := some acquire_fn.send_percona57_backup_locks,
            release_lock_function := some release_fn.send_unlock_tables,
            release_binlog_function := some release_fn.send_unlock_binlogs,
            new_connection := true }) ∧
     ( g_str_has_prefix comment (bytes "mariadb") = true ∧
       ( g_str_has_prefix version (bytes "10.5") = true ∨
         g_str_has_prefix version (bytes "10.6") = true) →
      d = { acquire_lock_function := some acquire_fn.send_mariadb_backup_locks,
            release_lock_function := some release_fn.send_backup_stage_end,
            release_binlog_function := none, new_connection := false }) ∧
     (¬ (( g_str_has_prefix comment (bytes "Percona") = true ∨
           g_str_has_prefix comment (bytes "MySQL") = true) ∧
          g_str_has_prefix version (bytes "8.") = true) ∧
      ¬ ( g_str_has_prefix comment (bytes "Percona") = true ∧
          g_str_has_prefix version (bytes "5.7.") = true) ∧
      ¬ ( g_str_has_prefix comment (bytes "mariadb") = true ∧
          ( g_str_has_prefix version (bytes "10.5") = true ∨
            g_str_has_prefix version (bytes "10.6") = true)) →
      d = unset)) ∧
    (∀ second,
      (call_acquire (fun _ => false) second acquire_fn.send_lock_instance_backup).trace =
        [dump_event.sql second (bytes "LOCK INSTANCE FOR BACKUP")] ∧
      (call_acquire (fun _ => false) second acquire_fn.send_percona57_backup_locks).trace =
        [dump_event.sql second (bytes "LOCK TABLES FOR BACKUP"),
         dump_event.sql second (bytes "LOCK BINLOG FOR BACKUP")] ∧
      (call_acquire (fun _ => false) second acquire_fn.send_mariadb_backup_locks).trace =
        [dump_event.sql second (bytes "BACKUP STAGE START"),
         dump_event.sql second (bytes "BACKUP STAGE FLUSH"),
         dump_event.sql second (bytes "BACKUP STAGE BLOCK_DDL"),
         dump_event.sql second (bytes "BACKUP STAGE BLOCK_COMMIT")] ∧
      (call_release second release_fn.send_unlock_instance_backup).trace =
        [dump_event.sql second (bytes "UNLOCK INSTANCE")] ∧
      (call_release second release_fn.send_unlock_tables).trace =
        [dump_event.sql second (bytes "UNLOCK TABLES")] ∧
      (call_release second release_fn.send_unlock_binlogs).trace =
        [dump_event.sql second (bytes "UNLOCK BINLOG")] ∧
      (call_release second release_fn.send_backup_stage_end).trace =
        [dump_event.sql second (bytes "BACKUP STAGE END")]) := by
  intro unset d
  have hPM : ¬ ( g_str_has_prefix comment (bytes "Percona") = true ∧
                 g_str_has_prefix comment (bytes "mariadb") = true) := fun h =>
    absurd (has_prefix_head h.1 h.2 (by decide) (by decide)) (by decide)
  have hMm : ¬ ( g_str_has_prefix comment (bytes "MySQL") = true ∧
                 g_str_has_prefix comment (bytes "mariadb") = true) := fun h =>
    absurd (has_prefix_head h.1 h.2 (by decide) (by decide)) (by decide)
  have h857 : ¬ ( g_str_has_prefix version (bytes "8.") = true ∧
                  g_str_has_prefix version (bytes "5.7.") = true) := fun h =>
    absurd (has_prefix_head h.1 h.2 (by decide) (by decide)) (by decide)
  have h8105 : ¬ ( g_str_has_prefix version (bytes "8.") = true ∧
                   g_str_has_prefix version (bytes "10.5") = true) := fun h =>
    absurd (has_prefix_head h.1 h.2 (by decide) (by decide)) (by decide)
  have h8106 : ¬ ( g_str_has_prefix version (bytes "8.") = true ∧
                   g_str_has_prefix version (bytes "10.6") = true) := fun h =>
    absurd (has_prefix_head h.1 h.2 (by decide) (by decide)) (by decide)
  have h57105 : ¬ ( g_str_has_prefix version (bytes "5.7.") = true ∧
                    g_str_has_prefix version (bytes "10.5") = true) := fun h =>
    absurd (has_prefix_head h.1 h.2 (by decide) (by decide)) (by decide)
  have h57106 : ¬ ( g_str_has_prefix version (bytes "5.7.") = true ∧
                    g_str_has_prefix version (bytes "10.6") = true) := fun h =>
    absurd (has_prefix_head h.1 h.2 (by decide) (by decide)) (by decide)
  refine ⟨?_, fun second => ?_⟩
  · simp only [d, unset, determine_ddl_lock_function]
    revert hPM hMm h857 h8105 h8106 h57105 h57106
    generalize g_str_has_prefix comment (bytes "Percona") = bP
    generalize g_str_has_prefix comment (bytes "MySQL") = bM
    generalize g_str_has_prefix comment (bytes "mariadb") = bm
    generalize g_str_has_prefix version (bytes "8.") = v8
    generalize g_str_has_prefix version (bytes "5.7.") = v57
    generalize g_str_has_prefix version (bytes "10.5") = v105
    generalize g_str_has_prefix version (bytes "10.6") = v106
    cases bP <;> cases bM <;> cases bm <;> cases v8 <;> cases v57 <;> cases v105 <;>
      cases v106 <;> simp
  · refine ⟨?_, ?_, ?_, ?_, ?_, ?_, ?_⟩ <;> cases second <;> decide

/-- A Percona 5.7 row gets the backup locks of Percona 5.7 and a new
connection. -/
theorem ddl_lock_selection_witness :
    ( g_str_has_prefix (bytes "Percona Server (GPL)") (bytes "Percona") = true ∧
      g_str_has_prefix (bytes "5.7.30-33") (bytes "5.7.") = true) ∧
    determine_ddl_lock_function [(bytes "Percona Server (GPL)", bytes "5.7.30-33")]
        { acquire_lock_function := none, release_lock_function := none,
          release_binlog_function := none, new_connection := false } =
      { acquire_lock_function := some acquire_fn.send_percona57_backup_locks,
        release_lock_function := some release_fn.send_unlock_tables,
        release_binlog_function := some release_fn.send_unlock_binlogs,
        new_connection := true } :=
  ⟨by decide,
   (ddl_lock_selection (bytes "Percona Server (GPL)") (bytes "5.7.30-33")).1.2.1 (by decide)⟩

/-- C11, counterexample.  A MariaDB 10.5 server whose comment is spelled
`MariaDB Server` gets no lock function: the code compares with the
lower-case text `mariadb`. -/
theorem mariadb_capitalised_gets_no_lock :
    determine_ddl_lock_function [(bytes "MariaDB Server", bytes "10.5.8-MariaDB")]
        { acquire_lock_function := none, release_lock_function := none,
          release_binlog_function := none, new_connection := false } =
      { acquire_lock_function := none, release_lock_function := none,
        release_binlog_function := none, new_connection := false } ∧
    determine_ddl_lock_function
        [(bytes "mariadb.org binary distribution", bytes "10.5.8-MariaDB")]
        { acquire_lock_function := none, release_lock_function := none,
          release_binlog_function := none, new_connection := false } =
      { acquire_lock_function := some acquire_fn.send_mariadb_backup_locks,
        release_lock_function := some release_fn.send_backup_stage_end,
        release_binlog_function := none, new_connection := false } := by
  decide

end Mydumper

namespace Mydumper

open Glib

/-! ## C12: the rows counted by the long query guard -/

theorem check_row_counted (longquery : Int) (killqueries : Bool)
    (kill_fails : List Char → Bool) (tcol ccol icol ucol : Nat)
    (row : List (Option (List Char))) (hid : (row.getD icol none).isSome = true) :
    check_row longquery killqueries kill_fails tcol ccol icol (some ucol) row =
      if long_query_row longquery tcol ccol ucol row then
        if killqueries then
          if kill_fails (kill_query_of icol row) then
            row_verdict.kill_failed (kill_query_of icol row)
          else row_verdict.killed (kill_query_of icol row)
        else row_verdict.counted
      else row_verdict.passed := by
  obtain ⟨id, hi⟩ := Option.isSome_iff_exists.1 hid
  simp only [check_row, long_query_row, kill_query_of, hi, Option.getD_some]
  cases row.getD ccol none <;> cases row.getD ucol none <;> cases row.getD tcol none <;>
    cases killqueries <;> simp <;> split_ifs <;> simp_all

theorem check_rows_scan (longquery : Int) (killqueries : Bool)
    (kill_fails : List Char → Bool) (tcol ccol icol ucol : Nat)
    (rows : List (List (Option (List Char))))
    (hid : ∀ row ∈ rows, (row.getD icol none).isSome = true) (s : row_scan) :
    check_rows longquery killqueries kill_fails tcol ccol icol (some ucol) rows s =
      { longquery_count := s.longquery_count +
          (rows.filter fun row =>
            (check_row longquery killqueries kill_fails tcol ccol icol (some ucol)
              row).is_counted).length,
        kills := s.kills ++
          (if killqueries then
            (rows.filter (long_query_row longquery tcol ccol ucol)).map (kill_query_of icol)
           else []),
        crashed := s.crashed } := by
  induction rows generalizing s with
  | nil => cases killqueries <;> simp [check_rows]
  | cons row rows ih =>
    have hrow := check_row_counted longquery killqueries kill_fails tcol ccol icol ucol row
      (hid row (List.mem_cons_self _ _))
    have ih1 := fun s => ih (fun r hr => hid r (List.mem_cons_of_mem _ hr)) s
    rw [check_rows]
    by_cases hl : long_query_row longquery tcol ccol ucol row = true
    · cases hk : killqueries with
      | false =>
        rw [hk] at hrow ih1
        simp only [hl, if_true, Bool.false_eq_true, if_false] at hrow
        simp only [hrow, ih1, List.filter_cons, row_verdict.is_counted, if_true,
          List.length_cons, Bool.false_eq_true, if_false, row_scan.mk.injEq, and_true,
          true_and]
        omega
      | true =>
        rw [hk] at hrow ih1
        simp only [hl, if_true] at hrow
        by_cases hf : kill_fails (kill_query_of icol row) = true
        · simp only [hf, if_true] at hrow
          simp only [hrow, ih1, List.filter_cons, row_verdict.is_counted, if_true,
            List.length_cons, hl, List.map_cons, List.append_assoc, List.singleton_append,
            row_scan.mk.injEq, and_true, true_and]
          omega
        · simp only [hf, if_false] at hrow
          simp only [hrow, ih1, List.filter_cons, row_verdict.is_counted, if_true,
            hl, List.map_cons, List.append_assoc, List.singleton_append,
            Bool.false_eq_true, if_false]
    · simp only [hl, if_false] at hrow
      simp only [hrow, ih1, List.filter_cons, row_verdict.is_counted, hl,
        Bool.false_eq_true, if_false]

/-- C12, amended.  In one pass of `long_query_wait` over a process list with
the four columns and an `Id` in every row, a row raises `longquery_count` if
and only if its `Command` is `NULL` or equals `Query`, its `User` is `NULL`
or is not `system user`, its `Time` is not `NULL` and, read by `atoi`, is
above `longquery`, and, when `killqueries` is set, the `KILL` sent for it
fails.  With `killqueries` set a `KILL` is sent for exactly the rows that
meet the first three conditions, in their order, and none is sent without
it; when every `KILL` succeeds the count is zero and `long_query_wait`
returns in that same pass. -/
theorem long_query_count (longquery : Int) (killqueries : Bool) (p : processlist)
    (tcol ccol icol ucol : Nat)
    (hq : p.query_fails = false)
    (hc : find_columns p.fields 0
            { tcol := none, ccol := none, icol := none, ucol := none } =
          { tcol := some tcol, ccol := some ccol, icol := some icol, ucol := some ucol })
    (hid : ∀ row ∈ p.rows, (row.getD icol none).isSome = true) :
    (∀ row ∈ p.rows,
      (check_row longquery killqueries p.kill_fails tcol ccol icol (some ucol)
          row).is_counted = true ↔
        (long_query_row longquery tcol ccol ucol row = true ∧
         (killqueries = true → p.kill_fails (kill_query_of icol row) = true))) ∧
    ∃ s, inspect longquery killqueries p = inspection.scanned s ∧
      s.crashed = false ∧
      s.longquery_count =
        (p.rows.filter fun row =>
          (check_row longquery killqueries p.kill_fails tcol ccol icol (some ucol)
            row).is_counted).length ∧
      s.kills =
        (if killqueries then
          (p.rows.filter (long_query_row longquery tcol ccol ucol)).map (kill_query_of icol)
         else []) ∧
      (killqueries = true → (∀ q ∈ s.kills, p.kill_fails q = false) →
        s.longquery_count = 0 ∧
        ∀ (interval : Int) (processlist : Nat → processlist) (fuel : Nat) (retries : Int)
          (n : Nat), processlist n = p →
          long_query_wait longquery killqueries interval processlist (fuel + 1) retries n =
            some { events := guard_event.show_processlist :: s.kills.map guard_event.kill,
                   status := dump_status.running }) := by
  have hrow : ∀ row ∈ p.rows,
      (check_row longquery killqueries p.kill_fails tcol ccol icol (some ucol)
          row).is_counted = true ↔
        (long_query_row longquery tcol ccol ucol row = true ∧
         (killqueries = true → p.kill_fails (kill_query_of icol row) = true)) := by
    intro row hr
    rw [check_row_counted longquery killqueries p.kill_fails tcol ccol icol ucol row
      (hid row hr)]
    cases long_query_row longquery tcol ccol ucol row <;> cases killqueries <;>
      cases p.kill_fails (kill_query_of icol row) <;> simp [row_verdict.is_counted]
  refine ⟨hrow, ?_⟩
  have hs := check_rows_scan longquery killqueries p.kill_fails tcol ccol icol ucol p.rows hid
    { longquery_count := 0, kills := [], crashed := false }
  simp only [Nat.zero_add, List.nil_append] at hs
  have hi : inspect longquery killqueries p =
      inspection.scanned
        (check_rows longquery killqueries p.kill_fails tcol ccol icol (some ucol) p.rows
          { longquery_count := 0, kills := [], crashed := false }) := by
    simp only [inspect, hq, hc, Bool.false_eq_true, if_false]
  refine ⟨_, hi, ?_, ?_, ?_, ?_⟩
  · rw [hs]
  · rw [hs]
  · rw [hs]
  · intro hk hall
    have h0 : (check_rows longquery killqueries p.kill_fails tcol ccol icol (some ucol) p.rows
        { longquery_count := 0, kills := [], crashed := false }).longquery_count = 0 := by
      rw [hs]
      show (List.filter _ p.rows).length = 0
      rw [List.length_eq_zero, List.filter_eq_nil_iff]
      intro row hr hcount
      have h1 := (hrow row hr).1 hcount
      have h2 : kill_query_of icol row ∈
          (check_rows longquery killqueries p.kill_fails tcol ccol icol (some ucol) p.rows
            { longquery_count := 0, kills := [], crashed := false }).kills := by
        rw [hs]
        simp only [hk, if_true]
        exact List.mem_map_of_mem _ (List.mem_filter.2 ⟨hr, h1.1⟩)
      have h3 := hall _ h2
      rw [h1.2 hk] at h3
      exact Bool.noConfusion h3
    refine ⟨h0, ?_⟩
    intro interval processlist fuel retries n hn
    have hc0 : (check_rows longquery killqueries p.kill_fails tcol ccol icol (some ucol) p.rows
        { longquery_count := 0, kills := [], crashed := false }).crashed = false := by
      rw [hs]
    simp only [long_query_wait, hn, hi, hc0, h0, Bool.false_eq_true, if_false, if_true]

set_option maxRecDepth 1000000 in
/-- Two queries of 10 and 12 seconds under a guard of 5 seconds with
`killqueries`: both are killed, nothing is counted, the guard returns in
the same pass. -/
theorem long_query_count_witness :
    two_long_queries.query_fails = false ∧
    long_query_wait 5 true 60 (fun _ => two_long_queries) 1 0 0 =
      some { events := [guard_event.show_processlist, guard_event.kill (bytes "KILL 11"),
                        guard_event.kill (bytes "KILL 13")],
             status := dump_status.running } := by
  refine ⟨rfl, ?_⟩
  obtain ⟨_, s, hs, _, _, hk, hz⟩ :=
    long_query_count 5 true two_long_queries 5 4 0 1 rfl (by decide) (by decide)
  have h1 : s = { longquery_count := 0,
                  kills := [bytes "KILL 11", bytes "KILL 13"], crashed := false } := by
    have h2 : inspect 5 true two_long_queries =
        inspection.scanned { longquery_count := 0,
                             kills := [bytes "KILL 11", bytes "KILL 13"],
                             crashed := false } := by decide
    rw [h2] at hs
    exact (inspection.scanned.inj hs).symm
  have h3 := (hz rfl (fun q _ => rfl)).2 60 (fun _ => two_long_queries) 0 0 0 rfl
  rw [h3, h1]
  rfl

set_option maxRecDepth 1000000 in
/-- C12, counterexample.  A row whose `Command` is `NULL`, of another user
than `system user` and with a `Time` above the guard, is counted although
its `Command` does not equal `Query`. -/
theorem null_command_counted :
    inspect 60 false null_command_row =
      inspection.scanned { longquery_count := 1, kills := [], crashed := false } ∧
    (null_command_row.rows.filter (specified_long_query_row 60 5 4 1)).length = 0 ∧
    long_query_wait 60 false 60 (fun _ => null_command_row) 1 0 0 =
      some { events := [guard_event.show_processlist], status := dump_status.exit_failure } := by
  decide

end Mydumper

namespace Mydumper

open Glib

/-! ## C13: the retries of the long query guard -/

theorem long_query_wait_total (longquery : Int) (killqueries : Bool) (interval : Int)
    (processlist : Nat → processlist) (R : Nat) :
    ∀ fuel n, R < fuel →
      ∃ r, long_query_wait longquery killqueries interval processlist fuel (R : Int) n =
        some r := by
  induction R with
  | zero =>
    intro fuel n hf
    obtain ⟨f, rfl⟩ : ∃ f, fuel = f + 1 := ⟨fuel - 1, by omega⟩
    simp only [long_query_wait]
    cases inspect longquery killqueries (processlist n) with
    | query_failed => exact ⟨_, rfl⟩
    | columns_missing => exact ⟨_, rfl⟩
    | scanned s =>
      dsimp only
      split_ifs with hc h0 hr
      · exact ⟨_, rfl⟩
      · exact ⟨_, rfl⟩
      · exact ⟨_, rfl⟩
      · exact absurd rfl hr
  | succ R ih =>
    intro fuel n hf
    obtain ⟨f, rfl⟩ : ∃ f, fuel = f + 1 := ⟨fuel - 1, by omega⟩
    simp only [long_query_wait]
    cases inspect longquery killqueries (processlist n) with
    | query_failed => exact ⟨_, rfl⟩
    | columns_missing => exact ⟨_, rfl⟩
    | scanned s =>
      dsimp only
      split_ifs with hc h0 hr
      · exact ⟨_, rfl⟩
      · exact ⟨_, rfl⟩
      · exact ⟨_, rfl⟩
      · have hr1 : ((R + 1 : Nat) : Int) - 1 = (R : Int) := by omega
        obtain ⟨r, hr2⟩ := ih f (n + 1) (by omega)
        rw [hr1, hr2]
        exact ⟨_, rfl⟩

theorem long_query_wait_exhausted (longquery : Int) (killqueries : Bool) (interval : Int)
    (processlist : Nat → processlist) (k : Nat) :
    ∀ fuel n, k < fuel →
      (∀ i, i ≤ k → long_queries_at longquery killqueries processlist (n + i) = true) →
      long_query_wait longquery killqueries interval processlist fuel (k : Int) n =
        some { events := retry_events longquery killqueries interval processlist n k,
               status := dump_status.exit_failure } := by
  induction k with
  | zero =>
    intro fuel n hf h
    obtain ⟨f, rfl⟩ : ∃ f, fuel = f + 1 := ⟨fuel - 1, by omega⟩
    have h0 := h 0 (Nat.le_refl _)
    simp only [long_queries_at, Nat.add_zero] at h0
    simp only [long_query_wait, retry_events, pass_events]
    cases hi : inspect longquery killqueries (processlist n) with
    | query_failed => simp [hi] at h0
    | columns_missing => simp [hi] at h0
    | scanned s =>
      rw [hi] at h0
      simp only [Bool.and_eq_true, Bool.not_eq_true', decide_eq_true_eq] at h0
      simp only [h0.1, h0.2, Bool.false_eq_true, if_false, Nat.cast_zero, if_true]
  | succ k ih =>
    intro fuel n hf h
    obtain ⟨f, rfl⟩ : ∃ f, fuel = f + 1 := ⟨fuel - 1, by omega⟩
    have h0 := h 0 (Nat.zero_le _)
    simp only [long_queries_at, Nat.add_zero] at h0
    have hr : ((k + 1 : Nat) : Int) ≠ 0 := by omega
    have hr1 : ((k + 1 : Nat) : Int) - 1 = (k : Int) := by omega
    have ih1 := ih f (n + 1) (by omega) (fun i hi => by
      have := h (i + 1) (by omega)
      rwa [show n + (i + 1) = n + 1 + i by omega] at this)
    simp only [long_query_wait, retry_events, pass_events]
    cases hi : inspect longquery killqueries (processlist n) with
    | query_failed => simp [hi] at h0
    | columns_missing => simp [hi] at h0
    | scanned s =>
      rw [hi] at h0
      simp only [Bool.and_eq_true, Bool.not_eq_true', decide_eq_true_eq] at h0
      simp only [h0.1, h0.2, Bool.false_eq_true, if_false, hr, hr1, ih1, Option.map_some',
        guard_run.after, List.cons_append, List.append_assoc, List.singleton_append,
        List.nil_append]

theorem long_query_wait_first_zero (longquery : Int) (killqueries : Bool) (interval : Int)
    (processlist : Nat → processlist) (k : Nat) :
    ∀ fuel (retries : Int) n, k < fuel → (k : Int) ≤ retries →
      (∀ i, i < k → long_queries_at longquery killqueries processlist (n + i) = true) →
      no_long_queries_at longquery killqueries processlist (n + k) = true →
      long_query_wait longquery killqueries interval processlist fuel retries n =
        some { events := retry_events longquery killqueries interval processlist n k,
               status := dump_status.running } := by
  induction k with
  | zero =>
    intro fuel retries n hf _ _ hz
    obtain ⟨f, rfl⟩ : ∃ f, fuel = f + 1 := ⟨fuel - 1, by omega⟩
    simp only [no_long_queries_at, Nat.add_zero] at hz
    simp only [long_query_wait, retry_events, pass_events]
    cases hi : inspect longquery killqueries (processlist n) with
    | query_failed => simp [hi] at hz
    | columns_missing => simp [hi] at hz
    | scanned s =>
      rw [hi] at hz
      simp only [Bool.and_eq_true, Bool.not_eq_true', decide_eq_true_eq] at hz
      simp only [hz.1, hz.2, Bool.false_eq_true, if_false, if_true]
  | succ k ih =>
    intro fuel retries n hf hr h hz
    obtain ⟨f, rfl⟩ : ∃ f, fuel = f + 1 := ⟨fuel - 1, by omega⟩
    have h0 := h 0 (Nat.succ_pos _)
    simp only [long_queries_at, Nat.add_zero] at h0
    have hr0 : retries ≠ 0 := by omega
    have ih1 := ih f (retries - 1) (n + 1) (by omega) (by omega)
      (fun i hi => by
        have := h (i + 1) (by omega)
        rwa [show n + (i + 1) = n + 1 + i by omega] at this)
      (by rwa [show n + (k + 1) = n + 1 + k by omega] at hz)
    simp only [long_query_wait, retry_events, pass_events]
    cases hi : inspect longquery killqueries (processlist n) with
    | query_failed => simp [hi] at h0
    | columns_missing => simp [hi] at h0
    | scanned s =>
      rw [hi] at h0
      simp only [Bool.and_eq_true, Bool.not_eq_true', decide_eq_true_eq] at h0
      simp only [h0.1, h0.2, Bool.false_eq_true, if_false, hr0, ih1, Option.map_some',
        guard_run.after, List.cons_append, List.append_assoc, List.singleton_append,
        List.nil_append]

theorem pass_events_shape (longquery : Int) (killqueries : Bool) (p : processlist) :
    ∃ kills, pass_events longquery killqueries p =
      guard_event.show_processlist :: List.map guard_event.kill kills := by
  simp only [pass_events]
  cases inspect longquery killqueries p with
  | query_failed => exact ⟨[], rfl⟩
  | columns_missing => exact ⟨[], rfl⟩
  | scanned s => exact ⟨s.kills, rfl⟩

theorem count_kills (kills : List (List Char)) (e : guard_event)
    (he : ∀ q, e ≠ guard_event.kill q) :
    (List.map guard_event.kill kills).count e = 0 := by
  rw [List.count_eq_zero]
  intro h
  obtain ⟨q, _, hq⟩ := List.mem_map.1 h
  exact he q hq.symm

theorem retry_events_counts (longquery : Int) (killqueries : Bool) (interval : Int)
    (processlist : Nat → processlist) (k : Nat) :
    ∀ n,
      (retry_events longquery killqueries interval processlist n k).count
          guard_event.show_processlist = k + 1 ∧
      (retry_events longquery killqueries interval processlist n k).count
          (guard_event.sleep (interval % (2 : Int) ^ 32).toNat) = k ∧
      ∀ t, guard_event.sleep t ∈
          retry_events longquery killqueries interval processlist n k →
        t = (interval % (2 : Int) ^ 32).toNat := by
  induction k with
  | zero =>
    intro n
    obtain ⟨kills, hk⟩ := pass_events_shape longquery killqueries (processlist n)
    simp only [retry_events, hk]
    refine ⟨?_, ?_, ?_⟩
    · rw [List.count_cons_self, count_kills kills _ (fun q h => guard_event.noConfusion h)]
    · rw [List.count_cons_of_ne (fun h => guard_event.noConfusion h),
        count_kills kills _ (fun q h => guard_event.noConfusion h)]
    · intro t ht
      rcases List.mem_cons.1 ht with h | h
      · exact guard_event.noConfusion h
      · obtain ⟨q, _, hq⟩ := List.mem_map.1 h
        exact guard_event.noConfusion hq
  | succ k ih =>
    intro n
    obtain ⟨kills, hk⟩ := pass_events_shape longquery killqueries (processlist n)
    obtain ⟨h1, h2, h3⟩ := ih (n + 1)
    simp only [retry_events, hk]
    refine ⟨?_, ?_, ?_⟩
    · rw [List.cons_append, List.count_cons_self, List.count_append,
        count_kills kills _ (fun q h => guard_event.noConfusion h),
        List.count_cons_of_ne (fun h => guard_event.noConfusion h), h1]
      omega
    · rw [List.cons_append, List.count_cons_of_ne (fun h => guard_event.noConfusion h),
        List.count_append, count_kills kills _ (fun q h => guard_event.noConfusion h),
        List.count_cons_self, h2]
      omega
    · intro t ht
      rw [List.cons_append] at ht
      rcases List.mem_cons.1 ht with h | h
      · exact guard_event.noConfusion h
      · rcases List.mem_append.1 h with h | h
        · obtain ⟨q, _, hq⟩ := List.mem_map.1 h
          exact guard_event.noConfusion hq
        · rcases List.mem_cons.1 h with h | h
          · exact guard_event.sleep.inj h
          · exact h3 t h

/-- C13.  With `longquery_retries` set to `R >= 0`, `long_query_wait` ends
within `R + 1` passes of its loop whatever the server answers.  When the
pass `k <= R` is the first that counts no long query, it returns there, after
`k + 1` statements `SHOW PROCESSLIST` with a `sleep` of the retry interval
between one and the next.  When each of the passes `0`, ..., `R` counts a
long query, it sends `R + 1` statements `SHOW PROCESSLIST`, sleeps `R` times
for the retry interval, one interval between two passes, and then leaves the
process with `exit (EXIT_FAILURE)`. -/
theorem long_query_retry_budget (longquery : Int) (killqueries : Bool) (interval : Int)
    (processlist : Nat → processlist) (R fuel : Nat) (hf : R < fuel) :
    (∃ r, long_query_wait longquery killqueries interval processlist fuel (R : Int) 0 =
      some r) ∧
    (∀ k, k ≤ R →
      (∀ i, i < k → long_queries_at longquery killqueries processlist i = true) →
      no_long_queries_at longquery killqueries processlist k = true →
      long_query_wait longquery killqueries interval processlist fuel (R : Int) 0 =
        some { events := retry_events longquery killqueries interval processlist 0 k,
               status := dump_status.running }) ∧
    ((∀ i, i ≤ R → long_queries_at longquery killqueries processlist i = true) →
      long_query_wait longquery killqueries interval processlist fuel (R : Int) 0 =
        some { events := retry_events longquery killqueries interval processlist 0 R,
               status := dump_status.exit_failure }) ∧
    (∀ k,
      (retry_events longquery killqueries interval processlist 0 k).count
          guard_event.show_processlist = k + 1 ∧
      (retry_events longquery killqueries interval processlist 0 k).count
          (guard_event.sleep (interval % (2 : Int) ^ 32).toNat) = k ∧
      ∀ t, guard_event.sleep t ∈
          retry_events longquery killqueries interval processlist 0 k →
        t = (interval % (2 : Int) ^ 32).toNat) := by
  refine ⟨long_query_wait_total longquery killqueries interval processlist R fuel 0 hf,
    ?_, ?_, fun k => retry_events_counts longquery killqueries interval processlist k 0⟩
  · intro k hk h hz
    exact long_query_wait_first_zero longquery killqueries interval processlist k fuel R 0
      (by omega) (by omega) (fun i hi => by rw [Nat.zero_add]; exact h i hi)
      (by rw [Nat.zero_add]; exact hz)
  · intro h
    exact long_query_wait_exhausted longquery killqueries interval processlist R fuel 0 hf
      (fun i hi => by rw [Nat.zero_add]; exact h i hi)

set_option maxRecDepth 1000000 in
/-- One retry, a long query at the first pass only: two statements
`SHOW PROCESSLIST` with a sleep of 60 seconds between them, then the
return. -/
theorem long_query_retry_budget_witness :
    (1 : Nat) < 2 ∧
    long_query_wait 60 false 60 long_query_once 2 ((1 : Nat) : Int) 0 =
      some { events := [guard_event.show_processlist, guard_event.sleep 60,
                        guard_event.show_processlist],
             status := dump_status.running } ∧
    long_query_wait 60 false 60 (fun _ => one_long_query) 2 ((1 : Nat) : Int) 0 =
      some { events := [guard_event.show_processlist, guard_event.sleep 60,
                        guard_event.show_processlist],
             status := dump_status.exit_failure } := by
  refine ⟨by decide, ?_, ?_⟩
  · rw [(long_query_retry_budget 60 false 60 long_query_once 1 2 (by decide)).2.1 1
      (Nat.le_refl _) (by decide) (by decide)]
    decide
  · rw [(long_query_retry_budget 60 false 60 (fun _ => one_long_query) 1 2 (by decide)).2.2.1
      (by decide)]
    decide

end Mydumper

namespace Mydumper

open Glib

/-! ## C14: schema jobs and the flag `already_dumped` -/

theorem table_rows_no_schema_job (env : table_list_env) (database : List Char)
    (ecol ccol : Nat) (D : List Char) (rows : List (List (Option (List Char)))) :
    (table_rows env database ecol ccol rows).count
      (table_list_event.create_job_to_dump_schema D) = 0 := by
  induction rows with
  | nil => rfl
  | cons row rows ih =>
    simp only [table_rows]
    split_ifs
    · exact ih
    · exact ih
    · rw [List.count_cons_of_ne (fun h => table_list_event.noConfusion h)]
      exact ih

theorem table_list_schema_jobs (env : table_list_env) (D : List Char)
    (table_list : List (List Char)) :
    ∀ x dumped,
      (get_table_info_to_process_from_list env table_list x dumped).events.count
          (table_list_event.create_job_to_dump_schema D) ≤ 1 ∧
      (D ∈ dumped →
        (get_table_info_to_process_from_list env table_list x dumped).events.count
          (table_list_event.create_job_to_dump_schema D) = 0) ∧
      (∀ d ∈ dumped,
        d ∈ (get_table_info_to_process_from_list env table_list x dumped).already_dumped) ∧
      ((get_table_info_to_process_from_list env table_list x dumped).events.count
          (table_list_event.create_job_to_dump_schema D) = 1 →
        D ∈ (get_table_info_to_process_from_list env table_list x dumped).already_dumped) := by
  induction table_list with
  | nil =>
    intro x dumped
    simp [get_table_info_to_process_from_list]
  | cons entry table_list ih =>
    intro x dumped
    simp only [get_table_info_to_process_from_list]
    cases hdt : g_strsplit entry '.' with
    | nil => simp
    | cons dt0 dt =>
      dsimp only
      cases hq : (env.table_status x).query_fails with
      | true => simp
      | false =>
        simp only [Bool.false_eq_true, if_false]
        cases hdb : (env.get_database dt0).2 with
        | none =>
          dsimp only
          cases hf : (env.get_database dt0).1 with
          | true => simp
          | false =>
            simp only [Bool.false_eq_true, if_false]
            cases hr : (env.table_status x).result with
            | none => simp
            | some rows =>
              cases rows with
              | cons row rows => simp
              | nil =>
                obtain ⟨h1, h2, h3, h4⟩ := ih (x + 1) dumped
                simp only [table_list_run.after, List.singleton_append]
                rw [List.count_cons_of_ne (fun h => table_list_event.noConfusion h)]
                exact ⟨h1, h2, h3, h4⟩
        | some database =>
          dsimp only
          have hrows := table_rows_no_schema_job env database (env.table_status x).ecol
            (env.table_status x).ccol D
          cases hs : ((env.get_database dt0).1 && !dumped.contains database) with
          | false =>
            simp only [Bool.false_eq_true, if_false]
            cases hr : (env.table_status x).result with
            | none => simp
            | some rows =>
              obtain ⟨h1, h2, h3, h4⟩ := ih (x + 1) dumped
              simp only [table_list_run.after, List.cons_append, List.nil_append]
              rw [List.count_cons_of_ne (fun h => table_list_event.noConfusion h),
                List.count_append, hrows rows, Nat.zero_add]
              exact ⟨h1, h2, h3, h4⟩
          | true =>
            simp only [if_true]
            have hnot : database ∉ dumped := by
              simp only [Bool.and_eq_true, Bool.not_eq_true', List.contains_eq_any_beq,
                List.any_eq_false, beq_iff_eq] at hs
              intro hmem
              exact hs.2 database hmem rfl
            cases hr : (env.table_status x).result with
            | none =>
              dsimp only
              rw [List.count_cons_of_ne (fun h => table_list_event.noConfusion h)]
              by_cases hD : database = D
              · subst hD
                rw [List.count_cons_self]
                refine ⟨Nat.le_refl _, fun h => absurd h hnot,
                  fun d hd => List.mem_cons_of_mem _ hd, fun _ => List.mem_cons_self _ _⟩
              · rw [List.count_cons_of_ne (fun h => hD (table_list_event.create_job_to_dump_schema.inj h).symm)]
                refine ⟨Nat.zero_le _, fun _ => rfl,
                  fun d hd => List.mem_cons_of_mem _ hd, fun h => ?_⟩
                simp at h
            | some rows =>
              obtain ⟨h1, h2, h3, h4⟩ := ih (x + 1) (database :: dumped)
              simp only [table_list_run.after, List.cons_append, List.nil_append]
              rw [List.count_cons_of_ne (fun h => table_list_event.noConfusion h)]
              by_cases hD : database = D
              · subst hD
                rw [List.count_cons_self, List.count_append, hrows rows, Nat.zero_add,
                  h2 (List.mem_cons_self _ _)]
                refine ⟨Nat.le_refl _, fun h => absurd h hnot,
                  fun d hd => h3 d (List.mem_cons_of_mem _ hd),
                  fun _ => h3 _ (List.mem_cons_self _ _)⟩
              · rw [List.count_cons_of_ne (fun h => hD (table_list_event.create_job_to_dump_schema.inj h).symm),
                  List.count_append, hrows rows, Nat.zero_add]
                exact ⟨h1, fun h => h2 (List.mem_cons_of_mem _ h),
                  fun d hd => h3 d (List.mem_cons_of_mem _ hd), h4⟩

theorem plan_databases_schema_jobs (cfg : dump_config) (srv : server) (D : List Char)
    (rows : List (List Char)) :
    ∀ dumped,
      (plan_databases cfg srv rows dumped).count (dump_event.create_job_to_dump_schema D) =
        if D ∉ dumped ∧ D ∈ rows ∧
           (strcasecmp_eq D (bytes "information_schema") ||
            strcasecmp_eq D (bytes "performance_schema") ||
            strcasecmp_eq D (bytes "data_dictionary")) = false ∧
           (srv.get_database D && !cfg.no_schemas && srv.eval_regex D) = true
        then 1 else 0 := by
  induction rows with
  | nil => intro dumped; simp [plan_databases]
  | cons row rows ih =>
    intro dumped
    simp only [plan_databases]
    cases hsys : (strcasecmp_eq row (bytes "information_schema") ||
        strcasecmp_eq row (bytes "performance_schema") ||
        strcasecmp_eq row (bytes "data_dictionary")) with
    | true =>
      simp only [if_true]
      rw [ih dumped]
      by_cases hD : D = row
      · subst hD
        simp [hsys]
      · simp [List.mem_cons, hD]
    | false =>
      simp only [Bool.false_eq_true, if_false]
      cases hel : (srv.get_database row && !cfg.no_schemas && srv.eval_regex row) with
      | false =>
        simp only [Bool.false_eq_true, if_false]
        rw [List.count_cons_of_ne (fun h => dump_event.noConfusion h), ih dumped]
        by_cases hD : D = row
        · subst hD
          simp [hel]
        · simp [List.mem_cons, hD]
      | true =>
        simp only [if_true]
        cases hc : dumped.contains row with
        | true =>
          simp only [if_true]
          rw [List.count_cons_of_ne (fun h => dump_event.noConfusion h), ih dumped]
          have hmem : row ∈ dumped := by simpa using hc
          by_cases hD : D = row
          · subst hD
            simp [hmem]
          · simp [List.mem_cons, hD]
        | false =>
          simp only [Bool.false_eq_true, if_false]
          have hmem : row ∉ dumped := by simpa using hc
          by_cases hD : D = row
          · subst hD
            rw [List.count_cons_self,
              List.count_cons_of_ne (fun h => dump_event.noConfusion h), ih (D :: dumped)]
            simp [hmem, hsys, hel]
          · rw [List.count_cons_of_ne
                (fun h => hD (dump_event.create_job_to_dump_schema.inj h)),
              List.count_cons_of_ne (fun h => dump_event.noConfusion h), ih (row :: dumped)]
            simp [List.mem_cons, hD]

theorem plan_phase_trace (cfg : dump_config) (srv : server) :
    (plan_phase cfg srv).trace =
      (if cfg.dump_tablespaces then [dump_event.create_job_to_dump_tablespaces] else []) ++
      ((match cfg.db_items with
        | some items =>
          (items.map fun d =>
            dump_event.create_job_to_dump_database d cfg.less_locking ::
              (if !cfg.no_schemas then [dump_event.create_job_to_dump_schema d] else [])).flatten
        | none => []) ++
       (match cfg.tables with
        | some _ => [dump_event.call "get_table_info_to_process_from_list"]
        | none => [])) ++
      (if cfg.db_items.isNone && cfg.tables.isNone then
        dump_event.sql false (bytes "SHOW DATABASES") ::
          (if srv.fails (bytes "SHOW DATABASES") then []
           else plan_databases cfg srv srv.databases srv.already_dumped)
       else []) := by
  simp only [plan_phase, dump_run.seq, events, dump_run.skip]
  split_ifs <;> simp

theorem database_list_schema_jobs (less_locking no_schemas : Bool) (D : List Char)
    (items : List (List Char)) :
    ((items.map fun d =>
        dump_event.create_job_to_dump_database d less_locking ::
          (if !no_schemas then [dump_event.create_job_to_dump_schema d] else [])).flatten).count
      (dump_event.create_job_to_dump_schema D) =
      if no_schemas then 0 else items.count D := by
  induction items with
  | nil => cases no_schemas <;> rfl
  | cons d items ih =>
    rw [List.map_cons, List.flatten_cons, List.count_append, ih]
    cases no_schemas with
    | true => simp
    | false =>
      simp only [Bool.not_false, if_true, Bool.false_eq_true, if_false]
      rw [List.count_cons_of_ne (fun h => dump_event.noConfusion h)]
      by_cases hD : d = D
      · subst hD
        simp only [List.count_cons_self, List.count_nil]
        omega
      · rw [List.count_cons_of_ne (fun h => hD (dump_event.create_job_to_dump_schema.inj h).symm),
          List.count_cons_of_ne (fun h => hD h.symm)]
        simp

/-- C14, amended.  For every database `D`: (1) `get_table_info_to_process_from_list`
creates a schema job for `D` only while the flag `already_dumped` of `D` is
unset and sets the flag with it, so it creates at most one schema job for
`D` however many entries of the table list name `D`, and none when the flag
was set before; a flag that is set stays set.  (2) The planning from `SHOW
DATABASES` creates exactly one schema job for `D` when `D` is a row of the
result other than the three system schemas, `get_database` holds,
`no_schemas` is unset, the regex accepts `D` and the flag of `D` was unset,
and none otherwise.  (3) The planning from a database list that names `D`
once creates exactly one schema job for `D` when `no_schemas` is unset and
none when it is set. -/
theorem schema_jobs_once (D : List Char) :
    (∀ (env : table_list_env) (table_list dumped : List (List Char)),
      (get_table_info_to_process_from_list env table_list 0 dumped).events.count
          (table_list_event.create_job_to_dump_schema D) ≤ 1 ∧
      (D ∈ dumped →
        (get_table_info_to_process_from_list env table_list 0 dumped).events.count
          (table_list_event.create_job_to_dump_schema D) = 0) ∧
      (∀ d ∈ dumped,
        d ∈ (get_table_info_to_process_from_list env table_list 0 dumped).already_dumped) ∧
      ((get_table_info_to_process_from_list env table_list 0 dumped).events.count
          (table_list_event.create_job_to_dump_schema D) = 1 →
        D ∈ (get_table_info_to_process_from_list env table_list 0 dumped).already_dumped)) ∧
    (∀ (cfg : dump_config) (srv : server),
      cfg.db_items = none → cfg.tables = none → srv.fails (bytes "SHOW DATABASES") = false →
      (plan_phase cfg srv).trace.count (dump_event.create_job_to_dump_schema D) =
        if D ∉ srv.already_dumped ∧ D ∈ srv.databases ∧
           (strcasecmp_eq D (bytes "information_schema") ||
            strcasecmp_eq D (bytes "performance_schema") ||
            strcasecmp_eq D (bytes "data_dictionary")) = false ∧
           (srv.get_database D && !cfg.no_schemas && srv.eval_regex D) = true
        then 1 else 0) ∧
    (∀ (cfg : dump_config) (srv : server) (items : List (List Char)),
      cfg.db_items = some items → items.count D = 1 →
      (plan_phase cfg srv).trace.count (dump_event.create_job_to_dump_schema D) =
        if cfg.no_schemas then 0 else 1) := by
  refine ⟨fun env table_list dumped => table_list_schema_jobs env D table_list 0 dumped,
    ?_, ?_⟩
  · intro cfg srv hdb htb hf
    rw [plan_phase_trace, hdb, htb, hf]
    simp only [Option.isNone_none, Bool.and_self, if_true, Bool.false_eq_true, if_false,
      List.append_nil, List.count_append]
    rw [List.count_cons_of_ne (fun h => dump_event.noConfusion h),
      plan_databases_schema_jobs cfg srv D srv.databases srv.already_dumped]
    have h0 : (if cfg.dump_tablespaces = true then [dump_event.create_job_to_dump_tablespaces]
        else []).count (dump_event.create_job_to_dump_schema D) = 0 := by
      cases cfg.dump_tablespaces <;> rfl
    rw [h0, Nat.zero_add]
  · intro cfg srv items hdb hcount
    rw [plan_phase_trace, hdb]
    simp only [Option.isNone_some, Bool.false_and, Bool.false_eq_true, if_false,
      List.append_nil, List.count_append]
    rw [database_list_schema_jobs cfg.less_locking cfg.no_schemas D items, hcount]
    have h0 : (if cfg.dump_tablespaces = true then [dump_event.create_job_to_dump_tablespaces]
        else []).count (dump_event.create_job_to_dump_schema D) = 0 := by
      cases cfg.dump_tablespaces <;> rfl
    have h1 : (match cfg.tables with
        | some _ => [dump_event.call "get_table_info_to_process_from_list"]
        | none => []).count (dump_event.create_job_to_dump_schema D) = 0 := by
      cases cfg.tables <;> rfl
    rw [h0, h1]
    omega

set_option maxRecDepth 1000000 in
/-- The table list `db.t1`, `db.t2` gives one schema job for `db`, and the
rows of `SHOW DATABASES` of the sample server give one too. -/
theorem schema_jobs_once_witness :
    (get_table_info_to_process_from_list two_tables_env [bytes "db.t1", bytes "db.t2"] 0
        []).events.count (table_list_event.create_job_to_dump_schema (bytes "db")) = 1 ∧
    (default_config.db_items = none ∧ default_config.tables = none ∧
     percona57.fails (bytes "SHOW DATABASES") = false) ∧
    (plan_phase default_config percona57).trace.count
        (dump_event.create_job_to_dump_schema (bytes "db")) = 1 := by
  refine ⟨?_, ⟨rfl, rfl, rfl⟩, ?_⟩
  · have h := ((schema_jobs_once (bytes "db")).1 two_tables_env
      [bytes "db.t1", bytes "db.t2"] []).1
    have h1 : 1 ≤ (get_table_info_to_process_from_list two_tables_env
        [bytes "db.t1", bytes "db.t2"] 0 []).events.count
        (table_list_event.create_job_to_dump_schema (bytes "db")) := by decide
    omega
  · rw [(schema_jobs_once (bytes "db")).2.1 default_config percona57 rfl rfl rfl]
    decide

set_option maxRecDepth 1000000 in
/-- C14, counterexample.  With `--database a --no-schemas` the database `a`
gets its database job and no schema job; with `--database a,a` it gets two
schema jobs. -/
theorem schema_job_count_not_one :
    dump_event.create_job_to_dump_database (bytes "a") false ∈
      (plan_phase no_schemas_config percona57).trace ∧
    (plan_phase no_schemas_config percona57).trace.count
      (dump_event.create_job_to_dump_schema (bytes "a")) = 0 ∧
    (plan_phase repeated_database_config percona57).trace.count
      (dump_event.create_job_to_dump_schema (bytes "a")) = 2 := by
  decide

end Mydumper

namespace Mydumper

open Glib

/-! ## C15: the three planning blocks -/

theorem plan_databases_no_call (cfg : dump_config) (srv : server)
    (rows dumped : List (List Char)) (name : String) :
    dump_event.call name ∉ plan_databases cfg srv rows dumped := by
  induction rows generalizing dumped with
  | nil => simp [plan_databases]
  | cons row rows ih =>
    unfold plan_databases
    split_ifs <;> simp [ih]

/-- C15, amended.  In one run of the planning of `start_dump` the three blocks
are entered independently: the planning from the table list runs if and
only if a table list is configured, the planning from the database list runs
whenever a database list is configured, with or without a table list, and
emits a database job for each of its entries, and the planning from `SHOW
DATABASES` runs if and only if neither list is configured.  With a table
list and no database list no database job is created. -/
theorem planner_modes (cfg : dump_config) (srv : server) :
    (dump_event.call "get_table_info_to_process_from_list" ∈ (plan_phase cfg srv).trace ↔
      cfg.tables ≠ none) ∧
    (dump_event.sql false (bytes "SHOW DATABASES") ∈ (plan_phase cfg srv).trace ↔
      cfg.db_items = none ∧ cfg.tables = none) ∧
    (∀ items, cfg.db_items = some items → ∀ d ∈ items,
      dump_event.create_job_to_dump_database d cfg.less_locking ∈ (plan_phase cfg srv).trace) ∧
    (cfg.db_items = none → cfg.tables ≠ none → ∀ d l,
      dump_event.create_job_to_dump_database d l ∉ (plan_phase cfg srv).trace) := by
  rw [plan_phase_trace]
  refine ⟨?_, ?_, ?_, ?_⟩
  · cases hdb : cfg.db_items <;> cases htb : cfg.tables <;> cases cfg.dump_tablespaces <;>
      cases srv.fails (bytes "SHOW DATABASES") <;>
      simp [plan_databases_no_call]
  · cases hdb : cfg.db_items <;> cases htb : cfg.tables <;> cases cfg.dump_tablespaces <;>
      simp
  · intro items hdb d hd
    rw [hdb]
    simp only [List.mem_append, List.mem_flatten, List.mem_map]
    exact Or.inl (Or.inr (Or.inl ⟨_, ⟨d, hd, rfl⟩, List.mem_cons_self _ _⟩))
  · intro hdb htb d l
    rw [hdb]
    cases htb1 : cfg.tables with
    | none => exact absurd htb1 htb
    | some t => cases cfg.dump_tablespaces <;> simp

set_option maxRecDepth 1000000 in
/-- With `--database a` and no table list the database job of `a` is
created. -/
theorem planner_modes_witness :
    no_schemas_config.db_items = some [bytes "a"] ∧
    dump_event.create_job_to_dump_database (bytes "a") false ∈
      (plan_phase no_schemas_config percona57).trace :=
  ⟨rfl, (planner_modes no_schemas_config percona57).2.2.1 [bytes "a"] rfl (bytes "a")
    (List.mem_cons_self _ _)⟩

set_option maxRecDepth 1000000 in
/-- C15, counterexample.  With a database list and a table list both
configured, the database job of the database list is emitted and the
planning from the table list runs as well. -/
theorem both_lists_both_planned :
    (plan_phase database_and_tables_config percona57).trace =
      [dump_event.create_job_to_dump_database (bytes "a") false,
       dump_event.create_job_to_dump_schema (bytes "a"),
       dump_event.call "get_table_info_to_process_from_list"] := by
  decide

end Mydumper

namespace Mydumper

open Glib

/-! ## C16, C17: the assignment of the tables to the workers -/

theorem least_loaded_fold_fst (nits : List Nat) (l : List Nat) :
    ∀ init : Nat × Nat, init.1 = nits.getD init.2 0 →
      (l.foldl (fun (m : Nat × Nat) n =>
          if nits.getD n 0 < m.1 then (nits.getD n 0, n) else m) init).1 =
        nits.getD (l.foldl (fun (m : Nat × Nat) n =>
          if nits.getD n 0 < m.1 then (nits.getD n 0, n) else m) init).2 0 := by
  induction l with
  | nil => intro init h; exact h
  | cons n l ih =>
    intro init h
    rw [List.foldl_cons]
    apply ih
    split_ifs
    · rfl
    · exact h

theorem least_loaded_one (nits : List Nat) : least_loaded nits 1 = 0 := rfl

theorem least_loaded_succ (nits : List Nat) (N : Nat) (hN : 1 ≤ N) :
    least_loaded nits (N + 1) =
      if nits.getD N 0 < nits.getD (least_loaded nits N) 0 then N
      else least_loaded nits N := by
  have hfst := least_loaded_fold_fst nits ((List.range N).drop 1) (nits.getD 0 0, 0) rfl
  unfold least_loaded
  rw [List.range_succ, List.drop_append_of_le_length (by rw [List.length_range]; exact hN),
    List.foldl_append, List.foldl_cons, List.foldl_nil, hfst]
  split_ifs <;> rfl

theorem least_loaded_spec (nits : List Nat) (N : Nat) (hN : 1 ≤ N) :
    least_loaded nits N < N ∧
    (∀ n, n < N → nits.getD (least_loaded nits N) 0 ≤ nits.getD n 0) ∧
    (∀ n, n < least_loaded nits N → nits.getD (least_loaded nits N) 0 < nits.getD n 0) := by
  induction N, hN using Nat.le_induction with
  | base =>
    rw [least_loaded_one]
    refine ⟨Nat.one_pos, fun n hn => ?_, fun n hn => absurd hn (Nat.not_lt_zero _)⟩
    have : n = 0 := by omega
    rw [this]
  | succ N hN ih =>
    obtain ⟨h1, h2, h3⟩ := ih
    rw [least_loaded_succ nits N hN]
    by_cases hlt : nits.getD N 0 < nits.getD (least_loaded nits N) 0
    · rw [if_pos hlt]
      refine ⟨Nat.lt_succ_self _, fun n hn => ?_, fun n hn => ?_⟩
      · rcases Nat.lt_succ_iff_lt_or_eq.1 hn with h | h
        · exact Nat.le_of_lt (Nat.lt_of_lt_of_le hlt (h2 n h))
        · rw [h]
      · exact Nat.lt_of_lt_of_le hlt (h2 n hn)
    · rw [if_neg hlt]
      refine ⟨Nat.lt_succ_of_lt h1, fun n hn => ?_, h3⟩
      rcases Nat.lt_succ_iff_lt_or_eq.1 hn with h | h
      · exact h2 n h
      · rw [h]; exact Nat.le_of_not_lt hlt

theorem sum_set_add (l : List Nat) :
    ∀ (t : Nat), t < l.length → ∀ v, (l.set t v).sum + l.getD t 0 = l.sum + v := by
  induction l with
  | nil => intro t ht; exact absurd ht (Nat.not_lt_zero _)
  | cons x l ih =>
    intro t ht v
    cases t with
    | zero =>
      simp only [List.set_cons_zero, List.sum_cons, List.getD_cons_zero]
      omega
    | succ t =>
      have := ih t (Nat.lt_of_succ_lt_succ ht) v
      simp only [List.set_cons_succ, List.sum_cons, List.getD_cons_succ]
      omega

theorem length_mul_le_sum (l : List Nat) (m : Nat) (h : ∀ x ∈ l, m ≤ x) :
    l.length * m ≤ l.sum := by
  induction l with
  | nil => simp
  | cons x l ih =>
    have h1 := h x (List.mem_cons_self _ _)
    have h2 := ih (fun y hy => h y (List.mem_cons_of_mem _ hy))
    rw [List.length_cons, List.sum_cons, Nat.succ_mul]
    omega

theorem getD_mem (l : List Nat) (n : Nat) (h : n < l.length) : l.getD n 0 ∈ l := by
  rw [List.getD_eq_getElem l 0 h]
  exact List.getElem_mem h

theorem least_loaded_mul_le_sum (nits : List Nat) (N : Nat) (hN : 1 ≤ N)
    (hlen : nits.length = N) :
    N * nits.getD (least_loaded nits N) 0 ≤ nits.sum := by
  have h2 := (least_loaded_spec nits N hN).2.1
  have := length_mul_le_sum nits (nits.getD (least_loaded nits N) 0) (fun x hx => by
    obtain ⟨n, hn, rfl⟩ := List.getElem_of_mem hx
    have := h2 n (hlen ▸ hn)
    rwa [List.getD_eq_getElem nits 0 hn] at this)
  rwa [hlen] at this

theorem max_load_le (nits : List Nat) (b : Nat) (h : ∀ x ∈ nits, x ≤ b) : max_load nits ≤ b := by
  induction nits with
  | nil => exact Nat.zero_le _
  | cons x l ih =>
    show max x (max_load l) ≤ b
    exact max_le (h x (List.mem_cons_self _ _)) (ih (fun y hy => h y (List.mem_cons_of_mem _ hy)))

theorem le_max_load (nits : List Nat) (x : Nat) (h : x ∈ nits) : x ≤ max_load nits := by
  induction nits with
  | nil => exact absurd h (List.not_mem_nil _)
  | cons y l ih =>
    show x ≤ max y (max_load l)
    rcases List.mem_cons.1 h with h | h
    · rw [h]; exact le_max_left _ _
    · exact le_trans (ih h) (le_max_right _ _)

theorem assign_tables_invariant (N : Nat) (hN : 1 ≤ N) (tables : List db_table) :
    ∀ (p : packing) (M : Nat),
      p.nits.length = N →
      p.nits.sum + total_length tables < 2 ^ 64 →
      (∀ x ∈ p.nits, N * x ≤ p.nits.sum + N * M) →
      (assign_tables N tables p).nits.length = N ∧
      (assign_tables N tables p).nits.sum = p.nits.sum + total_length tables ∧
      (∀ x ∈ (assign_tables N tables p).nits,
        N * x ≤ p.nits.sum + total_length tables + N * max M (max_length tables)) := by
  induction tables with
  | nil =>
    intro p M hlen _ hinv
    simp only [assign_tables, total_length, max_length, List.map_nil, List.sum_nil,
      List.foldr_nil, Nat.add_zero, Nat.max_zero]
    exact ⟨hlen, trivial, hinv⟩
  | cons dbt tables ih =>
    intro p M hlen hsum hinv
    have htot : total_length (dbt :: tables) = dbt.datalength + total_length tables := by
      simp [total_length]
    have hmax : max_length (dbt :: tables) = max dbt.datalength (max_length tables) := by
      simp [max_length]
    rw [htot] at hsum
    obtain ⟨ht, hmin, _⟩ := least_loaded_spec p.nits N hN
    have hle := least_loaded_mul_le_sum p.nits N hN hlen
    have hmem := getD_mem p.nits (least_loaded p.nits N) (hlen ▸ ht)
    have hbound : p.nits.getD (least_loaded p.nits N) 0 ≤ p.nits.sum :=
      List.single_le_sum (fun _ _ => Nat.zero_le _) _ hmem
    have hmod : (p.nits.getD (least_loaded p.nits N) 0 + dbt.datalength) % 2 ^ 64 =
        p.nits.getD (least_loaded p.nits N) 0 + dbt.datalength :=
      Nat.mod_eq_of_lt (by omega)
    have hset := sum_set_add p.nits (least_loaded p.nits N) (hlen ▸ ht)
      (p.nits.getD (least_loaded p.nits N) 0 + dbt.datalength)
    have hsum1 : (p.nits.set (least_loaded p.nits N)
        (p.nits.getD (least_loaded p.nits N) 0 + dbt.datalength)).sum =
        p.nits.sum + dbt.datalength := by omega
    rw [assign_tables, hmod]
    obtain ⟨h1, h2, h3⟩ := ih
      { nits := p.nits.set (least_loaded p.nits N)
          (p.nits.getD (least_loaded p.nits N) 0 + dbt.datalength),
        nitl := p.nitl.set (least_loaded p.nits N)
          (dbt :: p.nitl.getD (least_loaded p.nits N) []),
        tn := least_loaded p.nits N }
      (max M dbt.datalength)
      (by rw [List.length_set]; exact hlen)
      (by dsimp only; rw [hsum1]; omega)
      (by
        dsimp only
        intro x hx
        rw [hsum1]
        have hM1 : N * M ≤ N * max M dbt.datalength :=
          Nat.mul_le_mul_left _ (le_max_left _ _)
        have hM2 : N * dbt.datalength ≤ N * max M dbt.datalength :=
          Nat.mul_le_mul_left _ (le_max_right _ _)
        rcases List.mem_or_eq_of_mem_set hx with hx | hx
        · have := hinv x hx
          omega
        · rw [hx, Nat.mul_add]
          omega)
    dsimp only at h1 h2 h3
    rw [hsum1] at h2 h3
    refine ⟨h1, by rw [h2, htot]; omega, ?_⟩
    intro x hx
    have := h3 x hx
    rw [htot, hmax, ← max_assoc]
    omega

theorem max_load_zero_or_mem (nits : List Nat) : max_load nits = 0 ∨ max_load nits ∈ nits := by
  induction nits with
  | nil => exact Or.inl rfl
  | cons x l ih =>
    show max x (max_load l) = 0 ∨ max x (max_load l) ∈ x :: l
    rcases le_total x (max_load l) with h | h
    · rw [max_eq_right h]
      rcases ih with ih | ih
      · exact Or.inl ih
      · exact Or.inr (List.mem_cons_of_mem _ ih)
    · rw [max_eq_left h]
      exact Or.inr (List.mem_cons_self _ _)

/-- C16.  For every number of workers `N >= 1` and every list of tables
whose data lengths add up to less than `2^64`, the running sums `nits` left
by the assignment loop satisfy `N * nits[n] <= total + N * max_table` for
every worker `n`, hence for the largest sum, where `total` is the sum of the
data lengths and `max_table` the largest one; the sums add up to `total`. -/
theorem less_locking_lpt_bound (N : Nat) (tables : List db_table) (hN : 1 ≤ N)
    (hsum : total_length tables < 2 ^ 64) :
    (∀ n, n < N →
      N * (less_locking_packing N tables).nits.getD n 0 ≤
        total_length tables + N * max_length tables) ∧
    N * max_load (less_locking_packing N tables).nits ≤
      total_length tables + N * max_length tables ∧
    (less_locking_packing N tables).nits.sum = total_length tables ∧
    (less_locking_packing N tables).nits.length = N := by
  have h0 : ∀ x ∈ List.replicate N 0, N * x ≤ (List.replicate N 0).sum + N * 0 := by
    intro x hx
    rw [List.eq_of_mem_replicate hx]
    omega
  have hs0 : (List.replicate N 0).sum = 0 := by simp
  obtain ⟨h1, h2, h3⟩ := assign_tables_invariant N hN tables
    { nits := List.replicate N 0, nitl := List.replicate N [], tn := 0 } 0
    (List.length_replicate _ _) (by dsimp only; rw [hs0]; omega) h0
  dsimp only at h1 h2 h3
  rw [hs0, Nat.zero_add] at h2 h3
  rw [Nat.zero_max] at h3
  have hn : (less_locking_packing N tables).nits =
      (assign_tables N tables
        { nits := List.replicate N 0, nitl := List.replicate N [], tn := 0 }).nits := rfl
  rw [hn]
  refine ⟨fun n hn1 => h3 _ (getD_mem _ n (by rw [h1]; exact hn1)), ?_, h2, h1⟩
  rcases max_load_zero_or_mem (assign_tables N tables
      { nits := List.replicate N 0, nitl := List.replicate N [], tn := 0 }).nits with h | h
  · rw [h]
    omega
  · exact h3 _ h

/-- Four workers and the tables of lengths 40, 30, 20, 10: each sum is at
most 100 / 4 + 40. -/
theorem less_locking_lpt_bound_witness :
    (1 ≤ 4 ∧
     total_length [table_of_length 40, table_of_length 30, table_of_length 20,
       table_of_length 10] < 2 ^ 64) ∧
    4 * max_load (less_locking_packing 4 [table_of_length 40, table_of_length 30,
      table_of_length 20, table_of_length 10]).nits ≤
      total_length [table_of_length 40, table_of_length 30, table_of_length 20,
        table_of_length 10] +
      4 * max_length [table_of_length 40, table_of_length 30, table_of_length 20,
        table_of_length 10] :=
  ⟨⟨by decide, by decide⟩,
   (less_locking_lpt_bound 4 [table_of_length 40, table_of_length 30, table_of_length 20,
      table_of_length 10] (by decide) (by decide)).2.1⟩

end Mydumper

namespace Mydumper

open Glib

theorem getD_set_self {α : Type} (l : List α) (t : Nat) (v d : α) (h : t < l.length) :
    (l.set t v).getD t d = v := by
  simp [List.getD_eq_getElem?_getD, List.getElem?_set, h]

theorem getD_set_other {α : Type} (l : List α) (t n : Nat) (v d : α) (h : n ≠ t) :
    (l.set t v).getD n d = l.getD n d := by
  simp [List.getD_eq_getElem?_getD, List.getElem?_set, Ne.symm h]

/-- C17.  In the assignment loop with `N >= 1` workers, the next table goes to
the worker `tn` whose running sum is the smallest at that moment, the one of
lowest index among equal sums: it is put in front of the list of that
worker, the sum of that worker grows by the data length of the table (in
`guint64` arithmetic), and the sums and lists of the other workers stay as
they are; the loop then goes on with the tables that follow.  For 4 workers
and tables of lengths 40, 30, 20, 10 in this order worker 0 gets the table
of length 40, worker 1 that of 30, worker 2 that of 20 and worker 3 that of
10. -/
theorem greedy_assignment_step (N : Nat) (dbt : db_table) (iter : List db_table)
    (p : packing) (hN : 1 ≤ N) (hlen : p.nits.length = N) (hlenl : p.nitl.length = N) :
    (assign_tables N (dbt :: iter) p = assign_tables N iter (assign_tables N [dbt] p) ∧
     (assign_tables N [dbt] p).tn < N ∧
     (∀ n, n < N → p.nits.getD (assign_tables N [dbt] p).tn 0 ≤ p.nits.getD n 0) ∧
     (∀ n, n < (assign_tables N [dbt] p).tn →
       p.nits.getD (assign_tables N [dbt] p).tn 0 < p.nits.getD n 0) ∧
     (assign_tables N [dbt] p).nits.getD (assign_tables N [dbt] p).tn 0 =
       (p.nits.getD (assign_tables N [dbt] p).tn 0 + dbt.datalength) % 2 ^ 64 ∧
     (p.nits.getD (assign_tables N [dbt] p).tn 0 + dbt.datalength < 2 ^ 64 →
       (assign_tables N [dbt] p).nits.getD (assign_tables N [dbt] p).tn 0 =
         p.nits.getD (assign_tables N [dbt] p).tn 0 + dbt.datalength) ∧
     (assign_tables N [dbt] p).nitl.getD (assign_tables N [dbt] p).tn [] =
       dbt :: p.nitl.getD (assign_tables N [dbt] p).tn [] ∧
     (∀ n, n ≠ (assign_tables N [dbt] p).tn →
       (assign_tables N [dbt] p).nits.getD n 0 = p.nits.getD n 0 ∧
       (assign_tables N [dbt] p).nitl.getD n [] = p.nitl.getD n [])) ∧
    less_locking_packing 4 [table_of_length 40, table_of_length 30, table_of_length 20,
        table_of_length 10] =
      { nits := [40, 30, 20, 10],
        nitl := [[table_of_length 40], [table_of_length 30], [table_of_length 20],
                 [table_of_length 10]],
        tn := 3 } ∧
    list_jobs (less_locking_packing 4 [table_of_length 40, table_of_length 30,
        table_of_length 20, table_of_length 10]) 4 =
      [dump_event.non_innodb_table_counter_inc,
       dump_event.create_jobs_for_non_innodb_table_list [table_of_length 40],
       dump_event.non_innodb_table_counter_inc,
       dump_event.create_jobs_for_non_innodb_table_list [table_of_length 30],
       dump_event.non_innodb_table_counter_inc,
       dump_event.create_jobs_for_non_innodb_table_list [table_of_length 20],
       dump_event.non_innodb_table_counter_inc,
       dump_event.create_jobs_for_non_innodb_table_list [table_of_length 10]] := by
  obtain ⟨h1, h2, h3⟩ := least_loaded_spec p.nits N hN
  have hp1 : assign_tables N [dbt] p =
      { nits := p.nits.set (least_loaded p.nits N)
          ((p.nits.getD (least_loaded p.nits N) 0 + dbt.datalength) % 2 ^ 64),
        nitl := p.nitl.set (least_loaded p.nits N)
          (dbt :: p.nitl.getD (least_loaded p.nits N) []),
        tn := least_loaded p.nits N } := rfl
  refine ⟨⟨?_, ?_, ?_, ?_, ?_, ?_, ?_, ?_⟩, by decide, by decide⟩
  · rw [hp1]; rfl
  · rw [hp1]; exact h1
  · rw [hp1]; exact h2
  · rw [hp1]; exact h3
  · rw [hp1]; exact getD_set_self _ _ _ _ (hlen ▸ h1)
  · intro hlt
    rw [hp1] at hlt ⊢
    dsimp only at hlt ⊢
    rw [getD_set_self _ _ _ _ (hlen ▸ h1), Nat.mod_eq_of_lt hlt]
  · rw [hp1]; exact getD_set_self _ _ _ _ (hlenl ▸ h1)
  · intro n hn
    rw [hp1] at hn ⊢
    exact ⟨getD_set_other _ _ _ _ _ hn, getD_set_other _ _ _ _ _ hn⟩

/-- The first table of length 40 goes to worker 0 of 4 idle workers. -/
theorem greedy_assignment_step_witness :
    (1 ≤ 4 ∧ (empty_packing 4).nits.length = 4 ∧ (empty_packing 4).nitl.length = 4) ∧
    (assign_tables 4 [table_of_length 40] (empty_packing 4)).tn < 4 ∧
    (assign_tables 4 [table_of_length 40] (empty_packing 4)).nits = [40, 0, 0, 0] :=
  ⟨⟨by decide, rfl, rfl⟩,
   (greedy_assignment_step 4 (table_of_length 40) [] (empty_packing 4) (by decide) rfl
      rfl).1.2.1,
   by decide⟩

/-! ## C18: the list jobs of the less locking mode -/

theorem assign_tables_zero (N : Nat) (tables : List db_table)
    (h : ∀ dbt ∈ tables, dbt.datalength = 0) :
    ∀ p : packing, p.nits = List.replicate N 0 →
      (assign_tables N tables p).nits = List.replicate N 0 := by
  induction tables with
  | nil => intro p hp; exact hp
  | cons dbt tables ih =>
    intro p hp
    rw [assign_tables]
    apply ih (fun d hd => h d (List.mem_cons_of_mem _ hd))
    dsimp only
    have h0 : (List.replicate N 0).getD (least_loaded (List.replicate N 0) N) 0 = 0 := by
      simp only [List.getD_eq_getElem?_getD, List.getElem?_replicate]
      split_ifs <;> rfl
    rw [hp, h (dbt) (List.mem_cons_self _ _), h0]
    exact List.set_replicate_self

theorem list_jobs_counter (p : packing) (l : List Nat) :
    ((l.map fun n =>
        if p.nits.getD n 0 > 0 then
          [dump_event.non_innodb_table_counter_inc,
           dump_event.create_jobs_for_non_innodb_table_list (p.nitl.getD n [])]
        else []).flatten).count dump_event.non_innodb_table_counter_inc =
    ((l.map fun n =>
        if p.nits.getD n 0 > 0 then
          [dump_event.non_innodb_table_counter_inc,
           dump_event.create_jobs_for_non_innodb_table_list (p.nitl.getD n [])]
        else []).flatten).countP (fun e =>
          match e with
          | dump_event.create_jobs_for_non_innodb_table_list _ => true
          | _ => false) := by
  induction l with
  | nil => rfl
  | cons n l ih =>
    rw [List.map_cons, List.flatten_cons, List.count_append, List.countP_append, ih]
    split_ifs
    · rfl
    · rfl

/-- C18, the defect.  In less locking mode a list job is created only for a
worker whose sum `nits[n]` is positive.  When every non-transactional table
has the data length 0, all sums stay 0, so no list job and no other table job
is created and the tables are in the list of no job; whatever the tables
are, `non_innodb_table_counter` is incremented once per list job
created. -/
theorem zero_length_tables_in_no_job (cfg : dump_config) (srv : server)
    (hl : cfg.less_locking = true)
    (h : ∀ dbt ∈ srv.non_innodb_table, dbt.datalength = 0) :
    list_jobs (less_locking_packing cfg.num_threads srv.non_innodb_table.reverse)
      cfg.num_threads = [] ∧
    (∀ l, dump_event.create_jobs_for_non_innodb_table_list l ∉
      (non_innodb_phase cfg srv).trace) ∧
    (∀ dbt, dump_event.create_job_to_dump_table dbt ∉ (non_innodb_phase cfg srv).trace) ∧
    (∀ (p : packing) (N : Nat),
      (list_jobs p N).count dump_event.non_innodb_table_counter_inc =
      (list_jobs p N).countP (fun e =>
        match e with
        | dump_event.create_jobs_for_non_innodb_table_list _ => true
        | _ => false)) := by
  have hz : (less_locking_packing cfg.num_threads srv.non_innodb_table.reverse).nits =
      List.replicate cfg.num_threads 0 :=
    assign_tables_zero cfg.num_threads srv.non_innodb_table.reverse
      (fun d hd => h d (List.mem_reverse.1 hd)) _ rfl
  have hj : list_jobs (less_locking_packing cfg.num_threads srv.non_innodb_table.reverse)
      cfg.num_threads = [] := by
    unfold list_jobs
    rw [hz, List.flatten_eq_nil_iff]
    intro l hl1
    obtain ⟨n, _, rfl⟩ := List.mem_map.1 hl1
    have h0 : (List.replicate cfg.num_threads 0).getD n 0 = 0 := by
      simp only [List.getD_eq_getElem?_getD, List.getElem?_replicate]
      split_ifs <;> rfl
    rw [h0]
    rfl
  refine ⟨hj, ?_, ?_, fun p N => list_jobs_counter p (List.range N)⟩
  · intro l
    simp only [non_innodb_phase, events, hl, if_true, hj, List.nil_append, ne_eq,
      not_true_eq_false, if_false]
    split_ifs <;> simp
  · intro dbt
    simp only [non_innodb_phase, events, hl, if_true, hj, List.nil_append, ne_eq,
      not_true_eq_false, if_false]
    split_ifs <;> simp

set_option maxRecDepth 1000000 in
/-- One empty table and two workers: the table is assigned to worker 0,
whose sum stays 0, and no job is created for it. -/
theorem zero_length_tables_in_no_job_witness :
    (less_locking_config.less_locking = true ∧
     ∀ dbt ∈ one_empty_table.non_innodb_table, dbt.datalength = 0) ∧
    less_locking_packing 2 [table_of_length 0] =
      { nits := [0, 0], nitl := [[table_of_length 0], []], tn := 0 } ∧
    (non_innodb_phase less_locking_config one_empty_table).trace =
      [dump_event.push_unlock_tables, dump_event.push_shutdown true,
       dump_event.push_shutdown true, dump_event.thread_join 2, dump_event.thread_join 3] ∧
    list_jobs (less_locking_packing less_locking_config.num_threads
      one_empty_table.non_innodb_table.reverse) less_locking_config.num_threads = [] :=
  ⟨⟨rfl, by decide⟩, by decide, by decide,
   (zero_length_tables_in_no_job less_locking_config one_empty_table rfl (by decide)).1⟩

end Mydumper

namespace Mydumper

open Glib

/-! ## The kinds of event of each part of `start_dump` -/

theorem start_dump_mem (cfg : dump_config) (srv : server) (e : dump_event)
    (he : e ∈ (start_dump cfg srv).trace) :
    e ∈ (guard_phase cfg srv).trace ∨ e ∈ (lock_phase cfg srv).trace ∨
    e ∈ (snapshot_phase cfg srv).trace ∨ e ∈ (thread_phase cfg).trace ∨
    e ∈ (trx_unlock_phase cfg srv).trace ∨ e ∈ (plan_phase cfg srv).trace ∨
    e ∈ (non_innodb_phase cfg srv).trace ∨ e ∈ (gate_phase cfg srv).trace ∨
    e ∈ (shutdown_phase cfg srv).trace := by
  unfold start_dump at he
  rcases mem_seq_trace _ _ _ he with h | h
  · rcases mem_seq_trace _ _ _ h with h | h
    · rcases mem_seq_trace _ _ _ h with h | h
      · rcases mem_seq_trace _ _ _ h with h | h
        · rcases mem_seq_trace _ _ _ h with h | h
          · rcases mem_seq_trace _ _ _ h with h | h
            · rcases mem_seq_trace _ _ _ h with h | h
              · simp only [h, true_or, or_true]
              · simp only [h, true_or, or_true]
            · simp only [h, true_or, or_true]
          · simp only [h, true_or, or_true]
        · simp only [h, true_or, or_true]
      · simp only [h, true_or, or_true]
    · simp only [h, true_or, or_true]
  · rcases mem_seq_trace _ _ _ h with h | h
    · simp only [h, true_or, or_true]
    · simp only [h, true_or, or_true]

theorem guard_phase_kind (cfg : dump_config) (srv : server) (e : dump_event)
    (he : e ∈ (guard_phase cfg srv).trace) : e.kind = event_kind.statement := by
  unfold guard_phase at he
  cases hn : cfg.no_locks with
  | true => rw [hn] at he; simp [dump_run.skip] at he
  | false =>
    rw [hn] at he
    simp only [Bool.not_false, if_true, List.mem_singleton] at he
    rw [he]; rfl

theorem lock_phase_kind (cfg : dump_config) (srv : server) (e : dump_event)
    (he : e ∈ (lock_phase cfg srv).trace) : e.kind = event_kind.statement := by
  obtain ⟨c, q, rfl⟩ := not_sql_of_lock_phase cfg srv e he
  rfl

theorem snapshot_phase_kind (cfg : dump_config) (srv : server) (e : dump_event)
    (he : e ∈ (snapshot_phase cfg srv).trace) : e.kind = event_kind.statement := by
  rcases snapshot_phase_event cfg srv e he with ⟨q, rfl, _⟩ | rfl <;> rfl

theorem call_release_kind (c : Bool) (f : release_fn) (e : dump_event)
    (he : e ∈ (call_release c f).trace) : e.kind = event_kind.statement := by
  cases f <;> simp only [call_release, query, events, List.mem_singleton] at he <;>
    rw [he] <;> rfl

theorem trx_unlock_phase_kind (cfg : dump_config) (srv : server) (e : dump_event)
    (he : e ∈ (trx_unlock_phase cfg srv).trace) : e.kind = event_kind.statement := by
  unfold trx_unlock_phase at he
  split_ifs at he
  · rcases mem_seq_trace _ _ _ he with h | h
    · simp only [query, events, List.mem_singleton] at h
      rw [h]; rfl
    · cases hf : (chosen_ddl_lock cfg srv).release_binlog_function with
      | none => rw [hf] at h; simp [dump_run.skip] at h
      | some f => rw [hf] at h; exact call_release_kind _ _ _ h
  · simp [dump_run.skip] at he

theorem thread_phase_kind (cfg : dump_config) (e : dump_event)
    (he : e ∈ (thread_phase cfg).trace) :
    e.kind = event_kind.worker false ∨
    (e.kind = event_kind.worker true ∧ cfg.less_locking = true) := by
  simp only [thread_phase, events, List.mem_append, List.mem_map, List.mem_replicate] at he
  rcases he with (he | ⟨n, _, rfl⟩) | ⟨_, rfl⟩
  · cases hl : cfg.less_locking with
    | false => rw [hl] at he; simp at he
    | true =>
      rw [hl] at he
      simp only [if_true, List.mem_flatten, List.mem_map] at he
      obtain ⟨l, ⟨i, _, rfl⟩, hel⟩ := he
      simp only [List.mem_cons, List.mem_singleton] at hel
      rcases hel with rfl | rfl | h
      · exact Or.inr ⟨rfl, rfl⟩
      · exact Or.inr ⟨rfl, rfl⟩
      · exact absurd h (List.not_mem_nil _)
  · exact Or.inl rfl
  · exact Or.inl rfl

theorem plan_databases_kind (cfg : dump_config) (srv : server) (e : dump_event)
    (rows : List (List Char)) :
    ∀ dumped, e ∈ plan_databases cfg srv rows dumped → e.kind = event_kind.job := by
  induction rows with
  | nil => intro dumped he; simp [plan_databases] at he
  | cons row rows ih =>
    intro dumped he
    unfold plan_databases at he
    split_ifs at he
    · exact ih _ he
    · rcases List.mem_cons.1 he with rfl | he
      · rfl
      · exact ih _ he
    · rcases List.mem_cons.1 he with rfl | he
      · rfl
      · rcases List.mem_cons.1 he with rfl | he
        · rfl
        · exact ih _ he
    · rcases List.mem_cons.1 he with rfl | he
      · rfl
      · exact ih _ he

theorem plan_phase_kind (cfg : dump_config) (srv : server) (e : dump_event)
    (he : e ∈ (plan_phase cfg srv).trace) :
    e.kind = event_kind.job ∨ e.kind = event_kind.statement := by
  rw [plan_phase_trace] at he
  simp only [List.mem_append] at he
  rcases he with (he | he | he) | he
  · split_ifs at he
    · rw [List.mem_singleton.1 he]; exact Or.inl rfl
    · exact absurd he (List.not_mem_nil _)
  · cases hd : cfg.db_items with
    | none => rw [hd] at he; exact absurd he (List.not_mem_nil _)
    | some items =>
      rw [hd] at he
      simp only [List.mem_flatten, List.mem_map] at he
      obtain ⟨l, ⟨d, _, rfl⟩, hel⟩ := he
      rcases List.mem_cons.1 hel with rfl | hel
      · exact Or.inl rfl
      · split_ifs at hel
        · rw [List.mem_singleton.1 hel]; exact Or.inl rfl
        · exact absurd hel (List.not_mem_nil _)
  · cases ht : cfg.tables with
    | none => rw [ht] at he; exact absurd he (List.not_mem_nil _)
    | some t =>
      rw [ht] at he
      rw [List.mem_singleton.1 he]; exact Or.inr rfl
  · split_ifs at he
    · rw [List.mem_singleton.1 he]; exact Or.inr rfl
    · rcases List.mem_cons.1 he with rfl | he
      · exact Or.inr rfl
      · exact Or.inl (plan_databases_kind cfg srv e _ _ he)
    · exact absurd he (List.not_mem_nil _)

theorem list_jobs_kind (p : packing) (N : Nat) (e : dump_event) (he : e ∈ list_jobs p N) :
    e.kind = event_kind.counter ∨ e.kind = event_kind.job := by
  simp only [list_jobs, List.mem_flatten, List.mem_map] at he
  obtain ⟨l, ⟨n, _, rfl⟩, hel⟩ := he
  split_ifs at hel
  · simp only [List.mem_cons, List.mem_singleton] at hel
    rcases hel with rfl | rfl | h
    · exact Or.inl rfl
    · exact Or.inr rfl
    · exact absurd h (List.not_mem_nil _)
  · exact absurd hel (List.not_mem_nil _)

theorem gate_phase_kind (cfg : dump_config) (srv : server) (e : dump_event)
    (he : e ∈ (gate_phase cfg srv).trace) :
    e.kind = event_kind.gate ∨ e.kind = event_kind.statement := by
  unfold gate_phase at he
  split_ifs at he
  · rcases mem_seq_trace _ _ _ he with h | h
    · simp only [events, List.mem_singleton] at h
      rw [h]; exact Or.inl rfl
    · rcases mem_seq_trace _ _ _ h with h | h
      · simp only [query, events, List.mem_singleton] at h
        rw [h]; exact Or.inr rfl
      · cases hf : (chosen_ddl_lock cfg srv).release_binlog_function with
        | none => rw [hf] at h; simp [dump_run.skip] at h
        | some f => rw [hf] at h; exact Or.inr (call_release_kind _ _ _ h)
  · simp [dump_run.skip] at he

theorem non_innodb_phase_trace (cfg : dump_config) (srv : server) :
    (non_innodb_phase cfg srv).trace =
      (if srv.non_innodb_table.reverse = [] then [dump_event.push_unlock_tables] else []) ++
      (if cfg.less_locking then
        (list_jobs (less_locking_packing cfg.num_threads srv.non_innodb_table.reverse)
            cfg.num_threads ++
          (if list_jobs (less_locking_packing cfg.num_threads srv.non_innodb_table.reverse)
              cfg.num_threads ≠ [] then [dump_event.non_innodb_done_inc]
           else [dump_event.push_unlock_tables])) ++
        (List.replicate cfg.num_threads (dump_event.push_shutdown true) ++
          ((List.range cfg.num_threads).map fun i =>
            dump_event.thread_join (cfg.num_threads + i)))
       else
        (srv.non_innodb_table.reverse.map fun dbt =>
          [dump_event.create_job_to_dump_table dbt,
           dump_event.non_innodb_table_counter_inc]).flatten ++
        [dump_event.non_innodb_done_inc]) := by
  simp only [non_innodb_phase, events]
  split_ifs <;> simp only [List.append_assoc]

theorem table_jobs_kind (tables : List db_table) (e : dump_event)
    (he : e ∈ (tables.map fun dbt =>
      [dump_event.create_job_to_dump_table dbt,
       dump_event.non_innodb_table_counter_inc]).flatten) :
    e.kind = event_kind.counter ∨ e.kind = event_kind.job := by
  simp only [List.mem_flatten, List.mem_map] at he
  obtain ⟨l, ⟨d, _, rfl⟩, hel⟩ := he
  simp only [List.mem_cons, List.mem_singleton] at hel
  rcases hel with rfl | rfl | h
  · exact Or.inr rfl
  · exact Or.inl rfl
  · exact absurd h (List.not_mem_nil _)

theorem non_innodb_phase_kind (cfg : dump_config) (srv : server) (e : dump_event)
    (he : e ∈ (non_innodb_phase cfg srv).trace) :
    e.kind = event_kind.gate ∨ e.kind = event_kind.counter ∨ e.kind = event_kind.job ∨
    e.kind = event_kind.join ∨
    (e.kind = event_kind.shutdown true ∧ cfg.less_locking = true) := by
  rw [non_innodb_phase_trace] at he
  rcases List.mem_append.1 he with he | he
  · split_ifs at he
    · rw [List.mem_singleton.1 he]; exact Or.inl rfl
    · exact absurd he (List.not_mem_nil _)
  · cases hl : cfg.less_locking with
    | true =>
      rw [hl] at he
      simp only [if_true, List.mem_append, List.mem_replicate, List.mem_map] at he
      rcases he with (he | he) | (⟨_, rfl⟩ | ⟨i, _, rfl⟩)
      · rcases list_jobs_kind _ _ e he with h | h
        · exact Or.inr (Or.inl h)
        · exact Or.inr (Or.inr (Or.inl h))
      · split_ifs at he
        · rw [List.mem_singleton.1 he]; exact Or.inr (Or.inl rfl)
        · rw [List.mem_singleton.1 he]; exact Or.inl rfl
      · exact Or.inr (Or.inr (Or.inr (Or.inr ⟨rfl, rfl⟩)))
      · exact Or.inr (Or.inr (Or.inr (Or.inl rfl)))
    | false =>
      rw [hl] at he
      simp only [Bool.false_eq_true, if_false] at he
      rcases List.mem_append.1 he with he | he
      · rcases table_jobs_kind _ e he with h | h
        · exact Or.inr (Or.inl h)
        · exact Or.inr (Or.inr (Or.inl h))
      · rw [List.mem_singleton.1 he]; exact Or.inr (Or.inl rfl)

theorem shutdown_phase_trace (cfg : dump_config) (srv : server) :
    (shutdown_phase cfg srv).trace =
      List.replicate cfg.num_threads (dump_event.push_shutdown false) ++
      (((List.range cfg.num_threads).map fun n => dump_event.thread_join n) ++
       (match (chosen_ddl_lock cfg srv).release_lock_function with
        | some f => call_release (chosen_ddl_lock cfg srv).new_connection f
        | none => dump_run.skip).trace) := by
  simp only [shutdown_phase, dump_run.seq, events, List.append_assoc]

theorem shutdown_tail_kind (cfg : dump_config) (srv : server) (e : dump_event)
    (he : e ∈ ((List.range cfg.num_threads).map fun n => dump_event.thread_join n) ++
       (match (chosen_ddl_lock cfg srv).release_lock_function with
        | some f => call_release (chosen_ddl_lock cfg srv).new_connection f
        | none => dump_run.skip).trace) :
    e.kind = event_kind.join ∨ e.kind = event_kind.statement := by
  rcases List.mem_append.1 he with he | he
  · obtain ⟨n, _, rfl⟩ := List.mem_map.1 he
    exact Or.inl rfl
  · cases hf : (chosen_ddl_lock cfg srv).release_lock_function with
    | none => rw [hf] at he; simp [dump_run.skip] at he
    | some f => rw [hf] at he; exact Or.inr (call_release_kind _ _ _ he)

theorem shutdown_phase_kind (cfg : dump_config) (srv : server) (e : dump_event)
    (he : e ∈ (shutdown_phase cfg srv).trace) :
    e.kind = event_kind.shutdown false ∨ e.kind = event_kind.join ∨
    e.kind = event_kind.statement := by
  rw [shutdown_phase_trace] at he
  rcases List.mem_append.1 he with he | he
  · rw [(List.mem_replicate.1 he).2]; exact Or.inl rfl
  · exact Or.inr (shutdown_tail_kind cfg srv e he)

theorem count_eq_zero_of_kind {l : List dump_event} {a : dump_event}
    (h : ∀ e ∈ l, e.kind ≠ a.kind) : l.count a = 0 :=
  List.count_eq_zero.2 (fun ha => h a ha rfl)

theorem countP_eq_zero_of_kind {l : List dump_event}
    (h : ∀ e ∈ l, e.kind ≠ event_kind.worker true) :
    l.countP dump_event.starts_less_locking_worker = 0 := by
  rw [List.countP_eq_zero]
  intro e he hp
  apply h e he
  cases e with
  | thread_create b n =>
    cases b with
    | true => rfl
    | false => exact Bool.noConfusion hp
  | _ => exact Bool.noConfusion hp

/-- The events of the parts of `start_dump` other than the start of the
workers and the jobs of the non-transactional tables do not touch the less
locking stage. -/
theorem other_phases_kind (cfg : dump_config) (srv : server) (b : Bool) (e : dump_event)
    (he : e ∈ (guard_phase cfg srv).trace ∨ e ∈ (lock_phase cfg srv).trace ∨
          e ∈ (snapshot_phase cfg srv).trace ∨ e ∈ (trx_unlock_phase cfg srv).trace ∨
          e ∈ (plan_phase cfg srv).trace ∨ e ∈ (gate_phase cfg srv).trace) :
    e.kind ≠ event_kind.worker b ∧ e.kind ≠ event_kind.shutdown b := by
  rcases he with h | h | h | h | h | h
  · rw [guard_phase_kind cfg srv e h]; exact ⟨event_kind.noConfusion, event_kind.noConfusion⟩
  · rw [lock_phase_kind cfg srv e h]; exact ⟨event_kind.noConfusion, event_kind.noConfusion⟩
  · rw [snapshot_phase_kind cfg srv e h]; exact ⟨event_kind.noConfusion, event_kind.noConfusion⟩
  · rw [trx_unlock_phase_kind cfg srv e h]; exact ⟨event_kind.noConfusion, event_kind.noConfusion⟩
  · rcases plan_phase_kind cfg srv e h with h | h <;> rw [h] <;>
      exact ⟨event_kind.noConfusion, event_kind.noConfusion⟩
  · rcases gate_phase_kind cfg srv e h with h | h <;> rw [h] <;>
      exact ⟨event_kind.noConfusion, event_kind.noConfusion⟩

theorem less_locking_workers_count (f : Nat → Nat) (l : List Nat) :
    ((l.map fun i => [dump_event.thread_create true (f i),
        dump_event.pop_ready true]).flatten).countP
        dump_event.starts_less_locking_worker = l.length ∧
    ((l.map fun i => [dump_event.thread_create true (f i),
        dump_event.pop_ready true]).flatten).count (dump_event.pop_ready true) = l.length := by
  induction l with
  | nil => exact ⟨rfl, rfl⟩
  | cons i l ih =>
    rw [List.map_cons, List.flatten_cons, List.countP_append, List.count_append, ih.1, ih.2,
      List.length_cons]
    refine ⟨?_, ?_⟩
    · have : [dump_event.thread_create true (f i), dump_event.pop_ready true].countP
          dump_event.starts_less_locking_worker = 1 := rfl
      rw [this]; omega
    · have : [dump_event.thread_create true (f i), dump_event.pop_ready true].count
          (dump_event.pop_ready true) = 1 := by
        rw [List.count_cons_of_ne (fun h => dump_event.noConfusion h), List.count_cons_self]
        rfl
      rw [this]; omega

theorem thread_phase_counts (cfg : dump_config) :
    (thread_phase cfg).trace.countP dump_event.starts_less_locking_worker =
      (if cfg.less_locking then cfg.num_threads else 0) ∧
    (thread_phase cfg).trace.count (dump_event.pop_ready true) =
      (if cfg.less_locking then cfg.num_threads else 0) := by
  have h1 : ∀ e ∈ ((List.range cfg.num_threads).map fun n =>
      dump_event.thread_create false (n + 1)), e.kind = event_kind.worker false := by
    intro e he
    obtain ⟨n, _, rfl⟩ := List.mem_map.1 he
    rfl
  have h2 : ∀ e ∈ List.replicate cfg.num_threads (dump_event.pop_ready false),
      e.kind = event_kind.worker false := by
    intro e he
    rw [(List.mem_replicate.1 he).2]
    rfl
  have hw := less_locking_workers_count (fun i => cfg.num_threads + i + 1)
    (List.range cfg.num_threads)
  rw [List.length_range] at hw
  have hA1 := countP_eq_zero_of_kind
    (l := (List.range cfg.num_threads).map fun n => dump_event.thread_create false (n + 1))
    (fun e he h => by rw [h1 e he] at h; cases h)
  have hA2 := countP_eq_zero_of_kind
    (l := List.replicate cfg.num_threads (dump_event.pop_ready false))
    (fun e he h => by rw [h2 e he] at h; cases h)
  have hB1 := count_eq_zero_of_kind (a := dump_event.pop_ready true)
    (l := (List.range cfg.num_threads).map fun n => dump_event.thread_create false (n + 1))
    (fun e he h => by rw [h1 e he] at h; cases h)
  have hB2 := count_eq_zero_of_kind (a := dump_event.pop_ready true)
    (l := List.replicate cfg.num_threads (dump_event.pop_ready false))
    (fun e he h => by rw [h2 e he] at h; cases h)
  simp only [thread_phase, events, List.countP_append, List.count_append, hA1, hA2, hB1, hB2]
  cases cfg.less_locking with
  | true => simp only [if_true, hw.1, hw.2, Nat.add_zero, and_self]
  | false => exact ⟨rfl, rfl⟩

theorem non_innodb_phase_counts (cfg : dump_config) (srv : server) :
    (non_innodb_phase cfg srv).trace.count (dump_event.push_shutdown true) =
      (if cfg.less_locking then cfg.num_threads else 0) := by
  rw [non_innodb_phase_trace, List.count_append]
  have h0 : (if srv.non_innodb_table.reverse = [] then [dump_event.push_unlock_tables]
      else []).count (dump_event.push_shutdown true) = 0 := by
    split_ifs <;> rfl
  rw [h0, Nat.zero_add]
  cases cfg.less_locking with
  | true =>
    simp only [if_true, List.count_append]
    rw [count_eq_zero_of_kind (fun e he h => by
        rcases list_jobs_kind _ _ e he with h1 | h1 <;> rw [h1] at h <;> cases h),
      List.count_replicate_self,
      count_eq_zero_of_kind (l := List.map _ _) (fun e he h => by
        obtain ⟨i, _, rfl⟩ := List.mem_map.1 he
        cases h)]
    split_ifs <;> simp
  | false =>
    simp only [Bool.false_eq_true, if_false, List.count_append]
    rw [count_eq_zero_of_kind (fun e he h => by
        rcases table_jobs_kind _ e he with h1 | h1 <;> rw [h1] at h <;> cases h)]
    rfl

theorem shutdown_phase_counts (cfg : dump_config) (srv : server) :
    (shutdown_phase cfg srv).trace.count (dump_event.push_shutdown false) =
      cfg.num_threads := by
  rw [shutdown_phase_trace, List.count_append, List.count_replicate_self,
    count_eq_zero_of_kind (fun e he h => by
      rcases shutdown_tail_kind cfg srv e he with h1 | h1 <;> rw [h1] at h <;> cases h)]
  rfl

theorem start_dump_counts (cfg : dump_config) (srv : server)
    (h : (start_dump cfg srv).status = dump_status.running) :
    (start_dump cfg srv).trace.countP dump_event.starts_less_locking_worker =
      (if cfg.less_locking then cfg.num_threads else 0) ∧
    (start_dump cfg srv).trace.count (dump_event.pop_ready true) =
      (if cfg.less_locking then cfg.num_threads else 0) ∧
    (start_dump cfg srv).trace.count (dump_event.push_shutdown true) =
      (if cfg.less_locking then cfg.num_threads else 0) ∧
    (start_dump cfg srv).trace.count (dump_event.push_shutdown false) = cfg.num_threads := by
  have hG : ∀ b, ∀ e ∈ (guard_phase cfg srv).trace,
      e.kind ≠ event_kind.worker b ∧ e.kind ≠ event_kind.shutdown b :=
    fun b e he => other_phases_kind cfg srv b e (by simp only [he, true_or])
  have hL : ∀ b, ∀ e ∈ (lock_phase cfg srv).trace,
      e.kind ≠ event_kind.worker b ∧ e.kind ≠ event_kind.shutdown b :=
    fun b e he => other_phases_kind cfg srv b e (by simp only [he, true_or, or_true])
  have hS : ∀ b, ∀ e ∈ (snapshot_phase cfg srv).trace,
      e.kind ≠ event_kind.worker b ∧ e.kind ≠ event_kind.shutdown b :=
    fun b e he => other_phases_kind cfg srv b e (by simp only [he, true_or, or_true])
  have hU : ∀ b, ∀ e ∈ (trx_unlock_phase cfg srv).trace,
      e.kind ≠ event_kind.worker b ∧ e.kind ≠ event_kind.shutdown b :=
    fun b e he => other_phases_kind cfg srv b e (by simp only [he, true_or, or_true])
  have hP : ∀ b, ∀ e ∈ (plan_phase cfg srv).trace,
      e.kind ≠ event_kind.worker b ∧ e.kind ≠ event_kind.shutdown b :=
    fun b e he => other_phases_kind cfg srv b e (by simp only [he, true_or, or_true])
  have hGT : ∀ b, ∀ e ∈ (gate_phase cfg srv).trace,
      e.kind ≠ event_kind.worker b ∧ e.kind ≠ event_kind.shutdown b :=
    fun b e he => other_phases_kind cfg srv b e (by simp only [he, or_true])
  have hTs : ∀ b, ∀ e ∈ (thread_phase cfg).trace, e.kind ≠ event_kind.shutdown b := by
    intro b e he hk
    rcases thread_phase_kind cfg e he with h1 | ⟨h1, _⟩ <;> rw [h1] at hk <;> cases hk
  have hNw : ∀ e ∈ (non_innodb_phase cfg srv).trace, e.kind ≠ event_kind.worker true := by
    intro e he hk
    rcases non_innodb_phase_kind cfg srv e he with h1 | h1 | h1 | h1 | ⟨h1, _⟩ <;>
      rw [h1] at hk <;> cases hk
  have hNf : ∀ e ∈ (non_innodb_phase cfg srv).trace, e.kind ≠ event_kind.shutdown false := by
    intro e he hk
    rcases non_innodb_phase_kind cfg srv e he with h1 | h1 | h1 | h1 | ⟨h1, _⟩ <;>
      rw [h1] at hk <;> cases hk
  have hSw : ∀ e ∈ (shutdown_phase cfg srv).trace, e.kind ≠ event_kind.worker true := by
    intro e he hk
    rcases shutdown_phase_kind cfg srv e he with h1 | h1 | h1 <;> rw [h1] at hk <;> cases hk
  have hSt : ∀ e ∈ (shutdown_phase cfg srv).trace, e.kind ≠ event_kind.shutdown true := by
    intro e he hk
    rcases shutdown_phase_kind cfg srv e he with h1 | h1 | h1 <;> rw [h1] at hk <;> cases hk
  rw [start_dump_trace_of_running cfg srv h]
  simp only [List.countP_append, List.count_append]
  refine ⟨?_, ?_, ?_, ?_⟩
  · rw [countP_eq_zero_of_kind (l := (guard_phase cfg srv).trace) (fun e he => (hG true e he).1),
      countP_eq_zero_of_kind (l := (lock_phase cfg srv).trace) (fun e he => (hL true e he).1),
      countP_eq_zero_of_kind (l := (snapshot_phase cfg srv).trace)
        (fun e he => (hS true e he).1),
      countP_eq_zero_of_kind (l := (trx_unlock_phase cfg srv).trace)
        (fun e he => (hU true e he).1),
      countP_eq_zero_of_kind (l := (plan_phase cfg srv).trace) (fun e he => (hP true e he).1),
      countP_eq_zero_of_kind (l := (gate_phase cfg srv).trace) (fun e he => (hGT true e he).1),
      countP_eq_zero_of_kind (l := (non_innodb_phase cfg srv).trace) hNw,
      countP_eq_zero_of_kind (l := (shutdown_phase cfg srv).trace) hSw,
      (thread_phase_counts cfg).1]
    omega
  · rw [count_eq_zero_of_kind (a := dump_event.pop_ready true)
        (l := (guard_phase cfg srv).trace) (fun e he => (hG true e he).1),
      count_eq_zero_of_kind (a := dump_event.pop_ready true)
        (l := (lock_phase cfg srv).trace) (fun e he => (hL true e he).1),
      count_eq_zero_of_kind (a := dump_event.pop_ready true)
        (l := (snapshot_phase cfg srv).trace) (fun e he => (hS true e he).1),
      count_eq_zero_of_kind (a := dump_event.pop_ready true)
        (l := (trx_unlock_phase cfg srv).trace) (fun e he => (hU true e he).1),
      count_eq_zero_of_kind (a := dump_event.pop_ready true)
        (l := (plan_phase cfg srv).trace) (fun e he => (hP true e he).1),
      count_eq_zero_of_kind (a := dump_event.pop_ready true)
        (l := (gate_phase cfg srv).trace) (fun e he => (hGT true e he).1),
      count_eq_zero_of_kind (a := dump_event.pop_ready true)
        (l := (non_innodb_phase cfg srv).trace) hNw,
      count_eq_zero_of_kind (a := dump_event.pop_ready true)
        (l := (shutdown_phase cfg srv).trace) hSw,
      (thread_phase_counts cfg).2]
    omega
  · rw [count_eq_zero_of_kind (a := dump_event.push_shutdown true)
        (l := (guard_phase cfg srv).trace) (fun e he => (hG true e he).2),
      count_eq_zero_of_kind (a := dump_event.push_shutdown true)
        (l := (lock_phase cfg srv).trace) (fun e he => (hL true e he).2),
      count_eq_zero_of_kind (a := dump_event.push_shutdown true)
        (l := (snapshot_phase cfg srv).trace) (fun e he => (hS true e he).2),
      count_eq_zero_of_kind (a := dump_event.push_shutdown true)
        (l := (trx_unlock_phase cfg srv).trace) (fun e he => (hU true e he).2),
      count_eq_zero_of_kind (a := dump_event.push_shutdown true)
        (l := (plan_phase cfg srv).trace) (fun e he => (hP true e he).2),
      count_eq_zero_of_kind (a := dump_event.push_shutdown true)
        (l := (gate_phase cfg srv).trace) (fun e he => (hGT true e he).2),
      count_eq_zero_of_kind (a := dump_event.push_shutdown true)
        (l := (thread_phase cfg).trace) (hTs true),
      count_eq_zero_of_kind (a := dump_event.push_shutdown true)
        (l := (shutdown_phase cfg srv).trace) hSt,
      non_innodb_phase_counts cfg srv]
    omega
  · rw [count_eq_zero_of_kind (a := dump_event.push_shutdown false)
        (l := (guard_phase cfg srv).trace) (fun e he => (hG false e he).2),
      count_eq_zero_of_kind (a := dump_event.push_shutdown false)
        (l := (lock_phase cfg srv).trace) (fun e he => (hL false e he).2),
      count_eq_zero_of_kind (a := dump_event.push_shutdown false)
        (l := (snapshot_phase cfg srv).trace) (fun e he => (hS false e he).2),
      count_eq_zero_of_kind (a := dump_event.push_shutdown false)
        (l := (trx_unlock_phase cfg srv).trace) (fun e he => (hU false e he).2),
      count_eq_zero_of_kind (a := dump_event.push_shutdown false)
        (l := (plan_phase cfg srv).trace) (fun e he => (hP false e he).2),
      count_eq_zero_of_kind (a := dump_event.push_shutdown false)
        (l := (gate_phase cfg srv).trace) (fun e he => (hGT false e he).2),
      count_eq_zero_of_kind (a := dump_event.push_shutdown false)
        (l := (thread_phase cfg).trace) (hTs false),
      count_eq_zero_of_kind (a := dump_event.push_shutdown false)
        (l := (non_innodb_phase cfg srv).trace) hNf,
      shutdown_phase_counts cfg srv]
    omega

end Mydumper
namespace Mydumper

open Glib

/-! ## C19: the less locking stage -/

/-- C19.  `initialize_start_dump` clears `less_locking` whenever `no_locks` or
`trx_consistency_only` is set and leaves it as it is otherwise.  In the run
of `start_dump` that follows, the workers of the less locking stage and the
traffic on its queues exist only when the option `less_locking` is set and
neither `no_locks` nor `trx_consistency_only` is; a run that reaches its
end then starts exactly `num_threads` such workers, awaits each of them and
pushes `num_threads` shutdown jobs onto the less locking queue, and does
none of this otherwise. -/
theorem less_locking_queue_iff (o : dump_options) (srv : server) :
    ((o.no_locks = true ∨ o.trx_consistency_only = true) →
      (initialize_start_dump o).cfg.less_locking = false) ∧
    (o.no_locks = false → o.trx_consistency_only = false →
      (initialize_start_dump o).cfg.less_locking = o.less_locking) ∧
    (∀ e ∈ (start_dump (initialize_start_dump o).cfg srv).trace,
      e.kind = event_kind.worker true ∨ e.kind = event_kind.shutdown true →
      o.less_locking = true ∧ o.no_locks = false ∧ o.trx_consistency_only = false) ∧
    ((start_dump (initialize_start_dump o).cfg srv).status = dump_status.running →
      (start_dump (initialize_start_dump o).cfg srv).trace.countP
          dump_event.starts_less_locking_worker =
        (if o.less_locking && !o.no_locks && !o.trx_consistency_only
         then o.num_threads else 0) ∧
      (start_dump (initialize_start_dump o).cfg srv).trace.count (dump_event.pop_ready true) =
        (if o.less_locking && !o.no_locks && !o.trx_consistency_only
         then o.num_threads else 0) ∧
      (start_dump (initialize_start_dump o).cfg srv).trace.count
          (dump_event.push_shutdown true) =
        (if o.less_locking && !o.no_locks && !o.trx_consistency_only
         then o.num_threads else 0)) := by
  have hl : (initialize_start_dump o).cfg.less_locking =
      (o.less_locking && !o.no_locks && !o.trx_consistency_only) := by
    simp only [initialize_start_dump]
    cases o.less_locking <;> cases o.no_locks <;> cases o.trx_consistency_only <;> rfl
  have hn : (initialize_start_dump o).cfg.num_threads = o.num_threads := rfl
  refine ⟨?_, ?_, ?_, ?_⟩
  · intro h
    rw [hl]
    rcases h with h | h <;> rw [h] <;> simp
  · intro h1 h2
    rw [hl, h1, h2]
    simp
  · intro e he hk
    have hll : (initialize_start_dump o).cfg.less_locking = true := by
      have hother :
          (e ∈ (guard_phase (initialize_start_dump o).cfg srv).trace ∨
           e ∈ (lock_phase (initialize_start_dump o).cfg srv).trace ∨
           e ∈ (snapshot_phase (initialize_start_dump o).cfg srv).trace ∨
           e ∈ (trx_unlock_phase (initialize_start_dump o).cfg srv).trace ∨
           e ∈ (plan_phase (initialize_start_dump o).cfg srv).trace ∨
           e ∈ (gate_phase (initialize_start_dump o).cfg srv).trace) → False := by
        intro hmem
        rcases hk with hk | hk
        · exact (other_phases_kind _ srv true e hmem).1 hk
        · exact (other_phases_kind _ srv true e hmem).2 hk
      rcases start_dump_mem _ _ e he with h | h | h | h | h | h | h | h | h
      · exact (hother (by simp only [h, true_or])).elim
      · exact (hother (by simp only [h, true_or, or_true])).elim
      · exact (hother (by simp only [h, true_or, or_true])).elim
      · rcases thread_phase_kind _ e h with h1 | ⟨_, h1⟩
        · rcases hk with hk | hk <;> rw [h1] at hk <;> cases hk
        · exact h1
      · exact (hother (by simp only [h, true_or, or_true])).elim
      · exact (hother (by simp only [h, true_or, or_true])).elim
      · rcases non_innodb_phase_kind _ srv e h with h1 | h1 | h1 | h1 | ⟨_, h1⟩
        · rcases hk with hk | hk <;> rw [h1] at hk <;> cases hk
        · rcases hk with hk | hk <;> rw [h1] at hk <;> cases hk
        · rcases hk with hk | hk <;> rw [h1] at hk <;> cases hk
        · rcases hk with hk | hk <;> rw [h1] at hk <;> cases hk
        · exact h1
      · exact (hother (by simp only [h, or_true])).elim
      · rcases shutdown_phase_kind _ srv e h with h1 | h1 | h1 <;>
          rcases hk with hk | hk <;> rw [h1] at hk <;> cases hk
    rw [hl] at hll
    revert hll
    cases o.less_locking <;> cases o.no_locks <;> cases o.trx_consistency_only <;> simp
  · intro hrun
    obtain ⟨h1, h2, h3, _⟩ := start_dump_counts _ srv hrun
    rw [hl, hn] at h1 h2 h3
    exact ⟨h1, h2, h3⟩

set_option maxRecDepth 1000000 in
/-- With `--less-locking` and two workers the run on the sample server starts
two workers of the less locking stage; with `--trx-consistency-only` added
it starts none. -/
theorem less_locking_queue_iff_witness :
    (start_dump (initialize_start_dump less_locking_options).cfg percona57).status =
      dump_status.running ∧
    (start_dump (initialize_start_dump less_locking_options).cfg percona57).trace.countP
        dump_event.starts_less_locking_worker = 2 ∧
    ((initialize_start_dump
        { less_locking_options with trx_consistency_only := true }).cfg.less_locking = false) :=
  ⟨by decide,
   ((less_locking_queue_iff less_locking_options percona57).2.2.2 (by decide)).1,
   (less_locking_queue_iff { less_locking_options with trx_consistency_only := true }
      percona57).1 (Or.inr rfl)⟩

end Mydumper
namespace Myloader

open Glib

/-! ## C20: the shutdown jobs, restore side -/

theorem push_shutdowns_counts (n : Nat) :
    ∀ r : stream_result,
      (push_shutdowns n r).post_table_shutdowns = r.post_table_shutdowns + n ∧
      (push_shutdowns n r).post_shutdowns = r.post_shutdowns + n ∧
      (push_shutdowns n r).stream_shutdowns = r.stream_shutdowns + n ∧
      (push_shutdowns n r).intermidiate_queue = r.intermidiate_queue := by
  induction n with
  | zero => intro r; exact ⟨rfl, rfl, rfl, rfl⟩
  | succ n ih =>
    intro r
    simp only [push_shutdowns, ih]
    exact ⟨by omega, by omega, by omega, trivial⟩

theorem shutdown_rounds_counts (l : List Nat) :
    ((l.map fun _ =>
        [stream_end_event.push_post_table_shutdown, stream_end_event.push_post_shutdown,
         stream_end_event.push_stream_shutdown]).flatten).count
        stream_end_event.push_post_table_shutdown = l.length ∧
    ((l.map fun _ =>
        [stream_end_event.push_post_table_shutdown, stream_end_event.push_post_shutdown,
         stream_end_event.push_stream_shutdown]).flatten).count
        stream_end_event.push_post_shutdown = l.length ∧
    ((l.map fun _ =>
        [stream_end_event.push_post_table_shutdown, stream_end_event.push_post_shutdown,
         stream_end_event.push_stream_shutdown]).flatten).count
        stream_end_event.push_stream_shutdown = l.length := by
  induction l with
  | nil => exact ⟨rfl, rfl, rfl⟩
  | cons i l ih =>
    simp only [List.map_cons, List.flatten_cons, List.count_append, ih.1, ih.2.1, ih.2.2,
      List.length_cons]
    refine ⟨?_, ?_, ?_⟩
    · have : [stream_end_event.push_post_table_shutdown, stream_end_event.push_post_shutdown,
          stream_end_event.push_stream_shutdown].count
          stream_end_event.push_post_table_shutdown = 1 := by decide
      rw [this]; omega
    · have : [stream_end_event.push_post_table_shutdown, stream_end_event.push_post_shutdown,
          stream_end_event.push_stream_shutdown].count
          stream_end_event.push_post_shutdown = 1 := by decide
      rw [this]; omega
    · have : [stream_end_event.push_post_table_shutdown, stream_end_event.push_post_shutdown,
          stream_end_event.push_stream_shutdown].count
          stream_end_event.push_stream_shutdown = 1 := by decide
      rw [this]; omega

theorem stream_epilogue_order (file_open : Bool) (filename : Option (List Char))
    (num_threads : Nat) :
    ∃ pre shutdowns,
      stream_epilogue file_open filename num_threads =
        pre ++ [stream_end_event.push_intermidiate (bytes "END"),
                stream_end_event.join_intermidiate_thread] ++ shutdowns ∧
      (∀ e ∈ pre, e.is_shutdown = false) ∧
      (∀ e ∈ shutdowns, e.is_shutdown = true) ∧
      shutdowns.count stream_end_event.push_post_table_shutdown = num_threads ∧
      shutdowns.count stream_end_event.push_post_shutdown = num_threads ∧
      shutdowns.count stream_end_event.push_stream_shutdown = num_threads := by
  have hc := shutdown_rounds_counts (List.range num_threads)
  rw [List.length_range] at hc
  refine ⟨_, _, rfl, ?_, ?_, hc.1, hc.2.1, hc.2.2⟩
  · intro e he
    rcases List.mem_append.1 he with he | he
    · split_ifs at he
      · rw [List.mem_singleton.1 he]; rfl
      · exact absurd he (List.not_mem_nil _)
    · cases filename with
      | none => exact absurd he (List.not_mem_nil _)
      | some f => rw [List.mem_singleton.1 he]; rfl
  · intro e he
    simp only [List.mem_flatten, List.mem_map] at he
    obtain ⟨l, ⟨_, _, rfl⟩, hel⟩ := he
    simp only [List.mem_cons, List.mem_singleton] at hel
    rcases hel with rfl | rfl | rfl | h
    · rfl
    · rfl
    · rfl
    · exact absurd h (List.not_mem_nil _)

end Myloader

namespace Mydumper

open Glib

/-! ## C20: the shutdown jobs -/

theorem main_shutdown_after_jobs (cfg : dump_config) (srv : server)
    (h : (start_dump cfg srv).status = dump_status.running) :
    ∃ pre post,
      (start_dump cfg srv).trace =
        pre ++ List.replicate cfg.num_threads (dump_event.push_shutdown false) ++ post ∧
      ∀ e ∈ post, e.kind ≠ event_kind.job := by
  refine ⟨(guard_phase cfg srv).trace ++ (lock_phase cfg srv).trace ++
      (snapshot_phase cfg srv).trace ++ (thread_phase cfg).trace ++
      (trx_unlock_phase cfg srv).trace ++ (plan_phase cfg srv).trace ++
      (non_innodb_phase cfg srv).trace ++ (gate_phase cfg srv).trace,
    ((List.range cfg.num_threads).map fun n => dump_event.thread_join n) ++
       (match (chosen_ddl_lock cfg srv).release_lock_function with
        | some f => call_release (chosen_ddl_lock cfg srv).new_connection f
        | none => dump_run.skip).trace, ?_, ?_⟩
  · rw [start_dump_trace_of_running cfg srv h, shutdown_phase_trace]
    simp only [List.append_assoc]
  · intro e he hk
    rcases shutdown_tail_kind cfg srv e he with h1 | h1 <;> rw [h1] at hk <;> cases hk

theorem less_locking_shutdown_after_jobs (cfg : dump_config) (srv : server)
    (h : (start_dump cfg srv).status = dump_status.running)
    (hl : cfg.less_locking = true) :
    ∃ pre post,
      (start_dump cfg srv).trace =
        pre ++ List.replicate cfg.num_threads (dump_event.push_shutdown true) ++ post ∧
      ∀ e ∈ post, e.kind ≠ event_kind.job := by
  refine ⟨(guard_phase cfg srv).trace ++ (lock_phase cfg srv).trace ++
      (snapshot_phase cfg srv).trace ++ (thread_phase cfg).trace ++
      (trx_unlock_phase cfg srv).trace ++ (plan_phase cfg srv).trace ++
      ((if srv.non_innodb_table.reverse = [] then [dump_event.push_unlock_tables] else []) ++
       (list_jobs (less_locking_packing cfg.num_threads srv.non_innodb_table.reverse)
            cfg.num_threads ++
          (if list_jobs (less_locking_packing cfg.num_threads srv.non_innodb_table.reverse)
              cfg.num_threads ≠ [] then [dump_event.non_innodb_done_inc]
           else [dump_event.push_unlock_tables]))),
    ((List.range cfg.num_threads).map fun i => dump_event.thread_join (cfg.num_threads + i)) ++
      ((gate_phase cfg srv).trace ++ (shutdown_phase cfg srv).trace), ?_, ?_⟩
  · rw [start_dump_trace_of_running cfg srv h, non_innodb_phase_trace, hl]
    simp only [if_true, List.append_assoc]
  · intro e he hk
    rcases List.mem_append.1 he with he | he
    · obtain ⟨i, _, rfl⟩ := List.mem_map.1 he
      cases hk
    · rcases List.mem_append.1 he with he | he
      · rcases gate_phase_kind cfg srv e he with h1 | h1 <;> rw [h1] at hk <;> cases hk
      · rcases shutdown_phase_kind cfg srv e he with h1 | h1 | h1 <;> rw [h1] at hk <;>
          cases hk

end Mydumper

namespace Myloader

open Glib

/-! ## C28: the token `SHUTDOWN` in the worker loop -/

theorem take_job_none (conf : stream_conf) (hd : conf.database_queue = [])
    (ht : conf.table_queue = []) (hl : ∀ u ∈ conf.table_list, u.restore_job_list = []) :
    take_job conf = (none, conf) := by
  have h1 := give_me_next_data_job_none conf.table_list
    (fun u hu h => h.2 (hl u hu))
  have h2 := give_any_data_job_none conf.table_list hl
  simp only [take_job, hd, ht, h1, h2]

/-- C28, amended.  A worker in `process_stream_queue` that pops a token and
finds no job of any kind leaves its loop on that pass when the token is
`SHUTDOWN`, and pushes the token back onto the stream queue and keeps
looping when it is any other token.  A worker that pops a token, `SHUTDOWN`
included, and finds a job hands that job to `process_job`; the token is
consumed, and the worker goes on or stops as `process_job` says. -/
theorem shutdown_token
    (process_job : stream_conf → control_job → stream_conf × Bool)
    (st : worker_state) (ft : file_type) (sq : List file_type)
    (hc : st.cont = true) (hq : st.stream_queue = ft :: sq) :
    (st.conf.database_queue = [] → st.conf.table_queue = [] →
      (∀ u ∈ st.conf.table_list, u.restore_job_list = []) →
      (ft = file_type.SHUTDOWN →
        ∀ fuel, process_stream_queue process_job (fuel + 1) st =
          some { st with stream_queue := sq, cont := false }) ∧
      (ft ≠ file_type.SHUTDOWN →
        process_stream_queue_step process_job st =
          some { st with stream_queue := sq ++ [ft] } ∧
        ∀ fuel, process_stream_queue process_job (fuel + 1) st =
          process_stream_queue process_job fuel { st with stream_queue := sq ++ [ft] })) ∧
    (∀ job conf1, take_job st.conf = (some job, conf1) →
      process_stream_queue_step process_job st =
        some { conf := (process_job conf1 job).1, stream_queue := sq,
               processed := st.processed ++ [job], cont := (process_job conf1 job).2 } ∧
      ∀ fuel, process_stream_queue process_job (fuel + 1) st =
        process_stream_queue process_job fuel
          { conf := (process_job conf1 job).1, stream_queue := sq,
            processed := st.processed ++ [job], cont := (process_job conf1 job).2 }) := by
  refine ⟨fun hd ht hl => ?_, fun job conf1 hj => ?_⟩
  · have hn := take_job_none st.conf hd ht hl
    refine ⟨fun hs fuel => ?_, fun hs => ?_⟩
    · have hstep : process_stream_queue_step process_job st =
          some { st with stream_queue := sq, cont := false } := by
        simp only [process_stream_queue_step, hq, hn, hs, if_true]
      rw [process_stream_queue, if_pos hc, hstep]
      cases fuel <;> simp [process_stream_queue]
    · have hstep : process_stream_queue_step process_job st =
          some { st with stream_queue := sq ++ [ft] } := by
        simp only [process_stream_queue_step, hq, hn, hs, if_false]
      refine ⟨hstep, fun fuel => ?_⟩
      rw [process_stream_queue, if_pos hc, hstep]
  · have hstep : process_stream_queue_step process_job st =
        some { conf := (process_job conf1 job).1, stream_queue := sq,
               processed := st.processed ++ [job], cont := (process_job conf1 job).2 } := by
      simp only [process_stream_queue_step, hq, hj]
    refine ⟨hstep, fun fuel => ?_⟩
    rw [process_stream_queue, if_pos hc, hstep]

/-- A worker that pops `SHUTDOWN` and finds no job leaves its loop. -/
theorem shutdown_token_witness :
    (idle_shutdown_worker.cont = true ∧
     idle_shutdown_worker.stream_queue = [file_type.SHUTDOWN, file_type.DATA]) ∧
    process_stream_queue process_job_noop 1 idle_shutdown_worker =
      some { idle_shutdown_worker with stream_queue := [file_type.DATA], cont := false } :=
  ⟨⟨rfl, rfl⟩,
   ((shutdown_token process_job_noop idle_shutdown_worker file_type.SHUTDOWN [file_type.DATA]
      rfl rfl).1 rfl rfl (fun _ h => absurd h (List.not_mem_nil _))).1 rfl 0⟩

set_option maxRecDepth 1000000 in
/-- C28, counterexample.  A worker that pops `SHUTDOWN` while a data job is
pending hands the job to `process_job`, stays in its loop with the token
gone, and then waits on the empty stream queue. -/
theorem shutdown_token_lost :
    process_stream_queue_step process_job_noop shutdown_worker =
      some { conf := { database_queue := [], table_queue := [],
                       table_list := [{ busy_table with restore_job_list := [] }] },
             stream_queue := [],
             processed := [control_job.restore_job_as_control_job
               { filename := bytes "db.t.00000.sql", database := bytes "db" }],
             cont := true } ∧
    process_stream_queue process_job_noop 10 shutdown_worker = none := by
  decide

end Myloader

namespace Mydumper

open Glib

/-! ## C25: views and filters in the planning from the table list -/

/-- C25, amended.  For the rows of one result of `SHOW TABLE STATUS` in
`get_table_info_to_process_from_list`: a row is handed to `new_table_to_dump` if
and only if it is not in the skip list (when one is configured) and the
regex accepts it, in the order of the rows; it is handed over as a view if
and only if the server is `SERVER_TYPE_MYSQL` and the `Comment` column of the
row is `NULL` or equals `VIEW`.  The `Engine` column is passed on and plays
no part in the classification. -/
theorem view_classification (env : table_list_env) (database : List Char)
    (ecol ccol : Nat) (rows : List (List (Option (List Char)))) :
    table_rows env database ecol ccol rows =
      (rows.filter fun row =>
          !(env.tables_skiplist_file && env.check_skiplist database (row.getD 0 none)) &&
          env.eval_regex database (row.getD 0 none)).map
        (fun row =>
          table_list_event.new_table_to_dump
            (decide (env.detected_server = server_type.SERVER_TYPE_MYSQL ∧
                     (row.getD ccol none = none ∨ row.getD ccol none = some (bytes "VIEW"))))
            database (row.getD 0 none) (row.getD 6 none) (row.getD ecol none)) := by
  induction rows with
  | nil => rfl
  | cons row rows ih =>
    rw [table_rows, List.filter_cons]
    cases hs : (env.tables_skiplist_file && env.check_skiplist database (row.getD 0 none)) with
    | true =>
      simp only [if_true, Bool.not_true, Bool.false_and, Bool.false_eq_true, if_false]
      exact ih
    | false =>
      cases hr : env.eval_regex database (row.getD 0 none) with
      | false =>
        simp only [Bool.false_eq_true, if_false, Bool.not_false, Bool.and_false,
          Bool.not_true, if_true]
        exact ih
      | true =>
        simp only [Bool.false_eq_true, if_false, Bool.not_false, Bool.and_self,
          Bool.not_true, if_true, List.map_cons, ih]
        congr 2
        cases hc : row.getD ccol none with
        | none => cases env.detected_server <;> simp
        | some comment =>
          have hb : (comment == bytes "VIEW") = decide (comment = bytes "VIEW") := by
            rw [Bool.eq_iff_iff]; simp
          cases env.detected_server <;> simp [hb]

set_option maxRecDepth 1000000 in
/-- C25, counterexample.  On a MySQL server a table whose `Engine` is `NULL`
and whose `Comment` is an error text is not handed over as a view, and a
table with an engine and a `NULL` comment is. -/
theorem null_engine_not_a_view :
    (get_table_info_to_process_from_list odd_rows_env [bytes "db.%"] 0 []).events =
      [table_list_event.query (bytes "SHOW TABLE STATUS FROM db LIKE '%'"),
       table_list_event.create_job_to_dump_schema (bytes "db"),
       table_list_event.new_table_to_dump false (bytes "db") (some (bytes "t1")) none none,
       table_list_event.new_table_to_dump true (bytes "db") (some (bytes "t2"))
         (some (bytes "16384")) (some (bytes "InnoDB")),
       table_list_event.new_table_to_dump true (bytes "db") (some (bytes "v")) none none] := by
  decide

/-! ## C26: a failed `SHOW TABLE STATUS` -/

theorem table_list_after_failure (env : table_list_env) (entry : List Char)
    (rest rest2 : List (List Char)) (pre : List (List Char)) :
    ∀ x dumped, (env.table_status (x + pre.length)).query_fails = true →
      get_table_info_to_process_from_list env (pre ++ entry :: rest) x dumped =
        get_table_info_to_process_from_list env (pre ++ entry :: rest2) x dumped := by
  induction pre with
  | nil =>
    intro x dumped hf
    rw [List.length_nil, Nat.add_zero] at hf
    simp only [List.nil_append, get_table_info_to_process_from_list, hf, if_true]
  | cons p pre ih =>
    intro x dumped hf
    have hf1 : (env.table_status (x + 1 + pre.length)).query_fails = true := by
      rw [List.length_cons] at hf
      rwa [show x + 1 + pre.length = x + (pre.length + 1) by omega]
    have ih1 : ∀ d, get_table_info_to_process_from_list env (pre ++ entry :: rest) (x + 1) d =
        get_table_info_to_process_from_list env (pre ++ entry :: rest2) (x + 1) d :=
      fun d => ih (x + 1) d hf1
    rw [List.cons_append, List.cons_append, get_table_info_to_process_from_list,
      get_table_info_to_process_from_list]
    simp only [ih1]

/-- C26, amended.  When the statement `SHOW TABLE STATUS` fails for an entry of
the table list, `get_table_info_to_process_from_list` increments `errors` by
exactly one, does not leave the process, and returns: the entries after the
failed one are not planned, so the run is the same whatever follows the
failed entry. -/
theorem table_status_failure (env : table_list_env) (entry : List Char)
    (pre rest : List (List Char)) (dumped : List (List Char))
    (hf : (env.table_status pre.length).query_fails = true) :
    get_table_info_to_process_from_list env (pre ++ entry :: rest) 0 dumped =
      get_table_info_to_process_from_list env (pre ++ [entry]) 0 dumped ∧
    (∀ dt0 dt x d, g_strsplit entry '.' = dt0 :: dt →
      (env.table_status x).query_fails = true →
      get_table_info_to_process_from_list env (entry :: rest) x d =
        { events := [table_list_event.query
            (bytes "SHOW TABLE STATUS FROM " ++ dt0 ++ bytes " LIKE '" ++
              dt.headD (bytes "(null)") ++ bytes "'")],
          errors := 1, already_dumped := d, status := dump_status.running }) := by
  refine ⟨table_list_after_failure env entry rest [] pre 0 dumped
    (by rw [Nat.zero_add]; exact hf), ?_⟩
  intro dt0 dt x d hs hq
  simp only [get_table_info_to_process_from_list, hs, hq, if_true]

set_option maxRecDepth 1000000 in
/-- The statement for `db.t1` fails: one error, and `db.t2` is not asked
for. -/
theorem table_status_failure_witness :
    (first_query_fails_env.table_status ([] : List (List Char)).length).query_fails = true ∧
    get_table_info_to_process_from_list first_query_fails_env [bytes "db.t1", bytes "db.t2"]
        0 [] =
      { events := [table_list_event.query (bytes "SHOW TABLE STATUS FROM db LIKE 't1'")],
        errors := 1, already_dumped := [], status := dump_status.running } := by
  refine ⟨by decide, ?_⟩
  have h := (table_status_failure first_query_fails_env (bytes "db.t1") [] [bytes "db.t2"] []
    (by decide)).1
  rw [List.nil_append, List.nil_append] at h
  rw [h]
  decide

set_option maxRecDepth 1000000 in
/-- C26, counterexample.  The statement for the first entry fails and the one
for the second entry would succeed: the run ends after the first statement
and the table of the second entry gets no job, although the same entry alone
yields one. -/
theorem later_entries_not_planned :
    (get_table_info_to_process_from_list first_query_fails_env [bytes "db.t1", bytes "db.t2"]
        0 []).events =
      [table_list_event.query (bytes "SHOW TABLE STATUS FROM db LIKE 't1'")] ∧
    (get_table_info_to_process_from_list first_query_fails_env [bytes "db.t2"] 1 []).events =
      [table_list_event.query (bytes "SHOW TABLE STATUS FROM db LIKE 't2'"),
       table_list_event.create_job_to_dump_schema (bytes "db"),
       table_list_event.new_table_to_dump false (bytes "db") (some (bytes "t2"))
         (some (bytes "16384")) (some (bytes "InnoDB"))] := by
  decide

end Mydumper

namespace Myloader

open Glib

/-! ## The buffer size, for any schedule of reads -/

theorem read_stream_line_fits (st : stream_state) (c c2 : Nat)
    (h : st.input.length ≤ c) (h2 : st.input.length ≤ c2) :
    read_stream_line st c = read_stream_line st c2 := by
  have key : ∀ (m k : Nat), st.input.length ≤ k →
      st.input.take (min k m) = st.input.take m ∧
      st.input.drop (min k m) = st.input.drop m := by
    intro m k hk
    by_cases hm : m ≤ k
    · rw [Nat.min_eq_right hm]; exact ⟨rfl, rfl⟩
    · have hkm : k ≤ m := Nat.le_of_lt (Nat.lt_of_not_le hm)
      rw [Nat.min_eq_left hkm, List.take_of_length_le hk, List.drop_of_length_le hk,
        List.take_of_length_le (Nat.le_trans hk hkm),
        List.drop_of_length_le (Nat.le_trans hk hkm)]
      exact ⟨rfl, rfl⟩
  unfold read_stream_line
  cases hr : st.reads with
  | nil =>
    simp only [List.take_of_length_le h, List.take_of_length_le h2,
      List.drop_of_length_le h, List.drop_of_length_le h2]
  | cons r rs =>
    simp only [(key (max 1 r) c h).1, (key (max 1 r) c h).2, (key (max 1 r) c2 h2).1,
      (key (max 1 r) c2 h2).2]

theorem process_line_within (st : stream_state) :
    (process_line st).buffer_len = st.buffer_len ∧
    ((process_line st).diff = st.diff ∨
     (process_line st).diff = st.buffer_len - st.next_line_from) := by
  unfold process_line
  simp only []
  split_ifs <;> simp

theorem stream_step_within (size n : Nat) (st : stream_state) (h : st.within n) :
    (stream_step size st).within n := by
  obtain ⟨h1, h2⟩ := h
  unfold stream_step
  cases hc : st.ctl <;> simp only []
  · have hlen : (read_stream_line st (size - 1 - st.diff)).2 +
        (read_stream_line st (size - 1 - st.diff)).1.input.length = st.input.length := by
      simp only [read_stream_line, List.length_take, List.length_drop]
      omega
    split_ifs <;> simp only [stream_state.within] <;> constructor <;> omega
  · split_ifs
    · obtain ⟨hb, hd⟩ := process_line_within st
      refine ⟨?_, ?_⟩
      · rw [hb]
        rcases hd with hd | hd <;> rw [hd] <;> omega
      · rw [hb, (process_line_input st).1]; exact h2
    · exact ⟨h1, h2⟩
  · exact ⟨h1, h2⟩
  · exact ⟨h1, h2⟩

theorem stream_step_size_within (size size2 n : Nat) (st : stream_state)
    (h : st.within n) (hs : n ≤ size - 1) (hs2 : n ≤ size2 - 1) :
    stream_step size st = stream_step size2 st := by
  obtain ⟨h1, h2⟩ := h
  unfold stream_step
  cases hc : st.ctl <;> simp only []
  rw [read_stream_line_fits st (size - 1 - st.diff) (size2 - 1 - st.diff) (by omega)
    (by omega)]

theorem stream_loop_size_within (size size2 n : Nat) (hs : n ≤ size - 1)
    (hs2 : n ≤ size2 - 1) (fuel : Nat) :
    ∀ st : stream_state, st.within n →
      stream_loop size fuel st = stream_loop size2 fuel st := by
  induction fuel with
  | zero => intro st _; rfl
  | succ k ih =>
    intro st h
    unfold stream_loop
    have e := stream_step_size_within size size2 n st h hs hs2
    have w := stream_step_within size n st h
    cases hc : st.ctl <;> simp only []
    · rw [← e]; exact ih _ w
    · rw [← e]; exact ih _ w

/-- A stream that fits into the buffer is processed in the same way whatever
`STREAM_BUFFER_SIZE` is, for every schedule of reads. -/
theorem process_stream_size_reads (size size2 num_threads : Nat)
    (existing : List (List Char × List Char)) (reads : List Nat) (input : List Char)
    (fuel : Nat) (h : input.length ≤ size - 1) (h2 : input.length ≤ size2 - 1) :
    stream_loop size fuel (stream_init existing reads input) =
      stream_loop size2 fuel (stream_init existing reads input) ∧
    process_stream size num_threads existing reads input fuel =
      process_stream size2 num_threads existing reads input fuel := by
  have hl := stream_loop_size_within size size2 input.length h h2 fuel
    (stream_init existing reads input) ⟨Nat.le_refl _, by simp [stream_init]⟩
  refine ⟨hl, ?_⟩
  unfold process_stream
  rw [hl]

end Myloader
namespace Myloader

open Glib

/-! ## C29: the end of the read loop -/

theorem stream_loop_done (size fuel : Nat) (st : stream_state)
    (h : st.ctl = stream_ctl.done ∨ st.ctl = stream_ctl.crashed) :
    stream_loop size fuel st = st := by
  cases fuel with
  | zero => rfl
  | succ n => rcases h with h | h <;> simp only [stream_loop, h]

theorem stream_loop_add (size a : Nat) :
    ∀ (b : Nat) (st : stream_state),
      stream_loop size (a + b) st = stream_loop size b (stream_loop size a st) := by
  induction a with
  | zero => intro b st; rw [Nat.zero_add]; rfl
  | succ a ih =>
    intro b st
    rw [show a + 1 + b = (a + b) + 1 by omega]
    cases hc : st.ctl with
    | read_more => simp only [stream_loop, hc]; exact ih b _
    | scan => simp only [stream_loop, hc]; exact ih b _
    | done =>
      rw [stream_loop_done size _ st (Or.inl hc), stream_loop_done size _ st (Or.inl hc),
        stream_loop_done size _ st (Or.inl hc)]
    | crashed =>
      rw [stream_loop_done size _ st (Or.inr hc), stream_loop_done size _ st (Or.inr hc),
        stream_loop_done size _ st (Or.inr hc)]

theorem stream_loop_cycle (size : Nat) (s : stream_state)
    (h1 : s.ctl = stream_ctl.read_more) (h2 : (stream_step size s).ctl = stream_ctl.scan)
    (h3 : stream_step size (stream_step size s) = s) :
    ∀ fuel,
      (stream_loop size fuel s = s ∨ stream_loop size fuel s = stream_step size s) ∧
      (stream_loop size fuel (stream_step size s) = s ∨
       stream_loop size fuel (stream_step size s) = stream_step size s) := by
  intro fuel
  induction fuel with
  | zero => exact ⟨Or.inl rfl, Or.inr rfl⟩
  | succ n ih =>
    refine ⟨?_, ?_⟩
    · have e : stream_loop size (n + 1) s = stream_loop size n (stream_step size s) := by
        simp only [stream_loop, h1]
      rw [e]; exact ih.2
    · have e : stream_loop size (n + 1) (stream_step size s) = stream_loop size n s := by
        simp only [stream_loop, h2, h3]
      rw [e]; exact ih.1

theorem stream_loop_never_done (size : Nat) (init : stream_state) (k : Nat)
    (h0 : ∀ j, j < k → (stream_loop size j init).ctl = stream_ctl.read_more ∨
                       (stream_loop size j init).ctl = stream_ctl.scan)
    (h1 : (stream_loop size k init).ctl = stream_ctl.read_more)
    (h2 : (stream_step size (stream_loop size k init)).ctl = stream_ctl.scan)
    (h3 : stream_step size (stream_step size (stream_loop size k init)) =
      stream_loop size k init) :
    ∀ fuel, (stream_loop size fuel init).ctl = stream_ctl.read_more ∨
            (stream_loop size fuel init).ctl = stream_ctl.scan := by
  intro fuel
  by_cases hk : fuel < k
  · exact h0 fuel hk
  · obtain ⟨j, rfl⟩ : ∃ j, fuel = k + j := ⟨fuel - k, by omega⟩
    rw [stream_loop_add]
    rcases (stream_loop_cycle size _ h1 h2 h3 j).1 with e | e <;> rw [e]
    · exact Or.inl h1
    · exact Or.inr h2

set_option maxRecDepth 1000000 in
theorem unterminated_header_cycle :
    (∀ j, j < 2 →
      (stream_loop 64 j (stream_init [] [] unterminated_header_stream)).ctl =
        stream_ctl.read_more ∨
      (stream_loop 64 j (stream_init [] [] unterminated_header_stream)).ctl =
        stream_ctl.scan) ∧
    (stream_loop 64 2 (stream_init [] [] unterminated_header_stream)).ctl =
      stream_ctl.read_more ∧
    (stream_step 64 (stream_loop 64 2 (stream_init [] [] unterminated_header_stream))).ctl =
      stream_ctl.scan ∧
    stream_step 64 (stream_step 64
        (stream_loop 64 2 (stream_init [] [] unterminated_header_stream))) =
      stream_loop 64 2 (stream_init [] [] unterminated_header_stream) := by
  decide

set_option maxRecDepth 1000000 in
theorem long_header_cycle :
    (∀ j, j < 2 →
      (stream_loop 64 j (stream_init [] [] long_header_stream)).ctl = stream_ctl.read_more ∨
      (stream_loop 64 j (stream_init [] [] long_header_stream)).ctl = stream_ctl.scan) ∧
    (stream_loop 64 2 (stream_init [] [] long_header_stream)).ctl = stream_ctl.read_more ∧
    (stream_step 64 (stream_loop 64 2 (stream_init [] [] long_header_stream))).ctl =
      stream_ctl.scan ∧
    stream_step 64 (stream_step 64 (stream_loop 64 2 (stream_init [] [] long_header_stream))) =
      stream_loop 64 2 (stream_init [] [] long_header_stream) ∧
    (stream_loop 64 2 (stream_init [] [] long_header_stream)).input.length = 17 := by
  decide!

theorem process_stream_none (size num_threads : Nat)
    (existing : List (List Char × List Char)) (reads : List Nat) (input : List Char)
    (fuel : Nat)
    (h : (stream_loop size fuel (stream_init existing reads input)).ctl =
           stream_ctl.read_more ∨
         (stream_loop size fuel (stream_init existing reads input)).ctl = stream_ctl.scan) :
    process_stream size num_threads existing reads input fuel = none := by
  unfold process_stream
  rcases h with h | h <;> simp only [h]

/-- C29, the defect.  The empty stream ends the read loop at the first read,
and `END` alone is pushed.  A stream that ends inside a header line, here
`\n-- a.sql` without a closing newline, never ends it, with any buffer size
from 64 bytes on: after every number of steps the loop is at its read or in
its scan, having moved the unfinished line to the start of the buffer and
read nothing more, so `END` is never pushed.  The same happens with a buffer
of 64 bytes and a header line of 78 bytes, with 17 bytes of the stream left
unread. -/
theorem unterminated_header_never_ends (size : Nat) (h : 64 ≤ size) :
    (∀ (num_threads : Nat) (existing : List (List Char × List Char)) (reads : List Nat)
       (fuel : Nat),
      process_stream size num_threads existing reads [] (fuel + 1) =
        some (push_shutdowns num_threads
          { files := existing, intermidiate_queue := [bytes "END"],
            post_table_shutdowns := 0, post_shutdowns := 0, stream_shutdowns := 0 })) ∧
    (∀ (num_threads fuel : Nat),
      ((stream_loop size fuel (stream_init [] [] unterminated_header_stream)).ctl =
          stream_ctl.read_more ∨
       (stream_loop size fuel (stream_init [] [] unterminated_header_stream)).ctl =
          stream_ctl.scan) ∧
      process_stream size num_threads [] [] unterminated_header_stream fuel = none) ∧
    (∀ (num_threads fuel : Nat),
      ((stream_loop 64 fuel (stream_init [] [] long_header_stream)).ctl =
          stream_ctl.read_more ∨
       (stream_loop 64 fuel (stream_init [] [] long_header_stream)).ctl = stream_ctl.scan) ∧
      process_stream 64 num_threads [] [] long_header_stream fuel = none) := by
  refine ⟨?_, ?_, ?_⟩
  · intro num_threads existing reads fuel
    have hs : stream_step size (stream_init existing reads []) =
        { stream_init existing reads [] with reads := reads.tail, ctl := stream_ctl.done } := by
      simp only [stream_step, stream_init, read_stream_line, buf_write, List.take_nil,
        List.drop_nil, List.length_nil, Nat.add_zero, if_true]
    have hl : stream_loop size (fuel + 1) (stream_init existing reads []) =
        { stream_init existing reads [] with reads := reads.tail, ctl := stream_ctl.done } := by
      have e : stream_loop size (fuel + 1) (stream_init existing reads []) =
          stream_loop size fuel (stream_step size (stream_init existing reads [])) := rfl
      rw [e, hs]
      exact stream_loop_done size fuel _ (Or.inl rfl)
    simp only [process_stream, hl]
    rfl
  · intro num_threads fuel
    have hlen : unterminated_header_stream.length = 9 := by decide
    have e := (process_stream_size_reads size 64 num_threads [] [] unterminated_header_stream
      fuel (by omega) (by omega)).1
    obtain ⟨c0, c1, c2, c3⟩ := unterminated_header_cycle
    have hn := stream_loop_never_done 64 _ 2 c0 c1 c2 c3 fuel
    rw [← e] at hn
    exact ⟨hn, process_stream_none size num_threads [] [] _ fuel hn⟩
  · intro num_threads fuel
    obtain ⟨c0, c1, c2, c3, _⟩ := long_header_cycle
    have hn := stream_loop_never_done 64 _ 2 c0 c1 c2 c3 fuel
    exact ⟨hn, process_stream_none 64 num_threads [] [] _ fuel hn⟩

theorem unterminated_header_never_ends_at_1000000 :
    (64 ≤ 1000000) ∧
    process_stream 1000000 4 [] [] unterminated_header_stream 1000 = none :=
  ⟨by decide, (((unterminated_header_never_ends 1000000 (by decide)).2.1) 4 1000).2⟩

end Myloader

namespace Mydumper

open Glib

/-! ## C21: the disk space monitor -/

theorem is_disk_space_ok_iff (f_bfree f_frsize val : Nat) :
    is_disk_space_ok (some (f_bfree, f_frsize)) val = true ↔
      (val : ℚ) < free_mb f_bfree f_frsize := by
  simp only [is_disk_space_ok, free_mb, decide_eq_true_eq, gt_iff_lt]
  rw [div_div, lt_div_iff₀ (by norm_num)]
  have h : ((val : ℚ) * (1024 * 1024) : ℚ) = ((val * 2 ^ 20 : Nat) : ℚ) := by
    push_cast
    norm_num
  rw [h, Nat.cast_lt]

theorem lock_round_no_sleep (n : Nat) :
    (lock_round n).filter (fun e => !e.is_sleep) = lock_round n := by
  rw [List.filter_eq_self]
  intro e he
  simp only [lock_round, List.mem_flatten, List.mem_map] at he
  obtain ⟨l, ⟨i, _, rfl⟩, hel⟩ := he
  simp only [List.mem_cons, List.mem_singleton] at hel
  rcases hel with rfl | rfl | h
  · rfl
  · rfl
  · exact absurd h (List.not_mem_nil _)

theorem unlock_round_no_sleep (n : Nat) :
    (unlock_round n).filter (fun e => !e.is_sleep) = unlock_round n := by
  rw [List.filter_eq_self]
  intro e he
  obtain ⟨i, _, rfl⟩ := List.mem_map.1 he
  rfl

theorem monitor_rounds (n pause_at resume_at : Nat) (measured : List (Option (Nat × Nat))) :
    ∀ previous_state,
      ∃ k, (monitor_disk_space_thread n pause_at resume_at measured
              previous_state).events.filter (fun e => !e.is_sleep) =
            alternating_rounds n previous_state k := by
  have hs : ∀ l : List pause_event,
      List.filter (fun e => !e.is_sleep) (pause_event.sleep 10 :: l) =
        List.filter (fun e => !e.is_sleep) l :=
    fun l => List.filter_cons_of_neg (by simp [pause_event.is_sleep])
  induction measured with
  | nil => intro s; exact ⟨0, by cases s <;> rfl⟩
  | cons m later ih =>
    intro s
    simp only [monitor_disk_space_thread]
    cases s with
    | true =>
      simp only [if_true]
      cases hc : is_disk_space_ok m pause_at with
      | true =>
        obtain ⟨k, hk⟩ := ih true
        refine ⟨k, ?_⟩
        simp only [bne_self_eq_false, Bool.false_eq_true, if_false, List.nil_append, hs]
        exact hk
      | false =>
        obtain ⟨k, hk⟩ := ih false
        refine ⟨k + 1, ?_⟩
        have hb : (true != false) = true := rfl
        simp only [hb, if_true, Bool.not_false, List.filter_append, lock_round_no_sleep,
          hs, hk, alternating_rounds, Bool.not_true]
    | false =>
      simp only [Bool.false_eq_true, if_false]
      cases hc : is_disk_space_ok m resume_at with
      | false =>
        obtain ⟨k, hk⟩ := ih false
        refine ⟨k, ?_⟩
        simp only [bne_self_eq_false, Bool.false_eq_true, if_false, List.nil_append, hs]
        exact hk
      | true =>
        obtain ⟨k, hk⟩ := ih true
        refine ⟨k + 1, ?_⟩
        have hb : (false != true) = true := rfl
        simp only [hb, if_true, Bool.not_true, Bool.false_eq_true, if_false,
          List.filter_append, unlock_round_no_sleep, hs, hk, alternating_rounds,
          Bool.not_false]

theorem monitor_append (n pause_at resume_at : Nat) (first later : List (Option (Nat × Nat))) :
    ∀ previous_state,
      monitor_disk_space_thread n pause_at resume_at (first ++ later) previous_state =
        { events :=
            (monitor_disk_space_thread n pause_at resume_at first previous_state).events ++
            (monitor_disk_space_thread n pause_at resume_at later
              (monitor_disk_space_thread n pause_at resume_at first
                previous_state).previous_state).events,
          previous_state :=
            (monitor_disk_space_thread n pause_at resume_at later
              (monitor_disk_space_thread n pause_at resume_at first
                previous_state).previous_state).previous_state } := by
  induction first with
  | nil => intro s; simp [monitor_disk_space_thread]
  | cons m first ih =>
    intro s
    rw [List.cons_append, monitor_disk_space_thread, ih]
    simp only [monitor_disk_space_thread, List.append_assoc, List.cons_append]

theorem round_counts (n i : Nat) (hi : i < n) :
    (lock_round n).count (pause_event.lock i) = 1 ∧
    (lock_round n).count (pause_event.push i) = 1 ∧
    (unlock_round n).count (pause_event.unlock i) = 1 := by
  have key : ∀ l : List Nat,
      ((l.map fun j => [pause_event.lock j, pause_event.push j]).flatten).count
          (pause_event.lock i) = l.count i ∧
      ((l.map fun j => [pause_event.lock j, pause_event.push j]).flatten).count
          (pause_event.push i) = l.count i ∧
      (l.map pause_event.unlock).count (pause_event.unlock i) = l.count i := by
    intro l
    induction l with
    | nil => exact ⟨rfl, rfl, rfl⟩
    | cons j l ih =>
      simp only [List.map_cons, List.flatten_cons, List.count_append, ih.1, ih.2.1]
      by_cases hj : j = i
      · subst hj
        simp only [List.count_cons_self, List.count_cons, ih.2.2]
        simp
        omega
      · have h1 : pause_event.lock j ≠ pause_event.lock i :=
          fun h => hj (pause_event.lock.inj h)
        have h2 : pause_event.push j ≠ pause_event.push i :=
          fun h => hj (pause_event.push.inj h)
        have h3 : pause_event.unlock j ≠ pause_event.unlock i :=
          fun h => hj (pause_event.unlock.inj h)
        rw [List.count_cons_of_ne (Ne.symm hj), List.count_cons_of_ne (Ne.symm h3), ih.2.2]
        simp [List.count_cons, h1, h2]
  have hc : (List.range n).count i = 1 :=
    List.count_eq_one_of_mem (List.nodup_range n) (List.mem_range.2 hi)
  obtain ⟨k1, k2, k3⟩ := key (List.range n)
  exact ⟨by rw [lock_round, k1, hc], by rw [lock_round, k2, hc],
    by rw [unlock_round, k3, hc]⟩

/-- C21, amended.  In one pass of `monitor_disk_space_thread` the state changes
from OK to LOW exactly when `statvfs` succeeds and the free space in MB is
less than or equal to `pause_at`, and from LOW to OK exactly when `statvfs`
fails or the free space in MB is strictly greater than `resume_at`;
otherwise it stays.  A change from OK to LOW locks the `num_threads` mutexes
in increasing index, pushing each onto the queue right after its lock; a
change from LOW to OK unlocks them in increasing index; a pass without a
change touches no mutex; every pass ends with `sleep (10)`.  Over any number
of passes started in the state OK the rounds alternate, the first one being
a lock round. -/
theorem disk_space_hysteresis (num_threads pause_at resume_at : Nat) :
    (∀ statvfs,
      ((monitor_disk_space_thread num_threads pause_at resume_at [statvfs]
          true).previous_state = false ↔
        ∃ f_bfree f_frsize, statvfs = some (f_bfree, f_frsize) ∧
          free_mb f_bfree f_frsize ≤ (pause_at : ℚ)) ∧
      ((monitor_disk_space_thread num_threads pause_at resume_at [statvfs]
          false).previous_state = true ↔
        (statvfs = none ∨
         ∃ f_bfree f_frsize, statvfs = some (f_bfree, f_frsize) ∧
           (resume_at : ℚ) < free_mb f_bfree f_frsize))) ∧
    (∀ statvfs previous_state,
      (monitor_disk_space_thread num_threads pause_at resume_at [statvfs]
          previous_state).events =
        (if previous_state = true ∧
            (monitor_disk_space_thread num_threads pause_at resume_at [statvfs]
              previous_state).previous_state = false then lock_round num_threads
         else if previous_state = false ∧
            (monitor_disk_space_thread num_threads pause_at resume_at [statvfs]
              previous_state).previous_state = true then unlock_round num_threads
         else []) ++ [pause_event.sleep 10]) ∧
    (∀ first later previous_state,
      (monitor_disk_space_thread num_threads pause_at resume_at (first ++ later)
          previous_state).events =
        (monitor_disk_space_thread num_threads pause_at resume_at first
          previous_state).events ++
        (monitor_disk_space_thread num_threads pause_at resume_at later
          (monitor_disk_space_thread num_threads pause_at resume_at first
            previous_state).previous_state).events) ∧
    (∀ measured, ∃ k,
      (monitor_disk_space_thread num_threads pause_at resume_at measured
          true).events.filter (fun e => !e.is_sleep) =
        alternating_rounds num_threads true k) ∧
    (∀ i, i < num_threads →
      (lock_round num_threads).count (pause_event.lock i) = 1 ∧
      (lock_round num_threads).count (pause_event.push i) = 1 ∧
      (unlock_round num_threads).count (pause_event.unlock i) = 1) := by
  refine ⟨fun statvfs => ⟨?_, ?_⟩, ?_, ?_, ?_, ?_⟩
  · simp only [monitor_disk_space_thread, if_true]
    cases statvfs with
    | none => simp [is_disk_space_ok]
    | some p =>
      obtain ⟨b, f⟩ := p
      have h := is_disk_space_ok_iff b f pause_at
      constructor
      · intro h0
        refine ⟨b, f, rfl, ?_⟩
        by_contra hlt
        rw [not_le] at hlt
        rw [h.2 hlt] at h0
        exact Bool.noConfusion h0
      · rintro ⟨b1, f1, he, hle⟩
        obtain ⟨rfl, rfl⟩ := Prod.mk.inj (Option.some.inj he)
        cases hd : is_disk_space_ok (some (b, f)) pause_at with
        | false => rfl
        | true => exact absurd (h.1 hd) (not_lt.2 hle)
  · simp only [monitor_disk_space_thread, Bool.false_eq_true, if_false]
    cases statvfs with
    | none => simp [is_disk_space_ok]
    | some p =>
      obtain ⟨b, f⟩ := p
      have h := is_disk_space_ok_iff b f resume_at
      constructor
      · intro h0
        exact Or.inr ⟨b, f, rfl, h.1 h0⟩
      · rintro (he | ⟨b1, f1, he, hlt⟩)
        · exact Option.noConfusion he
        · obtain ⟨rfl, rfl⟩ := Prod.mk.inj (Option.some.inj he)
          exact h.2 hlt
  · intro statvfs previous_state
    simp only [monitor_disk_space_thread]
    rcases Bool.eq_false_or_eq_true (is_disk_space_ok statvfs pause_at) with h1 | h1 <;>
      rcases Bool.eq_false_or_eq_true (is_disk_space_ok statvfs resume_at) with h2 | h2 <;>
      cases previous_state <;> simp [h1, h2]
  · intro first later previous_state
    rw [monitor_append]
  · intro measured
    exact monitor_rounds num_threads pause_at resume_at measured true
  · intro i hi
    exact round_counts num_threads i hi

set_option maxRecDepth 1000000 in
/-- With two workers, `pause_at = 10` and `resume_at = 20`, the measurements
30 MB, 5 MB, 15 MB and 25 MB give one lock round at the second pass and one
unlock round at the fourth. -/
theorem disk_space_hysteresis_witness :
    0 < 2 ∧
    ((lock_round 2).count (pause_event.lock 0) = 1 ∧
     (lock_round 2).count (pause_event.push 0) = 1 ∧
     (unlock_round 2).count (pause_event.unlock 0) = 1) ∧
    monitor_disk_space_thread 2 10 20
        [some (7680, 4096), some (1280, 4096), some (3840, 4096), some (6400, 4096)] true =
      { events := [pause_event.sleep 10,
                   pause_event.lock 0, pause_event.push 0, pause_event.lock 1,
                   pause_event.push 1, pause_event.sleep 10,
                   pause_event.sleep 10,
                   pause_event.unlock 0, pause_event.unlock 1, pause_event.sleep 10],
        previous_state := true } :=
  ⟨by decide, (disk_space_hysteresis 2 10 20).2.2.2.2 0 (by decide), by decide⟩

set_option maxRecDepth 1000000 in
/-- C21, counterexample.  With `pause_at = 10` and exactly 10 MB free, the
free space is not strictly less than `pause_at`, and the monitor goes from OK
to LOW and locks the mutexes of its two workers. -/
theorem pause_at_the_limit :
    ¬ (free_mb 2560 4096 < 10) ∧
    monitor_disk_space_thread 2 10 20 [ten_mb_free] true =
      { events := [pause_event.lock 0, pause_event.push 0, pause_event.lock 1,
                   pause_event.push 1, pause_event.sleep 10],
        previous_state := false } := by
  refine ⟨?_, by decide⟩
  have h : free_mb 2560 4096 = 10 := by
    simp only [free_mb]
    norm_num
  rw [h]
  exact lt_irrefl _

/-! ## C22: the signal handler -/

theorem read_answer_skips (pre : List Char) (c : Char) (rest : List Char)
    (hpre : ∀ x ∈ pre, is_answer x = false) :
    read_answer (pre ++ c :: rest) = read_answer (c :: rest) := by
  induction pre with
  | nil => rfl
  | cons x pre ih =>
    have hx := hpre x (List.mem_cons_self _ _)
    simp only [is_answer, Bool.or_eq_false_iff, decide_eq_false_iff_not] at hx
    obtain ⟨⟨⟨h1, h2⟩, h3⟩, h4⟩ := hx
    rw [List.cons_append, read_answer, if_neg (by tauto), if_neg (by tauto)]
    exact ih (fun y hy => hpre y (List.mem_cons_of_mem _ hy))

/-- C22.  In non-daemon mode, on `SIGINT`, `sig_triggered` prints its question,
locks the mutex of each worker and pushes it onto the pause queue, then
reads standard input and skips every byte other than `Y`, `y`, `N`, `n`.
When the first such byte is `N` or `n` it unlocks the mutexes, leaves
`shutdown_triggered` as it was and returns `TRUE`; when it is `Y` or `y` it
sets `shutdown_triggered`, unlocks the mutexes and returns `FALSE`.  On
`SIGTERM` it sets `shutdown_triggered`, touches no mutex and returns
`FALSE`. -/
theorem interactive_cancel (num_threads : Nat) (st : signal_state) (pre : List Char)
    (c : Char) (rest : List Char) (hpre : ∀ x ∈ pre, is_answer x = false) :
    ((c = 'N' ∨ c = 'n') →
      sig_triggered num_threads false st signal.SIGINT (pre ++ c :: rest) =
        some { events := pause_event.prompt :: lock_round num_threads ++
                           unlock_round num_threads,
               state := { st with pause_mutex_per_thread := true, pause_resume := true },
               result := true, stdin := rest }) ∧
    ((c = 'Y' ∨ c = 'y') →
      sig_triggered num_threads false st signal.SIGINT (pre ++ c :: rest) =
        some { events := pause_event.prompt :: lock_round num_threads ++
                           unlock_round num_threads,
               state := { shutdown_triggered := true, pause_mutex_per_thread := true,
                          pause_resume := true },
               result := false, stdin := rest }) ∧
    (∀ daemon_mode stdin,
      sig_triggered num_threads daemon_mode st signal.SIGTERM stdin =
        some { events := [], state := { st with shutdown_triggered := true },
               result := false, stdin := stdin }) ∧
    (∀ i, i < num_threads →
      (lock_round num_threads).count (pause_event.lock i) = 1 ∧
      (lock_round num_threads).count (pause_event.push i) = 1 ∧
      (unlock_round num_threads).count (pause_event.unlock i) = 1) := by
  refine ⟨fun hc => ?_, fun hc => ?_, fun _ _ => rfl,
    fun i hi => round_counts num_threads i hi⟩
  · have hr : read_answer (pre ++ c :: rest) = some (false, rest) := by
      rw [read_answer_skips pre c rest hpre, read_answer, if_pos hc]
    simp only [sig_triggered, hr, Bool.not_false, if_true]
  · have hn : ¬ (c = 'N' ∨ c = 'n') := by
      rcases hc with rfl | rfl <;> decide
    have hr : read_answer (pre ++ c :: rest) = some (true, rest) := by
      rw [read_answer_skips pre c rest hpre, read_answer, if_neg hn, if_pos hc]
    simp only [sig_triggered, hr, Bool.not_false, if_true]

set_option maxRecDepth 1000000 in
/-- The answer `no` after an empty line keeps the dump running; the answer
`yes` ends it. -/
theorem interactive_cancel_witness :
    (∀ x ∈ bytes "\n", is_answer x = false) ∧
    sig_triggered 2 false no_signal_yet signal.SIGINT (bytes "\nno\n") =
      some { events := [pause_event.prompt, pause_event.lock 0, pause_event.push 0,
                        pause_event.lock 1, pause_event.push 1, pause_event.unlock 0,
                        pause_event.unlock 1],
             state := { shutdown_triggered := false, pause_mutex_per_thread := true,
                        pause_resume := true },
             result := true, stdin := bytes "o\n" } ∧
    (sig_triggered 2 false no_signal_yet signal.SIGINT (bytes "\nyes\n")).map
        (fun r => (r.state.shutdown_triggered, r.result)) = some (true, false) := by
  refine ⟨by decide, ?_, ?_⟩
  · exact (interactive_cancel 2 no_signal_yet (bytes "\n") 'n' (bytes "o\n")
      (by decide)).1 (Or.inr rfl)
  · rw [show bytes "\nyes\n" = bytes "\n" ++ 'y' :: bytes "es\n" from rfl,
      (interactive_cancel 2 no_signal_yet (bytes "\n") 'y' (bytes "es\n")
        (by decide)).2.1 (Or.inr rfl)]
    rfl

end Mydumper

namespace Mydumper

open Glib

/-! ## C23, C24: the snapshot coordinates -/

theorem strcasecmp_eq_other (a b name : List Char)
    (h : a.map Char.toLower ≠ b.map Char.toLower) (ha : strcasecmp_eq a name = true) :
    strcasecmp_eq b name = false := by
  simp only [strcasecmp_eq, beq_iff_eq] at ha
  simp only [strcasecmp_eq, beq_eq_false_iff_ne, ne_eq]
  intro hb
  exact h (ha.trans hb.symm)

theorem last_value_cons (test : List Char → Bool) (row : List (Option (List Char)))
    (name : List Char) (fields : List (List Char)) (i : Nat) (acc : Option (List Char)) :
    last_value test row (name :: fields) i acc =
      last_value test row fields (i + 1) (if test name then row.getD i none else acc) := by
  simp only [last_value, List.enumFrom_cons, List.filter_cons]
  cases ht : test name with
  | false => simp
  | true =>
    simp only [if_true, List.getLast?_cons]
    cases ((fields.enumFrom (i + 1)).filter fun p => test p.2).getLast? with
    | none => rfl
    | some p => rfl

theorem last_value_again (test : List Char → Bool) (row later : List (Option (List Char)))
    (fields : List (List Char)) (i : Nat) (acc : Option (List Char)) :
    last_value test later fields i (last_value test row fields i acc) =
      last_value test later fields i acc := by
  simp only [last_value]
  cases ((fields.enumFrom i).filter fun p => test p.2).getLast? with
  | none => rfl
  | some p => rfl

theorem read_slave_fields_eq (isms : Bool) (row : List (Option (List Char)))
    (fields : List (List Char)) :
    ∀ (i : Nat) (v : slave_vars),
      read_slave_fields isms row fields i v =
        { connname :=
            last_value (fun name => isms && strcasecmp_eq (bytes "connection_name") name)
              row fields i v.connname,
          slavehost := last_value is_master_host row fields i v.slavehost,
          slavelog :=
            last_value (strcasecmp_eq (bytes "relay_master_log_file")) row fields i v.slavelog,
          slavepos :=
            last_value (strcasecmp_eq (bytes "exec_master_log_pos")) row fields i v.slavepos,
          slavegtid := last_value is_slave_gtid row fields i v.slavegtid } := by
  induction fields with
  | nil => intro i v; rfl
  | cons name fields ih =>
    intro i v
    rw [read_slave_fields, ih]
    simp only [last_value_cons, is_master_host, is_slave_gtid]
    by_cases h1 : strcasecmp_eq (bytes "exec_master_log_pos") name = true
    · have h2 := strcasecmp_eq_other _ (bytes "relay_master_log_file") name (by decide) h1
      have h3 := strcasecmp_eq_other _ (bytes "master_host") name (by decide) h1
      have h4 := strcasecmp_eq_other _ (bytes "Executed_Gtid_Set") name (by decide) h1
      have h5 := strcasecmp_eq_other _ (bytes "Gtid_Slave_Pos") name (by decide) h1
      simp only [h1, h2, h3, h4, h5, if_true, Bool.false_eq_true, if_false, Bool.or_self]
      split <;> rfl
    · rw [Bool.not_eq_true] at h1
      by_cases h2 : strcasecmp_eq (bytes "relay_master_log_file") name = true
      · have h3 := strcasecmp_eq_other _ (bytes "master_host") name (by decide) h2
        have h4 := strcasecmp_eq_other _ (bytes "Executed_Gtid_Set") name (by decide) h2
        have h5 := strcasecmp_eq_other _ (bytes "Gtid_Slave_Pos") name (by decide) h2
        simp only [h1, h2, h3, h4, h5, if_true, Bool.false_eq_true, if_false, Bool.or_self]
        split <;> rfl
      · rw [Bool.not_eq_true] at h2
        by_cases h3 : strcasecmp_eq (bytes "master_host") name = true
        · have h4 := strcasecmp_eq_other _ (bytes "Executed_Gtid_Set") name (by decide) h3
          have h5 := strcasecmp_eq_other _ (bytes "Gtid_Slave_Pos") name (by decide) h3
          simp only [h1, h2, h3, h4, h5, if_true, Bool.false_eq_true, if_false, Bool.or_self]
          split <;> rfl
        · rw [Bool.not_eq_true] at h3
          simp only [h1, h2, h3, Bool.false_eq_true, if_false]
          split <;> split <;> rfl

theorem read_slave_fields_again (isms : Bool) (row later : List (Option (List Char)))
    (fields : List (List Char)) (v : slave_vars) :
    read_slave_fields isms later fields 0 (read_slave_fields isms row fields 0 v) =
      read_slave_fields isms later fields 0 v := by
  rw [read_slave_fields_eq isms later, read_slave_fields_eq isms later,
    read_slave_fields_eq isms row]
  simp only [last_value_again]

theorem read_slave_fields_first (isms : Bool) (row : List (Option (List Char)))
    (fields : List (List Char)) :
    read_slave_fields isms row fields 0
        { connname := none, slavehost := none, slavelog := none, slavepos := none,
          slavegtid := none } =
      { connname :=
          column_value (fun name => isms && strcasecmp_eq (bytes "connection_name") name)
            fields row,
        slavehost := column_value is_master_host fields row,
        slavelog := column_value (strcasecmp_eq (bytes "relay_master_log_file")) fields row,
        slavepos := column_value (strcasecmp_eq (bytes "exec_master_log_pos")) fields row,
        slavegtid := column_value is_slave_gtid fields row } := by
  rw [read_slave_fields_eq]
  rfl

theorem write_slave_rows_eq (isms : Bool) (fields : List (List Char)) :
    ∀ (rows : List (List (Option (List Char)))) (v : slave_vars) (slave_count : Nat),
      slave_count < 2 ^ 32 →
      (∀ row, read_slave_fields isms row fields 0 v =
        read_slave_fields isms row fields 0
          { connname := none, slavehost := none, slavelog := none, slavepos := none,
            slavegtid := none }) →
      write_slave_rows isms fields rows v slave_count =
        { file :=
            ((rows.filter fun row => (column_value is_master_host fields row).isSome).map
              (slave_block isms fields)).flatten,
          slave_count :=
            (slave_count +
              (rows.filter fun row =>
                (column_value is_master_host fields row).isSome).length) % 2 ^ 32 } := by
  intro rows
  induction rows with
  | nil =>
    intro v slave_count hc _
    simp only [write_slave_rows, List.filter_nil, List.map_nil, List.flatten_nil,
      List.length_nil, Nat.add_zero, Nat.mod_eq_of_lt hc]
  | cons row rows ih =>
    intro v slave_count hc hv
    have hnext : ∀ later, read_slave_fields isms later fields 0
        (read_slave_fields isms row fields 0 v) =
        read_slave_fields isms later fields 0
          { connname := none, slavehost := none, slavelog := none, slavepos := none,
            slavegtid := none } := by
      intro later
      rw [read_slave_fields_again, hv]
    rw [write_slave_rows]
    simp only [ih _ _ (Nat.mod_lt _ (by norm_num)) hnext, ih _ _ hc hnext]
    rw [hv row, read_slave_fields_first]
    simp only [List.filter_cons]
    cases hh : (column_value is_master_host fields row).isSome with
    | false => simp only [Bool.false_eq_true, if_false]
    | true =>
      simp only [if_true, List.map_cons, List.flatten_cons, List.length_cons, slave_block,
        slave_block_body, List.append_assoc]
      refine congrArg₂ slave_scan.mk ?_ ?_
      · cases isms with
        | false => simp only [Bool.false_eq_true, if_false]
        | true => simp only [if_true, Bool.true_and]
      · omega

theorem slave_part_eq (isms : Bool) (slave : Option mysql_result) :
    (match slave with
      | some r =>
        write_slave_rows isms r.fields r.rows
          { connname := none, slavehost := none, slavelog := none, slavepos := none,
            slavegtid := none } 0
      | none => { file := [], slave_count := 0 }) =
      { file := slave_blocks isms slave,
        slave_count := (rows_with_host slave).length % 2 ^ 32 } := by
  cases slave with
  | none => rfl
  | some r =>
    simp only [write_slave_rows_eq isms r.fields r.rows _ 0 (by norm_num) (fun _ => rfl),
      slave_blocks, rows_with_host, Nat.zero_add]

theorem write_snapshot_info_eq (server : List Char → Option mysql_result) :
    write_snapshot_info server =
      { queries := (read_master_status server).queries ++
          [bytes "SELECT @@default_master_connection",
           if (write_snapshot_info server).isms then bytes "SHOW ALL SLAVES STATUS"
           else bytes "SHOW SLAVE STATUS"],
        file :=
          (if (read_master_status server).masterlog.isSome then
             bytes "SHOW MASTER STATUS:\n\tLog: " ++
               printf_s (read_master_status server).masterlog ++
             bytes "\n\tPos: " ++ printf_s (read_master_status server).masterpos ++
             bytes "\n\tGTID:" ++ printf_s (read_master_status server).mastergtid ++
             bytes "\n\n"
           else []) ++
          slave_blocks (write_snapshot_info server).isms
            (server (if (write_snapshot_info server).isms then bytes "SHOW ALL SLAVES STATUS"
                     else bytes "SHOW SLAVE STATUS")),
        isms := (write_snapshot_info server).isms,
        slave_count :=
          (rows_with_host
            (server (if (write_snapshot_info server).isms then bytes "SHOW ALL SLAVES STATUS"
                     else bytes "SHOW SLAVE STATUS"))).length % 2 ^ 32,
        warning :=
          decide ((rows_with_host
            (server (if (write_snapshot_info server).isms then bytes "SHOW ALL SLAVES STATUS"
                     else bytes "SHOW SLAVE STATUS"))).length % 2 ^ 32 > 1) } := by
  simp only [write_snapshot_info, slave_part_eq]

/-- C23.  The text that `write_snapshot_info` writes is a master block followed
by one replica block for each row of the replica status that has a master
host, in the order of the rows; a replica block is the header, the
connection name in multisource mode, then host, log, position and GTID of
that row.  The master block is written when `SHOW MASTER STATUS` has a
first row with a log file, and it is then the header with log, position and
GTID in this order, the GTID being the 5th column when the result has
exactly 5 columns and the answer to `SELECT @@gtid_binlog_pos` otherwise;
it is empty when there is no such row.  For a result of at most one row the
block is written exactly when some row has a log file.  With zero rows of
`SHOW MASTER STATUS` the file holds the replica blocks only. -/
theorem snapshot_coordinates (server : List Char → Option mysql_result) :
    (∃ master_block : List Char,
      (write_snapshot_info server).file = master_block ++
        slave_blocks (write_snapshot_info server).isms
          (server (if (write_snapshot_info server).isms then bytes "SHOW ALL SLAVES STATUS"
                   else bytes "SHOW SLAVE STATUS")) ∧
      (∀ fields row rows log,
        server (bytes "SHOW MASTER STATUS") = some ⟨fields, row :: rows⟩ →
        row.getD 0 none = some log →
        master_block =
          bytes "SHOW MASTER STATUS:\n\tLog: " ++ log ++
          bytes "\n\tPos: " ++ printf_s (row.getD 1 none) ++
          bytes "\n\tGTID:" ++
            printf_s (if fields.length = 5 then row.getD 4 none
                      else first_cell (server (bytes "SELECT @@gtid_binlog_pos"))) ++
          bytes "\n\n") ∧
      ((∀ fields row rows,
          server (bytes "SHOW MASTER STATUS") = some ⟨fields, row :: rows⟩ →
          row.getD 0 none = none) →
        master_block = []) ∧
      (∀ r, server (bytes "SHOW MASTER STATUS") = some r → r.rows.length ≤ 1 →
        (master_block ≠ [] ↔ ∃ row ∈ r.rows, (row.getD 0 none).isSome = true))) ∧
    (∀ fields, server (bytes "SHOW MASTER STATUS") = some ⟨fields, []⟩ →
      (write_snapshot_info server).file =
        slave_blocks (write_snapshot_info server).isms
          (server (if (write_snapshot_info server).isms then bytes "SHOW ALL SLAVES STATUS"
                   else bytes "SHOW SLAVE STATUS"))) := by
  have hfile := congrArg snapshot_run.file (write_snapshot_info_eq server)
  simp only at hfile
  have hnone : (∀ fields row rows,
      server (bytes "SHOW MASTER STATUS") = some ⟨fields, row :: rows⟩ →
      row.getD 0 none = none) → (read_master_status server).masterlog = none := by
    intro h
    unfold read_master_status
    split
    · next fields row rows hs =>
      have h0 := h fields row rows hs
      split <;> exact h0
    · rfl
  refine ⟨⟨_, hfile, ?_, ?_, ?_⟩, ?_⟩
  · intro fields row rows log hs hl
    simp only [read_master_status, hs]
    by_cases h5 : fields.length = 5
    · simp only [h5, if_true, hl, Option.isSome_some, printf_s]
    · simp only [h5, if_false, hl, Option.isSome_some, if_true, printf_s, first_cell]
  · intro h
    rw [hnone h]
    rfl
  · intro r hs hlen
    obtain ⟨fields, rows⟩ := r
    cases rows with
    | nil =>
      have h0 : (read_master_status server).masterlog = none :=
        hnone (fun f row rows h => by rw [hs] at h; cases h)
      rw [h0]
      simp
    | cons row rows =>
      have hr : rows = [] := by
        cases rows with
        | nil => rfl
        | cons a l => simp at hlen
      subst hr
      have hm : (read_master_status server).masterlog = row.getD 0 none := by
        simp only [read_master_status, hs]
        split <;> rfl
      rw [hm]
      cases hl : row.getD 0 none with
      | none =>
        constructor
        · intro h
          exact absurd rfl h
        · rintro ⟨r, hr, h⟩
          rw [List.mem_singleton] at hr
          subst hr
          rw [hl] at h
          cases h
      | some log =>
        constructor
        · intro _
          exact ⟨row, List.mem_singleton.2 rfl, by rw [hl]; rfl⟩
        · intro _
          simp [bytes]
  · intro fields hs
    rw [hfile]
    have h0 : (read_master_status server).masterlog = none :=
      hnone (fun f row rows h => by rw [hs] at h; cases h)
    rw [h0]
    rfl

set_option maxRecDepth 1000000 in
/-- A replica without a binary log gets the replica block only, and a master
without replication the master block only. -/
theorem snapshot_coordinates_witness :
    (replica_without_binlog (bytes "SHOW MASTER STATUS")).map (fun r => r.rows) = some [] ∧
    (write_snapshot_info replica_without_binlog).file =
      bytes "SHOW SLAVE STATUS:\n\tHost: db1\n\tLog: bin.000007\n\tPos: 154\n\tGTID:\n\n" ∧
    (write_snapshot_info mysql_master).file =
      bytes "SHOW MASTER STATUS:\n\tLog: bin.000003\n\tPos: 729\n\tGTID:uuid:1-5\n\n" :=
  ⟨by decide,
   ((snapshot_coordinates replica_without_binlog).2 _ rfl).trans (by decide),
   by decide⟩

theorem isms_iff (server : List Char → Option mysql_result) :
    (write_snapshot_info server).isms = true ↔
      ∃ rest, server (bytes "SELECT @@default_master_connection") = some rest ∧
        rest.rows ≠ [] := by
  simp only [write_snapshot_info]
  cases hr : server (bytes "SELECT @@default_master_connection") with
  | none => simp
  | some rest =>
    simp only [decide_eq_true_eq, ne_eq, List.length_eq_zero, Option.some.injEq,
      exists_eq_left']

/-- C24, amended.  `write_snapshot_info` works in multisource mode exactly when
`SELECT @@default_master_connection` gives a result with at least one row,
whatever the value in it.  It then asks `SHOW ALL SLAVES STATUS` and writes a
`Connection name:` line after the header of each replica block; otherwise it
asks `SHOW SLAVE STATUS` and writes no such line.  With fewer than `2^32`
replica blocks, the warning is logged exactly when more than one replica
block was written. -/
theorem multisource_detection (server : List Char → Option mysql_result) :
    ((write_snapshot_info server).isms = true ↔
      ∃ rest, server (bytes "SELECT @@default_master_connection") = some rest ∧
        rest.rows ≠ []) ∧
    (∃ earlier,
      (write_snapshot_info server).queries =
        earlier ++ [bytes "SELECT @@default_master_connection",
                    if (write_snapshot_info server).isms then bytes "SHOW ALL SLAVES STATUS"
                    else bytes "SHOW SLAVE STATUS"] ∧
      ∀ q ∈ earlier, q = bytes "SHOW MASTER STATUS" ∨ q = bytes "SELECT @@gtid_binlog_pos") ∧
    (∃ master_block,
      (server (if (write_snapshot_info server).isms then bytes "SHOW ALL SLAVES STATUS"
               else bytes "SHOW SLAVE STATUS") = none →
        (write_snapshot_info server).file = master_block) ∧
      ∀ slave,
        server (if (write_snapshot_info server).isms then bytes "SHOW ALL SLAVES STATUS"
                else bytes "SHOW SLAVE STATUS") = some slave →
        (write_snapshot_info server).file = master_block ++
          ((rows_with_host (some slave)).map fun row =>
            bytes "SHOW SLAVE STATUS:" ++
            (if (write_snapshot_info server).isms then
               bytes "\n\tConnection name: " ++
                 printf_s (column_value (strcasecmp_eq (bytes "connection_name"))
                   slave.fields row)
             else []) ++
            slave_block_body slave.fields row).flatten) ∧
    ((rows_with_host
        (server (if (write_snapshot_info server).isms then bytes "SHOW ALL SLAVES STATUS"
                 else bytes "SHOW SLAVE STATUS"))).length < 2 ^ 32 →
      (write_snapshot_info server).slave_count =
        (rows_with_host
          (server (if (write_snapshot_info server).isms then bytes "SHOW ALL SLAVES STATUS"
                   else bytes "SHOW SLAVE STATUS"))).length ∧
      ((write_snapshot_info server).warning = true ↔
        1 < (rows_with_host
          (server (if (write_snapshot_info server).isms then bytes "SHOW ALL SLAVES STATUS"
                   else bytes "SHOW SLAVE STATUS"))).length)) := by
  have hfile := congrArg snapshot_run.file (write_snapshot_info_eq server)
  have hq := congrArg snapshot_run.queries (write_snapshot_info_eq server)
  have hc := congrArg snapshot_run.slave_count (write_snapshot_info_eq server)
  have hw := congrArg snapshot_run.warning (write_snapshot_info_eq server)
  simp only at hfile hq hc hw
  have hmb : ∃ master_block, (write_snapshot_info server).file = master_block ++
      slave_blocks (write_snapshot_info server).isms
        (server (if (write_snapshot_info server).isms then bytes "SHOW ALL SLAVES STATUS"
                 else bytes "SHOW SLAVE STATUS")) := ⟨_, hfile⟩
  obtain ⟨master_block, hmb⟩ := hmb
  refine ⟨isms_iff server, ⟨_, hq, ?_⟩, ⟨master_block, ?_, ?_⟩, ?_⟩
  · intro q hq
    unfold read_master_status at hq
    split at hq
    · split at hq
      · simp only [List.mem_singleton] at hq
        exact Or.inl hq
      · simp only [List.mem_cons, List.mem_singleton, List.not_mem_nil, or_false] at hq
        exact hq
    · simp only [List.mem_singleton] at hq
      exact Or.inl hq
  · intro hn
    rw [hmb, hn]
    simp only [slave_blocks, List.append_nil]
  · intro slave hs
    rw [hmb, hs]
    rfl
  · intro hlt
    rw [hc, hw, Nat.mod_eq_of_lt hlt]
    simp only [gt_iff_lt, decide_eq_true_eq, and_self]

set_option maxRecDepth 1000000 in
/-- A MySQL replica, where `@@default_master_connection` is unknown, is read
with `SHOW SLAVE STATUS`; its one block raises no warning. -/
theorem multisource_detection_witness :
    (rows_with_host (replica_without_binlog (bytes "SHOW SLAVE STATUS"))).length < 2 ^ 32 ∧
    (write_snapshot_info replica_without_binlog).isms = false ∧
    (write_snapshot_info replica_without_binlog).slave_count = 1 ∧
    (write_snapshot_info replica_without_binlog).warning = false := by
  have hi : (write_snapshot_info replica_without_binlog).isms = false := by decide
  have h := (multisource_detection replica_without_binlog).2.2.2
  rw [hi] at h
  have h1 := h (by decide)
  refine ⟨by decide, hi, h1.1.trans (by decide), ?_⟩
  cases hw : (write_snapshot_info replica_without_binlog).warning with
  | false => rfl
  | true => exact absurd (h1.2.1 hw) (by decide)

set_option maxRecDepth 1000000 in
/-- C24, counterexample.  On a MariaDB replica with the default connection the
value of `@@default_master_connection` is the empty string, and the dump
works in multisource mode all the same: it asks `SHOW ALL SLAVES STATUS` and
writes a `Connection name:` line. -/
theorem empty_connection_name_is_multisource :
    first_cell (mariadb_replica (bytes "SELECT @@default_master_connection")) =
      some (bytes "") ∧
    (write_snapshot_info mariadb_replica).queries =
      [bytes "SHOW MASTER STATUS", bytes "SELECT @@gtid_binlog_pos",
       bytes "SELECT @@default_master_connection", bytes "SHOW ALL SLAVES STATUS"] ∧
    (write_snapshot_info mariadb_replica).file =
      bytes "SHOW MASTER STATUS:\n\tLog: bin.000003\n\tPos: 729\n\tGTID:0-1-9\n\n" ++
      bytes "SHOW SLAVE STATUS:\n\tConnection name: \n\tHost: db1\n\tLog: bin.000007" ++
      bytes "\n\tPos: 154\n\tGTID:0-1-9\n\n" := by
  refine ⟨by decide, by decide, by decide⟩

end Mydumper

namespace Myloader

open Glib

/-! ## Symbolic runs of the read loop -/

theorem buf_get_left (a r : List Char) (i : Nat) (h : i < a.length) :
    buf_get (a ++ r) i = buf_get a i := by
  simp only [buf_get, List.getD_eq_getElem?_getD, List.getElem?_append_left h]

theorem buf_get_right (a r : List Char) (i : Nat) (h : a.length ≤ i) :
    buf_get (a ++ r) i = buf_get r (i - a.length) := by
  simp only [buf_get, List.getD_eq_getElem?_getD, List.getElem?_append_right h]

theorem buf_get_replicate (k j : Nat) (c : Char) (r : List Char) (h : j < k) :
    buf_get (List.replicate k c ++ r) j = c := by
  rw [buf_get_left _ _ _ (by simpa using h)]
  simp [buf_get, h]

theorem scan_line_stop (buffer : List Char) (len : Nat) :
    ∀ (j fuel pos : Nat), j ≤ fuel →
      (∀ i, i < j → pos + i < len ∧ buf_get buffer (pos + i) ≠ '\n') →
      (fuel = j ∨ len ≤ pos + j ∨ buf_get buffer (pos + j) = '\n') →
      scan_line buffer len fuel pos = pos + j := by
  intro j
  induction j with
  | zero =>
    intro fuel pos _ _ hstop
    cases fuel with
    | zero => rfl
    | succ n =>
      rw [scan_line]
      rcases hstop with h | h | h
      · omega
      · have : ¬ pos < len := by omega
        simp [this]
      · rw [Nat.add_zero] at h
        simp [h]
  | succ j ih =>
    intro fuel pos hf hgo hstop
    cases fuel with
    | zero => omega
    | succ n =>
      rw [scan_line]
      have h0 := hgo 0 (by omega)
      simp only [Nat.add_zero] at h0
      simp only [h0.1, decide_True, Bool.true_and, bne_iff_ne, ne_eq, h0.2, not_false_eq_true,
        if_true]
      rw [ih n (pos + 1) (by omega)
        (fun i hi => by have := hgo (i + 1) (by omega); rwa [Nat.add_assoc, Nat.add_comm 1 i])
        (by rcases hstop with h | h | h
            · left; omega
            · right; left; omega
            · right; right; rwa [Nat.add_assoc, Nat.add_comm 1 j])]
      omega

theorem buf_write_over (b : List Char) :
    ∀ (p a r : List Char), a.length = b.length →
      buf_write (p ++ a ++ r) p.length b = p ++ b ++ r := by
  induction b with
  | nil =>
    intro p a r h
    have : a = [] := List.length_eq_zero.1 h
    subst this
    rfl
  | cons c b ih =>
    intro p a r h
    cases a with
    | nil => simp at h
    | cons x a =>
      have hs : buf_set (p ++ x :: a ++ r) p.length c = (p ++ [c]) ++ a ++ r := by
        simp [buf_set, List.set_append]
      rw [buf_write, hs]
      have := ih (p ++ [c]) a r (by simpa using h)
      simp only [List.length_append, List.length_singleton] at this
      rw [this]
      simp

theorem buf_write_end (b p : List Char) :
    buf_write p p.length b = p ++ b := by
  induction b generalizing p with
  | nil => simp [buf_write]
  | cons c b ih =>
    have hs : buf_set p p.length c = p ++ [c] := by
      simp [buf_set]
    rw [buf_write, hs]
    have := ih (p ++ [c])
    simp only [List.length_append, List.length_singleton] at this
    rw [this]
    simp

theorem buf_slice_mid (p m r : List Char) :
    buf_slice (p ++ m ++ r) p.length m.length = m := by
  apply List.ext_getElem
  · simp [buf_slice]
  · intro i h1 h2
    simp only [buf_slice, List.getElem_map, List.getElem_range]
    rw [List.append_assoc, buf_get_right _ _ _ (by omega), Nat.add_sub_cancel_left,
      buf_get_left _ _ _ h2]
    simp [buf_get, h2]

end Myloader
namespace Myloader

open Glib

theorem read_step (size : Nat) (st : stream_state) (got rest : List Char)
    (hc : st.ctl = stream_ctl.read_more) (hr : st.reads = [])
    (hi : st.input = got ++ rest)
    (hg : got.length = size - 1 - st.diff ∨ (rest = [] ∧ got.length ≤ size - 1 - st.diff)) :
    stream_step size st =
      { st with buffer := buf_write st.buffer st.diff got, input := rest, reads := [],
                buffer_len := got.length + st.diff, next_line_from := 0, pos := 0, diff := 0,
                ctl := if got.length + st.diff = 0 then stream_ctl.done
                       else stream_ctl.scan } := by
  have ht : st.input.take (size - 1 - st.diff) = got ∧
      st.input.drop (size - 1 - st.diff) = rest := by
    rw [hi]
    rcases hg with h | ⟨h1, h2⟩
    · rw [← h, List.take_left, List.drop_left]; exact ⟨rfl, rfl⟩
    · subst h1
      rw [List.append_nil, List.take_of_length_le h2, List.drop_of_length_le h2]
      exact ⟨rfl, rfl⟩
  simp only [stream_step, hc, read_stream_line, hr, ht.1, ht.2, List.tail_nil]
  split <;> rfl

end Myloader
namespace Myloader

open Glib

theorem scan_end_step (size : Nat) (st : stream_state) (hc : st.ctl = stream_ctl.scan)
    (hp : ¬ st.pos < st.buffer_len) :
    stream_step size st = { st with ctl := stream_ctl.read_more } := by
  simp only [stream_step, hc, hp, if_false]

theorem data_line_step (size : Nat) (st : stream_state) (start last_pos : Nat)
    (hc : st.ctl = stream_ctl.scan) (hp : st.pos < st.buffer_len)
    (hstart : (if buf_get st.buffer st.pos == '\n' then st.pos + 1 else st.pos) = start)
    (hscan : scan_line st.buffer st.buffer_len (st.buffer_len - start) start = last_pos)
    (hpre : g_str_has_prefix (c_str st.buffer st.next_line_from) (bytes "\n-- ") = false) :
    stream_step size st =
      { st with files := flush st.buffer st.next_line_from (last_pos - st.next_line_from)
                           st.file st.files,
                pos := last_pos, next_line_from := last_pos } := by
  simp only [stream_step, hc, hp, if_true, process_line, hstart, hscan, hpre,
    Bool.false_eq_true, if_false]

theorem header_line_step (size : Nat) (st : stream_state) (start last_pos : Nat)
    (name : List Char)
    (hc : st.ctl = stream_ctl.scan) (hp : st.pos < st.buffer_len)
    (hstart : (if buf_get st.buffer st.pos == '\n' then st.pos + 1 else st.pos) = start)
    (hscan : scan_line st.buffer st.buffer_len (st.buffer_len - start) start = last_pos)
    (hpre : g_str_has_prefix (c_str st.buffer st.next_line_from) (bytes "\n-- ") = true)
    (hnl : buf_get st.buffer last_pos = '\n')
    (hlong : ¬ last_pos < st.next_line_from + 4)
    (hname : g_strndup ((buf_set st.buffer (last_pos - st.next_line_from) NUL).drop
        (st.next_line_from + 4)) (last_pos - (st.next_line_from + 4)) = name)
    (hsuffix : has_mydumper_suffix name = true)
    (hnew : file_exists st.files name = false) :
    stream_step size st =
      { st with buffer := buf_set st.buffer (last_pos - st.next_line_from) NUL,
                filename := some name,
                queue := (match st.filename with
                  | some p => st.queue ++ [p]
                  | none => st.queue),
                file := some name, files := st.files ++ [(name, [])],
                pos := last_pos, next_line_from := last_pos + 1 } := by
  simp only [stream_step, hc, hp, if_true, process_line, hstart, hscan, hpre, hnl, beq_self_eq_true,
    hlong, if_false, hname, hsuffix, hnew, Bool.false_eq_true]

theorem carry_over_step (size : Nat) (st : stream_state) (start : Nat)
    (hc : st.ctl = stream_ctl.scan) (hp : st.pos < st.buffer_len)
    (hstart : (if buf_get st.buffer st.pos == '\n' then st.pos + 1 else st.pos) = start)
    (hscan : scan_line st.buffer st.buffer_len (st.buffer_len - start) start = st.buffer_len)
    (hpre : g_str_has_prefix (c_str st.buffer st.next_line_from) (bytes "\n-- ") = true)
    (hnl : buf_get st.buffer st.buffer_len ≠ '\n') :
    stream_step size st =
      { st with buffer := g_strlcpy st.buffer st.next_line_from
                            (st.buffer_len - st.next_line_from + 2),
                diff := st.buffer_len - st.next_line_from, pos := st.buffer_len,
                ctl := stream_ctl.read_more } := by
  have hnl2 : (buf_get st.buffer st.buffer_len == '\n') = false := by
    rw [beq_eq_false_iff_ne]; exact hnl
  simp only [stream_step, hc, hp, if_true, process_line, hstart, hscan, hpre, hnl2,
    Bool.false_eq_true, if_false]

end Myloader
namespace Myloader

open Glib

theorem header_prefix_bytes (buffer : List Char) (i : Nat)
    (h : g_str_has_prefix (c_str buffer i) (bytes "\n-- ") = true) :
    buf_get buffer i = '\n' ∧ buf_get buffer (i + 1) = '-' := by
  simp only [ g_str_has_prefix, List.isPrefixOf_iff_prefix] at h
  have h2 : bytes "\n-- " <+: buffer.drop i :=
    h.trans (List.takeWhile_prefix _)
  obtain ⟨t, ht⟩ := h2
  have e : ∀ j, buf_get buffer (i + j) = (bytes "\n-- " ++ t).getD j NUL := by
    intro j
    rw [ht]
    simp [buf_get, List.getD_eq_getElem?_getD]
  exact ⟨by have := e 0; rwa [Nat.add_zero] at this, e 1⟩

theorem no_header_start (buffer : List Char) (i : Nat)
    (h : buf_get buffer i ≠ '\n' ∨ buf_get buffer (i + 1) ≠ '-') :
    g_str_has_prefix (c_str buffer i) (bytes "\n-- ") = false := by
  cases hp : g_str_has_prefix (c_str buffer i) (bytes "\n-- ") with
  | false => rfl
  | true =>
    obtain ⟨h1, h2⟩ := header_prefix_bytes buffer i hp
    rcases h with h | h
    · exact absurd h1 h
    · exact absurd h2 h

theorem stream_loop_step (size fuel : Nat) (st : stream_state)
    (h : st.ctl = stream_ctl.read_more ∨ st.ctl = stream_ctl.scan) :
    stream_loop size (fuel + 1) st = stream_loop size fuel (stream_step size st) := by
  rcases h with h | h <;> simp only [stream_loop, h]

end Myloader
namespace Myloader

open Glib

theorem straddled_step1 (k : Nat) :
    stream_step (k + 12)
      (stream_init [] [] (['\n', '-', '-', ' ', 'a', '.', 's', 'q', 'l', '\n'] ++ List.replicate k 'X' ++ ['\n'] ++ ['-', '-', ' ', 'b', '.', 's', 'q', 'l', '\n', 'Y'])) =
      ({ buffer := ['\n', '-', '-', ' ', 'a', '.', 's', 'q', 'l', '\n'] ++ List.replicate k 'X' ++ ['\n'],
         input := ['-', '-', ' ', 'b', '.', 's', 'q', 'l', '\n', 'Y'], reads := [], file := none, filename := none,
         files := [], queue := [], diff := 0, pos := 0, buffer_len := k + 11,
         next_line_from := 0, ctl := stream_ctl.scan } : stream_state) := by
  have hl : (['\n', '-', '-', ' ', 'a', '.', 's', 'q', 'l', '\n'] ++ List.replicate k 'X' ++ ['\n']).length = k + 11 := by simp
  rw [read_step (k + 12) _ (['\n', '-', '-', ' ', 'a', '.', 's', 'q', 'l', '\n'] ++ List.replicate k 'X' ++ ['\n']) (['-', '-', ' ', 'b', '.', 's', 'q', 'l', '\n', 'Y']) rfl rfl rfl
    (Or.inl (by rw [hl]; rfl))]
  have hw := buf_write_end (['\n', '-', '-', ' ', 'a', '.', 's', 'q', 'l', '\n'] ++ List.replicate k 'X' ++ ['\n']) []
  simp only [List.length_nil, List.nil_append] at hw
  simp only [stream_init, hw, hl, Nat.add_zero]
  rfl

theorem straddled_step2 (k : Nat) :
    stream_step (k + 12)
      ({ buffer := ['\n', '-', '-', ' ', 'a', '.', 's', 'q', 'l', '\n'] ++ List.replicate k 'X' ++ ['\n'],
         input := ['-', '-', ' ', 'b', '.', 's', 'q', 'l', '\n', 'Y'], reads := [], file := none, filename := none,
         files := [], queue := [], diff := 0, pos := 0, buffer_len := k + 11,
         next_line_from := 0, ctl := stream_ctl.scan } : stream_state) =
      ({ buffer := ['\n', '-', '-', ' ', 'a', '.', 's', 'q', 'l', NUL] ++ List.replicate k 'X' ++ ['\n'],
         input := ['-', '-', ' ', 'b', '.', 's', 'q', 'l', '\n', 'Y'], reads := [], file := some ['a', '.', 's', 'q', 'l'], filename := some ['a', '.', 's', 'q', 'l'],
         files := [(['a', '.', 's', 'q', 'l'], [])], queue := [], diff := 0, pos := 9, buffer_len := k + 11,
         next_line_from := 10, ctl := stream_ctl.scan } : stream_state) := by
  have hscan : scan_line (['\n', '-', '-', ' ', 'a', '.', 's', 'q', 'l', '\n'] ++ List.replicate k 'X' ++ ['\n']) (k + 11) (k + 11 - 1) 1 = 9 := by
    have h := scan_line_stop (['\n', '-', '-', ' ', 'a', '.', 's', 'q', 'l', '\n'] ++ List.replicate k 'X' ++ ['\n']) (k + 11) 8 (k + 11 - 1) 1 (by omega)
      (fun i hi => ⟨by omega, by interval_cases i <;> simp [buf_get]⟩)
      (Or.inr (Or.inr (by simp [buf_get])))
    exact h
  have hbuf : buf_set (['\n', '-', '-', ' ', 'a', '.', 's', 'q', 'l', '\n'] ++ List.replicate k 'X' ++ ['\n']) (9 - 0) NUL = ['\n', '-', '-', ' ', 'a', '.', 's', 'q', 'l', NUL] ++ List.replicate k 'X' ++ ['\n'] := by
    simp [buf_set]
  rw [header_line_step (k + 12)
    ({ buffer := ['\n', '-', '-', ' ', 'a', '.', 's', 'q', 'l', '\n'] ++ List.replicate k 'X' ++ ['\n'],
         input := ['-', '-', ' ', 'b', '.', 's', 'q', 'l', '\n', 'Y'], reads := [], file := none, filename := none,
         files := [], queue := [], diff := 0, pos := 0, buffer_len := k + 11,
         next_line_from := 0, ctl := stream_ctl.scan } : stream_state)
    1 9 ['a', '.', 's', 'q', 'l'] rfl (by show 0 < k + 11; omega)
    (by simp [buf_get]) hscan (by simp [c_str, g_str_has_prefix, bytes, NUL])
    (by simp [buf_get]) (by show ¬ 9 < 0 + 4; omega)
    (by rw [hbuf]; simp [g_strndup, NUL]) (by decide) rfl]
  simp only [hbuf]
  rfl

theorem straddled_step3 (k : Nat) (hk : 0 < k) :
    stream_step (k + 12)
      ({ buffer := ['\n', '-', '-', ' ', 'a', '.', 's', 'q', 'l', NUL] ++ List.replicate k 'X' ++ ['\n'],
         input := ['-', '-', ' ', 'b', '.', 's', 'q', 'l', '\n', 'Y'], reads := [], file := some ['a', '.', 's', 'q', 'l'], filename := some ['a', '.', 's', 'q', 'l'],
         files := [(['a', '.', 's', 'q', 'l'], [])], queue := [], diff := 0, pos := 9, buffer_len := k + 11,
         next_line_from := 10, ctl := stream_ctl.scan } : stream_state) =
      ({ buffer := ['\n', '-', '-', ' ', 'a', '.', 's', 'q', 'l', NUL] ++ List.replicate k 'X' ++ ['\n'],
         input := ['-', '-', ' ', 'b', '.', 's', 'q', 'l', '\n', 'Y'], reads := [], file := some ['a', '.', 's', 'q', 'l'], filename := some ['a', '.', 's', 'q', 'l'],
         files := [(['a', '.', 's', 'q', 'l'], List.replicate k 'X')], queue := [], diff := 0, pos := k + 10, buffer_len := k + 11,
         next_line_from := k + 10, ctl := stream_ctl.scan } : stream_state) := by
  have hX : ∀ j, j < k → buf_get (['\n', '-', '-', ' ', 'a', '.', 's', 'q', 'l', NUL] ++ List.replicate k 'X' ++ ['\n']) (10 + j) = 'X' := by
    intro j hj
    rw [List.append_assoc, buf_get_right _ _ _ (by simp), show 10 + j -
      (['\n', '-', '-', ' ', 'a', '.', 's', 'q', 'l', NUL]).length = j from by simp]
    exact buf_get_replicate k j 'X' _ hj
  have hN : buf_get (['\n', '-', '-', ' ', 'a', '.', 's', 'q', 'l', NUL] ++ List.replicate k 'X' ++ ['\n']) (k + 10) = '\n' := by
    rw [buf_get_right _ _ _ (by simp)]
    simp [buf_get]
  have hscan : scan_line (['\n', '-', '-', ' ', 'a', '.', 's', 'q', 'l', NUL] ++ List.replicate k 'X' ++ ['\n']) (k + 11) (k + 11 - 9) 9 = k + 10 := by
    have h := scan_line_stop (['\n', '-', '-', ' ', 'a', '.', 's', 'q', 'l', NUL] ++ List.replicate k 'X' ++ ['\n']) (k + 11) (k + 1) (k + 11 - 9) 9 (by omega)
      (fun i hi => ⟨by omega, by
        rcases Nat.eq_zero_or_pos i with h0 | h0
        · subst h0; simp [buf_get, NUL]
        · rw [show 9 + i = 10 + (i - 1) from by omega, hX (i - 1) (by omega)]
          decide⟩)
      (Or.inr (Or.inr (by rw [show 9 + (k + 1) = k + 10 from by omega]; exact hN)))
    rw [h]; omega
  have hflush : flush (['\n', '-', '-', ' ', 'a', '.', 's', 'q', 'l', NUL] ++ List.replicate k 'X' ++ ['\n']) 10 (k + 10 - 10) (some ['a', '.', 's', 'q', 'l']) [(['a', '.', 's', 'q', 'l'], [])] = [(['a', '.', 's', 'q', 'l'], List.replicate k 'X')] := by
    have h := buf_slice_mid (['\n', '-', '-', ' ', 'a', '.', 's', 'q', 'l', NUL]) (List.replicate k 'X') ['\n']
    simp only [List.length_replicate, List.length_cons, List.length_nil] at h
    simp only [flush, write_file, Nat.add_sub_cancel, h]
    simp
  rw [data_line_step (k + 12)
    ({ buffer := ['\n', '-', '-', ' ', 'a', '.', 's', 'q', 'l', NUL] ++ List.replicate k 'X' ++ ['\n'],
         input := ['-', '-', ' ', 'b', '.', 's', 'q', 'l', '\n', 'Y'], reads := [], file := some ['a', '.', 's', 'q', 'l'], filename := some ['a', '.', 's', 'q', 'l'],
         files := [(['a', '.', 's', 'q', 'l'], [])], queue := [], diff := 0, pos := 9, buffer_len := k + 11,
         next_line_from := 10, ctl := stream_ctl.scan } : stream_state)
    9 (k + 10) rfl (by show 9 < k + 11; omega)
    (by simp [buf_get, NUL]) hscan
    (no_header_start _ _ (Or.inl (by
      show buf_get (['\n', '-', '-', ' ', 'a', '.', 's', 'q', 'l', NUL] ++ List.replicate k 'X' ++ ['\n']) 10 ≠ '\n'
      rw [hX 0 hk]; decide)))]
  simp only [hflush]

theorem straddled_step4 (k : Nat) :
    stream_step (k + 12)
      ({ buffer := ['\n', '-', '-', ' ', 'a', '.', 's', 'q', 'l', NUL] ++ List.replicate k 'X' ++ ['\n'],
         input := ['-', '-', ' ', 'b', '.', 's', 'q', 'l', '\n', 'Y'], reads := [], file := some ['a', '.', 's', 'q', 'l'], filename := some ['a', '.', 's', 'q', 'l'],
         files := [(['a', '.', 's', 'q', 'l'], List.replicate k 'X')], queue := [], diff := 0, pos := k + 10, buffer_len := k + 11,
         next_line_from := k + 10, ctl := stream_ctl.scan } : stream_state) =
      ({ buffer := ['\n', '-', '-', ' ', 'a', '.', 's', 'q', 'l', NUL] ++ List.replicate k 'X' ++ ['\n'],
         input := ['-', '-', ' ', 'b', '.', 's', 'q', 'l', '\n', 'Y'], reads := [], file := some ['a', '.', 's', 'q', 'l'], filename := some ['a', '.', 's', 'q', 'l'],
         files := [(['a', '.', 's', 'q', 'l'], List.replicate k 'X' ++ ['\n'])], queue := [], diff := 0, pos := k + 11, buffer_len := k + 11,
         next_line_from := k + 11, ctl := stream_ctl.scan } : stream_state) := by
  have hN : buf_get (['\n', '-', '-', ' ', 'a', '.', 's', 'q', 'l', NUL] ++ List.replicate k 'X' ++ ['\n']) (k + 10) = '\n' := by
    rw [buf_get_right _ _ _ (by simp)]
    simp [buf_get]
  have hE : buf_get (['\n', '-', '-', ' ', 'a', '.', 's', 'q', 'l', NUL] ++ List.replicate k 'X' ++ ['\n']) (k + 10 + 1) = NUL := by
    rw [buf_get_right _ _ _ (by simp)]
    simp [buf_get]
  have hflush : flush (['\n', '-', '-', ' ', 'a', '.', 's', 'q', 'l', NUL] ++ List.replicate k 'X' ++ ['\n']) (k + 10) (k + 11 - (k + 10)) (some ['a', '.', 's', 'q', 'l']) [(['a', '.', 's', 'q', 'l'], List.replicate k 'X')] = [(['a', '.', 's', 'q', 'l'], List.replicate k 'X' ++ ['\n'])] := by
    have h1 : k + 11 - (k + 10) = 1 := by omega
    simp only [flush, write_file, h1, buf_slice, show List.range 1 = [0] from rfl, List.map_cons, List.map_nil,
      Nat.add_zero, hN]
    simp
  rw [data_line_step (k + 12)
    ({ buffer := ['\n', '-', '-', ' ', 'a', '.', 's', 'q', 'l', NUL] ++ List.replicate k 'X' ++ ['\n'],
         input := ['-', '-', ' ', 'b', '.', 's', 'q', 'l', '\n', 'Y'], reads := [], file := some ['a', '.', 's', 'q', 'l'], filename := some ['a', '.', 's', 'q', 'l'],
         files := [(['a', '.', 's', 'q', 'l'], List.replicate k 'X')], queue := [], diff := 0, pos := k + 10, buffer_len := k + 11,
         next_line_from := k + 10, ctl := stream_ctl.scan } : stream_state)
    (k + 11) (k + 11) rfl (by show k + 10 < k + 11; omega)
    (by simp only [hN]; rfl)
    (by rw [Nat.sub_self]; rfl)
    (no_header_start _ _ (Or.inr (by
      show buf_get (['\n', '-', '-', ' ', 'a', '.', 's', 'q', 'l', NUL] ++ List.replicate k 'X' ++ ['\n']) (k + 10 + 1) ≠ '-'
      rw [hE]; decide)))]
  simp only [hflush]

theorem straddled_step5 (k : Nat) :
    stream_step (k + 12)
      ({ buffer := ['\n', '-', '-', ' ', 'a', '.', 's', 'q', 'l', NUL] ++ List.replicate k 'X' ++ ['\n'],
         input := ['-', '-', ' ', 'b', '.', 's', 'q', 'l', '\n', 'Y'], reads := [], file := some ['a', '.', 's', 'q', 'l'], filename := some ['a', '.', 's', 'q', 'l'],
         files := [(['a', '.', 's', 'q', 'l'], List.replicate k 'X' ++ ['\n'])], queue := [], diff := 0, pos := k + 11, buffer_len := k + 11,
         next_line_from := k + 11, ctl := stream_ctl.scan } : stream_state) =
      ({ buffer := ['\n', '-', '-', ' ', 'a', '.', 's', 'q', 'l', NUL] ++ List.replicate k 'X' ++ ['\n'],
         input := ['-', '-', ' ', 'b', '.', 's', 'q', 'l', '\n', 'Y'], reads := [], file := some ['a', '.', 's', 'q', 'l'], filename := some ['a', '.', 's', 'q', 'l'],
         files := [(['a', '.', 's', 'q', 'l'], List.replicate k 'X' ++ ['\n'])], queue := [], diff := 0, pos := k + 11, buffer_len := k + 11,
         next_line_from := k + 11, ctl := stream_ctl.read_more } : stream_state) := by
  rw [scan_end_step (k + 12) _ rfl (by show ¬ k + 11 < k + 11; omega)]

theorem straddled_step6 (k : Nat) :
    stream_step (k + 12)
      ({ buffer := ['\n', '-', '-', ' ', 'a', '.', 's', 'q', 'l', NUL] ++ List.replicate k 'X' ++ ['\n'],
         input := ['-', '-', ' ', 'b', '.', 's', 'q', 'l', '\n', 'Y'], reads := [], file := some ['a', '.', 's', 'q', 'l'], filename := some ['a', '.', 's', 'q', 'l'],
         files := [(['a', '.', 's', 'q', 'l'], List.replicate k 'X' ++ ['\n'])], queue := [], diff := 0, pos := k + 11, buffer_len := k + 11,
         next_line_from := k + 11, ctl := stream_ctl.read_more } : stream_state) =
      ({ buffer := ['-', '-', ' ', 'b', '.', 's', 'q', 'l', '\n', 'Y'] ++ List.replicate k 'X' ++ ['\n'],
         input := [], reads := [], file := some ['a', '.', 's', 'q', 'l'], filename := some ['a', '.', 's', 'q', 'l'],
         files := [(['a', '.', 's', 'q', 'l'], List.replicate k 'X' ++ ['\n'])], queue := [], diff := 0, pos := 0, buffer_len := 10,
         next_line_from := 0, ctl := stream_ctl.scan } : stream_state) := by
  rw [read_step (k + 12) _ (['-', '-', ' ', 'b', '.', 's', 'q', 'l', '\n', 'Y']) [] rfl rfl rfl
    (Or.inr ⟨rfl, by show 10 ≤ k + 12 - 1 - 0; omega⟩)]
  have hw := buf_write_over (['-', '-', ' ', 'b', '.', 's', 'q', 'l', '\n', 'Y']) [] (['\n', '-', '-', ' ', 'a', '.', 's', 'q', 'l', NUL]) (List.replicate k 'X' ++ ['\n']) rfl
  simp only [List.length_nil, List.nil_append, ← List.append_assoc] at hw
  simp only [hw, List.length_cons, List.length_nil]
  rfl

theorem straddled_step7 (k : Nat) :
    stream_step (k + 12)
      ({ buffer := ['-', '-', ' ', 'b', '.', 's', 'q', 'l', '\n', 'Y'] ++ List.replicate k 'X' ++ ['\n'],
         input := [], reads := [], file := some ['a', '.', 's', 'q', 'l'], filename := some ['a', '.', 's', 'q', 'l'],
         files := [(['a', '.', 's', 'q', 'l'], List.replicate k 'X' ++ ['\n'])], queue := [], diff := 0, pos := 0, buffer_len := 10,
         next_line_from := 0, ctl := stream_ctl.scan } : stream_state) =
      ({ buffer := ['-', '-', ' ', 'b', '.', 's', 'q', 'l', '\n', 'Y'] ++ List.replicate k 'X' ++ ['\n'],
         input := [], reads := [], file := some ['a', '.', 's', 'q', 'l'], filename := some ['a', '.', 's', 'q', 'l'],
         files := [(['a', '.', 's', 'q', 'l'], List.replicate k 'X' ++ ['\n'] ++ ['-', '-', ' ', 'b', '.', 's', 'q', 'l'])], queue := [], diff := 0, pos := 8, buffer_len := 10,
         next_line_from := 8, ctl := stream_ctl.scan } : stream_state) := by
  have hscan : scan_line (['-', '-', ' ', 'b', '.', 's', 'q', 'l', '\n', 'Y'] ++ List.replicate k 'X' ++ ['\n']) 10 (10 - 0) 0 = 8 := by
    have h := scan_line_stop (['-', '-', ' ', 'b', '.', 's', 'q', 'l', '\n', 'Y'] ++ List.replicate k 'X' ++ ['\n']) 10 8 (10 - 0) 0 (by omega)
      (fun i hi => ⟨by omega, by interval_cases i <;> simp [buf_get]⟩)
      (Or.inr (Or.inr (by simp [buf_get])))
    exact h
  rw [data_line_step (k + 12)
    ({ buffer := ['-', '-', ' ', 'b', '.', 's', 'q', 'l', '\n', 'Y'] ++ List.replicate k 'X' ++ ['\n'],
         input := [], reads := [], file := some ['a', '.', 's', 'q', 'l'], filename := some ['a', '.', 's', 'q', 'l'],
         files := [(['a', '.', 's', 'q', 'l'], List.replicate k 'X' ++ ['\n'])], queue := [], diff := 0, pos := 0, buffer_len := 10,
         next_line_from := 0, ctl := stream_ctl.scan } : stream_state)
    0 8 rfl (by show 0 < 10; omega)
    (by simp [buf_get]) hscan
    (no_header_start _ _ (Or.inl (by simp [buf_get])))]
  have hflush : flush (['-', '-', ' ', 'b', '.', 's', 'q', 'l', '\n', 'Y'] ++ List.replicate k 'X' ++ ['\n']) 0 (8 - 0) (some ['a', '.', 's', 'q', 'l']) [(['a', '.', 's', 'q', 'l'], List.replicate k 'X' ++ ['\n'])] = [(['a', '.', 's', 'q', 'l'], List.replicate k 'X' ++ ['\n'] ++ ['-', '-', ' ', 'b', '.', 's', 'q', 'l'])] := by
    simp [flush, write_file, buf_slice, List.range_succ, buf_get]
  simp only [hflush]

theorem straddled_step8 (k : Nat) :
    stream_step (k + 12)
      ({ buffer := ['-', '-', ' ', 'b', '.', 's', 'q', 'l', '\n', 'Y'] ++ List.replicate k 'X' ++ ['\n'],
         input := [], reads := [], file := some ['a', '.', 's', 'q', 'l'], filename := some ['a', '.', 's', 'q', 'l'],
         files := [(['a', '.', 's', 'q', 'l'], List.replicate k 'X' ++ ['\n'] ++ ['-', '-', ' ', 'b', '.', 's', 'q', 'l'])], queue := [], diff := 0, pos := 8, buffer_len := 10,
         next_line_from := 8, ctl := stream_ctl.scan } : stream_state) =
      ({ buffer := ['-', '-', ' ', 'b', '.', 's', 'q', 'l', '\n', 'Y'] ++ List.replicate k 'X' ++ ['\n'],
         input := [], reads := [], file := some ['a', '.', 's', 'q', 'l'], filename := some ['a', '.', 's', 'q', 'l'],
         files := [(['a', '.', 's', 'q', 'l'], List.replicate k 'X' ++ ['\n'] ++ ['-', '-', ' ', 'b', '.', 's', 'q', 'l'] ++ ['\n', 'Y'])], queue := [], diff := 0, pos := 10, buffer_len := 10,
         next_line_from := 10, ctl := stream_ctl.scan } : stream_state) := by
  have hscan : scan_line (['-', '-', ' ', 'b', '.', 's', 'q', 'l', '\n', 'Y'] ++ List.replicate k 'X' ++ ['\n']) 10 (10 - 9) 9 = 10 := by
    have h := scan_line_stop (['-', '-', ' ', 'b', '.', 's', 'q', 'l', '\n', 'Y'] ++ List.replicate k 'X' ++ ['\n']) 10 1 (10 - 9) 9 (by omega)
      (fun i hi => ⟨by omega, by interval_cases i; simp [buf_get]⟩)
      (Or.inl rfl)
    exact h
  rw [data_line_step (k + 12)
    ({ buffer := ['-', '-', ' ', 'b', '.', 's', 'q', 'l', '\n', 'Y'] ++ List.replicate k 'X' ++ ['\n'],
         input := [], reads := [], file := some ['a', '.', 's', 'q', 'l'], filename := some ['a', '.', 's', 'q', 'l'],
         files := [(['a', '.', 's', 'q', 'l'], List.replicate k 'X' ++ ['\n'] ++ ['-', '-', ' ', 'b', '.', 's', 'q', 'l'])], queue := [], diff := 0, pos := 8, buffer_len := 10,
         next_line_from := 8, ctl := stream_ctl.scan } : stream_state)
    9 10 rfl (by show 8 < 10; omega)
    (by simp [buf_get]) hscan
    (no_header_start _ _ (Or.inr (by simp [buf_get])))]
  have hflush : flush (['-', '-', ' ', 'b', '.', 's', 'q', 'l', '\n', 'Y'] ++ List.replicate k 'X' ++ ['\n']) 8 (10 - 8) (some ['a', '.', 's', 'q', 'l']) [(['a', '.', 's', 'q', 'l'], List.replicate k 'X' ++ ['\n'] ++ ['-', '-', ' ', 'b', '.', 's', 'q', 'l'])] = [(['a', '.', 's', 'q', 'l'], List.replicate k 'X' ++ ['\n'] ++ ['-', '-', ' ', 'b', '.', 's', 'q', 'l'] ++ ['\n', 'Y'])] := by
    simp [flush, write_file, buf_slice, List.range_succ, buf_get]
  simp only [hflush]

theorem straddled_step9 (k : Nat) :
    stream_step (k + 12)
      ({ buffer := ['-', '-', ' ', 'b', '.', 's', 'q', 'l', '\n', 'Y'] ++ List.replicate k 'X' ++ ['\n'],
         input := [], reads := [], file := some ['a', '.', 's', 'q', 'l'], filename := some ['a', '.', 's', 'q', 'l'],
         files := [(['a', '.', 's', 'q', 'l'], List.replicate k 'X' ++ ['\n'] ++ ['-', '-', ' ', 'b', '.', 's', 'q', 'l'] ++ ['\n', 'Y'])], queue := [], diff := 0, pos := 10, buffer_len := 10,
         next_line_from := 10, ctl := stream_ctl.scan } : stream_state) =
      ({ buffer := ['-', '-', ' ', 'b', '.', 's', 'q', 'l', '\n', 'Y'] ++ List.replicate k 'X' ++ ['\n'],
         input := [], reads := [], file := some ['a', '.', 's', 'q', 'l'], filename := some ['a', '.', 's', 'q', 'l'],
         files := [(['a', '.', 's', 'q', 'l'], List.replicate k 'X' ++ ['\n'] ++ ['-', '-', ' ', 'b', '.', 's', 'q', 'l'] ++ ['\n', 'Y'])], queue := [], diff := 0, pos := 10, buffer_len := 10,
         next_line_from := 10, ctl := stream_ctl.read_more } : stream_state) := by
  rw [scan_end_step (k + 12) _ rfl (by show ¬ 10 < 10; omega)]

theorem straddled_step10 (k : Nat) :
    stream_step (k + 12)
      ({ buffer := ['-', '-', ' ', 'b', '.', 's', 'q', 'l', '\n', 'Y'] ++ List.replicate k 'X' ++ ['\n'],
         input := [], reads := [], file := some ['a', '.', 's', 'q', 'l'], filename := some ['a', '.', 's', 'q', 'l'],
         files := [(['a', '.', 's', 'q', 'l'], List.replicate k 'X' ++ ['\n'] ++ ['-', '-', ' ', 'b', '.', 's', 'q', 'l'] ++ ['\n', 'Y'])], queue := [], diff := 0, pos := 10, buffer_len := 10,
         next_line_from := 10, ctl := stream_ctl.read_more } : stream_state) =
      ({ buffer := ['-', '-', ' ', 'b', '.', 's', 'q', 'l', '\n', 'Y'] ++ List.replicate k 'X' ++ ['\n'],
         input := [], reads := [], file := some ['a', '.', 's', 'q', 'l'], filename := some ['a', '.', 's', 'q', 'l'],
         files := [(['a', '.', 's', 'q', 'l'], List.replicate k 'X' ++ ['\n'] ++ ['-', '-', ' ', 'b', '.', 's', 'q', 'l'] ++ ['\n', 'Y'])], queue := [], diff := 0, pos := 0, buffer_len := 0,
         next_line_from := 0, ctl := stream_ctl.done } : stream_state) := by
  rw [read_step (k + 12) _ [] [] rfl rfl rfl
    (Or.inr ⟨rfl, Nat.zero_le _⟩)]
  rfl

theorem straddled_loop (k : Nat) (hk : 0 < k) :
    stream_loop (k + 12) 10
      (stream_init [] [] (['\n', '-', '-', ' ', 'a', '.', 's', 'q', 'l', '\n'] ++ List.replicate k 'X' ++ ['\n'] ++ ['-', '-', ' ', 'b', '.', 's', 'q', 'l', '\n', 'Y'])) =
      ({ buffer := ['-', '-', ' ', 'b', '.', 's', 'q', 'l', '\n', 'Y'] ++ List.replicate k 'X' ++ ['\n'],
         input := [], reads := [], file := some ['a', '.', 's', 'q', 'l'], filename := some ['a', '.', 's', 'q', 'l'],
         files := [(['a', '.', 's', 'q', 'l'], List.replicate k 'X' ++ ['\n'] ++ ['-', '-', ' ', 'b', '.', 's', 'q', 'l'] ++ ['\n', 'Y'])], queue := [], diff := 0, pos := 0, buffer_len := 0,
         next_line_from := 0, ctl := stream_ctl.done } : stream_state) := by
  rw [stream_loop_step _ _ _ (Or.inl rfl), straddled_step1 k, stream_loop_step _ _ _ (Or.inr rfl), straddled_step2 k, stream_loop_step _ _ _ (Or.inr rfl), straddled_step3 k hk, stream_loop_step _ _ _ (Or.inr rfl), straddled_step4 k, stream_loop_step _ _ _ (Or.inr rfl), straddled_step5 k, stream_loop_step _ _ _ (Or.inl rfl), straddled_step6 k, stream_loop_step _ _ _ (Or.inr rfl), straddled_step7 k, stream_loop_step _ _ _ (Or.inr rfl), straddled_step8 k, stream_loop_step _ _ _ (Or.inr rfl), straddled_step9 k, stream_loop_step _ _ _ (Or.inl rfl), straddled_step10 k]
  rfl

theorem straddled_header_stream_eq (k : Nat) :
    straddled_header_stream (k + 12) =
      ['\n', '-', '-', ' ', 'a', '.', 's', 'q', 'l', '\n'] ++ List.replicate k 'X' ++ ['\n'] ++ ['-', '-', ' ', 'b', '.', 's', 'q', 'l', '\n', 'Y'] := by
  simp [straddled_header_stream, frame_bytes, bytes]

end Myloader
namespace Myloader

open Glib

theorem carried_step1 (m : Nat) :
    stream_step (m + 16)
      (stream_init [] [] (['\n', '-', '-', ' ', 'a', '.', 's', 'q', 'l', '\n'] ++ List.replicate (m + 1) 'X' ++ ['\n', '-', '-', ' '] ++ ['b', '.', 's', 'q', 'l', '\n', 'Y'])) =
      ({ buffer := ['\n', '-', '-', ' ', 'a', '.', 's', 'q', 'l', '\n'] ++ List.replicate (m + 1) 'X' ++ ['\n', '-', '-', ' '],
         input := ['b', '.', 's', 'q', 'l', '\n', 'Y'], reads := [], file := none, filename := none,
         files := [], queue := [], diff := 0, pos := 0, buffer_len := m + 15,
         next_line_from := 0, ctl := stream_ctl.scan } : stream_state) := by
  have hl : (['\n', '-', '-', ' ', 'a', '.', 's', 'q', 'l', '\n'] ++ List.replicate (m + 1) 'X' ++ ['\n', '-', '-', ' ']).length = m + 15 := by simp
  rw [read_step (m + 16) _ (['\n', '-', '-', ' ', 'a', '.', 's', 'q', 'l', '\n'] ++ List.replicate (m + 1) 'X' ++ ['\n', '-', '-', ' ']) (['b', '.', 's', 'q', 'l', '\n', 'Y']) rfl rfl rfl
    (Or.inl (by rw [hl]; rfl))]
  have hw := buf_write_end (['\n', '-', '-', ' ', 'a', '.', 's', 'q', 'l', '\n'] ++ List.replicate (m + 1) 'X' ++ ['\n', '-', '-', ' ']) []
  simp only [List.length_nil, List.nil_append] at hw
  simp only [stream_init, hw, hl, Nat.add_zero]
  rfl

theorem carried_step2 (m : Nat) :
    stream_step (m + 16)
      ({ buffer := ['\n', '-', '-', ' ', 'a', '.', 's', 'q', 'l', '\n'] ++ List.replicate (m + 1) 'X' ++ ['\n', '-', '-', ' '],
         input := ['b', '.', 's', 'q', 'l', '\n', 'Y'], reads := [], file := none, filename := none,
         files := [], queue := [], diff := 0, pos := 0, buffer_len := m + 15,
         next_line_from := 0, ctl := stream_ctl.scan } : stream_state) =
      ({ buffer := ['\n', '-', '-', ' ', 'a', '.', 's', 'q', 'l', NUL] ++ List.replicate (m + 1) 'X' ++ ['\n', '-', '-', ' '],
         input := ['b', '.', 's', 'q', 'l', '\n', 'Y'], reads := [], file := some ['a', '.', 's', 'q', 'l'], filename := some ['a', '.', 's', 'q', 'l'],
         files := [(['a', '.', 's', 'q', 'l'], [])], queue := [], diff := 0, pos := 9, buffer_len := m + 15,
         next_line_from := 10, ctl := stream_ctl.scan } : stream_state) := by
  have hscan : scan_line (['\n', '-', '-', ' ', 'a', '.', 's', 'q', 'l', '\n'] ++ List.replicate (m + 1) 'X' ++ ['\n', '-', '-', ' ']) (m + 15) (m + 15 - 1) 1 = 9 := by
    have h := scan_line_stop (['\n', '-', '-', ' ', 'a', '.', 's', 'q', 'l', '\n'] ++ List.replicate (m + 1) 'X' ++ ['\n', '-', '-', ' ']) (m + 15) 8 (m + 15 - 1) 1 (by omega)
      (fun i hi => ⟨by omega, by interval_cases i <;> simp [buf_get]⟩)
      (Or.inr (Or.inr (by simp [buf_get])))
    exact h
  have hbuf : buf_set (['\n', '-', '-', ' ', 'a', '.', 's', 'q', 'l', '\n'] ++ List.replicate (m + 1) 'X' ++ ['\n', '-', '-', ' ']) (9 - 0) NUL = ['\n', '-', '-', ' ', 'a', '.', 's', 'q', 'l', NUL] ++ List.replicate (m + 1) 'X' ++ ['\n', '-', '-', ' '] := by
    simp [buf_set]
  rw [header_line_step (m + 16)
    ({ buffer := ['\n', '-', '-', ' ', 'a', '.', 's', 'q', 'l', '\n'] ++ List.replicate (m + 1) 'X' ++ ['\n', '-', '-', ' '],
         input := ['b', '.', 's', 'q', 'l', '\n', 'Y'], reads := [], file := none, filename := none,
         files := [], queue := [], diff := 0, pos := 0, buffer_len := m + 15,
         next_line_from := 0, ctl := stream_ctl.scan } : stream_state)
    1 9 ['a', '.', 's', 'q', 'l'] rfl (by show 0 < m + 15; omega)
    (by simp [buf_get]) hscan (by simp [c_str, g_str_has_prefix, bytes, NUL])
    (by simp [buf_get]) (by show ¬ 9 < 0 + 4; omega)
    (by rw [hbuf]; simp [g_strndup, NUL]) (by decide) rfl]
  simp only [hbuf]
  rfl

theorem carried_step3 (m : Nat) :
    stream_step (m + 16)
      ({ buffer := ['\n', '-', '-', ' ', 'a', '.', 's', 'q', 'l', NUL] ++ List.replicate (m + 1) 'X' ++ ['\n', '-', '-', ' '],
         input := ['b', '.', 's', 'q', 'l', '\n', 'Y'], reads := [], file := some ['a', '.', 's', 'q', 'l'], filename := some ['a', '.', 's', 'q', 'l'],
         files := [(['a', '.', 's', 'q', 'l'], [])], queue := [], diff := 0, pos := 9, buffer_len := m + 15,
         next_line_from := 10, ctl := stream_ctl.scan } : stream_state) =
      ({ buffer := ['\n', '-', '-', ' ', 'a', '.', 's', 'q', 'l', NUL] ++ List.replicate (m + 1) 'X' ++ ['\n', '-', '-', ' '],
         input := ['b', '.', 's', 'q', 'l', '\n', 'Y'], reads := [], file := some ['a', '.', 's', 'q', 'l'], filename := some ['a', '.', 's', 'q', 'l'],
         files := [(['a', '.', 's', 'q', 'l'], List.replicate (m + 1) 'X')], queue := [], diff := 0, pos := m + 11, buffer_len := m + 15,
         next_line_from := m + 11, ctl := stream_ctl.scan } : stream_state) := by
  have hX : ∀ j, j < m + 1 → buf_get (['\n', '-', '-', ' ', 'a', '.', 's', 'q', 'l', NUL] ++ List.replicate (m + 1) 'X' ++ ['\n', '-', '-', ' ']) (10 + j) = 'X' := by
    intro j hj
    rw [List.append_assoc, buf_get_right _ _ _ (by simp), show 10 + j -
      (['\n', '-', '-', ' ', 'a', '.', 's', 'q', 'l', NUL]).length = j from by simp]
    exact buf_get_replicate (m + 1) j 'X' _ hj
  have hN : buf_get (['\n', '-', '-', ' ', 'a', '.', 's', 'q', 'l', NUL] ++ List.replicate (m + 1) 'X' ++ ['\n', '-', '-', ' ']) (m + 11) = '\n' := by
    rw [buf_get_right _ _ _ (by simp)]
    simp [buf_get]
  have hscan : scan_line (['\n', '-', '-', ' ', 'a', '.', 's', 'q', 'l', NUL] ++ List.replicate (m + 1) 'X' ++ ['\n', '-', '-', ' ']) (m + 15) (m + 15 - 9) 9 = m + 11 := by
    have h := scan_line_stop (['\n', '-', '-', ' ', 'a', '.', 's', 'q', 'l', NUL] ++ List.replicate (m + 1) 'X' ++ ['\n', '-', '-', ' ']) (m + 15) (m + 2) (m + 15 - 9) 9 (by omega)
      (fun i hi => ⟨by omega, by
        rcases Nat.eq_zero_or_pos i with h0 | h0
        · subst h0; simp [buf_get, NUL]
        · rw [show 9 + i = 10 + (i - 1) from by omega, hX (i - 1) (by omega)]
          decide⟩)
      (Or.inr (Or.inr (by rw [show 9 + (m + 2) = m + 11 from by omega]; exact hN)))
    rw [h]; omega
  have hflush : flush (['\n', '-', '-', ' ', 'a', '.', 's', 'q', 'l', NUL] ++ List.replicate (m + 1) 'X' ++ ['\n', '-', '-', ' ']) 10 (m + 11 - 10) (some ['a', '.', 's', 'q', 'l']) [(['a', '.', 's', 'q', 'l'], [])] = [(['a', '.', 's', 'q', 'l'], List.replicate (m + 1) 'X')] := by
    have h := buf_slice_mid (['\n', '-', '-', ' ', 'a', '.', 's', 'q', 'l', NUL]) (List.replicate (m + 1) 'X') ['\n', '-', '-', ' ']
    simp only [List.length_replicate, List.length_cons, List.length_nil] at h
    simp only [flush, write_file, show m + 11 - 10 = m + 1 from by omega, h]
    simp
  rw [data_line_step (m + 16)
    ({ buffer := ['\n', '-', '-', ' ', 'a', '.', 's', 'q', 'l', NUL] ++ List.replicate (m + 1) 'X' ++ ['\n', '-', '-', ' '],
         input := ['b', '.', 's', 'q', 'l', '\n', 'Y'], reads := [], file := some ['a', '.', 's', 'q', 'l'], filename := some ['a', '.', 's', 'q', 'l'],
         files := [(['a', '.', 's', 'q', 'l'], [])], queue := [], diff := 0, pos := 9, buffer_len := m + 15,
         next_line_from := 10, ctl := stream_ctl.scan } : stream_state)
    9 (m + 11) rfl (by show 9 < m + 15; omega)
    (by simp [buf_get, NUL]) hscan
    (no_header_start _ _ (Or.inl (by
      show buf_get (['\n', '-', '-', ' ', 'a', '.', 's', 'q', 'l', NUL] ++ List.replicate (m + 1) 'X' ++ ['\n', '-', '-', ' ']) 10 ≠ '\n'
      rw [hX 0 (by omega)]; decide)))]
  simp only [hflush]

theorem carried_step4 (m : Nat) :
    stream_step (m + 16)
      ({ buffer := ['\n', '-', '-', ' ', 'a', '.', 's', 'q', 'l', NUL] ++ List.replicate (m + 1) 'X' ++ ['\n', '-', '-', ' '],
         input := ['b', '.', 's', 'q', 'l', '\n', 'Y'], reads := [], file := some ['a', '.', 's', 'q', 'l'], filename := some ['a', '.', 's', 'q', 'l'],
         files := [(['a', '.', 's', 'q', 'l'], List.replicate (m + 1) 'X')], queue := [], diff := 0, pos := m + 11, buffer_len := m + 15,
         next_line_from := m + 11, ctl := stream_ctl.scan } : stream_state) =
      ({ buffer := ['\n', '-', '-', ' ', NUL, '.', 's', 'q', 'l', NUL] ++ List.replicate (m + 1) 'X' ++ ['\n', '-', '-', ' '],
         input := ['b', '.', 's', 'q', 'l', '\n', 'Y'], reads := [], file := some ['a', '.', 's', 'q', 'l'], filename := some ['a', '.', 's', 'q', 'l'],
         files := [(['a', '.', 's', 'q', 'l'], List.replicate (m + 1) 'X')], queue := [], diff := 4, pos := m + 15, buffer_len := m + 15,
         next_line_from := m + 11, ctl := stream_ctl.read_more } : stream_state) := by
  have hlen : (['\n', '-', '-', ' ', 'a', '.', 's', 'q', 'l', NUL] ++ List.replicate (m + 1) 'X').length = m + 11 := by simp
  have hG : ∀ i, buf_get (['\n', '-', '-', ' ', 'a', '.', 's', 'q', 'l', NUL] ++ List.replicate (m + 1) 'X' ++ ['\n', '-', '-', ' ']) (m + 11 + i) = buf_get ['\n', '-', '-', ' '] i := by
    intro i
    rw [buf_get_right _ _ _ (by rw [hlen]; omega), hlen, Nat.add_sub_cancel_left]
  have hscan : scan_line (['\n', '-', '-', ' ', 'a', '.', 's', 'q', 'l', NUL] ++ List.replicate (m + 1) 'X' ++ ['\n', '-', '-', ' ']) (m + 15) (m + 15 - (m + 12)) (m + 12) = m + 15 := by
    have h := scan_line_stop (['\n', '-', '-', ' ', 'a', '.', 's', 'q', 'l', NUL] ++ List.replicate (m + 1) 'X' ++ ['\n', '-', '-', ' ']) (m + 15) 3 (m + 15 - (m + 12)) (m + 12) (by omega)
      (fun i hi => ⟨by omega, by
        rw [show m + 12 + i = m + 11 + (i + 1) from by omega, hG]
        interval_cases i <;> simp [buf_get]⟩)
      (Or.inl (by omega))
    rw [h]
  have hdrop : (['\n', '-', '-', ' ', 'a', '.', 's', 'q', 'l', NUL] ++ List.replicate (m + 1) 'X' ++ ['\n', '-', '-', ' ']).drop (m + 11) = ['\n', '-', '-', ' '] := by
    rw [← hlen, List.drop_left]
  have hcstr : c_str (['\n', '-', '-', ' ', 'a', '.', 's', 'q', 'l', NUL] ++ List.replicate (m + 1) 'X' ++ ['\n', '-', '-', ' ']) (m + 11) = ['\n', '-', '-', ' '] := by
    rw [c_str, hdrop]
    simp [NUL]
  have hcopy : g_strlcpy (['\n', '-', '-', ' ', 'a', '.', 's', 'q', 'l', NUL] ++ List.replicate (m + 1) 'X' ++ ['\n', '-', '-', ' ']) (m + 11) (m + 15 - (m + 11) + 2) = ['\n', '-', '-', ' ', NUL, '.', 's', 'q', 'l', NUL] ++ List.replicate (m + 1) 'X' ++ ['\n', '-', '-', ' '] := by
    rw [show m + 15 - (m + 11) + 2 = 6 from by omega]
    simp only [g_strlcpy, hcstr]
    have hw := buf_write_over ['\n', '-', '-', ' '] [] ['\n', '-', '-', ' ']
      (['a', '.', 's', 'q', 'l', NUL] ++ List.replicate (m + 1) 'X' ++ ['\n', '-', '-', ' ']) rfl
    simp only [List.length_nil, List.nil_append] at hw
    have e : ['\n', '-', '-', ' ', 'a', '.', 's', 'q', 'l', NUL] ++ List.replicate (m + 1) 'X' ++ ['\n', '-', '-', ' '] = ['\n', '-', '-', ' '] ++
        (['a', '.', 's', 'q', 'l', NUL] ++ List.replicate (m + 1) 'X' ++ ['\n', '-', '-', ' ']) := by
      simp
    rw [e, show (List.take (6 - 1) ['\n', '-', '-', ' ']) = ['\n', '-', '-', ' '] from rfl, hw]
    simp [buf_set]
  rw [carry_over_step (m + 16)
    ({ buffer := ['\n', '-', '-', ' ', 'a', '.', 's', 'q', 'l', NUL] ++ List.replicate (m + 1) 'X' ++ ['\n', '-', '-', ' '],
         input := ['b', '.', 's', 'q', 'l', '\n', 'Y'], reads := [], file := some ['a', '.', 's', 'q', 'l'], filename := some ['a', '.', 's', 'q', 'l'],
         files := [(['a', '.', 's', 'q', 'l'], List.replicate (m + 1) 'X')], queue := [], diff := 0, pos := m + 11, buffer_len := m + 15,
         next_line_from := m + 11, ctl := stream_ctl.scan } : stream_state)
    (m + 12) rfl (by show m + 11 < m + 15; omega)
    (by
      have h0 := hG 0
      rw [Nat.add_zero] at h0
      simp only [h0]
      rfl)
    hscan
    (by rw [hcstr]; rfl)
    (by
      have h4 := hG 4
      rw [show m + 11 + 4 = m + 15 from rfl] at h4
      show buf_get (['\n', '-', '-', ' ', 'a', '.', 's', 'q', 'l', NUL] ++ List.replicate (m + 1) 'X' ++ ['\n', '-', '-', ' ']) (m + 15) ≠ '\n'
      rw [h4]
      decide)]
  have h4 : m + 15 - (m + 11) = 4 := by omega
  rw [h4] at hcopy
  simp only [hcopy, h4]

theorem carried_step5 (m : Nat) :
    stream_step (m + 16)
      ({ buffer := ['\n', '-', '-', ' ', NUL, '.', 's', 'q', 'l', NUL] ++ List.replicate (m + 1) 'X' ++ ['\n', '-', '-', ' '],
         input := ['b', '.', 's', 'q', 'l', '\n', 'Y'], reads := [], file := some ['a', '.', 's', 'q', 'l'], filename := some ['a', '.', 's', 'q', 'l'],
         files := [(['a', '.', 's', 'q', 'l'], List.replicate (m + 1) 'X')], queue := [], diff := 4, pos := m + 15, buffer_len := m + 15,
         next_line_from := m + 11, ctl := stream_ctl.read_more } : stream_state) =
      ({ buffer := ['\n', '-', '-', ' ', 'b', '.', 's', 'q', 'l', '\n', 'Y'] ++ List.replicate m 'X' ++ ['\n', '-', '-', ' '],
         input := [], reads := [], file := some ['a', '.', 's', 'q', 'l'], filename := some ['a', '.', 's', 'q', 'l'],
         files := [(['a', '.', 's', 'q', 'l'], List.replicate (m + 1) 'X')], queue := [], diff := 0, pos := 0, buffer_len := 11,
         next_line_from := 0, ctl := stream_ctl.scan } : stream_state) := by
  rw [read_step (m + 16) _ (['b', '.', 's', 'q', 'l', '\n', 'Y']) [] rfl rfl rfl
    (Or.inr ⟨rfl, by show 7 ≤ m + 16 - 1 - 4; omega⟩)]
  have hw := buf_write_over (['b', '.', 's', 'q', 'l', '\n', 'Y']) ['\n', '-', '-', ' ']
    [NUL, '.', 's', 'q', 'l', NUL, 'X'] (List.replicate m 'X' ++ ['\n', '-', '-', ' ']) rfl
  have e : ['\n', '-', '-', ' ', NUL, '.', 's', 'q', 'l', NUL] ++ List.replicate (m + 1) 'X' ++ ['\n', '-', '-', ' '] = ['\n', '-', '-', ' '] ++ [NUL, '.', 's', 'q', 'l', NUL, 'X'] ++ (List.replicate m 'X' ++ ['\n', '-', '-', ' ']) := by
    simp [List.replicate_succ]
  have e2 : ['\n', '-', '-', ' '] ++ ['b', '.', 's', 'q', 'l', '\n', 'Y'] ++ (List.replicate m 'X' ++ ['\n', '-', '-', ' ']) = ['\n', '-', '-', ' ', 'b', '.', 's', 'q', 'l', '\n', 'Y'] ++ List.replicate m 'X' ++ ['\n', '-', '-', ' '] := by
    simp
  simp only [e, show (['\n', '-', '-', ' ']).length = 4 from rfl] at hw ⊢
  simp only [hw, e2, List.length_cons, List.length_nil]
  rfl

theorem carried_step6 (m : Nat) :
    stream_step (m + 16)
      ({ buffer := ['\n', '-', '-', ' ', 'b', '.', 's', 'q', 'l', '\n', 'Y'] ++ List.replicate m 'X' ++ ['\n', '-', '-', ' '],
         input := [], reads := [], file := some ['a', '.', 's', 'q', 'l'], filename := some ['a', '.', 's', 'q', 'l'],
         files := [(['a', '.', 's', 'q', 'l'], List.replicate (m + 1) 'X')], queue := [], diff := 0, pos := 0, buffer_len := 11,
         next_line_from := 0, ctl := stream_ctl.scan } : stream_state) =
      ({ buffer := ['\n', '-', '-', ' ', 'b', '.', 's', 'q', 'l', NUL, 'Y'] ++ List.replicate m 'X' ++ ['\n', '-', '-', ' '],
         input := [], reads := [], file := some ['b', '.', 's', 'q', 'l'], filename := some ['b', '.', 's', 'q', 'l'],
         files := [(['a', '.', 's', 'q', 'l'], List.replicate (m + 1) 'X'), (['b', '.', 's', 'q', 'l'], [])], queue := [['a', '.', 's', 'q', 'l']], diff := 0, pos := 9, buffer_len := 11,
         next_line_from := 10, ctl := stream_ctl.scan } : stream_state) := by
  have hscan : scan_line (['\n', '-', '-', ' ', 'b', '.', 's', 'q', 'l', '\n', 'Y'] ++ List.replicate m 'X' ++ ['\n', '-', '-', ' ']) 11 (11 - 1) 1 = 9 := by
    have h := scan_line_stop (['\n', '-', '-', ' ', 'b', '.', 's', 'q', 'l', '\n', 'Y'] ++ List.replicate m 'X' ++ ['\n', '-', '-', ' ']) 11 8 (11 - 1) 1 (by omega)
      (fun i hi => ⟨by omega, by interval_cases i <;> simp [buf_get]⟩)
      (Or.inr (Or.inr (by simp [buf_get])))
    exact h
  have hbuf : buf_set (['\n', '-', '-', ' ', 'b', '.', 's', 'q', 'l', '\n', 'Y'] ++ List.replicate m 'X' ++ ['\n', '-', '-', ' ']) (9 - 0) NUL = ['\n', '-', '-', ' ', 'b', '.', 's', 'q', 'l', NUL, 'Y'] ++ List.replicate m 'X' ++ ['\n', '-', '-', ' '] := by
    simp [buf_set]
  rw [header_line_step (m + 16)
    ({ buffer := ['\n', '-', '-', ' ', 'b', '.', 's', 'q', 'l', '\n', 'Y'] ++ List.replicate m 'X' ++ ['\n', '-', '-', ' '],
         input := [], reads := [], file := some ['a', '.', 's', 'q', 'l'], filename := some ['a', '.', 's', 'q', 'l'],
         files := [(['a', '.', 's', 'q', 'l'], List.replicate (m + 1) 'X')], queue := [], diff := 0, pos := 0, buffer_len := 11,
         next_line_from := 0, ctl := stream_ctl.scan } : stream_state)
    1 9 ['b', '.', 's', 'q', 'l'] rfl (by show 0 < 11; omega)
    (by simp [buf_get]) hscan (by simp [c_str, g_str_has_prefix, bytes, NUL])
    (by simp [buf_get]) (by show ¬ 9 < 0 + 4; omega)
    (by rw [hbuf]; simp [g_strndup, NUL]) (by decide) (by simp [file_exists])]
  simp only [hbuf]
  rfl

theorem carried_step7 (m : Nat) :
    stream_step (m + 16)
      ({ buffer := ['\n', '-', '-', ' ', 'b', '.', 's', 'q', 'l', NUL, 'Y'] ++ List.replicate m 'X' ++ ['\n', '-', '-', ' '],
         input := [], reads := [], file := some ['b', '.', 's', 'q', 'l'], filename := some ['b', '.', 's', 'q', 'l'],
         files := [(['a', '.', 's', 'q', 'l'], List.replicate (m + 1) 'X'), (['b', '.', 's', 'q', 'l'], [])], queue := [['a', '.', 's', 'q', 'l']], diff := 0, pos := 9, buffer_len := 11,
         next_line_from := 10, ctl := stream_ctl.scan } : stream_state) =
      ({ buffer := ['\n', '-', '-', ' ', 'b', '.', 's', 'q', 'l', NUL, 'Y'] ++ List.replicate m 'X' ++ ['\n', '-', '-', ' '],
         input := [], reads := [], file := some ['b', '.', 's', 'q', 'l'], filename := some ['b', '.', 's', 'q', 'l'],
         files := [(['a', '.', 's', 'q', 'l'], List.replicate (m + 1) 'X'), (['b', '.', 's', 'q', 'l'], ['Y'])], queue := [['a', '.', 's', 'q', 'l']], diff := 0, pos := 11, buffer_len := 11,
         next_line_from := 11, ctl := stream_ctl.scan } : stream_state) := by
  have hscan : scan_line (['\n', '-', '-', ' ', 'b', '.', 's', 'q', 'l', NUL, 'Y'] ++ List.replicate m 'X' ++ ['\n', '-', '-', ' ']) 11 (11 - 9) 9 = 11 := by
    have h := scan_line_stop (['\n', '-', '-', ' ', 'b', '.', 's', 'q', 'l', NUL, 'Y'] ++ List.replicate m 'X' ++ ['\n', '-', '-', ' ']) 11 2 (11 - 9) 9 (by omega)
      (fun i hi => ⟨by omega, by interval_cases i <;> simp [buf_get, NUL]⟩)
      (Or.inl rfl)
    exact h
  rw [data_line_step (m + 16)
    ({ buffer := ['\n', '-', '-', ' ', 'b', '.', 's', 'q', 'l', NUL, 'Y'] ++ List.replicate m 'X' ++ ['\n', '-', '-', ' '],
         input := [], reads := [], file := some ['b', '.', 's', 'q', 'l'], filename := some ['b', '.', 's', 'q', 'l'],
         files := [(['a', '.', 's', 'q', 'l'], List.replicate (m + 1) 'X'), (['b', '.', 's', 'q', 'l'], [])], queue := [['a', '.', 's', 'q', 'l']], diff := 0, pos := 9, buffer_len := 11,
         next_line_from := 10, ctl := stream_ctl.scan } : stream_state)
    9 11 rfl (by show 9 < 11; omega)
    (by simp [buf_get, NUL]) hscan
    (no_header_start _ _ (Or.inl (by simp [buf_get])))]
  have hflush : flush (['\n', '-', '-', ' ', 'b', '.', 's', 'q', 'l', NUL, 'Y'] ++ List.replicate m 'X' ++ ['\n', '-', '-', ' ']) 10 (11 - 10) (some ['b', '.', 's', 'q', 'l']) [(['a', '.', 's', 'q', 'l'], List.replicate (m + 1) 'X'), (['b', '.', 's', 'q', 'l'], [])] = [(['a', '.', 's', 'q', 'l'], List.replicate (m + 1) 'X'), (['b', '.', 's', 'q', 'l'], ['Y'])] := by
    simp [flush, write_file, buf_slice, List.range_succ, buf_get]
  simp only [hflush]

theorem carried_step8 (m : Nat) :
    stream_step (m + 16)
      ({ buffer := ['\n', '-', '-', ' ', 'b', '.', 's', 'q', 'l', NUL, 'Y'] ++ List.replicate m 'X' ++ ['\n', '-', '-', ' '],
         input := [], reads := [], file := some ['b', '.', 's', 'q', 'l'], filename := some ['b', '.', 's', 'q', 'l'],
         files := [(['a', '.', 's', 'q', 'l'], List.replicate (m + 1) 'X'), (['b', '.', 's', 'q', 'l'], ['Y'])], queue := [['a', '.', 's', 'q', 'l']], diff := 0, pos := 11, buffer_len := 11,
         next_line_from := 11, ctl := stream_ctl.scan } : stream_state) =
      ({ buffer := ['\n', '-', '-', ' ', 'b', '.', 's', 'q', 'l', NUL, 'Y'] ++ List.replicate m 'X' ++ ['\n', '-', '-', ' '],
         input := [], reads := [], file := some ['b', '.', 's', 'q', 'l'], filename := some ['b', '.', 's', 'q', 'l'],
         files := [(['a', '.', 's', 'q', 'l'], List.replicate (m + 1) 'X'), (['b', '.', 's', 'q', 'l'], ['Y'])], queue := [['a', '.', 's', 'q', 'l']], diff := 0, pos := 11, buffer_len := 11,
         next_line_from := 11, ctl := stream_ctl.read_more } : stream_state) := by
  rw [scan_end_step (m + 16) _ rfl (by show ¬ 11 < 11; omega)]

theorem carried_step9 (m : Nat) :
    stream_step (m + 16)
      ({ buffer := ['\n', '-', '-', ' ', 'b', '.', 's', 'q', 'l', NUL, 'Y'] ++ List.replicate m 'X' ++ ['\n', '-', '-', ' '],
         input := [], reads := [], file := some ['b', '.', 's', 'q', 'l'], filename := some ['b', '.', 's', 'q', 'l'],
         files := [(['a', '.', 's', 'q', 'l'], List.replicate (m + 1) 'X'), (['b', '.', 's', 'q', 'l'], ['Y'])], queue := [['a', '.', 's', 'q', 'l']], diff := 0, pos := 11, buffer_len := 11,
         next_line_from := 11, ctl := stream_ctl.read_more } : stream_state) =
      ({ buffer := ['\n', '-', '-', ' ', 'b', '.', 's', 'q', 'l', NUL, 'Y'] ++ List.replicate m 'X' ++ ['\n', '-', '-', ' '],
         input := [], reads := [], file := some ['b', '.', 's', 'q', 'l'], filename := some ['b', '.', 's', 'q', 'l'],
         files := [(['a', '.', 's', 'q', 'l'], List.replicate (m + 1) 'X'), (['b', '.', 's', 'q', 'l'], ['Y'])], queue := [['a', '.', 's', 'q', 'l']], diff := 0, pos := 0, buffer_len := 0,
         next_line_from := 0, ctl := stream_ctl.done } : stream_state) := by
  rw [read_step (m + 16) _ [] [] rfl rfl rfl
    (Or.inr ⟨rfl, Nat.zero_le _⟩)]
  rfl

theorem carried_loop (m : Nat) :
    stream_loop (m + 16) 9
      (stream_init [] [] (['\n', '-', '-', ' ', 'a', '.', 's', 'q', 'l', '\n'] ++ List.replicate (m + 1) 'X' ++ ['\n', '-', '-', ' '] ++ ['b', '.', 's', 'q', 'l', '\n', 'Y'])) =
      ({ buffer := ['\n', '-', '-', ' ', 'b', '.', 's', 'q', 'l', NUL, 'Y'] ++ List.replicate m 'X' ++ ['\n', '-', '-', ' '],
         input := [], reads := [], file := some ['b', '.', 's', 'q', 'l'], filename := some ['b', '.', 's', 'q', 'l'],
         files := [(['a', '.', 's', 'q', 'l'], List.replicate (m + 1) 'X'), (['b', '.', 's', 'q', 'l'], ['Y'])], queue := [['a', '.', 's', 'q', 'l']], diff := 0, pos := 0, buffer_len := 0,
         next_line_from := 0, ctl := stream_ctl.done } : stream_state) := by
  rw [stream_loop_step _ _ _ (Or.inl rfl), carried_step1 m, stream_loop_step _ _ _ (Or.inr rfl), carried_step2 m, stream_loop_step _ _ _ (Or.inr rfl), carried_step3 m, stream_loop_step _ _ _ (Or.inr rfl), carried_step4 m, stream_loop_step _ _ _ (Or.inl rfl), carried_step5 m, stream_loop_step _ _ _ (Or.inr rfl), carried_step6 m, stream_loop_step _ _ _ (Or.inr rfl), carried_step7 m, stream_loop_step _ _ _ (Or.inr rfl), carried_step8 m, stream_loop_step _ _ _ (Or.inl rfl), carried_step9 m]
  rfl

theorem carried_header_stream_eq (m : Nat) :
    carried_header_stream (m + 16) =
      ['\n', '-', '-', ' ', 'a', '.', 's', 'q', 'l', '\n'] ++ List.replicate (m + 1) 'X' ++ ['\n', '-', '-', ' '] ++ ['b', '.', 's', 'q', 'l', '\n', 'Y'] := by
  simp [carried_header_stream, frame_bytes, bytes]

end Myloader
namespace Myloader

open Glib

theorem process_stream_of_done (size num_threads : Nat)
    (existing : List (List Char × List Char)) (reads : List Nat) (input : List Char)
    (a fuel : Nat)
    (h : (stream_loop size a (stream_init existing reads input)).ctl = stream_ctl.done) :
    process_stream size num_threads existing reads input (a + fuel) =
      some (push_shutdowns num_threads
        { files := (stream_loop size a (stream_init existing reads input)).files,
          intermidiate_queue :=
            (match (stream_loop size a (stream_init existing reads input)).filename with
             | some f => (stream_loop size a (stream_init existing reads input)).queue ++ [f]
             | none => (stream_loop size a (stream_init existing reads input)).queue) ++
              [bytes "END"],
          post_table_shutdowns := 0, post_shutdowns := 0, stream_shutdowns := 0 }) := by
  unfold process_stream
  rw [stream_loop_add, stream_loop_done size fuel _ (Or.inl h)]
  simp only [h]

end Myloader
namespace Myloader

open Glib

/-! ## C27: the boundaries of the reads -/

set_option maxRecDepth 1000000 in
theorem straddled_header_whole :
    process_stream 128 1 [] [] (straddled_header_stream 64) 20 =
      some { files := [(bytes "a.sql", List.replicate 52 'X'), (bytes "b.sql", bytes "Y")],
             intermidiate_queue := [bytes "a.sql", bytes "b.sql", bytes "END"],
             post_table_shutdowns := 1, post_shutdowns := 1, stream_shutdowns := 1 } := by
  decide!

/-- C27, failing input.  With any buffer size from 64 bytes on and reads that
fill the buffer, take the stream of the two framed files `a.sql`, holding
`size - 12` bytes `X`, and `b.sql`, holding `Y`.  The first read of
`size - 1` bytes ends with the first byte of the header line of `b.sql`.
That header line is not recognised: `b.sql` is never created, its header
line and its content are appended to `a.sql`, and `b.sql` is not pushed.
With three bytes less in `a.sql` the first read ends with the whole prefix
of the header line, and both files are written and pushed as framed.  The
stream that fails with a buffer of 64 bytes gives both files as framed with
any buffer of 128 bytes or more, where one read holds it all. -/
theorem header_across_reads_lost (size : Nat) (h : 64 ≤ size) (fuel : Nat) :
    (straddled_header_stream size).take (size - 1) =
      frame_bytes (bytes "a.sql") (List.replicate (size - 12) 'X') ++ bytes "\n" ∧
    process_stream size 1 [] [] (straddled_header_stream size) (10 + fuel) =
      some { files := [(bytes "a.sql",
                         List.replicate (size - 12) 'X' ++ bytes "\n-- b.sql\nY")],
             intermidiate_queue := [bytes "a.sql", bytes "END"],
             post_table_shutdowns := 1, post_shutdowns := 1, stream_shutdowns := 1 } ∧
    (carried_header_stream size).take (size - 1) =
      frame_bytes (bytes "a.sql") (List.replicate (size - 15) 'X') ++ bytes "\n-- " ∧
    process_stream size 1 [] [] (carried_header_stream size) (9 + fuel) =
      some { files := [(bytes "a.sql", List.replicate (size - 15) 'X'),
                       (bytes "b.sql", bytes "Y")],
             intermidiate_queue := [bytes "a.sql", bytes "b.sql", bytes "END"],
             post_table_shutdowns := 1, post_shutdowns := 1, stream_shutdowns := 1 } ∧
    (128 ≤ size →
      process_stream size 1 [] [] (straddled_header_stream 64) 20 =
        some { files := [(bytes "a.sql", List.replicate 52 'X'), (bytes "b.sql", bytes "Y")],
               intermidiate_queue := [bytes "a.sql", bytes "b.sql", bytes "END"],
               post_table_shutdowns := 1, post_shutdowns := 1, stream_shutdowns := 1 }) := by
  refine ⟨?_, ?_, ?_, ?_, ?_⟩
  · obtain ⟨k, rfl⟩ : ∃ k, size = k + 12 := ⟨size - 12, by omega⟩
    simp [straddled_header_stream, frame_bytes, bytes, List.take_append_eq_append_take]
  · obtain ⟨k, rfl⟩ : ∃ k, size = k + 12 := ⟨size - 12, by omega⟩
    rw [straddled_header_stream_eq,
      process_stream_of_done _ 1 _ _ _ 10 fuel (by rw [straddled_loop k (by omega)]),
      straddled_loop k (by omega)]
    simp [push_shutdowns, bytes]
  · obtain ⟨m, rfl⟩ : ∃ m, size = m + 16 := ⟨size - 16, by omega⟩
    simp [carried_header_stream, frame_bytes, bytes, List.take_append_eq_append_take]
  · obtain ⟨m, rfl⟩ : ∃ m, size = m + 16 := ⟨size - 16, by omega⟩
    rw [carried_header_stream_eq,
      process_stream_of_done _ 1 _ _ _ 9 fuel (by rw [carried_loop m]), carried_loop m]
    simp [push_shutdowns, bytes]
  · intro h2
    have hlen : (straddled_header_stream 64).length = 73 := by decide
    rw [(process_stream_size_reads size 128 1 [] [] (straddled_header_stream 64) 20
      (by omega) (by omega)).2]
    exact straddled_header_whole

set_option maxRecDepth 1000000 in
/-- With a buffer of 64 bytes and 52 bytes in `a.sql` the file `b.sql` is
lost. -/
theorem header_across_reads_lost_at_64 :
    (64 ≤ 64) ∧
    process_stream 64 1 [] [] (straddled_header_stream 64) 10 =
      some { files := [(bytes "a.sql", List.replicate 52 'X' ++ bytes "\n-- b.sql\nY")],
             intermidiate_queue := [bytes "a.sql", bytes "END"],
             post_table_shutdowns := 1, post_shutdowns := 1, stream_shutdowns := 1 } :=
  ⟨by decide, (header_across_reads_lost 64 (by decide) 0).2.1⟩

end Myloader
namespace Myloader

open Glib

/-! ## C20: the shutdown jobs and tokens of the restore side -/

set_option maxRecDepth 1000000 in
theorem one_file_stream_loop :
    stream_loop 64 5 (stream_init [] [] one_file_stream) =
      { buffer := bytes "\n-- a.sql" ++ [NUL, 'X'], input := [], reads := [],
        file := some (bytes "a.sql"), filename := some (bytes "a.sql"),
        files := [(bytes "a.sql", bytes "X")], queue := [], diff := 0, pos := 0,
        buffer_len := 0, next_line_from := 0, ctl := stream_ctl.done } := by
  decide

theorem sentinels_of_result (num_threads : Nat) (files : List (List Char × List Char))
    (queue : List (List Char)) :
    (push_shutdowns num_threads
        { files := files, intermidiate_queue := queue ++ [bytes "END"],
          post_table_shutdowns := 0, post_shutdowns := 0,
          stream_shutdowns := 0 }).post_table_shutdowns = num_threads ∧
    (push_shutdowns num_threads
        { files := files, intermidiate_queue := queue ++ [bytes "END"],
          post_table_shutdowns := 0, post_shutdowns := 0,
          stream_shutdowns := 0 }).post_shutdowns = num_threads ∧
    (push_shutdowns num_threads
        { files := files, intermidiate_queue := queue ++ [bytes "END"],
          post_table_shutdowns := 0, post_shutdowns := 0,
          stream_shutdowns := 0 }).stream_shutdowns = num_threads ∧
    (push_shutdowns num_threads
        { files := files, intermidiate_queue := queue ++ [bytes "END"],
          post_table_shutdowns := 0, post_shutdowns := 0,
          stream_shutdowns := 0 }).intermidiate_queue = queue ++ [bytes "END"] := by
  obtain ⟨h1, h2, h3, h4⟩ := push_shutdowns_counts num_threads
    { files := files, intermidiate_queue := queue ++ [bytes "END"],
      post_table_shutdowns := 0, post_shutdowns := 0, stream_shutdowns := 0 }
  exact ⟨by rw [h1]; exact Nat.zero_add _, by rw [h2]; exact Nat.zero_add _,
    by rw [h3]; exact Nat.zero_add _, h4⟩

theorem push_shutdowns_files (n : Nat) :
    ∀ r : stream_result, (push_shutdowns n r).files = r.files := by
  induction n with
  | zero => intro r; rfl
  | succ n ih => intro r; simp only [push_shutdowns, ih]

theorem process_stream_sentinels (size num_threads : Nat)
    (existing : List (List Char × List Char)) (reads : List Nat) (input : List Char)
    (fuel : Nat) :
    process_stream size num_threads existing reads input fuel = none ∨
    ∃ r, process_stream size num_threads existing reads input fuel = some r ∧
      r.post_table_shutdowns = num_threads ∧ r.post_shutdowns = num_threads ∧
      r.stream_shutdowns = num_threads ∧
      r.intermidiate_queue.getLast? = some (bytes "END") := by
  unfold process_stream
  dsimp only
  split
  · refine Or.inr ⟨_, rfl, ?_⟩
    obtain ⟨h1, h2, h3, h4⟩ := sentinels_of_result num_threads
      (stream_loop size fuel (stream_init existing reads input)).files
      (match (stream_loop size fuel (stream_init existing reads input)).filename with
       | some f => (stream_loop size fuel (stream_init existing reads input)).queue ++ [f]
       | none => (stream_loop size fuel (stream_init existing reads input)).queue)
    refine ⟨h1, h2, h3, ?_⟩
    rw [h4]
    exact List.getLast?_concat _
  · exact Or.inl rfl

end Myloader

namespace Mydumper

open Glib

/-- C20, the defect.  Dump side: a run of `start_dump` that reaches its end
pushes exactly `num_threads` `JOB_SHUTDOWN` jobs onto the main queue, in one
row after which no job is created any more, and, when less locking is
active, exactly `num_threads` onto the less locking queue, again in one row
after which no job is created; without less locking it pushes none there.
Restore side: the code after the read loop of `process_stream` pushes `END`
onto the intermediate queue, joins the intermediate thread and only then
pushes `num_threads` times a `JOB_SHUTDOWN` job onto the post-table queue,
one onto the post queue and the token `SHUTDOWN` onto the stream queue.  The
read loop ends, and each of the three queues gets exactly `num_threads` of
them, for the empty stream, for the stream of one framed file and for the
stream of two framed files whose second header line is cut by the first
read after its prefix, with every number of workers and every buffer of 64
bytes or more.  It never ends for a stream that stops inside a header line:
after every number of steps the loop is at its read or in its scan, and
neither `END` nor any shutdown job or token is pushed, so no queue of the
restore side gets its `num_threads` sentinels. -/
theorem shutdown_sentinels :
    (∀ (cfg : dump_config) (srv : server),
      (start_dump cfg srv).status = dump_status.running →
      (start_dump cfg srv).trace.count (dump_event.push_shutdown false) = cfg.num_threads ∧
      (start_dump cfg srv).trace.count (dump_event.push_shutdown true) =
        (if cfg.less_locking then cfg.num_threads else 0) ∧
      (∃ pre post,
        (start_dump cfg srv).trace =
          pre ++ List.replicate cfg.num_threads (dump_event.push_shutdown false) ++ post ∧
        ∀ e ∈ post, e.kind ≠ event_kind.job) ∧
      (cfg.less_locking = true →
        ∃ pre post,
          (start_dump cfg srv).trace =
            pre ++ List.replicate cfg.num_threads (dump_event.push_shutdown true) ++ post ∧
          ∀ e ∈ post, e.kind ≠ event_kind.job)) ∧
    (∀ (size num_threads : Nat) (existing : List (List Char × List Char))
       (reads : List Nat) (input : List Char) (fuel : Nat),
      Myloader.process_stream size num_threads existing reads input fuel = none ∨
      ∃ r, Myloader.process_stream size num_threads existing reads input fuel = some r ∧
        r.post_table_shutdowns = num_threads ∧ r.post_shutdowns = num_threads ∧
        r.stream_shutdowns = num_threads ∧
        r.intermidiate_queue.getLast? = some (bytes "END")) ∧
    (∀ (file_open : Bool) (filename : Option (List Char)) (num_threads : Nat),
      ∃ pre shutdowns,
        Myloader.stream_epilogue file_open filename num_threads =
          pre ++ [Myloader.stream_end_event.push_intermidiate (bytes "END"),
                  Myloader.stream_end_event.join_intermidiate_thread] ++ shutdowns ∧
        (∀ e ∈ pre, e.is_shutdown = false) ∧
        (∀ e ∈ shutdowns, e.is_shutdown = true) ∧
        shutdowns.count Myloader.stream_end_event.push_post_table_shutdown = num_threads ∧
        shutdowns.count Myloader.stream_end_event.push_post_shutdown = num_threads ∧
        shutdowns.count Myloader.stream_end_event.push_stream_shutdown = num_threads) ∧
    (∀ (size num_threads : Nat) (existing : List (List Char × List Char))
       (reads : List Nat) (fuel : Nat),
      ∃ r, Myloader.process_stream size num_threads existing reads [] (1 + fuel) = some r ∧
        r.files = existing ∧ r.intermidiate_queue = [bytes "END"] ∧
        r.post_table_shutdowns = num_threads ∧ r.post_shutdowns = num_threads ∧
        r.stream_shutdowns = num_threads) ∧
    (∀ (size num_threads fuel : Nat), 64 ≤ size →
      ∃ r, Myloader.process_stream size num_threads [] [] Myloader.one_file_stream
          (5 + fuel) = some r ∧
        r.files = [(bytes "a.sql", bytes "X")] ∧
        r.intermidiate_queue = [bytes "a.sql", bytes "END"] ∧
        r.post_table_shutdowns = num_threads ∧ r.post_shutdowns = num_threads ∧
        r.stream_shutdowns = num_threads) ∧
    (∀ (size num_threads fuel : Nat), 64 ≤ size →
      ∃ r, Myloader.process_stream size num_threads [] []
          (Myloader.carried_header_stream size) (9 + fuel) = some r ∧
        r.files = [(bytes "a.sql", List.replicate (size - 15) 'X'),
                   (bytes "b.sql", bytes "Y")] ∧
        r.intermidiate_queue = [bytes "a.sql", bytes "b.sql", bytes "END"] ∧
        r.post_table_shutdowns = num_threads ∧ r.post_shutdowns = num_threads ∧
        r.stream_shutdowns = num_threads) ∧
    (∀ (size num_threads fuel : Nat), 64 ≤ size →
      ((Myloader.stream_loop size fuel
          (Myloader.stream_init [] [] Myloader.unterminated_header_stream)).ctl =
          Myloader.stream_ctl.read_more ∨
       (Myloader.stream_loop size fuel
          (Myloader.stream_init [] [] Myloader.unterminated_header_stream)).ctl =
          Myloader.stream_ctl.scan) ∧
      Myloader.process_stream size num_threads [] [] Myloader.unterminated_header_stream
        fuel = none) := by
  refine ⟨?_, Myloader.process_stream_sentinels, Myloader.stream_epilogue_order, ?_, ?_, ?_,
    ?_⟩
  · intro cfg srv h
    obtain ⟨_, _, h3, h4⟩ := start_dump_counts cfg srv h
    exact ⟨h4, h3, main_shutdown_after_jobs cfg srv h,
      less_locking_shutdown_after_jobs cfg srv h⟩
  · intro size num_threads existing reads fuel
    have hs : Myloader.stream_loop size 1 (Myloader.stream_init existing reads []) =
        { Myloader.stream_init existing reads [] with
          reads := reads.tail, ctl := Myloader.stream_ctl.done } := by
      simp only [Myloader.stream_loop, Myloader.stream_step, Myloader.stream_init,
        Myloader.read_stream_line, buf_write, List.take_nil, List.drop_nil, List.length_nil,
        Nat.add_zero, if_true]
    refine ⟨_, Myloader.process_stream_of_done size num_threads existing reads [] 1 fuel
      (by rw [hs]), ?_⟩
    rw [hs]
    obtain ⟨h1, h2, h3, h4⟩ := Myloader.sentinels_of_result num_threads existing []
    exact ⟨(Myloader.push_shutdowns_files num_threads _), h4, h1, h2, h3⟩
  · intro size num_threads fuel h
    have hlen : Myloader.one_file_stream.length = 11 := by decide
    have hl := (Myloader.process_stream_size_reads size 64 num_threads [] []
      Myloader.one_file_stream 5 (by omega) (by omega)).1
    have hd := Myloader.one_file_stream_loop
    rw [← hl] at hd
    refine ⟨_, Myloader.process_stream_of_done size num_threads [] [] _ 5 fuel
      (by rw [hd]), ?_⟩
    rw [hd]
    obtain ⟨h1, h2, h3, h4⟩ := Myloader.sentinels_of_result num_threads
      [(bytes "a.sql", bytes "X")] [bytes "a.sql"]
    exact ⟨(Myloader.push_shutdowns_files num_threads _), h4, h1, h2, h3⟩
  · intro size num_threads fuel h
    obtain ⟨m, rfl⟩ : ∃ m, size = m + 16 := ⟨size - 16, by omega⟩
    rw [Myloader.carried_header_stream_eq]
    refine ⟨_, Myloader.process_stream_of_done (m + 16) num_threads [] [] _ 9 fuel
      (by rw [Myloader.carried_loop m]), ?_⟩
    rw [Myloader.carried_loop m]
    obtain ⟨h1, h2, h3, h4⟩ := Myloader.sentinels_of_result num_threads
      [(bytes "a.sql", List.replicate (m + 16 - 15) 'X'), (bytes "b.sql", bytes "Y")]
      [bytes "a.sql", bytes "b.sql"]
    exact ⟨(Myloader.push_shutdowns_files num_threads _), h4, h1, h2, h3⟩
  · intro size num_threads fuel h
    have hlen : Myloader.unterminated_header_stream.length = 9 := by decide
    have e := (Myloader.process_stream_size_reads size 64 num_threads [] []
      Myloader.unterminated_header_stream fuel (by omega) (by omega)).1
    obtain ⟨c0, c1, c2, c3⟩ := Myloader.unterminated_header_cycle
    have hn := Myloader.stream_loop_never_done 64 _ 2 c0 c1 c2 c3 fuel
    rw [← e] at hn
    exact ⟨hn, Myloader.process_stream_none size num_threads [] [] _ fuel hn⟩

set_option maxRecDepth 1000000 in
/-- The run with `--less-locking` and two workers on the sample server pushes
two shutdown jobs onto each queue; the restore of a stream cut inside its
header line pushes nothing for its four workers. -/
theorem shutdown_sentinels_witness :
    (start_dump less_locking_config percona57).status = dump_status.running ∧
    (start_dump less_locking_config percona57).trace.count (dump_event.push_shutdown false) =
      2 ∧
    (start_dump less_locking_config percona57).trace.count (dump_event.push_shutdown true) =
      2 ∧
    64 ≤ 1000000 ∧
    Myloader.process_stream 1000000 4 [] [] Myloader.unterminated_header_stream 1000 = none :=
  ⟨by decide,
   (shutdown_sentinels.1 less_locking_config percona57 (by decide)).1,
   (shutdown_sentinels.1 less_locking_config percona57 (by decide)).2.1,
   by decide,
   (shutdown_sentinels.2.2.2.2.2.2 1000000 4 1000 (by decide)).2⟩

end Mydumper
